import Mathlib

/-!
# VCEEnc mux writer: a verification development

Shallow embedding of parts of `VCECore/avcodec_writer.cpp` (class `CAvcodecWriter`).

Conventions of the embedding.
* `int`, `int64_t`, `uint32_t` values are unbounded `Int` / `Nat`: timestamps, frame
  indices and sample counts are taken to stay inside their machine range, so the
  C casts `(int)` are the identity.
* Bytes are `Nat` values below 256, a byte buffer is a `List Nat`, a pointer into a
  buffer is an offset.
* Calls into libavcodec / libavformat whose result the writer only observes
  (decoder, encoder, resampler, container writer) are inputs of the model.
* `av_rescale_q`, `av_inv_q`, `av_div_q` are libavutil functions; they are modelled
  from their documented behaviour (rounding to nearest, ties away from zero).
-/

namespace VCE

/-! ## libavutil rationals and rescaling -/

/-- The libavutil rational `AVRational` (numerator, denominator). -/
structure AVRational where
  num : Int
  den : Int
deriving DecidableEq, Repr

/-- A timebase with positive numerator and denominator. -/
def AVRational.positive (q : AVRational) : Prop := 0 < q.num ∧ 0 < q.den

/-- The libavutil constant `AV_NOPTS_VALUE` (`INT64_MIN`). -/
def AV_NOPTS_VALUE : Int := -(2 ^ 63)

/-- The libavutil constant `INT64_MAX`. -/
def INT64_MAX : Int := 2 ^ 63 - 1

/-- The libavutil function `av_rescale_rnd(a, b, c, AV_ROUND_NEAR_INF)`: `a * b / c`
rounded to nearest, ties away from zero; `INT64_MIN` for an invalid `b` or `c`. -/
def av_rescale_rnd (a b c : Int) : Int :=
  if c ≤ 0 ∨ b < 0 then AV_NOPTS_VALUE
  else if a < 0 then -(((-a) * b + c / 2) / c)
  else (a * b + c / 2) / c

/-- The libavutil function `av_rescale_q(a, bq, cq)`: rescale `a` from timebase `bq`
to timebase `cq`. -/
def av_rescale_q (a : Int) (bq cq : AVRational) : Int :=
  av_rescale_rnd a (bq.num * cq.den) (cq.num * bq.den)

/-- The libavutil function `av_inv_q`. -/
def av_inv_q (q : AVRational) : AVRational := ⟨q.den, q.num⟩

/-- The libavutil function `av_reduce` on values that fit `int`: divide by the gcd,
keep the sign in the numerator. -/
def av_reduce (num den : Int) : AVRational :=
  let g : Int := (Int.gcd num den : Nat)
  let n : Int := if g = 0 then (num.natAbs : Int) else (num.natAbs : Int) / g
  let d : Int := if g = 0 then (den.natAbs : Int) else (den.natAbs : Int) / g
  ⟨if (decide (num < 0)) != (decide (den < 0)) then -n else n, d⟩

/-- The libavutil function `av_div_q(b, c)`. -/
def av_div_q (b c : AVRational) : AVRational :=
  av_reduce (b.num * c.den) (b.den * c.num)

/-! ## Trim list and `AdjustTimestampTrimmed` -/

/-- One kept range of the trim list (`sTrim`): frames `start .. fin`, both included. -/
structure sTrim where
  start : Int
  fin : Int
deriving DecidableEq, Repr

/-- The `for (const auto& trim : m_Mux.trim)` loop of `AdjustTimestampTrimmed`.
Arguments after the list are `cutFrames` and `nLastFinFrame`. The result is `none`
for the early `return AV_NOPTS_VALUE`, and the two variables at loop exit otherwise. -/
def trimLoop (vidFrameIdx : Int) (lastValidFrame : Bool) :
    List sTrim → Int → Int → Option (Int × Int)
  | [], cutFrames, nLastFinFrame => some (cutFrames, nLastFinFrame)
  | trim :: rest, cutFrames, nLastFinFrame =>
    if vidFrameIdx < trim.start then
      if lastValidFrame then
        some (cutFrames + (vidFrameIdx - nLastFinFrame), vidFrameIdx)
      else none
    else
      let cutFrames1 := cutFrames + (trim.start - nLastFinFrame)
      if vidFrameIdx ≤ trim.fin then some (cutFrames1, vidFrameIdx)
      else trimLoop vidFrameIdx lastValidFrame rest cutFrames1 trim.fin

/-- The value of `cutFrames` computed by `AdjustTimestampTrimmed` for frame index
`vidFrameIdx`; `none` when the function leaves through `return AV_NOPTS_VALUE`. -/
def cutFramesTrimmed (trim : List sTrim) (vidFrameIdx : Int) (lastValidFrame : Bool) :
    Option Int :=
  if trim.length ≠ 0 then
    match trimLoop vidFrameIdx lastValidFrame trim 0 0 with
    | none => none
    | some (cutFrames, nLastFinFrame) => some (cutFrames + (vidFrameIdx - nLastFinFrame))
  else some 0

/-- `CAvcodecWriter::AdjustTimestampTrimmed`, with `m_Mux.video.nFPS` and `m_Mux.trim`
as explicit arguments. -/
def AdjustTimestampTrimmed (nFPS : AVRational) (trim : List sTrim)
    (nTimeIn : Int) (timescaleIn timescaleOut : AVRational) (lastValidFrame : Bool) : Int :=
  let timescaleFps := av_inv_q nFPS
  let vidFrameIdx := av_rescale_q nTimeIn timescaleIn timescaleFps
  match cutFramesTrimmed trim vidFrameIdx lastValidFrame with
  | none => AV_NOPTS_VALUE
  | some cutFrames =>
    let tsTimeOut := av_rescale_q nTimeIn timescaleIn timescaleOut
    let tsTrim := av_rescale_q cutFrames timescaleFps timescaleOut
    tsTimeOut - tsTrim

/-- Well-formed trim list: every range has `start ≤ fin` and ends before the next
range starts. -/
def trimWellFormed : List sTrim → Prop
  | [] => True
  | [t] => t.start ≤ t.fin
  | t :: u :: rest => t.start ≤ t.fin ∧ t.fin < u.start ∧ trimWellFormed (u :: rest)

/-- The `j`-th range of a trim list (a zero range past the end). -/
def trimAt (trim : List sTrim) (j : Nat) : sTrim := trim.getD j ⟨0, 0⟩

/-- The sum of the gaps between the kept ranges `0 .. k`:
`Σ_{j = 1..k} (s_j − e_{j−1})`. -/
def gapSum (trim : List sTrim) (k : Nat) : Int :=
  ∑ j ∈ Finset.range k, ((trimAt trim (j + 1)).start - (trimAt trim j).fin)

/-- The cut of the specification for a frame inside the `k`-th kept range:
`s_0 + Σ_{j = 1..k} (s_j − e_{j−1})`. -/
def specCut (trim : List sTrim) (k : Nat) : Int :=
  (trimAt trim 0).start + gapSum trim k

/-- The cut of the specification for a frame `f` in the gap in front of the `k`-th
kept range: the cut accumulated up to the previous range's end plus
`f − previous range end`; in front of the first range nothing is accumulated and the
previous end is the initial `0`. -/
def specGapCut (trim : List sTrim) (k : Nat) (f : Int) : Int :=
  match k with
  | 0 => f
  | j + 1 => specCut trim j + (f - (trimAt trim j).fin)

/-- Decision procedure for `trimWellFormed`. -/
instance trimWellFormedDecidable : (l : List sTrim) → Decidable (trimWellFormed l)
  | [] => isTrue trivial
  | [t] => inferInstanceAs (Decidable (t.start ≤ t.fin))
  | t :: u :: rest =>
    have := trimWellFormedDecidable (u :: rest)
    inferInstanceAs (Decidable (t.start ≤ t.fin ∧ t.fin < u.start ∧ trimWellFormed (u :: rest)))

/-! ## Data model of the writer -/

/-- Result codes (`AMF_RESULT`) used by the writer. -/
inductive AMF_RESULT where
  | AMF_OK
  | AMF_FAIL
  | AMF_UNEXPECTED
  | AMF_INVALID_POINTER
  | AMF_NOT_INITIALIZED
  | AMF_NOT_SUPPORTED
  | AMF_OUT_OF_MEMORY
  | AMF_EOF
deriving DecidableEq, Repr

/-- Codec ids the video stage distinguishes (`AV_CODEC_ID_H264`, `AV_CODEC_ID_HEVC`,
anything else). -/
inductive AVCodecID where
  | H264
  | HEVC
  | OTHER
deriving DecidableEq, Repr

/-- One NALU record (`nal_info`) of the bitstream parser: `ptr` is the offset of the
record in the parsed buffer, `size` its length in bytes. -/
structure nal_info where
  ptr : Nat
  type : Nat
  size : Nat
deriving DecidableEq, Repr

/-- NALU type of an H.264 sequence parameter set (value of the H.264 standard). -/
def NALU_H264_SPS : Nat := 7
/-- NALU type of an H.264 picture parameter set. -/
def NALU_H264_PPS : Nat := 8
/-- NALU type of an H.264 access unit delimiter. -/
def NALU_H264_AUD : Nat := 9
/-- NALU type of an HEVC video parameter set (value of the HEVC standard). -/
def NALU_HEVC_VPS : Nat := 32
/-- NALU type of an HEVC sequence parameter set. -/
def NALU_HEVC_SPS : Nat := 33
/-- NALU type of an HEVC picture parameter set. -/
def NALU_HEVC_PPS : Nat := 34
/-- NALU type of an HEVC access unit delimiter. -/
def NALU_HEVC_AUD : Nat := 35

/-- The parts of the build the embedded file only uses: the two NALU parsers
(`parse_nal_unit_h264`, `parse_nal_unit_hevc`, applied to a pointer and a size), the
constant `VCE_NATIVE_TIMEBASE` and the libavutil predicate `av_sample_fmt_is_planar`. -/
structure Env where
  parse_nal_unit_h264 : List Nat → Nat → List nal_info
  parse_nal_unit_hevc : List Nat → Nat → List nal_info
  VCE_NATIVE_TIMEBASE : AVRational
  av_sample_fmt_is_planar : Int → Bool

/-- The encoder output buffer `sBitstream`. -/
structure sBitstream where
  Data : List Nat
  DataOffset : Nat
  DataLength : Nat
  TimeStamp : Int
  DecodeTimeStamp : Int
  DataFlag : Nat
  FrameType : Nat
  PictStruct : Nat
  RepeatPict : Nat
deriving DecidableEq, Repr

/-- The libavcodec packet `AVPacket`. `buf` is the identity of the reference-counted
buffer (`0` for `nullptr`), `data` is `none` for a null data pointer. -/
structure AVPacket where
  buf : Nat
  data : Option (List Nat)
  size : Int
  pts : Int
  dts : Int
  duration : Int
  flags : Int
  stream_index : Int
  pos : Int
deriving DecidableEq, Repr

/-- The libavutil frame `AVFrame`: sample count, format description and one list of
sample units (of `bytes_per_sample` bytes each) per data plane. -/
structure AVFrame where
  nb_samples : Int
  channels : Int
  channel_layout : Nat
  sample_rate : Int
  format : Int
  data : List (List Nat)
deriving DecidableEq, Repr

/-- A chapter (`AVChapter`); `end_` is the field `end`, `metadata` the dictionary as a
list of key / value pairs. -/
structure AVChapter where
  id : Int
  time_base : AVRational
  start : Int
  end_ : Int
  metadata : List (String × String)
deriving DecidableEq, Repr

/-- The fields of `m_Mux.format` the video and packet paths use: `pFormatCtx` tells
whether the container context exists, `chapters` holds `pFormatCtx->chapters` (its
length is `nb_chapters`). -/
structure AVMuxFormat where
  pFormatCtx : Bool
  chapters : List AVChapter
  bFileHeaderWritten : Bool
  bStreamError : Bool
deriving DecidableEq, Repr

/-- The fields of `m_Mux.video` for a writer with a video stream (`pStream` and
`pCodecCtx` are not null): `codec_id` is `pCodecCtx->codec_id`, `pInputCodecCtx` holds
the `pkt_timebase` of the input codec context when there is one, `streamIndex` and
`streamPktTimebase` are `pStream->index` and `pStream->codec->pkt_timebase`,
`extradata` the first `extradata_size` bytes of the stream's extradata. -/
structure AVMuxVideo where
  codec_id : AVCodecID
  nFPS : AVRational
  bIsPAFF : Bool
  nBframeDelay : Int
  bDtsUnavailable : Bool
  nFpsBaseNextDts : Int
  nInputFirstKeyPts : Int
  bCFR : Bool
  pInputCodecCtx : Option AVRational
  streamIndex : Int
  streamPktTimebase : AVRational
  extradata : List Nat
  extradata_size : Nat
  nParserStreamPos : Nat
deriving DecidableEq, Repr

/-- The encoder context of a re-encoded audio track (`pOutCodecEncodeCtx`). -/
structure AudioEncodeCtx where
  sample_rate : Int
  frame_size : Int
  pkt_timebase : AVRational
  channels : Int
  channel_layout : Nat
  sample_fmt : Int
deriving DecidableEq, Repr

/-- Per-track audio state `AVMuxAudio`. `inSampleRate`, `inPktTimebase` and
`inFrameSize` are fields of `pCodecCtxIn`; `streamIndex` and `streamTimeBase` fields of
`pStream`; `OutPacket` the packet that holds the bytes left over from the previous
decode call; `pFilterGraph` and `pSwrContext` tell whether the track has a filter graph
and a resampler context; `decSampleFmt`, `decChannels` and `decChannelLayout` are the
fields `sample_fmt`, `channels` and `channel_layout` of `pOutCodecDecodeCtx`. -/
structure AVMuxAudio where
  nInTrackId : Int
  nInSubStream : Int
  nStreamIndexIn : Int
  inSampleRate : Int
  inPktTimebase : AVRational
  inFrameSize : Int
  pOutCodecDecodeCtx : Bool
  pOutCodecEncodeCtx : Option AudioEncodeCtx
  pAACBsfc : Bool
  streamIndex : Int
  streamTimeBase : AVRational
  nPacketWritten : Int
  nOutputSamples : Int
  nDelaySamplesOfAudio : Int
  nLastPtsIn : Int
  nLastPtsOut : Int
  nDecodeError : Int
  nIgnoreDecodeError : Int
  nAACBsfErrorFromStart : Int
  bEncodeError : Bool
  OutPacket : AVPacket
  pDecodedFrameCache : Option AVFrame
  pFilterGraph : Bool
  pSwrContext : Bool
  decSampleFmt : Int
  decChannels : Int
  decChannelLayout : Nat
  nResamplerInChannels : Int
  nResamplerInChannelLayout : Nat
  nResamplerInSampleRate : Int
  ResamplerInSampleFmt : Int
deriving DecidableEq, Repr

/-- Per-track subtitle state `AVMuxSub`: `inPktTimebase` is
`pCodecCtxIn->pkt_timebase`, `streamIndex` and `streamTimeBase` are fields of `pStream`,
`pOutCodecEncodeCtx` tells whether the track is transcoded. -/
structure AVMuxSub where
  nInTrackId : Int
  nStreamIndexIn : Int
  inPktTimebase : AVRational
  streamIndex : Int
  streamTimeBase : AVRational
  pOutCodecEncodeCtx : Bool
deriving DecidableEq, Repr

/-- Tag of a record in flight (`MUX_DATA_TYPE_NONE / PACKET / FRAME`). -/
inductive AVMuxDataType where
  | MUX_DATA_TYPE_NONE
  | MUX_DATA_TYPE_PACKET
  | MUX_DATA_TYPE_FRAME
deriving DecidableEq, Repr

/-- A record in flight, `AVPktMuxData`. `pMuxAudio` is the index of the track in
`m_Mux.audio` (`none` for a null pointer). -/
structure AVPktMuxData where
  type : AVMuxDataType
  pkt : AVPacket
  pMuxAudio : Option Nat
  dts : Int
  samples : Int
  pFrame : Option AVFrame
  got_result : Int
deriving DecidableEq, Repr

/-- The fields of `m_Mux.thread` the packet path uses: whether the audio-process,
audio-encode and output threads exist (`joinable()`), and the three audio queues. -/
structure AVMuxThread where
  thAudProcess : Bool
  thAudEncode : Bool
  thOutput : Bool
  qAudioPacketProcess : List AVPktMuxData
  qAudioFrameEncode : List AVPktMuxData
  qAudioPacketOut : List AVPktMuxData
deriving DecidableEq, Repr

/-- The writer `CAvcodecWriter`: `m_Mux` (format, video, audio and subtitle tracks,
trim list, threads), the head buffer `m_AudPktBufFileHead`, and two logs of calls into
the libraries, oldest first: `written`, the packets handed to
`av_interleaved_write_frame`, and `encoded`, the frames handed to
`avcodec_encode_audio2` with the index of their track (`none` for a null frame). -/
structure CAvcodecWriter where
  format : AVMuxFormat
  video : AVMuxVideo
  audio : List AVMuxAudio
  sub : List AVMuxSub
  trim : List sTrim
  thread : AVMuxThread
  m_AudPktBufFileHead : List AVPktMuxData
  written : List AVPacket
  encoded : List (Nat × Option AVFrame)
deriving DecidableEq, Repr

/-! ## Video header: extradata -/

/-- The `size` bytes a `memcpy` reads from offset `ptr` of a buffer (bytes past the
end of the modelled buffer read as `0`). -/
def readBytes (buffer : List Nat) (ptr size : Nat) : List Nat :=
  (List.range size).map (fun i => buffer.getD (ptr + i) 0)

/-- `CAvcodecWriter::AddH264HeaderToExtraData`. -/
def AddH264HeaderToExtraData (env : Env) (video : AVMuxVideo) (pBitstream : sBitstream) :
    AVMuxVideo :=
  let buffer := pBitstream.Data.drop pBitstream.DataOffset
  let nal_list := env.parse_nal_unit_h264 buffer pBitstream.DataLength
  let h264_sps_nal := nal_list.find? (fun info => info.type == NALU_H264_SPS)
  let h264_pps_nal := nal_list.find? (fun info => info.type == NALU_H264_PPS)
  match h264_sps_nal, h264_pps_nal with
  | some sps, some pps =>
    { video with
      extradata_size := sps.size + pps.size
      extradata := readBytes buffer sps.ptr sps.size ++ readBytes buffer pps.ptr pps.size }
  | _, _ => video

/-- `CAvcodecWriter::AddHEVCHeaderToExtraData`. -/
def AddHEVCHeaderToExtraData (env : Env) (video : AVMuxVideo) (pBitstream : sBitstream) :
    AVMuxVideo :=
  let buffer := pBitstream.Data.drop pBitstream.DataOffset
  let nal_list := env.parse_nal_unit_hevc buffer pBitstream.DataLength
  let hevc_vps_nal := nal_list.find? (fun info => info.type == NALU_HEVC_VPS)
  let hevc_sps_nal := nal_list.find? (fun info => info.type == NALU_HEVC_SPS)
  let hevc_pps_nal := nal_list.find? (fun info => info.type == NALU_HEVC_PPS)
  match hevc_vps_nal, hevc_sps_nal, hevc_pps_nal with
  | some vps, some sps, some pps =>
    { video with
      extradata_size := vps.size + sps.size + pps.size
      extradata := readBytes buffer vps.ptr vps.size ++ readBytes buffer sps.ptr sps.size
        ++ readBytes buffer pps.ptr pps.size }
  | _, _, _ => video

/-- Outcome of `avformat_write_header` followed by the check for options the muxer
did not consume. -/
inductive HeaderOutcome where
  | ok
  | writeFailed
  | unknownOption
deriving DecidableEq, Repr

/-- `CAvcodecWriter::WriteFileHeader` (metadata and logging left out). -/
def WriteFileHeader (env : Env) (w : CAvcodecWriter) (pBitstream : Option sBitstream)
    (header : HeaderOutcome) : CAvcodecWriter × AMF_RESULT :=
  let video1 :=
    match pBitstream with
    | some bs =>
      match w.video.codec_id with
      | AVCodecID.H264 => AddH264HeaderToExtraData env w.video bs
      | _ => AddHEVCHeaderToExtraData env w.video bs
    | none => w.video
  let w1 := { w with video := video1 }
  match header with
  | HeaderOutcome.writeFailed => (w1, AMF_RESULT.AMF_UNEXPECTED)
  | HeaderOutcome.unknownOption => (w1, AMF_RESULT.AMF_UNEXPECTED)
  | HeaderOutcome.ok =>
    if w1.video.bDtsUnavailable then
      ({ w1 with video := { w1.video with
          nFpsBaseNextDts := (0 - w1.video.nBframeDelay) * (1 + (if w1.video.bIsPAFF then 1 else 0)) } },
        AMF_RESULT.AMF_OK)
    else (w1, AMF_RESULT.AMF_OK)

/-- The video parameters `AVOutputVideoPrm` that `SetVideoParam` reads; `interlaced` is
the value of `is_interlaced(nPicStruct)`. -/
structure AVOutputVideoPrm where
  interlaced : Bool
  nBframes : Int
  nBPyramid : Int
deriving DecidableEq, Repr

/-- `CAvcodecWriter::SetVideoParam`. -/
def SetVideoParam (w : CAvcodecWriter) (pVidPrm : Option AVOutputVideoPrm) :
    CAvcodecWriter × AMF_RESULT :=
  let video1 :=
    match pVidPrm with
    | some prm =>
      let nBframeDelay : Int := if prm.nBframes > 0 then 1 else 0
      let nBframeDelay1 : Int :=
        if nBframeDelay > 0 ∧ w.video.codec_id = AVCodecID.H264 then
          nBframeDelay + (if prm.nBPyramid > 0 then 1 else 0)
        else nBframeDelay
      { w.video with bIsPAFF := prm.interlaced, nBframeDelay := nBframeDelay1 }
    | none => w.video
  ({ w with
      video := { video1 with bDtsUnavailable := true }
      format := { w.format with bStreamError := false } },
    AMF_RESULT.AMF_OK)

/-! ## Video frames -/

/-- The scan loop of `getH264PAFFFieldLength`: `n` iterations are left, `i` is the loop
index, `a b c` the three previous bytes. -/
def paffScan (ptr : List Nat) (size : Nat) : Nat → Nat → Nat → Nat → Nat → Nat → Nat
  | 0, _, _, _, _, _ => size
  | n + 1, i, a, b, c, sliceNalu =>
    let d := ptr.getD i 0
    if (a ||| b) = 0 ∧ c = 1 then
      if sliceNalu ≠ 0 then
        i - 3 - (if ptr.getD (i - 4) 0 = 0 then 1 else 0) + 1
      else
        let nalType := d &&& 0x1F
        paffScan ptr size n (i + 1) b c d
          (sliceNalu + (if nalType = 1 ∨ nalType = 5 then 1 else 0))
    else paffScan ptr size n (i + 1) b c d sliceNalu

/-- `CAvcodecWriter::getH264PAFFFieldLength`. -/
def getH264PAFFFieldLength (ptr : List Nat) (size : Nat) : Nat :=
  paffScan ptr size (size - 3) 3 (ptr.getD 0 0) (ptr.getD 1 0) (ptr.getD 2 0) 0

/-- `fpsTimebase` of `WriteNextFrameInternal`: `av_div_q({1, 1 + bIsPAFF}, nFPS)`. -/
def fpsTimebase (video : AVMuxVideo) : AVRational :=
  av_div_q ⟨1, 1 + (if video.bIsPAFF then 1 else 0)⟩ video.nFPS

/-- The packet built by one iteration of the field loop of `WriteNextFrameInternal`:
iteration `i`, payload of `bytesToWrite` bytes at `pBitstream.DataOffset`. -/
def videoPacket (env : Env) (video : AVMuxVideo) (pBitstream : sBitstream) (i : Nat)
    (bytesToWrite : Nat) : AVPacket :=
  let bIsPAFF : Int := if video.bIsPAFF then 1 else 0
  let fpsTb := fpsTimebase video
  let inputTimebase :=
    if video.bCFR then fpsTb
    else match video.pInputCodecCtx with
      | some tb => tb
      | none => env.VCE_NATIVE_TIMEBASE
  let streamTimebase := video.streamPktTimebase
  let duration := av_rescale_q 1 fpsTb streamTimebase
  let temp := av_rescale_q
    (pBitstream.TimeStamp - (if video.bCFR then 0 else video.nInputFirstKeyPts))
    inputTimebase fpsTb
  { buf := 1
    data := some ((pBitstream.Data.drop pBitstream.DataOffset).take bytesToWrite)
    size := bytesToWrite
    stream_index := video.streamIndex
    flags := if pBitstream.DataFlag &&& 1 ≠ 0 ∧ i = 0 then 1 else 0
    duration := duration
    pts := av_rescale_q temp fpsTb streamTimebase + bIsPAFF * i * duration
    dts :=
      if ¬ video.bDtsUnavailable then
        av_rescale_q (av_rescale_q pBitstream.DecodeTimeStamp env.VCE_NATIVE_TIMEBASE fpsTb)
          fpsTb streamTimebase + bIsPAFF * i * duration
      else av_rescale_q video.nFpsBaseNextDts fpsTb streamTimebase
    pos := -1 }

/-- The field loop of `WriteNextFrameInternal`
(`for (i = 0, frameSize = DataLength; frameSize > 0; i++)`). `writeFails i` tells whether
`av_interleaved_write_frame` fails for the packet of iteration `i`. The result holds the
writer, the bitstream (its `DataOffset` advanced) and `*pWrittenDts`; it is `none` when
the fuel does not suffice. -/
def writeFieldsLoop (env : Env) (writeFails : Nat → Bool) :
    Nat → Nat → Nat → CAvcodecWriter → sBitstream → Int →
      Option (CAvcodecWriter × sBitstream × Int)
  | 0, _, frameSize, w, pBitstream, writtenDts =>
    if frameSize > 0 then none else some (w, pBitstream, writtenDts)
  | fuel + 1, i, frameSize, w, pBitstream, writtenDts =>
    if frameSize > 0 then
      let bytesToWrite :=
        if w.video.bIsPAFF then
          getH264PAFFFieldLength (pBitstream.Data.drop pBitstream.DataOffset) frameSize
        else frameSize
      let pkt := videoPacket env w.video pBitstream i bytesToWrite
      let video1 :=
        if ¬ w.video.bDtsUnavailable then w.video
        else { w.video with nFpsBaseNextDts := w.video.nFpsBaseNextDts + 1 }
      let writtenDts1 := av_rescale_q pkt.dts w.video.streamPktTimebase env.VCE_NATIVE_TIMEBASE
      let w1 := { w with
        video := video1
        written := w.written ++ [pkt]
        format := { w.format with bStreamError := w.format.bStreamError || writeFails i } }
      writeFieldsLoop env writeFails fuel (i + 1) (frameSize - bytesToWrite) w1
        { pBitstream with DataOffset := pBitstream.DataOffset + bytesToWrite } writtenDts1
    else some (w, pBitstream, writtenDts)

/-- Outcome of `av_parser_parse2` in `VCECheckStreamAVParser`: `none` when the parser
reports nothing, else `key_frame`, `pict_type`, `picture_structure`, `repeat_pict`. -/
structure ParserResult where
  key_frame : Nat
  pict_type : Nat
  picture_structure : Nat
  repeat_pict : Nat
deriving DecidableEq, Repr

/-- `CAvcodecWriter::VCECheckStreamAVParser`. -/
def VCECheckStreamAVParser (video : AVMuxVideo) (pBitstream : sBitstream)
    (parsed : Option ParserResult) : AVMuxVideo × sBitstream × AMF_RESULT :=
  let video1 := { video with nParserStreamPos := video.nParserStreamPos + pBitstream.DataLength }
  match parsed with
  | some r =>
    (video1, { pBitstream with DataFlag := r.key_frame, FrameType := r.pict_type,
                               PictStruct := r.picture_structure, RepeatPict := r.repeat_pict },
      AMF_RESULT.AMF_OK)
  | none => (video1, pBitstream, AMF_RESULT.AMF_UNEXPECTED)

/-- The inputs of one call of `WriteNextFrameInternal`: the encoder buffer, the value
`*pWrittenDts` holds on entry, and the outcomes of the library calls made while the
buffer is processed. -/
structure FrameCall where
  pBitstream : sBitstream
  writtenDts : Int
  parsed : Option ParserResult
  header : HeaderOutcome
  writeFails : Nat → Bool

/-- The first-AUD elision of `WriteNextFrameInternal`: parse the buffer and, when the
first NALU is an access unit delimiter, advance `DataOffset` past it. `nal_list[0]` of
an empty list reads as a record of type `0`. -/
def elideFirstAud (env : Env) (codec_id : AVCodecID) (pBitstream : sBitstream) : sBitstream :=
  let buffer := pBitstream.Data.drop pBitstream.DataOffset
  let nal_list :=
    if codec_id = AVCodecID.HEVC then env.parse_nal_unit_hevc buffer pBitstream.DataLength
    else env.parse_nal_unit_h264 buffer pBitstream.DataLength
  let nal0 := nal_list.headD ⟨0, 0, 0⟩
  let bFirstAud : Bool :=
    if codec_id = AVCodecID.HEVC then nal0.type == NALU_HEVC_AUD
    else nal0.type == NALU_H264_AUD
  if bFirstAud then
    { pBitstream with
      DataOffset := pBitstream.DataOffset + nal0.size
      DataLength := pBitstream.DataLength - nal0.size }
  else pBitstream

/-- The `if (!m_Mux.format.bFileHeaderWritten)` block of `WriteNextFrameInternal`: the
writer after the block and the status of `WriteFileHeader` (`AMF_OK` when the block is
skipped). -/
def writeHeaderIfNeeded (env : Env) (w : CAvcodecWriter) (pBitstream : sBitstream)
    (header : HeaderOutcome) : CAvcodecWriter × AMF_RESULT :=
  if ¬ w.format.bFileHeaderWritten then
    let w1 :=
      if pBitstream.DecodeTimeStamp = AV_NOPTS_VALUE then
        { w with video := { w.video with bDtsUnavailable := true } }
      else w
    WriteFileHeader env w1 (some pBitstream) header
  else (w, AMF_RESULT.AMF_OK)

/-- `CAvcodecWriter::WriteNextFrameInternal` (status reporting and the free-list of
buffers left out). The field loop gets `DataLength` units of fuel; the result is `none`
only if that does not suffice. The components of the result are the writer, the
bitstream, `*pWrittenDts` and the status. -/
def WriteNextFrameInternal (env : Env) (w : CAvcodecWriter) (call : FrameCall) :
    Option (CAvcodecWriter × sBitstream × Int × AMF_RESULT) :=
  let checked := VCECheckStreamAVParser w.video call.pBitstream call.parsed
  let bs1 := elideFirstAud env checked.1.codec_id checked.2.1
  let headerStep := writeHeaderIfNeeded env { w with video := checked.1 } bs1 call.header
  if headerStep.2 ≠ AMF_RESULT.AMF_OK then
    some ({ headerStep.1 with format := { headerStep.1.format with bStreamError := true } },
      bs1, call.writtenDts, headerStep.2)
  else
    match writeFieldsLoop env call.writeFails bs1.DataLength 0 bs1.DataLength headerStep.1 bs1
        call.writtenDts with
    | none => none
    | some (w2, bs2, writtenDts) =>
      let bs3 :=
        if w2.thread.thOutput ∧ w2.format.bFileHeaderWritten then bs2
        else { bs2 with DataLength := 0, DataOffset := 0 }
      let w3 := { w2 with format := { w2.format with bFileHeaderWritten := true } }
      some (w3, bs3, writtenDts,
        if w3.format.bStreamError then AMF_RESULT.AMF_UNEXPECTED else AMF_RESULT.AMF_OK)

/-- A sequence of `WriteNextFrameInternal` calls, the writer state threaded through. -/
def runFrames (env : Env) : CAvcodecWriter → List FrameCall → Option CAvcodecWriter
  | w, [] => some w
  | w, call :: rest =>
    match WriteNextFrameInternal env w call with
    | none => none
    | some r => runFrames env r.1 rest

/-- The video state after `k` synthesized dts values have been used. -/
def advanceDts (video : AVMuxVideo) (k : Nat) : AVMuxVideo :=
  if video.bDtsUnavailable then
    { video with nFpsBaseNextDts := video.nFpsBaseNextDts + k }
  else video

/-- The configuration part of the video state is the same in `v` and `v1`. -/
def videoConfigEq (v v1 : AVMuxVideo) : Prop :=
  v1.codec_id = v.codec_id ∧ v1.nFPS = v.nFPS ∧ v1.bIsPAFF = v.bIsPAFF
  ∧ v1.nBframeDelay = v.nBframeDelay ∧ v1.streamPktTimebase = v.streamPktTimebase
  ∧ v1.bCFR = v.bCFR ∧ v1.pInputCodecCtx = v.pInputCodecCtx
  ∧ v1.nInputFirstKeyPts = v.nInputFirstKeyPts ∧ v1.streamIndex = v.streamIndex

/-- The first value of the dts counter, counted downwards:
`b_frame_delay · (1 + is_paff)`. -/
def dtsDelay (v : AVMuxVideo) : Int :=
  v.nBframeDelay * (1 + (if v.bIsPAFF then 1 else 0))

/-- State invariant of the video stage with synthesized dts, relative to the initial
video configuration `v0`: the counter is the number of packets written minus the
delay, and the `n`-th packet written carries the rescaled value `n − delay`. -/
def dtsInvariant (v0 : AVMuxVideo) (w : CAvcodecWriter) : Prop :=
  videoConfigEq v0 w.video
  ∧ w.video.bDtsUnavailable = true
  ∧ (w.format.bFileHeaderWritten = false → w.written = [])
  ∧ (w.format.bFileHeaderWritten = true →
      w.video.nFpsBaseNextDts = (w.written.length : Int) - dtsDelay v0)
  ∧ ∀ (n : Nat) (pkt : AVPacket), w.written[n]? = some pkt →
      pkt.dts = av_rescale_q ((n : Int) - dtsDelay v0) (fpsTimebase v0) v0.streamPktTimebase

/-- The number of pieces into which the field loop of `WriteNextFrameInternal` cuts
`frameSize` bytes at offset `off` of `data`: one piece per iteration. -/
def fieldCount (paff : Bool) (data : List Nat) : Nat → Nat → Nat → Nat
  | 0, _, _ => 0
  | fuel + 1, off, frameSize =>
    if frameSize > 0 then
      1 + fieldCount paff data fuel
        (off + (if paff then getH264PAFFFieldLength (data.drop off) frameSize else frameSize))
        (frameSize - (if paff then getH264PAFFFieldLength (data.drop off) frameSize
          else frameSize))
    else 0

/-! ## Audio and subtitle packets: the head buffer -/

/-- The queue selector of `AddAudQueue`. -/
inductive AudQueueType where
  | AUD_QUEUE_PROCESS
  | AUD_QUEUE_ENCODE
  | AUD_QUEUE_OUT
deriving DecidableEq, Repr

/-- `CAvcodecWriter::AddAudQueue` (the queue push is taken to succeed). -/
def AddAudQueue (w : CAvcodecWriter) (pktData : AVPktMuxData) (type : AudQueueType) :
    CAvcodecWriter × AMF_RESULT :=
  if w.thread.thAudProcess then
    let thread1 :=
      match type with
      | AudQueueType.AUD_QUEUE_OUT =>
        { w.thread with qAudioPacketOut := w.thread.qAudioPacketOut ++ [pktData] }
      | AudQueueType.AUD_QUEUE_PROCESS =>
        { w.thread with qAudioPacketProcess := w.thread.qAudioPacketProcess ++ [pktData] }
      | AudQueueType.AUD_QUEUE_ENCODE =>
        { w.thread with qAudioFrameEncode := w.thread.qAudioFrameEncode ++ [pktData] }
    ({ w with thread := thread1 },
      if w.format.bStreamError then AMF_RESULT.AMF_UNEXPECTED else AMF_RESULT.AMF_OK)
  else (w, AMF_RESULT.AMF_NOT_INITIALIZED)

/-- The track id `(int16_t)(pkt.flags >> 16)` hidden in the upper half of the packet
flags. -/
def inTrackIdOfFlags (flags : Int) : Int :=
  (flags / 65536 + 32768) % 65536 - 32768

/-- The stages `WriteNextPacketInternal` hands a packet to once the header is written:
`AudioFlushStream` for one track (arguments: writer, track index, `pktData->dts`),
`SubtitleWritePacket` and `WriteNextPacketAudio`. -/
structure PacketStages where
  AudioFlushStream : CAvcodecWriter → Nat → Int → CAvcodecWriter × Int
  SubtitleWritePacket : CAvcodecWriter → AVPacket → CAvcodecWriter × AMF_RESULT
  WriteNextPacketAudio : CAvcodecWriter → AVPktMuxData →
    CAvcodecWriter × AVPktMuxData × AMF_RESULT

/-- The loop `for (i = 0; i < m_Mux.audio.size(); i++) AudioFlushStream(...)`. -/
def flushAllAudio (stages : PacketStages) : List Nat → CAvcodecWriter → Int →
    CAvcodecWriter × Int
  | [], w, dts => (w, dts)
  | i :: rest, w, dts =>
    let r := stages.AudioFlushStream w i dts
    flushAllAudio stages rest r.1 r.2

/-- The part of `WriteNextPacketInternal` after the head buffer has been dealt with:
drain packet, subtitle packet or audio packet. -/
def processPacket (stages : PacketStages) (w : CAvcodecWriter) (pktData : AVPktMuxData) :
    CAvcodecWriter × AVPktMuxData × AMF_RESULT :=
  if pktData.pkt.data = none then
    if w.thread.thAudProcess then
      let r := AddAudQueue w pktData
        (if w.thread.thAudEncode then AudQueueType.AUD_QUEUE_ENCODE
          else AudQueueType.AUD_QUEUE_OUT)
      (r.1, pktData, r.2)
    else
      let r := flushAllAudio stages (List.range w.audio.length) w pktData.dts
      (r.1, { pktData with dts := INT64_MAX },
        if r.1.format.bStreamError then AMF_RESULT.AMF_UNEXPECTED else AMF_RESULT.AMF_OK)
  else if inTrackIdOfFlags pktData.pkt.flags < 0 then
    if w.thread.thAudProcess then
      let r := AddAudQueue w pktData
        (if w.thread.thAudEncode then AudQueueType.AUD_QUEUE_ENCODE
          else AudQueueType.AUD_QUEUE_OUT)
      (r.1, pktData, r.2)
    else
      let r := stages.SubtitleWritePacket w pktData.pkt
      (r.1, pktData, r.2)
  else stages.WriteNextPacketAudio w pktData

/-- The loop `for (auto bufPkt : m_AudPktBufFileHead)` of `WriteNextPacketInternal`;
`self` is the recursive call. The result is the writer and the first status that
is not `AMF_OK`, if any. -/
def flushHeadBuffer
    (self : CAvcodecWriter → AVPktMuxData → Option (CAvcodecWriter × AVPktMuxData × AMF_RESULT)) :
    List AVPktMuxData → CAvcodecWriter → Option (CAvcodecWriter × AMF_RESULT)
  | [], w => some (w, AMF_RESULT.AMF_OK)
  | bufPkt :: rest, w =>
    match self w bufPkt with
    | none => none
    | some r =>
      if r.2.2 ≠ AMF_RESULT.AMF_OK then some (r.1, r.2.2)
      else flushHeadBuffer self rest r.1

/-- `CAvcodecWriter::WriteNextPacketInternal`. The function calls itself for the
packets of the head buffer; `fuel` bounds the depth of these calls and the result is
`none` when it does not suffice. The result holds the writer, the record (its `dts`
may have been set) and the status. -/
def WriteNextPacketInternal (stages : PacketStages) :
    Nat → CAvcodecWriter → AVPktMuxData → Option (CAvcodecWriter × AVPktMuxData × AMF_RESULT)
  | 0, _, _ => none
  | fuel + 1, w, pktData =>
    if ¬ w.format.bFileHeaderWritten then
      some ({ w with m_AudPktBufFileHead := w.m_AudPktBufFileHead ++ [pktData] }, pktData,
        AMF_RESULT.AMF_OK)
    else if w.m_AudPktBufFileHead.all (fun data => decide (pktData.pkt.buf ≠ data.pkt.buf)) then
      match flushHeadBuffer (WriteNextPacketInternal stages fuel) w.m_AudPktBufFileHead w with
      | none => none
      | some r =>
        if r.2 ≠ AMF_RESULT.AMF_OK then some (r.1, pktData, r.2)
        else some (processPacket stages { r.1 with m_AudPktBufFileHead := [] } pktData)
    else some (processPacket stages w pktData)

/-- A sequence of `WriteNextPacketInternal` calls, the writer threaded through; the
result also lists the statuses returned. -/
def runPackets (stages : PacketStages) (fuel : Nat) :
    CAvcodecWriter → List AVPktMuxData → Option (CAvcodecWriter × List AMF_RESULT)
  | w, [] => some (w, [])
  | w, pktData :: rest =>
    match WriteNextPacketInternal stages fuel w pktData with
    | none => none
    | some r =>
      match runPackets stages fuel r.1 rest with
      | none => none
      | some r1 => some (r1.1, r.2.2 :: r1.2)

/-! ## Audio packets: `WriteNextPacketProcessed` -/

/-- The flag `AV_PKT_FLAG_KEY`. -/
def AV_PKT_FLAG_KEY : Int := 1

/-- The `samplerate` timebase of `WriteNextPacketProcessed`: one over the sample rate
of the encoder when the track is re-encoded, of the input codec otherwise. -/
def audioSamplerate (a : AVMuxAudio) : AVRational :=
  ⟨1, match a.pOutCodecEncodeCtx with
      | some enc => enc.sample_rate
      | none => a.inSampleRate⟩

/-- One call of `WriteNextPacketProcessed` with a packet that has a buffer: the track
(by index), the packet, its sample count and whether `av_interleaved_write_frame`
fails. -/
structure ProcessedWrite where
  pMuxAudio : Nat
  pkt : AVPacket
  samples : Int
  writeFails : Bool
deriving DecidableEq, Repr

/-- The part of `WriteNextPacketProcessed` for a packet with a buffer: with
`samples ≠ 0` the packet is stamped from the track's sample counter and written, and
the counter advances; with `samples = 0` the packet is only released. The second
component is `*pWrittenDts`. An index that names no track leaves everything as it is. -/
def writeProcessedPacket (env : Env) (w : CAvcodecWriter) (call : ProcessedWrite)
    (writtenDts : Int) : CAvcodecWriter × Int :=
  match w.audio[call.pMuxAudio]? with
  | none => (w, writtenDts)
  | some a =>
    let samplerate := audioSamplerate a
    if call.samples ≠ 0 then
      let dts := av_rescale_q (a.nOutputSamples + a.nDelaySamplesOfAudio) samplerate
        a.streamTimeBase
      let duration0 := av_rescale_q call.samples samplerate a.streamTimeBase
      let duration := if duration0 = 0 then dts - a.nLastPtsOut else duration0
      let pkt := { call.pkt with
        stream_index := a.streamIndex, flags := AV_PKT_FLAG_KEY, dts := dts, pts := dts,
        duration := duration }
      let a1 := { a with nLastPtsOut := dts, nOutputSamples := a.nOutputSamples + call.samples }
      ({ w with
          audio := w.audio.set call.pMuxAudio a1
          written := w.written ++ [pkt]
          format := { w.format with bStreamError := w.format.bStreamError || call.writeFails } },
        av_rescale_q dts a.streamTimeBase env.VCE_NATIVE_TIMEBASE)
    else (w, writtenDts)

/-- The packets a sequence of calls with a buffer writes, one after the other. -/
def writeProcessedPackets (env : Env) :
    CAvcodecWriter → List ProcessedWrite → Int → CAvcodecWriter × Int
  | w, [], writtenDts => (w, writtenDts)
  | w, call :: rest, writtenDts =>
    let r := writeProcessedPacket env w call writtenDts
    writeProcessedPackets env r.1 rest r.2

/-- One call of `WriteNextPacketProcessed`. `pkt = none` is the null pointer.
`flushWrites` lists, in order, the calls with a buffer that `AudioFlushStream` makes
back into `WriteNextPacketProcessed` when this call is a drain call; the other effects
of `AudioFlushStream` (on decoder, resampler and encoder) are not part of this model. -/
structure ProcessedCall where
  pMuxAudio : Nat
  pkt : Option AVPacket
  samples : Int
  writeFails : Bool
  flushWrites : List ProcessedWrite
deriving DecidableEq, Repr

/-- `CAvcodecWriter::WriteNextPacketProcessed`. -/
def WriteNextPacketProcessed (env : Env) (w : CAvcodecWriter) (call : ProcessedCall)
    (writtenDts : Int) : CAvcodecWriter × Int :=
  match call.pkt with
  | none => ((writeProcessedPackets env w call.flushWrites writtenDts).1, INT64_MAX)
  | some pkt =>
    if pkt.buf = 0 then
      ((writeProcessedPackets env w call.flushWrites writtenDts).1, INT64_MAX)
    else
      writeProcessedPacket env w
        { pMuxAudio := call.pMuxAudio, pkt := pkt, samples := call.samples,
          writeFails := call.writeFails } writtenDts

/-- A sequence of `WriteNextPacketProcessed` calls. -/
def runProcessed (env : Env) : CAvcodecWriter → List ProcessedCall → Int → CAvcodecWriter × Int
  | w, [], writtenDts => (w, writtenDts)
  | w, call :: rest, writtenDts =>
    let r := WriteNextPacketProcessed env w call writtenDts
    runProcessed env r.1 rest r.2

/-- The packets of a log that belong to output stream `streamIndex`. -/
def trackPackets (streamIndex : Int) (log : List AVPacket) : List AVPacket :=
  log.filter (fun p => decide (p.stream_index = streamIndex))

/-- Invariant of the audio write path for the track at index `idx`, relative to its
initial state `a`: the track keeps its stream and rates, no other track shares its
output stream, and the packets `new` written for it so far are in dts order and do not
exceed the dts the next packet will get. -/
def audioDtsInvariant (a : AVMuxAudio) (idx : Nat) (w : CAvcodecWriter)
    (new : List AVPacket) : Prop :=
  (∃ a1, w.audio[idx]? = some a1
    ∧ a1.streamIndex = a.streamIndex ∧ a1.streamTimeBase = a.streamTimeBase
    ∧ audioSamplerate a1 = audioSamplerate a
    ∧ a1.nDelaySamplesOfAudio = a.nDelaySamplesOfAudio
    ∧ ∀ p ∈ trackPackets a.streamIndex new,
        p.dts ≤ av_rescale_q (a1.nOutputSamples + a1.nDelaySamplesOfAudio) (audioSamplerate a)
          a.streamTimeBase)
  ∧ (∀ (j : Nat) (b : AVMuxAudio), j ≠ idx → w.audio[j]? = some b →
      b.streamIndex ≠ a.streamIndex)
  ∧ List.Pairwise (fun p q : AVPacket => p.dts ≤ q.dts) (trackPackets a.streamIndex new)

/-! ## Audio frames: cutting to the encoder's frame size -/

/-- `channel_loop_count` of `WriteNextPacketAudioFrame`: the number of data planes of
the encoder's sample format. -/
def channelLoopCount (env : Env) (enc : AudioEncodeCtx) : Nat :=
  if env.av_sample_fmt_is_planar enc.sample_fmt then enc.channels.toNat else 1

/-- The data plane `i` of a frame (empty when the frame has no such plane). -/
def framePlane (frame : AVFrame) (i : Nat) : List Nat := frame.data.getD i []

/-- The frame `pCutFrame`: `frame_size` samples copied from `frame`, starting at
sample `samplesWritten`; fields the writer does not set keep the zero of
`av_frame_alloc`. -/
def cutFrame (env : Env) (enc : AudioEncodeCtx) (frame : AVFrame) (samplesWritten : Int) :
    AVFrame :=
  { nb_samples := enc.frame_size, channels := 0, channel_layout := enc.channel_layout,
    sample_rate := 0, format := enc.sample_fmt
    data := (List.range (channelLoopCount env enc)).map (fun i =>
      ((framePlane frame i).drop samplesWritten.toNat).take enc.frame_size.toNat) }

/-- The frame `pCombinedFrame`: the samples of the carry followed by those of the new
frame. -/
def combineFrames (env : Env) (enc : AudioEncodeCtx) (cache frame : AVFrame) : AVFrame :=
  { nb_samples := frame.nb_samples + cache.nb_samples, channels := 0,
    channel_layout := enc.channel_layout, sample_rate := 0, format := enc.sample_fmt
    data := (List.range (channelLoopCount env enc)).map (fun i =>
      (framePlane cache i).take cache.nb_samples.toNat
        ++ (framePlane frame i).take frame.nb_samples.toNat) }

/-- The frame kept as carry: the last `samplesRemain` samples, moved to the front. -/
def remainderFrame (env : Env) (enc : AudioEncodeCtx) (frame : AVFrame)
    (samplesRemain samplesWritten : Int) : AVFrame :=
  { frame with
    nb_samples := samplesRemain
    data := (List.range (channelLoopCount env enc)).map (fun i =>
      ((framePlane frame i).drop samplesWritten.toNat).take samplesRemain.toNat) }

/-- The frame that is cut: `pCombinedFrame` when there is a carry, the resampled frame
itself otherwise. -/
def combinedFrame (env : Env) (enc : AudioEncodeCtx) (carry : Option AVFrame)
    (frame : AVFrame) : AVFrame :=
  match carry with
  | some cache => combineFrames env enc cache frame
  | none => frame

/-- The cutting loop of `WriteNextPacketAudioFrame`
(`for (; samplesRemain >= frame_size; samplesWritten += frame_size, ...)`), arguments
`samplesRemain` and `samplesWritten`: the frames cut off and the two variables at loop
exit; `none` when the fuel does not suffice. -/
def cutLoop (env : Env) (enc : AudioEncodeCtx) (frame : AVFrame) :
    Nat → Int → Int → Option (List AVFrame × Int × Int)
  | 0, samplesRemain, samplesWritten =>
    if samplesRemain ≥ enc.frame_size then none else some ([], samplesRemain, samplesWritten)
  | fuel + 1, samplesRemain, samplesWritten =>
    if samplesRemain ≥ enc.frame_size then
      match cutLoop env enc frame fuel (samplesRemain - enc.frame_size)
          (samplesWritten + enc.frame_size) with
      | none => none
      | some r => some (cutFrame env enc frame samplesWritten :: r.1, r.2.1, r.2.2)
    else some ([], samplesRemain, samplesWritten)

/-- What `WriteNextPacketAudioFrame` does with a frame: `handed` lists, in order, the
frames passed on to the encoder (queued on `AUD_QUEUE_ENCODE` when the audio-encode
thread exists, given to `WriteNextAudioFrame` otherwise), `pDecodedFrameCache` is the
carry kept in the track. -/
structure AudioFrameResult where
  handed : List AVFrame
  pDecodedFrameCache : Option AVFrame
deriving DecidableEq, Repr

/-- `CAvcodecWriter::WriteNextPacketAudioFrame`, the frame cutting. `resampleRet` and
`pFrame` are the return value of `AudioResampleFrame` and the frame it leaves in
`pktData->pFrame`. The result is `none` when the track has no encoder context or the
cutting loop does not end within `nb_samples + 1` iterations. -/
def WriteNextPacketAudioFrame (env : Env) (bAudEncThread : Bool) (pMuxAudio : AVMuxAudio)
    (got_result : Int) (resampleRet : Int) (pFrame : Option AVFrame) :
    Option AudioFrameResult :=
  if got_result ≠ 0 ∧ 0 ≤ resampleRet then
    match pFrame, pMuxAudio.pOutCodecEncodeCtx with
    | none, _ => some { handed := [], pDecodedFrameCache := pMuxAudio.pDecodedFrameCache }
    | some _, none => none
    | some frame, some enc =>
      if pMuxAudio.pDecodedFrameCache = none
          ∧ (frame.nb_samples = enc.frame_size ∨ enc.frame_size = 0) then
        some { handed := [if bAudEncThread then cutFrame env enc frame 0 else frame]
               pDecodedFrameCache := none }
      else
        let combined := combinedFrame env enc pMuxAudio.pDecodedFrameCache frame
        match cutLoop env enc combined (combined.nb_samples.toNat + 1) combined.nb_samples 0 with
        | none => none
        | some r =>
          some { handed := r.1
                 pDecodedFrameCache :=
                   if r.2.1 ≠ 0 then some (remainderFrame env enc combined r.2.1 r.2.2)
                   else none }
  else some { handed := [], pDecodedFrameCache := pMuxAudio.pDecodedFrameCache }

/-- The data plane `i` of an optional carry frame (empty without carry). -/
def carryPlane (carry : Option AVFrame) (i : Nat) : List Nat :=
  match carry with
  | none => []
  | some frame => framePlane frame i

/-- The sample count of an optional carry frame (`0` without carry). -/
def carrySamples (carry : Option AVFrame) : Int :=
  match carry with
  | none => 0
  | some frame => frame.nb_samples

/-- A frame is well-formed for `planes` data planes: it holds `nb_samples ≥ 0` sample
units in each of them. -/
def frameWellFormed (planes : Nat) (frame : AVFrame) : Prop :=
  0 ≤ frame.nb_samples ∧ ∀ i, i < planes → (framePlane frame i).length = frame.nb_samples.toNat

/-! ## Audio decoding: the decode-error budget -/

/-- Outcome of one `avcodec_decode_audio4` call: the return value `len`, the flag
`got_result` and the frame `decodedData` the decoder filled. -/
structure DecodeOutcome where
  len : Int
  got_result : Int
  decodedData : AVFrame
deriving DecidableEq, Repr

/-- The frame left by `av_frame_alloc`: no samples, all fields zero. -/
def emptyFrame : AVFrame :=
  { nb_samples := 0, channels := 0, channel_layout := 0, sample_rate := 0, format := 0,
    data := [] }

/-- The silent frame `AudioDecodePacket` puts in place of a packet that failed to
decode: `rescale(duration, pkt_timebase, 1 / nResamplerInSampleRate)` samples of
silence (sample units `0`) in the resampler's input format. -/
def silentFrame (env : Env) (pMuxAudio : AVMuxAudio) (duration : Int) : AVFrame :=
  let nb_samples := av_rescale_q duration pMuxAudio.inPktTimebase
    ⟨1, pMuxAudio.nResamplerInSampleRate⟩
  { nb_samples := nb_samples
    channels := pMuxAudio.nResamplerInChannels
    channel_layout := pMuxAudio.nResamplerInChannelLayout
    sample_rate := pMuxAudio.nResamplerInSampleRate
    format := pMuxAudio.ResamplerInSampleFmt
    data := List.replicate
      (if env.av_sample_fmt_is_planar pMuxAudio.ResamplerInSampleFmt then
        pMuxAudio.nResamplerInChannels.toNat else 1)
      (List.replicate nb_samples.toNat 0) }

/-- The frame `decodedFrameNew`: the samples of `decodedFrame` followed by those of
`decodedData`. -/
def concatFrames (env : Env) (decodedFrame decodedData : AVFrame) : AVFrame :=
  { nb_samples := decodedFrame.nb_samples + decodedData.nb_samples
    channels := decodedData.channels
    channel_layout := decodedData.channel_layout
    sample_rate := decodedData.sample_rate
    format := decodedData.format
    data := (List.range
        (if env.av_sample_fmt_is_planar decodedData.format then decodedData.channels.toNat
          else 1)).map (fun i =>
      (if decodedFrame.nb_samples > 0 then
          (framePlane decodedFrame i).take decodedFrame.nb_samples.toNat else [])
        ++ (if decodedData.nb_samples > 0 then
          (framePlane decodedData i).take decodedData.nb_samples.toNat else [])) }

/-- What `AudioDecodePacket` leaves behind: the track, `m_Mux.format.bStreamError`, the
frame returned (`none` for `nullptr`) and `*got_result`. -/
structure DecodeResult where
  pMuxAudio : AVMuxAudio
  bStreamError : Bool
  frame : Option AVFrame
  got_result : Bool
deriving DecidableEq, Repr

/-- The frame `decodedFrame` after one decoder call: `decodedData` is appended to
what has been assembled, or takes its place when nothing has been assembled yet. -/
def appendDecoded (env : Env) (decodedFrame decodedData : AVFrame) : AVFrame :=
  if decodedFrame.nb_samples ≠ 0 ∧ decodedData.nb_samples ≠ 0 then
    concatFrames env decodedFrame decodedData
  else if decodedData.nb_samples ≠ 0 then decodedData
  else decodedFrame

/-- The `while (!(*got_result) || pktIn->size > 0)` loop of `AudioDecodePacket`. The
list holds the outcomes of the decoder calls to come, `pktIn` is the packet being
decoded, `decodedFrame` the frame assembled so far. The result is `none` when the loop
asks for more decoder calls than there are outcomes. -/
def decodeLoop (env : Env) :
    List DecodeOutcome → AVMuxAudio → Bool → AVPacket → Int → AVFrame → Option DecodeResult
  | [], pMuxAudio, bStreamError, pktIn, got_result, decodedFrame =>
    if got_result = 0 ∨ pktIn.size > 0 then none
    else
      some { pMuxAudio := pMuxAudio, bStreamError := bStreamError, frame := some decodedFrame,
             got_result := decide (decodedFrame.nb_samples > 0) }
  | outcome :: rest, pMuxAudio, bStreamError, pktIn, got_result, decodedFrame =>
    if got_result = 0 ∨ pktIn.size > 0 then
      if outcome.len < 0 then
        let track1 := { pMuxAudio with nDecodeError := pMuxAudio.nDecodeError + 1 }
        if track1.nDecodeError ≤ track1.nIgnoreDecodeError then
          let decodedFrame1 := appendDecoded env decodedFrame
            (silentFrame env track1 pktIn.duration)
          some { pMuxAudio := { track1 with OutPacket := { track1.OutPacket with size := 0 } }
                 bStreamError := bStreamError
                 frame := some decodedFrame1
                 got_result := decide (decodedFrame1.nb_samples > 0) }
        else
          some { pMuxAudio := track1, bStreamError := true, frame := none,
                 got_result := false }
      else
        let track1 := { pMuxAudio with nDecodeError := 0 }
        let decodedFrame1 := appendDecoded env decodedFrame outcome.decodedData
        if pktIn.size ≠ outcome.len then
          let OutPacket1 := { track1.OutPacket with
            data := some ((pktIn.data.getD []).drop outcome.len.toNat)
            size := pktIn.size - outcome.len }
          decodeLoop env rest { track1 with OutPacket := OutPacket1 } bStreamError OutPacket1
            outcome.got_result decodedFrame1
        else
          some { pMuxAudio := { track1 with OutPacket := { track1.OutPacket with size := 0 } }
                 bStreamError := bStreamError
                 frame := some decodedFrame1
                 got_result := decide (decodedFrame1.nb_samples > 0) }
    else
      some { pMuxAudio := pMuxAudio, bStreamError := bStreamError, frame := some decodedFrame,
             got_result := decide (decodedFrame.nb_samples > 0) }

/-- `CAvcodecWriter::AudioDecodePacket`. `outcomes` are the outcomes of the successive
decoder calls; `none` when the loop asks for more calls than that. -/
def AudioDecodePacket (env : Env) (pMuxAudio : AVMuxAudio) (bStreamError : Bool)
    (pkt : AVPacket) (outcomes : List DecodeOutcome) : Option DecodeResult :=
  if pMuxAudio.nDecodeError > pMuxAudio.nIgnoreDecodeError then
    some { pMuxAudio := pMuxAudio, bStreamError := bStreamError, frame := none,
           got_result := false }
  else if pMuxAudio.OutPacket.size ≠ 0 then
    let OutPacket1 := { pkt with
      buf := pMuxAudio.OutPacket.buf
      data := some ((pMuxAudio.OutPacket.data.getD []).take pMuxAudio.OutPacket.size.toNat
        ++ (pkt.data.getD []).take pkt.size.toNat)
      size := pMuxAudio.OutPacket.size + pkt.size }
    decodeLoop env outcomes { pMuxAudio with OutPacket := OutPacket1 } bStreamError OutPacket1 0
      emptyFrame
  else decodeLoop env outcomes pMuxAudio bStreamError pkt 0 emptyFrame

/-- A sequence of `AudioDecodePacket` calls on one track: each packet comes with the
outcomes of its decoder calls; the result lists the frames returned. -/
def decodePackets (env : Env) :
    AVMuxAudio → Bool → List (AVPacket × List DecodeOutcome) →
      Option (AVMuxAudio × Bool × List (Option AVFrame))
  | pMuxAudio, bStreamError, [] => some (pMuxAudio, bStreamError, [])
  | pMuxAudio, bStreamError, (pkt, outcomes) :: rest =>
    match AudioDecodePacket env pMuxAudio bStreamError pkt outcomes with
    | none => none
    | some r =>
      match decodePackets env r.pMuxAudio r.bStreamError rest with
      | none => none
      | some r1 => some (r1.1, r1.2.1, r.frame :: r1.2.2)

/-- A frame is silent: every sample unit it holds is `0`. -/
def frameSilent (frame : AVFrame) : Prop :=
  ∀ plane ∈ frame.data, ∀ u ∈ plane, u = 0

/-! ## Chapters -/

/-- The chapter `pChap` that `SetChapters` builds from an input chapter: the trim-adjusted
`start` and `end` (both computed with `lastValidFrame = true`), the id, the timebase
and a copy of the metadata of the input chapter. -/
def adjustChapter (nFPS : AVRational) (trim : List sTrim) (chapter : AVChapter) : AVChapter :=
  { start := AdjustTimestampTrimmed nFPS trim chapter.start chapter.time_base
      chapter.time_base true
    end_ := AdjustTimestampTrimmed nFPS trim chapter.end_ chapter.time_base
      chapter.time_base true
    id := chapter.id
    time_base := chapter.time_base
    metadata := chapter.metadata }

/-- The first loop of `SetChapters`: the list `outChapters`. -/
def outChapters (nFPS : AVRational) (trim : List sTrim) : List AVChapter → List AVChapter
  | [] => []
  | chapter :: rest =>
    let pChap := adjustChapter nFPS trim chapter
    if pChap.start < pChap.end_ then pChap :: outChapters nFPS trim rest
    else outChapters nFPS trim rest

/-- `CAvcodecWriter::SetChapters` (the container context exists). -/
def SetChapters (w : CAvcodecWriter) (pChapterList : List AVChapter) :
    CAvcodecWriter × AMF_RESULT :=
  let out := outChapters w.video.nFPS w.trim pChapterList
  if out.length > 0 then
    ({ w with format := { w.format with chapters := out } }, AMF_RESULT.AMF_OK)
  else (w, AMF_RESULT.AMF_OK)

/-- The chapter ids are renumbered in output order: each id is the one before it plus
one. -/
def idsConsecutive (chapters : List AVChapter) : Prop :=
  List.Chain' (fun a b : AVChapter => b.id = a.id + 1) chapters

/-! ## Closing the container -/

/-- `CAvcodecWriter::CloseFormat` (built without custom I/O buffers to release): the
format state after the final `memset`, and whether `av_write_trailer` was called. -/
def CloseFormat (pMuxFormat : AVMuxFormat) : AVMuxFormat × Bool :=
  let trailer : Bool :=
    if pMuxFormat.pFormatCtx then
      if ¬ pMuxFormat.bStreamError then true else false
    else false
  ({ pFormatCtx := false, chapters := [], bFileHeaderWritten := false, bStreamError := false },
    trailer)

/-! ## Subtitle packets -/

/-- `CAvcodecWriter::getSubPacketStreamData`: the first subtitle track whose input
stream index and track id match the packet (`none` for `NULL`). -/
def getSubPacketStreamData (w : CAvcodecWriter) (pkt : AVPacket) : Option AVMuxSub :=
  w.sub.find? (fun sub =>
    decide (sub.nStreamIndexIn = pkt.stream_index ∧ sub.nInTrackId = inTrackIdOfFlags pkt.flags))

/-- The timestamp `std::max(INT64_C(0), pkt->pts - pts_adjust)` that
`SubtitleWritePacket` passes to `AdjustTimestampTrimmed`. -/
def subtitlePtsIn (w : CAvcodecWriter) (pMuxSub : AVMuxSub) (pkt : AVPacket) : Int :=
  let vid_pkt_timebase :=
    match w.video.pInputCodecCtx with
    | some tb => tb
    | none => av_inv_q w.video.nFPS
  let pts_adjust := av_rescale_q w.video.nInputFirstKeyPts vid_pkt_timebase
    pMuxSub.inPktTimebase
  max 0 (pkt.pts - pts_adjust)

/-- `CAvcodecWriter::SubtitleWritePacket`. `SubtitleTranscode` is the transcoding
branch (it receives the packet with its adjusted pts), `writeFails` tells whether
`av_interleaved_write_frame` fails. The result is `none` when no subtitle track matches
the packet (the code then reads through a null pointer). The mask `& 0x0000ffff` is the
remainder modulo `65536`. -/
def SubtitleWritePacket
    (SubtitleTranscode : CAvcodecWriter → AVMuxSub → AVPacket → CAvcodecWriter × AMF_RESULT)
    (w : CAvcodecWriter) (pkt : AVPacket) (writeFails : Bool) :
    Option (CAvcodecWriter × AMF_RESULT) :=
  match getSubPacketStreamData w pkt with
  | none => none
  | some pMuxSub =>
    let pts_orig := pkt.pts
    let pts := AdjustTimestampTrimmed w.video.nFPS w.trim (subtitlePtsIn w pMuxSub pkt)
      pMuxSub.inPktTimebase pMuxSub.streamTimeBase false
    if pts ≠ AV_NOPTS_VALUE then
      if pMuxSub.pOutCodecEncodeCtx then
        some (SubtitleTranscode w pMuxSub { pkt with pts := pts })
      else
        let dts1 := pkt.dts
          + (av_rescale_q pts pMuxSub.streamTimeBase pMuxSub.inPktTimebase - pts_orig)
        let dts := max 0 (av_rescale_q dts1 pMuxSub.inPktTimebase pMuxSub.streamTimeBase)
        let pkt1 := { pkt with
          pts := pts
          dts := dts
          flags := pkt.flags % 65536
          duration := av_rescale_q pkt.duration pMuxSub.inPktTimebase pMuxSub.streamTimeBase
          stream_index := pMuxSub.streamIndex
          pos := -1 }
        let w1 := { w with
          written := w.written ++ [pkt1]
          format := { w.format with bStreamError := w.format.bStreamError || writeFails } }
        some (w1, if w1.format.bStreamError then AMF_RESULT.AMF_UNEXPECTED
                  else AMF_RESULT.AMF_OK)
    else
      some (w, if w.format.bStreamError then AMF_RESULT.AMF_UNEXPECTED else AMF_RESULT.AMF_OK)

/-- The frame index `AdjustTimestampTrimmed` computes for a copy-mode subtitle packet:
the index of `max(0, pts − pts_adjust)` at the video frame rate. -/
def subtitleFrameIdx (w : CAvcodecWriter) (pMuxSub : AVMuxSub) (pkt : AVPacket) : Int :=
  av_rescale_q (subtitlePtsIn w pMuxSub pkt) pMuxSub.inPktTimebase (av_inv_q w.video.nFPS)

/-! ## The AAC bitstream filter -/

/-- The libavutil error code `AVERROR(EAGAIN)`. -/
def AVERROR_EAGAIN : Int := -11

/-- The libavutil error code `AVERROR_EOF` (`-MKTAG('E','O','F',' ')`). -/
def AVERROR_EOF : Int := -541478725

/-- The threshold `AACBSFFILTER_ERROR_THRESHOLD` of `applyBitstreamFilterAAC`. -/
def AACBSFFILTER_ERROR_THRESHOLD : Int := 30

/-- Outcome of the library calls of `applyBitstreamFilterAAC`: one of the set-up steps
fails (`av_bsf_get_by_name`, `av_bsf_alloc`, `avcodec_parameters_from_context`,
`av_bsf_init`), `av_bsf_send_packet` fails, or `av_bsf_receive_packet` returns `ret`
and leaves the packet `pkt`. -/
inductive BsfOutcome where
  | filterNotFound
  | allocFailed
  | parametersFailed
  | initFailed
  | sendFailed
  | received (ret : Int) (pkt : AVPacket)
deriving DecidableEq, Repr

/-- The packet left by `av_packet_unref` / `av_init_packet`. -/
def blankPacket : AVPacket :=
  { buf := 0, data := none, size := 0, pts := AV_NOPTS_VALUE, dts := AV_NOPTS_VALUE,
    duration := 0, flags := 0, stream_index := 0, pos := -1 }

/-- `CAvcodecWriter::applyBitstreamFilterAAC`: the format state, the track, the packet
and the return value. After a failed look-up or allocation the track has no filter
context. -/
def applyBitstreamFilterAAC (format : AVMuxFormat) (pMuxAudio : AVMuxAudio) (pkt : AVPacket)
    (outcome : BsfOutcome) : AVMuxFormat × AVMuxAudio × AVPacket × Int :=
  match outcome with
  | BsfOutcome.filterNotFound => (format, { pMuxAudio with pAACBsfc := false }, pkt, 1)
  | BsfOutcome.allocFailed => (format, { pMuxAudio with pAACBsfc := false }, pkt, 1)
  | BsfOutcome.parametersFailed => (format, { pMuxAudio with pAACBsfc := true }, pkt, 1)
  | BsfOutcome.initFailed => (format, { pMuxAudio with pAACBsfc := true }, pkt, 1)
  | BsfOutcome.sendFailed => (format, { pMuxAudio with pAACBsfc := true }, blankPacket, 1)
  | BsfOutcome.received ret pkt1 =>
    let track := { pMuxAudio with pAACBsfc := true }
    if ret = AVERROR_EAGAIN then
      (format, { track with nAACBsfErrorFromStart := 0 },
        { pkt1 with size := 0, duration := 0 }, 0)
    else if (ret < 0 ∧ ret ≠ AVERROR_EOF) ∨ pkt1.size < 0 then
      if track.nPacketWritten = 0 then
        let track1 := { track with nAACBsfErrorFromStart := track.nAACBsfErrorFromStart + 1 }
        if track1.nAACBsfErrorFromStart > AACBSFFILTER_ERROR_THRESHOLD then
          ({ format with bStreamError := true }, track1, pkt1, 1)
        else (format, track1, { pkt1 with duration := 0 }, -1)
      else (format, track, { pkt1 with duration := 0 }, -1)
    else (format, { track with nAACBsfErrorFromStart := 0 }, pkt1, 0)

/-- A run of `applyBitstreamFilterAAC` calls on one track, one per outcome, each on the
packet `pkt`: the format state and the track at the end, and the return values. -/
def applyBitstreamFilterRun (pkt : AVPacket) :
    AVMuxFormat → AVMuxAudio → List BsfOutcome → AVMuxFormat × AVMuxAudio × List Int
  | format, pMuxAudio, [] => (format, pMuxAudio, [])
  | format, pMuxAudio, outcome :: rest =>
    let r := applyBitstreamFilterAAC format pMuxAudio pkt outcome
    let r1 := applyBitstreamFilterRun pkt r.1 r.2.1 rest
    (r1.1, r1.2.1, r.2.2.2 :: r1.2.2)

/-- An outcome of the filter run is a failure: `av_bsf_receive_packet` returns an error
other than `EAGAIN` and `EOF`, or leaves a packet of negative size. -/
def bsfRunFailure (outcome : BsfOutcome) : Prop :=
  match outcome with
  | BsfOutcome.received ret pkt => ret ≠ AVERROR_EAGAIN ∧ ((ret < 0 ∧ ret ≠ AVERROR_EOF) ∨ pkt.size < 0)
  | _ => False

/-- An outcome of the filter run is a success: `av_bsf_receive_packet` returns `EAGAIN`,
`EOF` or a non-negative value with a packet of non-negative size. -/
def bsfRunSuccess (outcome : BsfOutcome) : Prop :=
  match outcome with
  | BsfOutcome.received ret pkt => ret = AVERROR_EAGAIN ∨ ¬ ((ret < 0 ∧ ret ≠ AVERROR_EOF) ∨ pkt.size < 0)
  | _ => False

/-! ## Flushing the head buffer -/

/-- Normal processing of the packets of the head buffer, in arrival order: each goes
through `processPacket`, and the first status that is not `AMF_OK` ends the run. -/
def processBuffered (stages : PacketStages) :
    List AVPktMuxData → CAvcodecWriter → CAvcodecWriter × AMF_RESULT
  | [], w => (w, AMF_RESULT.AMF_OK)
  | bufPkt :: rest, w =>
    let r := processPacket stages w bufPkt
    if r.2.2 ≠ AMF_RESULT.AMF_OK then (r.1, r.2.2) else processBuffered stages rest r.1

/-- The stages after `WriteNextPacketInternal` leave the head buffer and the flag
`bFileHeaderWritten` alone (neither is mentioned in their code). -/
def stagesKeepHead (stages : PacketStages) : Prop :=
  (∀ w i dts, (stages.AudioFlushStream w i dts).1.m_AudPktBufFileHead = w.m_AudPktBufFileHead
    ∧ (stages.AudioFlushStream w i dts).1.format.bFileHeaderWritten
        = w.format.bFileHeaderWritten)
  ∧ (∀ w pkt, (stages.SubtitleWritePacket w pkt).1.m_AudPktBufFileHead = w.m_AudPktBufFileHead
    ∧ (stages.SubtitleWritePacket w pkt).1.format.bFileHeaderWritten
        = w.format.bFileHeaderWritten)
  ∧ (∀ w pktData,
      (stages.WriteNextPacketAudio w pktData).1.m_AudPktBufFileHead = w.m_AudPktBufFileHead
    ∧ (stages.WriteNextPacketAudio w pktData).1.format.bFileHeaderWritten
        = w.format.bFileHeaderWritten)

/-! ## Audio re-encoding: filter, resampler, encoder -/

/-- Outcomes of the filter graph for one `AudioFilterFrame` call that reaches it:
whether `InitAudioFilter` fails, whether `av_buffersrc_add_frame_flags` fails, the
frames `av_buffersink_get_frame_flags` delivers, and whether the call after the last
of them ends the loop with an error (`true`) or with `EAGAIN` / `EOF` (`false`). The
model covers streams whose frames keep the format the filter was set up for, so that
`InitAudioFilter` changes nothing. -/
structure FilterOutcome where
  initFails : Bool
  feedFails : Bool
  sink : List AVFrame
  sinkError : Bool
deriving DecidableEq, Repr

/-- Outcomes of the resampler for one `AudioResampleFrame` call: whether
`InitAudioResampler` fails, the value of `swr_get_delay`, the return value of
`swr_convert` and the planes it leaves in `pSwrBuffer`. The model covers streams whose
frames keep the format the resampler was set up for, so that `InitAudioResampler`
changes nothing. -/
structure ResampleOutcome where
  initFails : Bool
  delay : Int
  ret : Int
  data : List (List Nat)
deriving DecidableEq, Repr

/-- Outcome of one `avcodec_encode_audio2` call: return value, `got_result` and the
packet as the encoder leaves it. -/
structure EncodeOutcome where
  ret : Int
  got_result : Int
  pkt : AVPacket
deriving DecidableEq, Repr

/-- The outcomes of the library calls still to come, each list in call order:
`decode` holds one entry per `AudioDecodePacket` call (the outcomes of its decoder
calls), `filter` one per `AudioFilterFrame` call that reaches the filter graph,
`resample` one per `AudioResampleFrame` call, `encode` one per `AudioEncodeFrame` call,
`writeFails` one per `av_interleaved_write_frame` call of the audio path. -/
structure LibScript where
  decode : List (List DecodeOutcome)
  filter : List FilterOutcome
  resample : List ResampleOutcome
  encode : List EncodeOutcome
  writeFails : List Bool
deriving DecidableEq, Repr

/-- The zero-filled packet `AVPacket pkt = { 0 }`. -/
def zeroPacket : AVPacket :=
  { buf := 0, data := none, size := 0, pts := 0, dts := 0, duration := 0, flags := 0,
    stream_index := 0, pos := 0 }

/-- The zero-filled record `AVPktMuxData pktData = { 0 }`. -/
def zeroPktMuxData : AVPktMuxData :=
  { type := AVMuxDataType.MUX_DATA_TYPE_NONE, pkt := zeroPacket, pMuxAudio := none, dts := 0,
    samples := 0, pFrame := none, got_result := 0 }

/-- The status `(m_Mux.format.bStreamError) ? AMF_UNEXPECTED : AMF_OK`. -/
def streamStatus (w : CAvcodecWriter) : AMF_RESULT :=
  if w.format.bStreamError then AMF_RESULT.AMF_UNEXPECTED else AMF_RESULT.AMF_OK

/-- The writer with `m_Mux.format.bStreamError = true`. -/
def setStreamError (w : CAvcodecWriter) : CAvcodecWriter :=
  { w with format := { w.format with bStreamError := true } }

/-- The frame `pCombinedFrame` of `AudioFilterFrame`: the frames filtered so far
followed by the next one, in the sample format of the decoder context. -/
def combineFiltered (env : Env) (pMuxAudio : AVMuxAudio) (cache frame : AVFrame) : AVFrame :=
  { nb_samples := frame.nb_samples + cache.nb_samples, channels := 0,
    channel_layout := pMuxAudio.decChannelLayout, sample_rate := 0,
    format := pMuxAudio.decSampleFmt
    data := (List.range
        (if env.av_sample_fmt_is_planar pMuxAudio.decSampleFmt then pMuxAudio.decChannels.toNat
          else 1)).map (fun i =>
      (framePlane cache i).take cache.nb_samples.toNat
        ++ (framePlane frame i).take frame.nb_samples.toNat) }

/-- The sink loop of `AudioFilterFrame`: `pktData->pFrame` after the frames of the sink
have been taken, starting from `acc`. -/
def filterSinkLoop (env : Env) (pMuxAudio : AVMuxAudio) :
    List AVFrame → Option AVFrame → Option AVFrame
  | [], acc => acc
  | pFilteredFrame :: rest, none => filterSinkLoop env pMuxAudio rest (some pFilteredFrame)
  | pFilteredFrame :: rest, some cache =>
    filterSinkLoop env pMuxAudio rest (some (combineFiltered env pMuxAudio cache pFilteredFrame))

/-- `CAvcodecWriter::AudioFilterFrame` for the track at index `idx`; `pFrame` is
`pktData->pFrame`. The result holds the writer, the script, the new `pktData->pFrame`
and the status; it is `none` when the index names no track or the script has no
outcome left. -/
def AudioFilterFrame (env : Env) (w : CAvcodecWriter) (lib : LibScript) (idx : Nat)
    (pFrame : Option AVFrame) :
    Option (CAvcodecWriter × LibScript × Option AVFrame × AMF_RESULT) :=
  match w.audio[idx]? with
  | none => none
  | some pMuxAudio =>
    if ¬ pMuxAudio.pFilterGraph then some (w, lib, pFrame, AMF_RESULT.AMF_OK)
    else
      match lib.filter with
      | [] => none
      | outcome :: rest =>
        let lib1 := { lib with filter := rest }
        if pFrame ≠ none ∧ outcome.initFails then
          some (setStreamError w, lib1, pFrame, AMF_RESULT.AMF_UNEXPECTED)
        else if outcome.feedFails then
          some (setStreamError w, lib1, pFrame, AMF_RESULT.AMF_UNEXPECTED)
        else
          let pFrame1 := filterSinkLoop env pMuxAudio outcome.sink none
          if outcome.sinkError then
            some (setStreamError w, lib1, pFrame1, AMF_RESULT.AMF_UNEXPECTED)
          else some (w, lib1, pFrame1, AMF_RESULT.AMF_OK)

/-- The frame `pResampledFrame` of `AudioResampleFrame`: the first `ret` sample units
of each plane of `pSwrBuffer`, in the format of the encoder. -/
def resampledFrame (env : Env) (enc : AudioEncodeCtx) (outcome : ResampleOutcome) : AVFrame :=
  { nb_samples := outcome.ret, channels := enc.channels, channel_layout := enc.channel_layout,
    sample_rate := enc.sample_rate, format := enc.sample_fmt
    data := (List.range (channelLoopCount env enc)).map (fun i =>
      (outcome.data.getD i []).take outcome.ret.toNat) }

/-- `CAvcodecWriter::AudioResampleFrame` for the track at index `idx` (the growth of
`pSwrBuffer` left out). `dst_nb_samples` is the `uint32_t` value of
`av_rescale_rnd(delay + nb_samples, rate, rate, AV_ROUND_UP)`, which is
`delay + nb_samples` for a positive rate. The result holds the writer, `*frame` and the
return value. -/
def AudioResampleFrame (env : Env) (w : CAvcodecWriter) (idx : Nat) (frame : Option AVFrame)
    (outcome : ResampleOutcome) : Option (CAvcodecWriter × Option AVFrame × Int) :=
  match w.audio[idx]? with
  | none => none
  | some pMuxAudio =>
    if frame ≠ none ∧ outcome.initFails then some (setStreamError w, frame, -1)
    else if pMuxAudio.pSwrContext then
      match pMuxAudio.pOutCodecEncodeCtx with
      | none => none
      | some enc =>
        let nb_samples : Int :=
          match frame with
          | some f => f.nb_samples
          | none => 0
        let dst_nb_samples : Int :=
          (if enc.sample_rate ≤ 0 then AV_NOPTS_VALUE else outcome.delay + nb_samples)
            % 4294967296
        if dst_nb_samples > 0 then
          let w1 := if outcome.ret < 0 then setStreamError w else w
          if outcome.ret ≥ 0 then some (w1, some (resampledFrame env enc outcome), outcome.ret)
          else some (w1, none, outcome.ret)
        else some (w, frame, 0)
    else some (w, frame, 0)

/-- `CAvcodecWriter::AudioEncodeFrame` for the track at index `idx`: the frame is
logged in `encoded`; the result holds the writer, the packet `*pEncPkt`, the return
value `samples` and `*got_result`. -/
def AudioEncodeFrame (w : CAvcodecWriter) (idx : Nat) (frame : Option AVFrame)
    (outcome : EncodeOutcome) : Option (CAvcodecWriter × AVPacket × Int × Int) :=
  match w.audio[idx]? with
  | none => none
  | some pMuxAudio =>
    match pMuxAudio.pOutCodecEncodeCtx with
    | none => none
    | some enc =>
      let w1 := { w with encoded := w.encoded ++ [(idx, frame)] }
      if outcome.ret < 0 then
        some ({ w1 with audio := w1.audio.set idx { pMuxAudio with bEncodeError := true } },
          outcome.pkt, 0, outcome.got_result)
      else if outcome.got_result ≠ 0 then
        some (w1, outcome.pkt,
          av_rescale_q outcome.pkt.duration enc.pkt_timebase ⟨1, pMuxAudio.inSampleRate⟩,
          outcome.got_result)
      else some (w1, outcome.pkt, 0, outcome.got_result)

/-! ## Audio re-encoding: from the resampled frame to the container -/

/-- The type of `WriteNextPacketProcessed(pMuxAudio, pkt, samples, pWrittenDts)` as the
stages in front of it see it: writer, script, track index (`none` for a null pointer),
packet, sample count and `*pWrittenDts`; the result holds the new `*pWrittenDts`. -/
abbrev ProcessedFn :=
  CAvcodecWriter → LibScript → Option Nat → AVPacket → Int → Int →
    Option (CAvcodecWriter × LibScript × Int)

/-- The overload `WriteNextPacketProcessed(AVPktMuxData *pktData)`. -/
def processedRecord (processed : ProcessedFn) (w : CAvcodecWriter) (lib : LibScript)
    (pktData : AVPktMuxData) : Option (CAvcodecWriter × LibScript × AVPktMuxData) :=
  match processed w lib pktData.pMuxAudio pktData.pkt pktData.samples pktData.dts with
  | none => none
  | some r => some (r.1, r.2.1, { pktData with dts := r.2.2 })

/-- `CAvcodecWriter::WriteNextAudioFrame`. -/
def WriteNextAudioFrame (processed : ProcessedFn) (w : CAvcodecWriter) (lib : LibScript)
    (pktData : AVPktMuxData) : Option (CAvcodecWriter × LibScript × AVPktMuxData × AMF_RESULT) :=
  if pktData.type ≠ AVMuxDataType.MUX_DATA_TYPE_FRAME then
    let w1 :=
      if w.thread.thAudEncode then (AddAudQueue w pktData AudQueueType.AUD_QUEUE_OUT).1 else w
    some (w1, lib, pktData, AMF_RESULT.AMF_NOT_SUPPORTED)
  else
    match pktData.pMuxAudio, lib.encode with
    | some idx, outcome :: rest =>
      match AudioEncodeFrame w idx pktData.pFrame outcome with
      | none => none
      | some r =>
        let lib1 := { lib with encode := rest }
        let pktData1 := { pktData with
          samples := r.2.2.1, pkt := r.2.1, pFrame := none,
          type := AVMuxDataType.MUX_DATA_TYPE_PACKET }
        if r.2.2.2 ≠ 0 ∧ pktData1.samples ≠ 0 then
          if r.1.thread.thAudProcess then
            let w2 := (AddAudQueue r.1 pktData1 AudQueueType.AUD_QUEUE_OUT).1
            some (w2, lib1, pktData1, streamStatus w2)
          else
            match processedRecord processed r.1 lib1 pktData1 with
            | none => none
            | some r2 => some (r2.1, r2.2.1, r2.2.2, streamStatus r2.1)
        else some (r.1, lib1, pktData1, streamStatus r.1)
    | _, _ => none

/-- The frames cut by `WriteNextPacketAudioFrame` are handed on one by one: queued on
`AUD_QUEUE_ENCODE` when the audio-encode thread exists, given to `WriteNextAudioFrame`
otherwise. `type` is the tag of the record that carries them. -/
def handFrames (processed : ProcessedFn) (bAudEncThread : Bool) (type : AVMuxDataType)
    (pktData : AVPktMuxData) :
    List AVFrame → CAvcodecWriter → LibScript → Option (CAvcodecWriter × LibScript)
  | [], w, lib => some (w, lib)
  | frame :: rest, w, lib =>
    let pktDataPartial := { pktData with type := type, pFrame := some frame }
    if bAudEncThread then
      handFrames processed bAudEncThread type pktData rest
        (AddAudQueue w pktDataPartial AudQueueType.AUD_QUEUE_ENCODE).1 lib
    else
      match WriteNextAudioFrame processed w lib pktDataPartial with
      | none => none
      | some r => handFrames processed bAudEncThread type pktData rest r.1 r.2.1

/-- The writer with `pDecodedFrameCache` of the track at index `idx` set to `cache`. -/
def setDecodedFrameCache (w : CAvcodecWriter) (idx : Nat) (cache : Option AVFrame) :
    CAvcodecWriter :=
  match w.audio[idx]? with
  | none => w
  | some pMuxAudio =>
    { w with audio := w.audio.set idx { pMuxAudio with pDecodedFrameCache := cache } }

/-- `CAvcodecWriter::WriteNextPacketAudioFrame` as a step of the writer: the frame is
resampled (`AudioResampleFrame`), cut as in the function `WriteNextPacketAudioFrame`
above (`combinedFrame`, `cutLoop`, `remainderFrame`), and every frame cut off is handed
on. The result is `none` when the record names no track, the track has no encoder, or
the script has no outcome left. -/
def audioFrameStage (env : Env) (processed : ProcessedFn) (w : CAvcodecWriter)
    (lib : LibScript) (pktData : AVPktMuxData) :
    Option (CAvcodecWriter × LibScript × AMF_RESULT) :=
  if pktData.got_result ≠ 0 then
    match pktData.pMuxAudio, lib.resample with
    | some idx, outcome :: rest =>
      let lib1 := { lib with resample := rest }
      match AudioResampleFrame env w idx pktData.pFrame outcome with
      | none => none
      | some r =>
        if 0 ≤ r.2.2 then
          match r.2.1 with
          | none => some (r.1, lib1, streamStatus r.1)
          | some frame =>
            match r.1.audio[idx]? with
            | none => none
            | some pMuxAudio =>
              match pMuxAudio.pOutCodecEncodeCtx with
              | none => none
              | some enc =>
                let bAudEncThread := r.1.thread.thAudEncode
                let pktData1 := { pktData with pFrame := some frame }
                if pMuxAudio.pDecodedFrameCache = none
                    ∧ (frame.nb_samples = enc.frame_size ∨ enc.frame_size = 0) then
                  match handFrames processed bAudEncThread pktData.type pktData1
                      [if bAudEncThread then cutFrame env enc frame 0 else frame] r.1 lib1 with
                  | none => none
                  | some r2 => some (r2.1, r2.2, streamStatus r2.1)
                else
                  let combined := combinedFrame env enc pMuxAudio.pDecodedFrameCache frame
                  match cutLoop env enc combined (combined.nb_samples.toNat + 1)
                      combined.nb_samples 0 with
                  | none => none
                  | some cut =>
                    match handFrames processed bAudEncThread
                        AVMuxDataType.MUX_DATA_TYPE_FRAME pktData1 cut.1
                        (setDecodedFrameCache r.1 idx none) lib1 with
                    | none => none
                    | some r2 =>
                      let w3 :=
                        if cut.2.1 ≠ 0 then
                          setDecodedFrameCache r2.1 idx
                            (some (remainderFrame env enc combined cut.2.1 cut.2.2))
                        else r2.1
                      some (w3, r2.2, streamStatus w3)
        else some (r.1, lib1, streamStatus r.1)
    | _, _ => none
  else some (w, lib, streamStatus w)

/-- `CAvcodecWriter::getAudioStreamData`: the index of the first track with the given
track id and sub-stream id. -/
def getAudioStreamData (w : CAvcodecWriter) (nTrackId nSubStreamId : Int) : Option Nat :=
  (List.range w.audio.length).find? (fun i =>
    match w.audio[i]? with
    | some a => decide (a.nInTrackId = nTrackId ∧ a.nInSubStream = nSubStreamId)
    | none => false)

/-- The loop over the sub-streams in `WriteNextPacketToAudioSubtracks`
(`for (iSubStream = 1; getAudioStreamData(...) != nullptr; iSubStream++)`); the list
holds the values of `iSubStream` still to come. -/
def subtrackLoop (env : Env) (processed : ProcessedFn) (nInTrackId : Int)
    (pktData : AVPktMuxData) :
    List Int → CAvcodecWriter → LibScript → Option (CAvcodecWriter × LibScript)
  | [], w, lib => some (w, lib)
  | iSubStream :: rest, w, lib =>
    match getAudioStreamData w nInTrackId iSubStream with
    | none => some (w, lib)
    | some sub =>
      match audioFrameStage env processed w lib { pktData with pMuxAudio := some sub } with
      | none => none
      | some r => subtrackLoop env processed nInTrackId pktData rest r.1 r.2.1

/-- `CAvcodecWriter::WriteNextPacketToAudioSubtracks`. Every round of the sub-stream
loop finds a track with another `nInSubStream`, so the loop makes at most
`m_Mux.audio.size()` rounds. -/
def WriteNextPacketToAudioSubtracks (env : Env) (processed : ProcessedFn) (w : CAvcodecWriter)
    (lib : LibScript) (pktData : AVPktMuxData) :
    Option (CAvcodecWriter × LibScript × AMF_RESULT) :=
  match pktData.pMuxAudio with
  | none => none
  | some idx =>
    match w.audio[idx]? with
    | none => none
    | some pMuxAudio =>
      match subtrackLoop env processed pMuxAudio.nInTrackId pktData
          ((List.range (w.audio.length + 1)).map (fun i => (i : Int) + 1)) w lib with
      | none => none
      | some r => audioFrameStage env processed r.1 r.2 pktData

/-! ## Flushing an audio track -/

/-- The writer after an `AudioDecodePacket` call on the track at index `idx`. -/
def applyDecodeResult (w : CAvcodecWriter) (idx : Nat) (r : DecodeResult) : CAvcodecWriter :=
  { w with
    audio := w.audio.set idx r.pMuxAudio
    format := { w.format with bStreamError := r.bStreamError } }

/-- The first loop of `AudioFlushStream`
(`while (pMuxAudio->pOutCodecDecodeCtx && !pMuxAudio->bEncodeError)`): the decoder is
drained with zero-filled packets, each frame goes through the filter and on to
`WriteNextPacketToAudioSubtracks` in a zero-filled record (its `got_result` is `0`). -/
def flushDecodeLoop (env : Env) (processed : ProcessedFn) (idx : Nat) :
    Nat → CAvcodecWriter → LibScript → Option (CAvcodecWriter × LibScript)
  | 0, _, _ => none
  | fuel + 1, w, lib =>
    match w.audio[idx]? with
    | none => none
    | some pMuxAudio =>
      if pMuxAudio.pOutCodecDecodeCtx ∧ ¬ pMuxAudio.bEncodeError then
        match lib.decode with
        | [] => none
        | outcomes :: rest =>
          let lib1 := { lib with decode := rest }
          match AudioDecodePacket env pMuxAudio w.format.bStreamError zeroPacket outcomes with
          | none => none
          | some decoded =>
            let w1 := applyDecodeResult w idx decoded
            if ¬ decoded.got_result
                ∧ (decoded.frame ≠ none
                  ∨ decoded.pMuxAudio.nDecodeError > decoded.pMuxAudio.nIgnoreDecodeError) then
              some (w1, lib1)
            else
              let pktData := { zeroPktMuxData with
                type := AVMuxDataType.MUX_DATA_TYPE_FRAME
                pFrame := decoded.frame
                pMuxAudio := some idx }
              match AudioFilterFrame env w1 lib1 idx pktData.pFrame with
              | none => none
              | some filtered =>
                if filtered.2.2.2 ≠ AMF_RESULT.AMF_OK then some (filtered.1, filtered.2.1)
                else if filtered.2.2.1 ≠ none then
                  match WriteNextPacketToAudioSubtracks env processed filtered.1 filtered.2.1
                      { pktData with pFrame := filtered.2.2.1 } with
                  | none => none
                  | some r => flushDecodeLoop env processed idx fuel r.1 r.2.1
                else flushDecodeLoop env processed idx fuel filtered.1 filtered.2.1
      else some (w, lib)

/-- The filter flush of `AudioFlushStream` (`if (pMuxAudio->pFilterGraph) ...`). -/
def flushFilter (env : Env) (processed : ProcessedFn) (idx : Nat) (w : CAvcodecWriter)
    (lib : LibScript) : Option (CAvcodecWriter × LibScript) :=
  match w.audio[idx]? with
  | none => none
  | some pMuxAudio =>
    if pMuxAudio.pFilterGraph then
      let pktData := { zeroPktMuxData with
        type := AVMuxDataType.MUX_DATA_TYPE_FRAME
        pMuxAudio := some idx }
      match AudioFilterFrame env w lib idx pktData.pFrame with
      | none => none
      | some filtered =>
        if filtered.2.2.2 = AMF_RESULT.AMF_OK ∧ filtered.2.2.1 ≠ none then
          match WriteNextPacketToAudioSubtracks env processed filtered.1 filtered.2.1
              { pktData with pFrame := filtered.2.2.1 } with
          | none => none
          | some r => some (r.1, r.2.1)
        else some (filtered.1, filtered.2.1)
    else some (w, lib)

/-- The third loop of `AudioFlushStream`
(`while (pMuxAudio->pSwrContext && !pMuxAudio->bEncodeError)`): the resampler is asked
for what it still holds; the loop ends when `AudioResampleFrame` returns a value other
than `0` or leaves no frame. The third component is `*pWrittenDts`. -/
def flushResampleLoop (env : Env) (processed : ProcessedFn) (idx : Nat) :
    Nat → CAvcodecWriter → LibScript → Int → Option (CAvcodecWriter × LibScript × Int)
  | 0, _, _, _ => none
  | fuel + 1, w, lib, writtenDts =>
    match w.audio[idx]? with
    | none => none
    | some pMuxAudio =>
      if pMuxAudio.pSwrContext ∧ ¬ pMuxAudio.bEncodeError then
        match lib.resample with
        | [] => none
        | outcome :: rest =>
          let lib1 := { lib with resample := rest }
          match AudioResampleFrame env w idx none outcome with
          | none => none
          | some resampled =>
            if resampled.2.2 ≠ 0 ∨ resampled.2.1 = none then some (resampled.1, lib1, writtenDts)
            else
              match lib1.encode with
              | [] => none
              | encOutcome :: encRest =>
                match AudioEncodeFrame resampled.1 idx resampled.2.1 encOutcome with
                | none => none
                | some encoded =>
                  match processed encoded.1 { lib1 with encode := encRest } (some idx)
                      encoded.2.1 encoded.2.2.1 writtenDts with
                  | none => none
                  | some r => flushResampleLoop env processed idx fuel r.1 r.2.1 r.2.2
      else some (w, lib, writtenDts)

/-- The last loop of `AudioFlushStream` (`while (pMuxAudio->pOutCodecEncodeCtx)`): the
encoder is drained with null frames until it returns no samples. -/
def flushEncodeLoop (processed : ProcessedFn) (idx : Nat) :
    Nat → CAvcodecWriter → LibScript → Int → Option (CAvcodecWriter × LibScript × Int)
  | 0, _, _, _ => none
  | fuel + 1, w, lib, writtenDts =>
    match w.audio[idx]? with
    | none => none
    | some pMuxAudio =>
      if pMuxAudio.pOutCodecEncodeCtx ≠ none then
        match lib.encode with
        | [] => none
        | outcome :: rest =>
          match AudioEncodeFrame w idx none outcome with
          | none => none
          | some encoded =>
            let lib1 := { lib with encode := rest }
            match encoded.1.audio[idx]? with
            | none => none
            | some track =>
              if encoded.2.2.1 = 0 ∨ track.nDecodeError > track.nIgnoreDecodeError then
                some (encoded.1, lib1, writtenDts)
              else
                match processed encoded.1 lib1 (some idx) encoded.2.1 encoded.2.2.1
                    writtenDts with
                | none => none
                | some r => flushEncodeLoop processed idx fuel r.1 r.2.1 r.2.2
      else some (w, lib, writtenDts)

/-- `CAvcodecWriter::AudioFlushStream` for the track at index `idx`. Every round of a
loop takes one outcome of the script, so the loops get one unit of fuel more than the
script has outcomes. -/
def AudioFlushStream (env : Env) (processed : ProcessedFn) (w : CAvcodecWriter)
    (lib : LibScript) (idx : Nat) (writtenDts : Int) :
    Option (CAvcodecWriter × LibScript × Int) :=
  match flushDecodeLoop env processed idx (lib.decode.length + 1) w lib with
  | none => none
  | some r1 =>
    match flushFilter env processed idx r1.1 r1.2 with
    | none => none
    | some r2 =>
      match flushResampleLoop env processed idx (r2.2.resample.length + 1) r2.1 r2.2
          writtenDts with
      | none => none
      | some r3 => flushEncodeLoop processed idx (r3.2.1.encode.length + 1) r3.1 r3.2.1 r3.2.2

/-- The loop `for (i = 0; i < m_Mux.audio.size(); i++) AudioFlushStream(...)` of
`WriteNextPacketProcessed`. -/
def flushAllTracks (env : Env) (processed : ProcessedFn) :
    List Nat → CAvcodecWriter → LibScript → Int → Option (CAvcodecWriter × LibScript × Int)
  | [], w, lib, writtenDts => some (w, lib, writtenDts)
  | i :: rest, w, lib, writtenDts =>
    match AudioFlushStream env processed w lib i writtenDts with
    | none => none
    | some r => flushAllTracks env processed rest r.1 r.2.1 r.2.2

/-- `CAvcodecWriter::WriteNextPacketProcessed` with its flush branch spelled out: a
packet without buffer flushes every track through `AudioFlushStream`, which calls back
into this function; `fuel` bounds the depth of these calls. A packet with a buffer is
stamped and written as in `writeProcessedPacket`. -/
def WriteNextPacketProcessedFlush (env : Env) : Nat → ProcessedFn
  | 0, _, _, _, _, _, _ => none
  | fuel + 1, w, lib, pMuxAudio, pkt, samples, writtenDts =>
    if pkt.buf = 0 then
      match flushAllTracks env (WriteNextPacketProcessedFlush env fuel)
          (List.range w.audio.length) w lib writtenDts with
      | none => none
      | some r => some (r.1, r.2.1, INT64_MAX)
    else
      match pMuxAudio with
      | none => none
      | some idx =>
        if samples ≠ 0 then
          match lib.writeFails with
          | [] => none
          | writeFails :: rest =>
            let r := writeProcessedPacket env w
              { pMuxAudio := idx, pkt := pkt, samples := samples, writeFails := writeFails }
              writtenDts
            some (r.1, { lib with writeFails := rest }, r.2)
        else some (w, lib, writtenDts)

/-- The samples handed to the encoder for the track at index `idx`: the sum of
`nb_samples` over the frames of the log `encoded` that belong to the track. -/
def samplesEncoded (idx : Nat) : List (Nat × Option AVFrame) → Int
  | [] => 0
  | (i, some frame) :: rest =>
    (if i = idx then frame.nb_samples else 0) + samplesEncoded idx rest
  | (_, none) :: rest => samplesEncoded idx rest

/-! ## Audio packets: `WriteNextPacketAudio` -/

/-- The libavutil function `av_cmp_q`: `0` for equal rationals, `1` / `-1` for
`a > b` / `a < b`, `INT_MIN` when one of them is `0/0`. -/
def av_cmp_q (a b : AVRational) : Int :=
  let tmp := a.num * b.den - b.num * a.den
  if tmp ≠ 0 then
    if ((decide (tmp < 0) != decide (a.den < 0)) != decide (b.den < 0)) then -1 else 1
  else if b.den ≠ 0 ∧ a.den ≠ 0 then 0
  else if a.num ≠ 0 ∧ b.num ≠ 0 then
    (if a.num < 0 then -1 else 0) - (if b.num < 0 then -1 else 0)
  else -(2 ^ 31)

/-- What the bitstream-filter block of `WriteNextPacketAudio` leaves: the writer, the
record, the status when the function returns from inside the block (`none` when it goes
on), and the flag `bSetSilenceDueToAACBsfError`. -/
structure BsfBlockResult where
  w : CAvcodecWriter
  pktData : AVPktMuxData
  returned : Option AMF_RESULT
  bSetSilenceDueToAACBsfError : Bool

/-- The block `if (pMuxAudio->pAACBsfc) { ... }` of `WriteNextPacketAudio` for the track
`pMuxAudio` at index `idx`; `nSamples` is the sample count of the packet. -/
def bsfBlock (w : CAvcodecWriter) (idx : Nat) (pMuxAudio : AVMuxAudio) (pktData : AVPktMuxData)
    (nSamples : Int) (outcome : BsfOutcome) : BsfBlockResult :=
  if pMuxAudio.pAACBsfc then
    let r := applyBitstreamFilterAAC w.format pMuxAudio pktData.pkt outcome
    let w1 := { w with format := r.1, audio := w.audio.set idx r.2.1 }
    let pktData1 := { pktData with pkt := r.2.2.1 }
    let sts := r.2.2.2
    if sts > 0 then
      { w := setStreamError w1, pktData := pktData1, returned := some AMF_RESULT.AMF_FAIL,
        bSetSilenceDueToAACBsfError := false }
    else if pktData1.pkt.duration = 0 then
      let pktData2 := { pktData1 with pkt := blankPacket }
      if sts = 0 then
        { w := w1, pktData := pktData2, returned := some AMF_RESULT.AMF_OK,
          bSetSilenceDueToAACBsfError := false }
      else if r.2.1.nPacketWritten = 0 then
        let track := { r.2.1 with
          nDelaySamplesOfAudio := r.2.1.nDelaySamplesOfAudio + nSamples }
        { w := { w1 with audio := w1.audio.set idx track }
          pktData := pktData2
          returned := some (if w1.format.bStreamError then AMF_RESULT.AMF_FAIL
                            else AMF_RESULT.AMF_OK)
          bSetSilenceDueToAACBsfError := false }
      else if ¬ r.2.1.pOutCodecDecodeCtx ∨ w1.format.bStreamError then
        { w := w1, pktData := pktData2
          returned := some (if w1.format.bStreamError then AMF_RESULT.AMF_FAIL
                            else AMF_RESULT.AMF_OK)
          bSetSilenceDueToAACBsfError := false }
      else
        { w := w1, pktData := pktData2, returned := none, bSetSilenceDueToAACBsfError := true }
    else
      { w := w1, pktData := pktData1, returned := none, bSetSilenceDueToAACBsfError := false }
  else
    { w := w, pktData := pktData, returned := none, bSetSilenceDueToAACBsfError := false }

/-- The sample count `pktData->samples` of a pass-through packet in
`WriteNextPacketAudio`. -/
def passThroughSamples (nFPS : AVRational) (pMuxAudio : AVMuxAudio) (pkt : AVPacket) : Int :=
  let samplerate : AVRational := ⟨1, pMuxAudio.inSampleRate⟩
  let samples := av_rescale_q pkt.duration pMuxAudio.inPktTimebase samplerate
  if av_cmp_q pMuxAudio.inPktTimebase ⟨1, 1000⟩ = 0 ∧ pMuxAudio.inFrameSize ≠ 0 then
    pMuxAudio.inFrameSize
  else
    let ptsDiff := pkt.pts - pMuxAudio.nLastPtsIn
    if 0 < ptsDiff
        ∧ ptsDiff < av_rescale_q 1 (av_inv_q nFPS) samplerate
        ∧ pMuxAudio.nLastPtsIn ≠ AV_NOPTS_VALUE
        ∧ 1 < ((ptsDiff - pkt.duration).natAbs : Int) then
      av_rescale_q ptsDiff pMuxAudio.inPktTimebase samplerate
    else samples

/-- The lambda `writeOrSetNextPacketAudioProcessed` of `WriteNextPacketAudio`. -/
def writeOrSetNextPacketAudioProcessed (processed : ProcessedFn) (w : CAvcodecWriter)
    (lib : LibScript) (pktData : AVPktMuxData) :
    Option (CAvcodecWriter × LibScript × AVPktMuxData) :=
  if w.thread.thAudProcess then
    some ((AddAudQueue w pktData
        (if w.thread.thAudEncode then AudQueueType.AUD_QUEUE_ENCODE
          else AudQueueType.AUD_QUEUE_OUT)).1, lib, pktData)
  else processedRecord processed w lib pktData

/-- The silent frame `WriteNextPacketAudio` builds after a bitstream-filter error:
`nSamples` samples of silence in the resampler's input format. -/
def silenceFrame (env : Env) (pMuxAudio : AVMuxAudio) (nSamples : Int) : AVFrame :=
  { nb_samples := nSamples
    channels := pMuxAudio.nResamplerInChannels
    channel_layout := pMuxAudio.nResamplerInChannelLayout
    sample_rate := pMuxAudio.nResamplerInSampleRate
    format := pMuxAudio.ResamplerInSampleFmt
    data := List.replicate
      (if env.av_sample_fmt_is_planar pMuxAudio.ResamplerInSampleFmt then
        pMuxAudio.nResamplerInChannels.toNat else 1)
      (List.replicate nSamples.toNat 0) }

/-- The re-encoding branch of `WriteNextPacketAudio`
(`else if (!(nDecodeError > nIgnoreDecodeError) && !bEncodeError)`). -/
def reencodePacket (env : Env) (processed : ProcessedFn) (w : CAvcodecWriter)
    (lib : LibScript) (idx : Nat) (pMuxAudio : AVMuxAudio) (pktData : AVPktMuxData)
    (nSamples : Int) (bSetSilenceDueToAACBsfError : Bool) :
    Option (CAvcodecWriter × LibScript × AVPktMuxData × AMF_RESULT) :=
  let decoded : Option (CAvcodecWriter × LibScript × AVPktMuxData) :=
    if bSetSilenceDueToAACBsfError then
      some (w, lib, { pktData with
        type := AVMuxDataType.MUX_DATA_TYPE_FRAME
        pFrame := some (silenceFrame env pMuxAudio nSamples) })
    else
      match lib.decode with
      | [] => none
      | outcomes :: rest =>
        match AudioDecodePacket env pMuxAudio w.format.bStreamError pktData.pkt outcomes with
        | none => none
        | some r =>
          some (applyDecodeResult w idx r, { lib with decode := rest },
            { pktData with
              got_result := if r.got_result then 1 else 0
              pkt := if pktData.pkt.data ≠ none then blankPacket else pktData.pkt
              type := AVMuxDataType.MUX_DATA_TYPE_FRAME
              pFrame := r.frame })
  match decoded with
  | none => none
  | some d =>
    if d.2.2.got_result ≠ 0 then
      match AudioFilterFrame env d.1 d.2.1 idx d.2.2.pFrame with
      | none => none
      | some filtered =>
        let pktData1 := { d.2.2 with pFrame := filtered.2.2.1 }
        if filtered.2.2.2 ≠ AMF_RESULT.AMF_OK then
          some (filtered.1, filtered.2.1, pktData1, filtered.2.2.2)
        else
          match WriteNextPacketToAudioSubtracks env processed filtered.1 filtered.2.1
              pktData1 with
          | none => none
          | some r => some (r.1, r.2.1, { pktData1 with pFrame := none }, streamStatus r.1)
    else
      match WriteNextPacketToAudioSubtracks env processed d.1 d.2.1 d.2.2 with
      | none => none
      | some r => some (r.1, r.2.1, { d.2.2 with pFrame := none }, streamStatus r.1)

/-- `CAvcodecWriter::WriteNextPacketAudio`. `bsf` is the outcome of the bitstream filter
for this packet (used when the track has one). -/
def WriteNextPacketAudio (env : Env) (processed : ProcessedFn) (w : CAvcodecWriter)
    (lib : LibScript) (pktData : AVPktMuxData) (bsf : BsfOutcome) :
    Option (CAvcodecWriter × LibScript × AVPktMuxData × AMF_RESULT) :=
  let pktData0 := { pktData with samples := 0 }
  match pktData0.pMuxAudio with
  | none =>
    some (setStreamError w, lib, { pktData0 with pkt := blankPacket },
      AMF_RESULT.AMF_INVALID_POINTER)
  | some idx =>
    match w.audio[idx]? with
    | none => none
    | some pMuxAudio =>
      let nSamples := av_rescale_q pktData0.pkt.duration pMuxAudio.inPktTimebase
        ⟨1, pMuxAudio.inSampleRate⟩
      let block := bsfBlock w idx pMuxAudio pktData0 nSamples bsf
      match block.returned with
      | some sts => some (block.w, lib, block.pktData, sts)
      | none =>
        match block.w.audio[idx]? with
        | none => none
        | some track =>
          let track1 := { track with nPacketWritten := track.nPacketWritten + 1 }
          if ¬ track1.pOutCodecDecodeCtx then
            let pktData1 := { block.pktData with
              samples := passThroughSamples block.w.video.nFPS track1 block.pktData.pkt }
            let track2 := { track1 with nLastPtsIn := pktData1.pkt.pts }
            match writeOrSetNextPacketAudioProcessed processed
                { block.w with audio := block.w.audio.set idx track2 } lib pktData1 with
            | none => none
            | some r => some (r.1, r.2.1, r.2.2, streamStatus r.1)
          else
            let w1 := { block.w with audio := block.w.audio.set idx track1 }
            if ¬ (track1.nDecodeError > track1.nIgnoreDecodeError) ∧ ¬ track1.bEncodeError then
              reencodePacket env processed w1 lib idx track1 block.pktData nSamples
                block.bSetSilenceDueToAACBsfError
            else some (w1, lib, block.pktData, streamStatus w1)

/-! ## Frame conditions of the packet path -/

/-- The writer `w1` keeps what the audio and subtitle path never changes in `w`: a
stream error that is set stays set, and the container context, the flag
`bFileHeaderWritten` and the head buffer are the same. -/
def keepsFormat (w w1 : CAvcodecWriter) : Prop :=
  (w.format.bStreamError = true → w1.format.bStreamError = true)
  ∧ w1.format.pFormatCtx = w.format.pFormatCtx
  ∧ w1.format.bFileHeaderWritten = w.format.bFileHeaderWritten
  ∧ w1.m_AudPktBufFileHead = w.m_AudPktBufFileHead

/-- The writer `w1` keeps a stream error of `w` and has the same container context. -/
def keepsError (w w1 : CAvcodecWriter) : Prop :=
  (w.format.bStreamError = true → w1.format.bStreamError = true)
  ∧ w1.format.pFormatCtx = w.format.pFormatCtx

/-- Every call of `processed` keeps the format state. -/
def processedKeeps (processed : ProcessedFn) : Prop :=
  ∀ w lib i pkt samples d r, processed w lib i pkt samples d = some r → keepsFormat w r.1

/-- The stages after `WriteNextPacketInternal` keep the format state. -/
def stagesKeepFormat (stages : PacketStages) : Prop :=
  (∀ w i dts, keepsFormat w (stages.AudioFlushStream w i dts).1)
  ∧ (∀ w pkt, keepsFormat w (stages.SubtitleWritePacket w pkt).1)
  ∧ (∀ w pktData, keepsFormat w (stages.WriteNextPacketAudio w pktData).1)

/-- One packet- or frame-processing operation of the writer: a video access unit
(`WriteNextFrameInternal`), an audio / subtitle / drain record
(`WriteNextPacketInternal`, for stages that keep the format state), or one of the stages
behind it called on its own, as the audio threads do: `WriteNextPacketAudio`,
`SubtitleWritePacket`, `AudioFlushStream`, `WriteNextAudioFrame` and
`WriteNextPacketProcessed`. -/
inductive WriterStep (env : Env) : CAvcodecWriter → CAvcodecWriter → Prop
  | frame (w : CAvcodecWriter) (call : FrameCall)
      (r : CAvcodecWriter × sBitstream × Int × AMF_RESULT) :
      WriteNextFrameInternal env w call = some r → WriterStep env w r.1
  | packet (stages : PacketStages) (fuel : Nat) (w : CAvcodecWriter) (pktData : AVPktMuxData)
      (r : CAvcodecWriter × AVPktMuxData × AMF_RESULT) :
      stagesKeepFormat stages → WriteNextPacketInternal stages fuel w pktData = some r →
      WriterStep env w r.1
  | audio (fuel : Nat) (w : CAvcodecWriter) (lib : LibScript) (pktData : AVPktMuxData)
      (bsf : BsfOutcome) (r : CAvcodecWriter × LibScript × AVPktMuxData × AMF_RESULT) :
      WriteNextPacketAudio env (WriteNextPacketProcessedFlush env fuel) w lib pktData bsf
        = some r → WriterStep env w r.1
  | subtitle
      (SubtitleTranscode : CAvcodecWriter → AVMuxSub → AVPacket → CAvcodecWriter × AMF_RESULT)
      (w : CAvcodecWriter) (pkt : AVPacket) (writeFails : Bool)
      (r : CAvcodecWriter × AMF_RESULT) :
      (∀ w1 sub pkt1, keepsFormat w1 (SubtitleTranscode w1 sub pkt1).1) →
      SubtitleWritePacket SubtitleTranscode w pkt writeFails = some r → WriterStep env w r.1
  | flush (fuel : Nat) (w : CAvcodecWriter) (lib : LibScript) (idx : Nat) (d : Int)
      (r : CAvcodecWriter × LibScript × Int) :
      AudioFlushStream env (WriteNextPacketProcessedFlush env fuel) w lib idx d = some r →
      WriterStep env w r.1
  | encode (fuel : Nat) (w : CAvcodecWriter) (lib : LibScript) (pktData : AVPktMuxData)
      (r : CAvcodecWriter × LibScript × AVPktMuxData × AMF_RESULT) :
      WriteNextAudioFrame (WriteNextPacketProcessedFlush env fuel) w lib pktData = some r →
      WriterStep env w r.1
  | processed (fuel : Nat) (w : CAvcodecWriter) (lib : LibScript) (pMuxAudio : Option Nat)
      (pkt : AVPacket) (samples d : Int) (r : CAvcodecWriter × LibScript × Int) :
      WriteNextPacketProcessedFlush env fuel w lib pMuxAudio pkt samples d = some r →
      WriterStep env w r.1

/-! ## Audio encoder setup: `AutoSelectSampleFmt` -/

/-- The libavutil sample format `AV_SAMPLE_FMT_NONE`. -/
def AV_SAMPLE_FMT_NONE : Int := -1
/-- The libavutil sample format `AV_SAMPLE_FMT_U8`. -/
def AV_SAMPLE_FMT_U8 : Int := 0
/-- The libavutil sample format `AV_SAMPLE_FMT_S16`. -/
def AV_SAMPLE_FMT_S16 : Int := 1
/-- The libavutil sample format `AV_SAMPLE_FMT_S32`. -/
def AV_SAMPLE_FMT_S32 : Int := 2
/-- The libavutil sample format `AV_SAMPLE_FMT_FLT`. -/
def AV_SAMPLE_FMT_FLT : Int := 3
/-- The libavutil sample format `AV_SAMPLE_FMT_DBL`. -/
def AV_SAMPLE_FMT_DBL : Int := 4
/-- The libavutil sample format `AV_SAMPLE_FMT_U8P`. -/
def AV_SAMPLE_FMT_U8P : Int := 5
/-- The libavutil sample format `AV_SAMPLE_FMT_S16P`. -/
def AV_SAMPLE_FMT_S16P : Int := 6
/-- The libavutil sample format `AV_SAMPLE_FMT_S32P`. -/
def AV_SAMPLE_FMT_S32P : Int := 7
/-- The libavutil sample format `AV_SAMPLE_FMT_FLTP`. -/
def AV_SAMPLE_FMT_FLTP : Int := 8
/-- The libavutil sample format `AV_SAMPLE_FMT_DBLP`. -/
def AV_SAMPLE_FMT_DBLP : Int := 9

/-- The table `sampleFmtLevel` of `AutoSelectSampleFmt`: sample format and level. -/
def sampleFmtLevel : List (Int × Int) :=
  [(AV_SAMPLE_FMT_DBLP, 8), (AV_SAMPLE_FMT_DBL, 8), (AV_SAMPLE_FMT_FLTP, 6),
   (AV_SAMPLE_FMT_FLT, 6), (AV_SAMPLE_FMT_S32P, 4), (AV_SAMPLE_FMT_S32, 4),
   (AV_SAMPLE_FMT_S16P, 2), (AV_SAMPLE_FMT_S16, 2), (AV_SAMPLE_FMT_U8P, 1),
   (AV_SAMPLE_FMT_U8, 1)]

/-- The entries of a sample-format array that the loops
`for (i = 0; pSamplefmtList[i] >= 0; i++)` visit: those in front of the terminator, the
first negative entry (the end of the modelled list reads as the terminator). -/
def offeredFormats (pSamplefmtList : List Int) : List Int :=
  pSamplefmtList.takeWhile (fun fmt => decide (0 ≤ fmt))

/-- `CAvcodecWriter::AutoSelectSampleFmt`; `srcFormat` is `pSrcAudioCtx->sample_fmt`,
`pSamplefmtList` is `none` for a null pointer. The result is `none` when the source
format is not in the table `sampleFmtLevel` (the first `find_if` returns `end()`, which
the function dereferences). -/
def AutoSelectSampleFmt (pSamplefmtList : Option (List Int)) (srcFormat : Int) : Option Int :=
  match pSamplefmtList with
  | none => some srcFormat
  | some list =>
    if srcFormat = AV_SAMPLE_FMT_NONE then some (list.headD AV_SAMPLE_FMT_NONE)
    else if (offeredFormats list).contains srcFormat then some srcFormat
    else
      match sampleFmtLevel.find? (fun targetFormat => targetFormat.1 == srcFormat) with
      | none => none
      | some entry =>
        let srcFormatLevel := entry.2
        let foundFormat :=
          sampleFmtLevel.dropWhile (fun targetFormat => targetFormat.2 != srcFormatLevel)
        match foundFormat.find? (fun t => (offeredFormats list).contains t.1) with
        | some t => some t.1
        | none => some (list.headD AV_SAMPLE_FMT_NONE)

/-- The quality tier of a sample format of the tier table: dbl 8, flt 6, s32 4, s16 2,
u8 1, planar or not (`0` for any other value). -/
def sampleFmtTier (fmt : Int) : Int :=
  ((sampleFmtLevel.find? (fun t => t.1 == fmt)).map Prod.snd).getD 0

/-- The formats of the tier table at the tier of `srcFormat` or below it, in the order
of the table. -/
def tierCandidates (srcFormat : Int) : List Int :=
  (sampleFmtLevel.filter (fun t => decide (t.2 ≤ sampleFmtTier srcFormat))).map Prod.fst

/-! ## `VCECore::checkParam` -/

/-- The crop of the input frame (`m_inputInfo.crop`). -/
structure sInputCrop where
  left : Int
  up : Int
  right : Int
  bottom : Int
deriving DecidableEq, Repr

/-- The frame information `m_inputInfo`, also the type of the value the reader returns
from `GetInputFrameInfo()`; `fps` is a numerator / denominator pair. -/
structure VCEInputInfo where
  fps : AVRational
  srcWidth : Int
  srcHeight : Int
  frames : Int
  format : Int
  crop : sInputCrop
  dstWidth : Int
  dstHeight : Int
deriving DecidableEq, Repr

/-- The fields of `VCEParam` that `checkParam` reads or writes; `interlaced` is the value
of `is_interlaced(prm)`. -/
structure VCEParam where
  interlaced : Bool
  nBframes : Int
  nBitrate : Int
  nMaxBitrate : Int
  nVBVBufferSize : Int
  nGOPLen : Int
  nDeltaQPBFrame : Int
  nDeltaQPBFrameRef : Int
  nQPMax : Int
  nQPMin : Int
  nQPI : Int
  nQPP : Int
  nQPB : Int
deriving DecidableEq, Repr

/-- The limits `VCE_MAX_BFRAMES`, `VCE_MAX_BITRATE`, `VCE_MAX_GOP_LEN` and
`VCE_MAX_B_DELTA_QP` (constants of a header outside the embedded files). -/
structure VCELimits where
  VCE_MAX_BFRAMES : Int
  VCE_MAX_BITRATE : Int
  VCE_MAX_GOP_LEN : Int
  VCE_MAX_B_DELTA_QP : Int
deriving DecidableEq, Repr

/-- The utility `clamp(x, low, high)`. -/
def clampInt (x low high : Int) : Int := min (max x low) high

/-- The part of `VCECore::checkParam` that adjusts the encoder parameters in `prm`
(the statements after the frame-size checks). -/
def clampParam (limits : VCELimits) (prm : VCEParam) : VCEParam :=
  let prm1 := if prm.nBframes > limits.VCE_MAX_BFRAMES then
    { prm with nBframes := limits.VCE_MAX_BFRAMES } else prm
  let prm2 := if prm1.nBitrate > limits.VCE_MAX_BITRATE then
    { prm1 with nBitrate := limits.VCE_MAX_BITRATE } else prm1
  let prm3 := if prm2.nMaxBitrate > limits.VCE_MAX_BITRATE then
    { prm2 with nMaxBitrate := limits.VCE_MAX_BITRATE } else prm2
  let prm4 := if prm3.nVBVBufferSize > limits.VCE_MAX_BITRATE then
    { prm3 with nVBVBufferSize := limits.VCE_MAX_BITRATE } else prm3
  let prm5 := if prm4.nGOPLen > limits.VCE_MAX_GOP_LEN then
    { prm4 with nGOPLen := limits.VCE_MAX_GOP_LEN } else prm4
  let low := -1 * limits.VCE_MAX_B_DELTA_QP
  let high := limits.VCE_MAX_B_DELTA_QP
  let prm6 := if (prm5.nDeltaQPBFrame.natAbs : Int) > limits.VCE_MAX_B_DELTA_QP then
    { prm5 with nDeltaQPBFrame := clampInt prm5.nDeltaQPBFrame low high } else prm5
  let prm7 := if (prm6.nDeltaQPBFrameRef.natAbs : Int) > limits.VCE_MAX_B_DELTA_QP then
    { prm6 with nDeltaQPBFrameRef := clampInt prm6.nDeltaQPBFrameRef low high } else prm6
  { prm7 with
    nQPMax := clampInt prm7.nQPMax 0 51
    nQPMin := clampInt prm7.nQPMin 0 51
    nQPI := clampInt prm7.nQPI 0 51
    nQPP := clampInt prm7.nQPP 0 51
    nQPB := clampInt prm7.nQPB 0 51 }

/-- The first statements of `VCECore::checkParam`: the frame information the reader
reports overrides the member where it is set. -/
def applySrcInfo (m_inputInfo srcInfo : VCEInputInfo) : VCEInputInfo :=
  let info1 := if m_inputInfo.fps.num ≤ 0 ∨ m_inputInfo.fps.den ≤ 0 then
    { m_inputInfo with fps := srcInfo.fps } else m_inputInfo
  let info2 := if srcInfo.srcWidth ≠ 0 then { info1 with srcWidth := srcInfo.srcWidth }
    else info1
  let info3 := if srcInfo.srcHeight ≠ 0 then { info2 with srcHeight := srcInfo.srcHeight }
    else info2
  let info4 := if srcInfo.frames ≠ 0 then { info3 with frames := srcInfo.frames } else info3
  if srcInfo.format ≠ 0 then { info4 with format := srcInfo.format } else info4

/-- The statements of `VCECore::checkParam` from the subtraction of the crop on:
`info` is `m_inputInfo` in front of them, `h_mul` the multiple required of the heights. -/
def checkCropped (limits : VCELimits) (h_mul : Int) (info : VCEInputInfo) (prm : VCEParam) :
    VCEInputInfo × VCEParam × AMF_RESULT :=
  let info7 := { info with
    srcWidth := info.srcWidth - (info.crop.left + info.crop.right)
    srcHeight := info.srcHeight - (info.crop.bottom + info.crop.up) }
  if info7.srcWidth.tmod 2 ≠ 0 then (info7, prm, AMF_RESULT.AMF_FAIL)
  else if info7.srcHeight.tmod h_mul ≠ 0 then (info7, prm, AMF_RESULT.AMF_FAIL)
  else
    let info8 := if info7.dstWidth ≤ 0 then { info7 with dstWidth := info7.srcWidth }
      else info7
    let info9 := if info8.dstHeight ≤ 0 then { info8 with dstHeight := info8.srcHeight }
      else info8
    if info9.dstWidth.tmod 2 ≠ 0 then (info9, prm, AMF_RESULT.AMF_FAIL)
    else if info9.dstHeight.tmod h_mul ≠ 0 then (info9, prm, AMF_RESULT.AMF_FAIL)
    else (info9, clampParam limits prm, AMF_RESULT.AMF_OK)

/-- `VCECore::checkParam` (messages left out): `m_inputInfo` is the member on entry,
`srcInfo` the value of `m_pFileReader->GetInputFrameInfo()`. The result holds the
member and `prm` on exit and the status. `vce_gcd` is the greatest common divisor; `/`
and `%` are the truncating operators of C. -/
def checkParam (limits : VCELimits) (m_inputInfo srcInfo : VCEInputInfo) (prm : VCEParam) :
    VCEInputInfo × VCEParam × AMF_RESULT :=
  let info5 := applySrcInfo m_inputInfo srcInfo
  if info5.fps.num ≤ 0 ∨ info5.fps.den ≤ 0 then (info5, prm, AMF_RESULT.AMF_FAIL)
  else
    let fps_gcd : Int := (Int.gcd info5.fps.num info5.fps.den : Nat)
    let info6 := { info5 with
      fps := ⟨info5.fps.num.tdiv fps_gcd, info5.fps.den.tdiv fps_gcd⟩ }
    if info6.srcWidth ≤ 0 ∨ info6.srcHeight ≤ 0 then (info6, prm, AMF_RESULT.AMF_FAIL)
    else
      let h_mul : Int := if prm.interlaced then 4 else 2
      if info6.srcWidth.tmod 2 ≠ 0 then (info6, prm, AMF_RESULT.AMF_FAIL)
      else if info6.srcHeight.tmod h_mul ≠ 0 then (info6, prm, AMF_RESULT.AMF_FAIL)
      else if info6.srcWidth < info6.crop.left + info6.crop.right
          ∨ info6.srcHeight < info6.crop.bottom + info6.crop.up then
        (info6, prm, AMF_RESULT.AMF_FAIL)
      else checkCropped limits h_mul info6 prm

/-! ## Subtitle tracks: `InitSubtitle` -/

/-- The codec id `AV_CODEC_ID_MOV_TEXT` of libavcodec. -/
def AV_CODEC_ID_MOV_TEXT : Nat := 0x17005
/-- The codec id `AV_CODEC_ID_ASS` of libavcodec. -/
def AV_CODEC_ID_ASS : Nat := 0x1780D
/-- The codec property flag `AV_CODEC_PROP_TEXT_SUB` of libavcodec (`1 << 17`). -/
def AV_CODEC_PROP_TEXT_SUB : Nat := 0x20000

/-- The fields of `pInputSubtitle->src` that `InitSubtitle` reads: `codec_id`,
`pkt_timebase` and `time_base` are fields of `src.pCodecCtx`. -/
structure SubtitleSource where
  codec_id : Nat
  pkt_timebase : AVRational
  time_base : AVRational
  nTrackId : Int
  nIndex : Int
deriving DecidableEq, Repr

/-- The libavformat / libavcodec calls of `InitSubtitle`: `avformat_new_stream` gives
the index of the new stream (`none` for `NULL`), `avcodec_descriptor_get` the `props` of
the descriptor of a codec id (`none` for `NULL`), `avcodec_find_decoder` and
`avcodec_find_encoder` tell whether a codec is found; `decoderCtx`, `decoderOpen`,
`encoderCtx`, `encoderOpen` and `bufAlloc` tell whether `avcodec_alloc_context3`,
`avcodec_open2` (for the decoder and for the encoder) and `av_malloc` succeed. -/
structure SubtitleInitLib where
  avformat_new_stream : Option Int
  avcodec_descriptor_get : Nat → Option Nat
  avcodec_find_decoder : Nat → Bool
  decoderCtx : Bool
  decoderOpen : Bool
  avcodec_find_encoder : Nat → Bool
  encoderCtx : Bool
  encoderOpen : Bool
  bufAlloc : Bool

/-- What `InitSubtitle` sets up: the track `pMuxSub`, whether it has a decoder context
(`pOutCodecDecodeCtx`), and the codec id of the output stream. -/
structure SubtitleInit where
  sub : AVMuxSub
  pOutCodecDecodeCtx : Bool
  codec_id : Nat
deriving DecidableEq, Repr

/-- The test of `InitSubtitle` on the name of the output format (`oformat->name`): one
of mp4, mov, 3gp, 3g2, psp, ipod, f4v. -/
def isMp4Family (name : String) : Bool :=
  name == "mp4" || name == "mov" || name == "3gp" || name == "3g2" || name == "psp"
    || name == "ipod" || name == "f4v"

/-- The output codec id `codecId` that `InitSubtitle` chooses; `none` when
`avcodec_descriptor_get` returns `NULL`, which the function dereferences. -/
def subtitleCodecId (lib : SubtitleInitLib) (oformatName : String) (src : SubtitleSource) :
    Option Nat :=
  if isMp4Family oformatName then
    match lib.avcodec_descriptor_get src.codec_id with
    | none => none
    | some props =>
      if props &&& AV_CODEC_PROP_TEXT_SUB ≠ 0 then some AV_CODEC_ID_MOV_TEXT
      else some src.codec_id
  else if src.codec_id = AV_CODEC_ID_MOV_TEXT then some AV_CODEC_ID_ASS
  else some src.codec_id

/-- The track `InitSubtitle` sets up for decoding and re-encoding to `codecId`: the
encoder context libavcodec allocates for the encoder of `codecId` carries that codec id,
and its `time_base` is the `1/1000` the function sets. -/
def transcodedSubtitle (streamIndex : Int) (codecId : Nat) (vid_pkt_timebase : AVRational)
    (src : SubtitleSource) : SubtitleInit :=
  { sub :=
      { nInTrackId := src.nTrackId, nStreamIndexIn := src.nIndex
        inPktTimebase := src.pkt_timebase, streamIndex := streamIndex
        streamTimeBase :=
          if codecId = AV_CODEC_ID_MOV_TEXT then vid_pkt_timebase else ⟨1, 1000⟩
        pOutCodecEncodeCtx := true }
    pOutCodecDecodeCtx := true
    codec_id := codecId }

/-- The track `InitSubtitle` sets up for copying (`srcCodecCtx` is the input codec
context). -/
def copiedSubtitle (streamIndex : Int) (codecId : Nat) (vid_pkt_timebase : AVRational)
    (src : SubtitleSource) : SubtitleInit :=
  { sub :=
      { nInTrackId := src.nTrackId, nStreamIndexIn := src.nIndex
        inPktTimebase := src.pkt_timebase, streamIndex := streamIndex
        streamTimeBase :=
          if codecId = AV_CODEC_ID_MOV_TEXT then vid_pkt_timebase else src.time_base
        pOutCodecEncodeCtx := false }
    pOutCodecDecodeCtx := false
    codec_id := src.codec_id }

/-- `CAvcodecWriter::InitSubtitle` (subtitle header, extradata, metadata, codec tag, frame
size and logging left out). `oformatName` is `m_Mux.format.pFormatCtx->oformat->name`, `vidPktTimebase` the
`pkt_timebase` of `m_Mux.video.pCodecCtx` when there is one, `nFPS` is
`m_Mux.video.nFPS`. The result is `none` for the null dereference of `subtitleCodecId`;
otherwise it holds the status and, for `AMF_OK`, what was set up. -/
def InitSubtitle (lib : SubtitleInitLib) (oformatName : String)
    (vidPktTimebase : Option AVRational) (nFPS : AVRational) (src : SubtitleSource) :
    Option (Option SubtitleInit × AMF_RESULT) :=
  match lib.avformat_new_stream with
  | none => some (none, AMF_RESULT.AMF_INVALID_POINTER)
  | some streamIndex =>
    match subtitleCodecId lib oformatName src with
    | none => none
    | some codecId =>
      let vid_pkt_timebase :=
        match vidPktTimebase with
        | some tb => tb
        | none => av_inv_q nFPS
      if codecId ≠ src.codec_id ∨ codecId = AV_CODEC_ID_MOV_TEXT then
        if ¬ lib.avcodec_find_decoder src.codec_id then
          some (none, AMF_RESULT.AMF_INVALID_POINTER)
        else if ¬ lib.decoderCtx then some (none, AMF_RESULT.AMF_INVALID_POINTER)
        else if ¬ lib.decoderOpen then some (none, AMF_RESULT.AMF_INVALID_POINTER)
        else if ¬ lib.avcodec_find_encoder codecId then
          some (none, AMF_RESULT.AMF_INVALID_POINTER)
        else if ¬ lib.encoderCtx then some (none, AMF_RESULT.AMF_INVALID_POINTER)
        else if ¬ lib.encoderOpen then some (none, AMF_RESULT.AMF_INVALID_POINTER)
        else if ¬ lib.bufAlloc then some (none, AMF_RESULT.AMF_INVALID_POINTER)
        else
          some (some (transcodedSubtitle streamIndex codecId vid_pkt_timebase src),
            AMF_RESULT.AMF_OK)
      else
        some (some (copiedSubtitle streamIndex codecId vid_pkt_timebase src),
          AMF_RESULT.AMF_OK)

/-- The source codec is a text subtitle: its descriptor has the property
`AV_CODEC_PROP_TEXT_SUB`. -/
def isTextSubtitle (lib : SubtitleInitLib) (codec_id : Nat) : Prop :=
  ∃ props, lib.avcodec_descriptor_get codec_id = some props
    ∧ props &&& AV_CODEC_PROP_TEXT_SUB ≠ 0

/-- The condition of the specification under which a subtitle track is transcoded:
(a) MP4-family container and text subtitle, or (b) other container and `mov_text`. -/
def transcodeRequired (lib : SubtitleInitLib) (oformatName : String) (src : SubtitleSource) :
    Prop :=
  (isMp4Family oformatName = true ∧ isTextSubtitle lib src.codec_id)
  ∨ (isMp4Family oformatName = false ∧ src.codec_id = AV_CODEC_ID_MOV_TEXT)

/-- Every library call of the transcoding branch of `InitSubtitle` succeeds. -/
def transcodeLibOk (lib : SubtitleInitLib) : Prop :=
  (∀ id, lib.avcodec_find_decoder id = true) ∧ lib.decoderCtx = true ∧ lib.decoderOpen = true
  ∧ (∀ id, lib.avcodec_find_encoder id = true) ∧ lib.encoderCtx = true
  ∧ lib.encoderOpen = true ∧ lib.bufAlloc = true

/-! ## The output thread: interleaving audio and video -/

/-- The constant `nWaitThreshold` of `WriteThreadFunc`. -/
def nWaitThreshold : Int := 32

/-- The constant `videoPacketThreshold` of `WriteThreadFunc`,
`std::min<size_t>(3072, qVideobitstream.capacity()) - nWaitThreshold`, computed in
`size_t` (64 bits). -/
def videoPacketThreshold (capacity : Nat) : Nat :=
  (min 3072 capacity + 2 ^ 64 - 32) % 2 ^ 64

/-- The constant `audioPacketThreshold` of `WriteThreadFunc`,
`std::min<size_t>(6144, qAudioPacketOut.capacity()) - nWaitThreshold`, computed in
`size_t` (64 bits). -/
def audioPacketThreshold (capacity : Nat) : Nat :=
  (min 6144 capacity + 2 ^ 64 - 32) % 2 ^ 64

/-- What the interleaving loop of `WriteThreadFunc` is given: the capacities of the two
queues when the thread starts and the constant `dtsThreshold`. -/
structure WriteThreadConst where
  videoCapacity : Nat
  audioCapacity : Nat
  dtsThreshold : Int
deriving DecidableEq, Repr

/-- The variables of the interleaving loop of `WriteThreadFunc` and the two queues it
drains. A queued audio record is represented by the value of `pktData.dts` after the
record has been processed, a queued video buffer by the value `WriteNextFrameInternal`
stores in `*pWrittenDts` for it (`none` when it stores nothing). -/
structure WriteThreadState where
  qAudioPacketOut : List Int
  qVideobitstream : List (Option Int)
  audioDts : Int
  videoDts : Int
  bAudioExists : Bool
  bVideoExists : Bool
  nWaitAudio : Int
  nWaitVideo : Int
deriving DecidableEq, Repr

/-- The loop `while ((videoDts < 0 || audioDts <= videoDts + dtsThreshold) &&
false != (bAudioExists = qAudioPacketOut.front_copy_and_pop_no_lock(...)))` of
`WriteThreadFunc`; the arguments after the queue are `audioDts`, `nWaitAudio` and
`bAudioExists`, the result holds the queue and these three variables at loop exit. -/
def drainAudio (dtsThreshold videoDts : Int) :
    List Int → Int → Int → Bool → List Int × Int × Int × Bool
  | [], audioDts, nWaitAudio, bAudioExists =>
    if videoDts < 0 ∨ audioDts ≤ videoDts + dtsThreshold then ([], audioDts, nWaitAudio, false)
    else ([], audioDts, nWaitAudio, bAudioExists)
  | dts :: rest, audioDts, nWaitAudio, bAudioExists =>
    if videoDts < 0 ∨ audioDts ≤ videoDts + dtsThreshold then
      drainAudio dtsThreshold videoDts rest (max audioDts dts) 0 true
    else (dts :: rest, audioDts, nWaitAudio, bAudioExists)

/-- The loop `while ((audioDts < 0 || videoDts <= audioDts + dtsThreshold) &&
false != (bVideoExists = qVideobitstream.front_copy_and_pop_no_lock(...)))` of
`WriteThreadFunc`; the arguments after the queue are `videoDts`, `nWaitVideo` and
`bVideoExists`. -/
def drainVideo (dtsThreshold audioDts : Int) :
    List (Option Int) → Int → Int → Bool → List (Option Int) × Int × Int × Bool
  | [], videoDts, nWaitVideo, bVideoExists =>
    if audioDts < 0 ∨ videoDts ≤ audioDts + dtsThreshold then ([], videoDts, nWaitVideo, false)
    else ([], videoDts, nWaitVideo, bVideoExists)
  | written :: rest, videoDts, nWaitVideo, bVideoExists =>
    if audioDts < 0 ∨ videoDts ≤ audioDts + dtsThreshold then
      drainVideo dtsThreshold audioDts rest (written.getD videoDts) 0 true
    else (written :: rest, videoDts, nWaitVideo, bVideoExists)

/-- The first part of one round of the `do { ... } while` loop of `WriteThreadFunc`
(header written): both flags are cleared, then the audio queue and the video queue are
drained as far as the dts window allows. -/
def drainQueues (c : WriteThreadConst) (s : WriteThreadState) : WriteThreadState :=
  let a := drainAudio c.dtsThreshold s.videoDts s.qAudioPacketOut s.audioDts s.nWaitAudio false
  let v := drainVideo c.dtsThreshold a.2.1 s.qVideobitstream s.videoDts s.nWaitVideo false
  { qAudioPacketOut := a.1, audioDts := a.2.1, nWaitAudio := a.2.2.1, bAudioExists := a.2.2.2
    qVideobitstream := v.1, videoDts := v.2.1, nWaitVideo := v.2.2.1, bVideoExists := v.2.2.2 }

/-- The second `if` of the forced-progress part of `WriteThreadFunc` (video queue
empty, audio queue above its threshold) and the loop condition
`bAudioExists || bVideoExists`. The flag of the result tells whether the `do` loop goes
round again (`false` after a `break`). -/
def waitVideo (c : WriteThreadConst) (s : WriteThreadState) : WriteThreadState × Bool :=
  if s.qVideobitstream.length = 0
      ∧ s.qAudioPacketOut.length > audioPacketThreshold c.audioCapacity then
    let s1 := { s with nWaitVideo := s.nWaitVideo + 1 }
    if s1.nWaitVideo ≤ nWaitThreshold then (s1, false)
    else ({ s1 with videoDts := -1 }, s1.bAudioExists || s1.bVideoExists)
  else (s, s.bAudioExists || s.bVideoExists)

/-- The first `if` of the forced-progress part of `WriteThreadFunc` (audio queue empty,
video queue above its threshold), followed by `waitVideo` unless it leaves the loop. -/
def waitAudio (c : WriteThreadConst) (s : WriteThreadState) : WriteThreadState × Bool :=
  if s.qAudioPacketOut.length = 0
      ∧ s.qVideobitstream.length > videoPacketThreshold c.videoCapacity then
    let s1 := { s with nWaitAudio := s.nWaitAudio + 1 }
    if s1.nWaitAudio ≤ nWaitThreshold then (s1, false)
    else waitVideo c { s1 with audioDts := -1 }
  else waitVideo c s

/-- One round of the `do { ... } while (bAudioExists || bVideoExists)` loop of
`WriteThreadFunc`, as a step on the loop variables and the queues (the sums
`dts + dtsThreshold` are taken without wrap-around; the changes of the audio queue's
capacity, while the header is missing and in the audio loop, do not touch the
thresholds, which are computed once before the loop). -/
def writeThreadIteration (c : WriteThreadConst) (bFileHeaderWritten : Bool)
    (s : WriteThreadState) : WriteThreadState × Bool :=
  if ¬ bFileHeaderWritten then (s, false)
  else waitAudio c (drainQueues c s)

/-- The loop variables after `n` rounds with the header written, while nothing is pushed
on the queues. -/
def writeThreadRun (c : WriteThreadConst) : Nat → WriteThreadState → WriteThreadState
  | 0, s => s
  | n + 1, s => writeThreadRun c n (writeThreadIteration c true s).1

/-- The audio side is starved: the audio queue is empty, audio has been written before
(`audioDts ≥ 0`), video is ahead of the dts window and more than `videoPacketThreshold`
video buffers are queued. -/
def audioStalled (c : WriteThreadConst) (s : WriteThreadState) : Prop :=
  s.qAudioPacketOut = [] ∧ 0 ≤ s.audioDts ∧ s.audioDts + c.dtsThreshold < s.videoDts
  ∧ videoPacketThreshold c.videoCapacity < s.qVideobitstream.length

/-- The video side is starved: the video queue is empty, video has been written before,
audio is ahead of the dts window and more than `audioPacketThreshold` audio records are
queued. -/
def videoStalled (c : WriteThreadConst) (s : WriteThreadState) : Prop :=
  s.qVideobitstream = [] ∧ 0 ≤ s.videoDts ∧ s.videoDts + c.dtsThreshold < s.audioDts
  ∧ audioPacketThreshold c.audioCapacity < s.qAudioPacketOut.length

/-! ## Construction, `Init`, `Close` and `WriteNextPacket` -/

/-- The writer as the constructor `CAvcodecWriter::CAvcodecWriter()` leaves it:
`m_Mux.format` and `m_Mux.video` zero-filled, no tracks, no trim list, no threads,
nothing buffered and nothing written. -/
def constructedWriter : CAvcodecWriter :=
  { format := { pFormatCtx := false, chapters := [], bFileHeaderWritten := false,
                bStreamError := false }
    video := { codec_id := AVCodecID.OTHER, nFPS := ⟨0, 0⟩, bIsPAFF := false, nBframeDelay := 0,
               bDtsUnavailable := false, nFpsBaseNextDts := 0, nInputFirstKeyPts := 0,
               bCFR := false, pInputCodecCtx := none, streamIndex := 0,
               streamPktTimebase := ⟨0, 0⟩, extradata := [], extradata_size := 0,
               nParserStreamPos := 0 }
    audio := [], sub := [], trim := []
    thread := { thAudProcess := false, thAudEncode := false, thOutput := false,
                qAudioPacketProcess := [], qAudioFrameEncode := [], qAudioPacketOut := [] }
    m_AudPktBufFileHead := [], written := [], encoded := [] }

/-- The parameters `AvcodecWriterPrm` that `Init` reads: `videoCodec` tells whether
`vidPrm.nCodecId != VCE_CODEC_NONE`, i.e. whether a video stream is configured. -/
structure AvcodecWriterPrm where
  videoCodec : Bool
  vidPrm : AVOutputVideoPrm
  trimList : List sTrim
  chapterList : List AVChapter
  nOutputThread : Int
  nAudioThread : Int
deriving DecidableEq, Repr

/-- The constants `VCE_OUTPUT_THREAD_AUTO` and `QSV_AUDIO_THREAD_AUTO` (defined in a
header outside the embedded files). -/
structure ThreadConst where
  VCE_OUTPUT_THREAD_AUTO : Int
  QSV_AUDIO_THREAD_AUTO : Int
deriving DecidableEq, Repr

/-- Outcomes of the steps of `Init` that are made of library calls: `container` is the
status of the steps up to the opening of the output (library check, format guess,
allocation of the container context, I/O), `pFormatCtx` tells whether the container
context was allocated; `InitVideo`, `audio` and `sub` hold what `InitVideo`, the
`InitAudio` calls and the `InitSubtitle` calls leave in `m_Mux.video`, `m_Mux.audio` and
`m_Mux.sub` and the status they end with; `muxOpt` is the status of the loop that sets
the muxer options. -/
structure InitSteps where
  container : AMF_RESULT
  pFormatCtx : Bool
  InitVideo : AVMuxVideo × AMF_RESULT
  audio : List AVMuxAudio × AMF_RESULT
  sub : List AVMuxSub × AMF_RESULT
  muxOpt : AMF_RESULT

/-- The end of `Init` (video stream configured): the numbers of threads are resolved
and, when the output thread is enabled, the threads are started with empty queues. -/
def startThreads (tc : ThreadConst) (prm : AvcodecWriterPrm) (w : CAvcodecWriter) :
    CAvcodecWriter :=
  let nOutputThread : Int :=
    if prm.nOutputThread = tc.VCE_OUTPUT_THREAD_AUTO then 1 else prm.nOutputThread
  let nAudioThread : Int :=
    if prm.nAudioThread = tc.QSV_AUDIO_THREAD_AUTO then 0 else prm.nAudioThread
  let bEnableAudProcessThread : Bool := decide (nOutputThread > 0 ∧ nAudioThread > 0)
  let bEnableAudEncodeThread : Bool := decide (nOutputThread > 0 ∧ nAudioThread > 1)
  let bEnableOutputThread : Bool := decide (nOutputThread > 0)
  if bEnableOutputThread then
    { w with thread :=
        { thOutput := true
          thAudProcess := bEnableAudProcessThread
          thAudEncode := bEnableAudProcessThread && bEnableAudEncodeThread
          qAudioPacketProcess := [], qAudioFrameEncode := [], qAudioPacketOut := [] } }
  else w

/-- The steps of `Init` between the opening of the output and the call of
`SetVideoParam`: trim list, video, audio and subtitle tracks, chapters, muxer options.
The result is the writer and the status of the first step that fails (`AMF_OK` when
none does). -/
def initTracks (w : CAvcodecWriter) (prm : AvcodecWriterPrm) (steps : InitSteps) :
    CAvcodecWriter × AMF_RESULT :=
  let w3 := { w with trim := prm.trimList }
  let w4 := if prm.videoCodec then { w3 with video := steps.InitVideo.1 } else w3
  if prm.videoCodec ∧ steps.InitVideo.2 ≠ AMF_RESULT.AMF_OK then (w4, steps.InitVideo.2)
  else if steps.audio.2 ≠ AMF_RESULT.AMF_OK then
    ({ w4 with audio := steps.audio.1 }, steps.audio.2)
  else if steps.sub.2 ≠ AMF_RESULT.AMF_OK then
    ({ w4 with audio := steps.audio.1, sub := steps.sub.1 }, steps.sub.2)
  else
    ((SetChapters { w4 with audio := steps.audio.1, sub := steps.sub.1 } prm.chapterList).1,
      steps.muxOpt)

/-- `CAvcodecWriter::Init`: `bStreamError` is set first; after the set-up steps the
function ends with `SetVideoParam`, with a null parameter when no video stream was
created (`m_Mux.video.pStream` is null exactly when `InitVideo` was not called), and
starts the threads only when there is a video stream. -/
def Init (tc : ThreadConst) (w : CAvcodecWriter) (prm : AvcodecWriterPrm) (steps : InitSteps) :
    CAvcodecWriter × AMF_RESULT :=
  let w1 := { w with format := { w.format with bStreamError := true } }
  if steps.container ≠ AMF_RESULT.AMF_OK then
    ({ w1 with format := { w1.format with pFormatCtx := steps.pFormatCtx } }, steps.container)
  else
    let r := initTracks { w1 with format := { w1.format with pFormatCtx := true } } prm steps
    if r.2 ≠ AMF_RESULT.AMF_OK then r
    else if ¬ prm.videoCodec then SetVideoParam r.1 none
    else
      let r1 := SetVideoParam r.1 (some prm.vidPrm)
      if r1.2 ≠ AMF_RESULT.AMF_OK then r1
      else (startThreads tc prm r1.1, AMF_RESULT.AMF_OK)

/-- `CAvcodecWriter::CloseThread`: the threads that exist are joined (`joined` gives the
writer as the thread functions leave it when they return) and the queues are closed. -/
def CloseThread (joined : CAvcodecWriter → CAvcodecWriter) (w : CAvcodecWriter) :
    CAvcodecWriter :=
  let w1 :=
    if w.thread.thAudEncode ∨ w.thread.thAudProcess ∨ w.thread.thOutput then joined w else w
  { w1 with thread :=
      { thAudProcess := false, thAudEncode := false, thOutput := false
        qAudioPacketProcess := [], qAudioFrameEncode := [], qAudioPacketOut := [] } }

/-- `CAvcodecWriter::Close`: `CloseThread`, `CloseFormat`, then the tracks and the video
state are released. The flag of the result tells whether `av_write_trailer` was
called. -/
def Close (joined : CAvcodecWriter → CAvcodecWriter) (w : CAvcodecWriter) :
    CAvcodecWriter × Bool :=
  let w1 := CloseThread joined w
  let r := CloseFormat w1.format
  ({ w1 with format := r.1, audio := [], sub := [], video := constructedWriter.video }, r.2)

/-- `CAvcodecWriter::getAudioPacketStreamData`: the index of the first audio track with
the stream index and the track id of the packet. -/
def getAudioPacketStreamData (w : CAvcodecWriter) (pkt : AVPacket) : Option Nat :=
  (List.range w.audio.length).find? (fun i =>
    match w.audio[i]? with
    | some a => decide (a.nStreamIndexIn = pkt.stream_index
        ∧ a.nInTrackId = inTrackIdOfFlags pkt.flags)
    | none => false)

/-- `CAvcodecWriter::pktMuxData(const AVPacket *pkt)`; `none` is a null pointer. -/
def pktMuxData (w : CAvcodecWriter) (pkt : Option AVPacket) : AVPktMuxData :=
  match pkt with
  | some p =>
    { zeroPktMuxData with
      type := AVMuxDataType.MUX_DATA_TYPE_PACKET, pkt := p
      pMuxAudio := getAudioPacketStreamData w p }
  | none => { zeroPktMuxData with type := AVMuxDataType.MUX_DATA_TYPE_PACKET }

/-- `CAvcodecWriter::WriteNextPacket` (the queue push is taken to succeed); `none` is a
null packet. With an output thread the record is pushed on the queue of the
audio-process thread, or on the audio-out queue when that thread does not exist;
without one it goes to `WriteNextPacketInternal`. -/
def WriteNextPacket (stages : PacketStages) (fuel : Nat) (w : CAvcodecWriter)
    (pkt : Option AVPacket) : Option (CAvcodecWriter × AMF_RESULT) :=
  let pktData := pktMuxData w pkt
  if w.thread.thOutput then
    let record := if pkt = none then zeroPktMuxData else pktData
    let thread1 :=
      if w.thread.thAudProcess then
        { w.thread with qAudioPacketProcess := w.thread.qAudioPacketProcess ++ [record] }
      else { w.thread with qAudioPacketOut := w.thread.qAudioPacketOut ++ [record] }
    some ({ w with thread := thread1 }, streamStatus w)
  else (WriteNextPacketInternal stages fuel w pktData).map (fun r => (r.1, r.2.2))

/-- A sequence of `WriteNextPacket` calls, the writer threaded through; the result also
lists the statuses returned. -/
def runWriteNextPacket (stages : PacketStages) (fuel : Nat) :
    CAvcodecWriter → List (Option AVPacket) → Option (CAvcodecWriter × List AMF_RESULT)
  | w, [] => some (w, [])
  | w, pkt :: rest =>
    match WriteNextPacket stages fuel w pkt with
    | none => none
    | some r =>
      match runWriteNextPacket stages fuel r.1 rest with
      | none => none
      | some r1 => some (r1.1, r.2 :: r1.2)

/-! ## Example inputs -/

/-- Modelled from the spec: the NALU splitter behind `parse_nal_unit_h264` and
`parse_nal_unit_hevc` (defined outside the embedded files). It scans for the start
codes `00 00 01` / `00 00 00 01` and emits one record `{offset, size, nalu_type}` per
NALU, the record starting at its start code and ending where the next one starts;
`typeOf` extracts the NALU type from the byte after the start code. -/
def splitNalus (typeOf : Nat → Nat) (data : List Nat) (size : Nat) : List nal_info :=
  let starts : List (Nat × Nat) := (List.range (size - 3)).filterMap (fun p =>
    if data.getD p 1 = 0 ∧ data.getD (p + 1) 1 = 0 ∧ data.getD (p + 2) 0 = 1 then
      some (if 0 < p ∧ data.getD (p - 1) 1 = 0 then p - 1 else p, data.getD (p + 3) 0)
    else none)
  List.zipWith (fun (s : Nat × Nat) (next : Nat) => ⟨s.1, typeOf s.2, next - s.1⟩)
    starts (starts.tail.map (fun s => s.1) ++ [size])

/-- Example environment: the spec-modelled NALU splitter, a 100 ns native timebase
and the planar sample formats of libavutil (`AV_SAMPLE_FMT_U8P = 5` and above). -/
def exampleEnv : Env :=
  { parse_nal_unit_h264 := splitNalus (fun b => b &&& 0x1F)
    parse_nal_unit_hevc := splitNalus (fun b => (b >>> 1) &&& 0x3F)
    VCE_NATIVE_TIMEBASE := ⟨1, 10000000⟩
    av_sample_fmt_is_planar := fun fmt => decide (5 ≤ fmt) }

/-- Example video state: H.264 at 30 fps, constant frame rate, stream timebase
`1/90000`, as left by `Init` (no B-frame delay known yet). -/
def exampleVideo : AVMuxVideo :=
  { codec_id := AVCodecID.H264, nFPS := ⟨30, 1⟩, bIsPAFF := false, nBframeDelay := 0,
    bDtsUnavailable := false, nFpsBaseNextDts := 0, nInputFirstKeyPts := 0, bCFR := true,
    pInputCodecCtx := none, streamIndex := 0, streamPktTimebase := ⟨1, 90000⟩,
    extradata := [], extradata_size := 0, nParserStreamPos := 0 }

/-- Example writer: header not written, nothing buffered, nothing written. -/
def exampleWriter : CAvcodecWriter :=
  { format := { pFormatCtx := true, chapters := [], bFileHeaderWritten := false,
                bStreamError := false }
    video := exampleVideo, audio := [], sub := [], trim := []
    thread := { thAudProcess := false, thAudEncode := false, thOutput := false,
                qAudioPacketProcess := [], qAudioFrameEncode := [], qAudioPacketOut := [] }
    m_AudPktBufFileHead := [], written := [], encoded := [] }

/-- An encoder buffer with the given bytes and timestamp, no dts. -/
def exampleBitstream (data : List Nat) (pts : Int) : sBitstream :=
  { Data := data, DataOffset := 0, DataLength := data.length, TimeStamp := pts,
    DecodeTimeStamp := AV_NOPTS_VALUE, DataFlag := 0, FrameType := 0, PictStruct := 0,
    RepeatPict := 0 }

/-- A call of `WriteNextFrameInternal` on `exampleBitstream data pts` in which every
library call succeeds. -/
def exampleCall (data : List Nat) (pts : Int) : FrameCall :=
  { pBitstream := exampleBitstream data pts
    writtenDts := 0
    parsed := some { key_frame := 1, pict_type := 1, picture_structure := 0, repeat_pict := 0 }
    header := HeaderOutcome.ok
    writeFails := fun _ => false }

/-- An H.264 access unit in which the PPS precedes the SPS:
PPS `68 CE`, SPS `67 42 00`, IDR slice `65 88`. -/
def exampleAccessUnit : List Nat :=
  [0, 0, 0, 1, 0x68, 0xCE, 0, 0, 0, 1, 0x67, 0x42, 0x00, 0, 0, 0, 1, 0x65, 0x88]

/-- An encoder buffer that holds one slice NALU only. -/
def exampleOneSlice : List Nat := [0, 0, 0, 1, 0x65, 0x88, 0x84]

/-- An encoder buffer that holds two field slices. -/
def exampleTwoFields : List Nat := [0, 0, 0, 1, 0x65, 0x88, 0, 0, 0, 1, 0x41, 0x9A]

/-- Example writer after `SetVideoParam` with B-frames (one frame of dts delay). -/
def exampleWriterB : CAvcodecWriter :=
  (SetVideoParam exampleWriter (some { interlaced := false, nBframes := 3, nBPyramid := 0 })).1

/-- Example writer after `SetVideoParam` for interlaced (PAFF) output, no B-frames. -/
def exampleWriterPaff : CAvcodecWriter :=
  (SetVideoParam exampleWriter (some { interlaced := true, nBframes := 0, nBPyramid := 0 })).1

/-- An audio packet of track 1: 1024 ticks of a `1/48000` timebase, buffer identity `7`. -/
def examplePacket : AVPacket :=
  { buf := 7, data := some [0x21, 0x10, 0x05], size := 3, pts := 0, dts := 0, duration := 1024,
    flags := 65536, stream_index := 1, pos := -1 }

/-- The record in flight for `examplePacket`. -/
def examplePktData : AVPktMuxData :=
  { type := AVMuxDataType.MUX_DATA_TYPE_PACKET, pkt := examplePacket, pMuxAudio := some 0,
    dts := 0, samples := 0, pFrame := none, got_result := 0 }

/-- The drain record: a zero-filled `AVPktMuxData`. -/
def exampleDrain : AVPktMuxData :=
  { type := AVMuxDataType.MUX_DATA_TYPE_NONE
    pkt := { buf := 0, data := none, size := 0, pts := 0, dts := 0, duration := 0, flags := 0,
             stream_index := 0, pos := 0 }
    pMuxAudio := none, dts := 0, samples := 0, pFrame := none, got_result := 0 }

/-- Stages that leave the writer alone (used where the stages are never reached). -/
def exampleStages : PacketStages :=
  { AudioFlushStream := fun w _ dts => (w, dts)
    SubtitleWritePacket := fun w _ => (w, AMF_RESULT.AMF_OK)
    WriteNextPacketAudio := fun w pktData => (w, pktData, AMF_RESULT.AMF_OK) }

/-- Example audio track: pass-through at 48 kHz, output stream 1 with timebase
`1/48000`, decode-error budget 5. -/
def exampleAudio : AVMuxAudio :=
  { nInTrackId := 1, nInSubStream := 0, nStreamIndexIn := 1, inSampleRate := 48000,
    inPktTimebase := ⟨1, 48000⟩, inFrameSize := 1024, pOutCodecDecodeCtx := false,
    pOutCodecEncodeCtx := none, pAACBsfc := false, streamIndex := 1,
    streamTimeBase := ⟨1, 48000⟩, nPacketWritten := 0, nOutputSamples := 0,
    nDelaySamplesOfAudio := 0, nLastPtsIn := AV_NOPTS_VALUE, nLastPtsOut := AV_NOPTS_VALUE,
    nDecodeError := 0, nIgnoreDecodeError := 5, nAACBsfErrorFromStart := 0,
    bEncodeError := false
    OutPacket := { buf := 0, data := none, size := 0, pts := 0, dts := 0, duration := 0,
                   flags := 0, stream_index := 0, pos := 0 }
    pDecodedFrameCache := none, pFilterGraph := false, pSwrContext := false
    decSampleFmt := 8, decChannels := 2, decChannelLayout := 3
    nResamplerInChannels := 2, nResamplerInChannelLayout := 3,
    nResamplerInSampleRate := 48000, ResamplerInSampleFmt := 1 }

/-- Example writer with the header written and the one audio track `exampleAudio`. -/
def exampleWriterAudio : CAvcodecWriter :=
  { exampleWriter with
    format := { exampleWriter.format with bFileHeaderWritten := true }
    audio := [exampleAudio] }

/-- Two packet calls of 1024 samples followed by a drain call whose flush writes one
more packet of 512 samples. -/
def exampleProcessedCalls : List ProcessedCall :=
  [ { pMuxAudio := 0, pkt := some examplePacket, samples := 1024, writeFails := false,
      flushWrites := [] },
    { pMuxAudio := 0, pkt := some examplePacket, samples := 1024, writeFails := false,
      flushWrites := [] },
    { pMuxAudio := 0, pkt := none, samples := 0, writeFails := false,
      flushWrites := [{ pMuxAudio := 0, pkt := examplePacket, samples := 512,
                        writeFails := false }] } ]

/-- Example encoder context: frame size 4, planar float, stereo. -/
def exampleEncodeCtx : AudioEncodeCtx :=
  { sample_rate := 48000, frame_size := 4, pkt_timebase := ⟨1, 48000⟩, channels := 2,
    channel_layout := 3, sample_fmt := 8 }

/-- A two-plane frame that holds the given sample units. -/
def exampleFrame (left right : List Nat) : AVFrame :=
  { nb_samples := left.length, channels := 2, channel_layout := 3, sample_rate := 48000,
    format := 8, data := [left, right] }

/-- Example re-encoded track with the given carry. -/
def exampleEncodedAudio (carry : Option AVFrame) : AVMuxAudio :=
  { exampleAudio with
    pOutCodecDecodeCtx := true
    pOutCodecEncodeCtx := some exampleEncodeCtx
    pDecodedFrameCache := carry }

/-- A packet of the given duration whose decoder call fails (`len = -1`). -/
def exampleFailing (duration : Int) : AVPacket × List DecodeOutcome :=
  ({ examplePacket with duration := duration },
   [{ len := -1, got_result := 0, decodedData := emptyFrame }])

/-- A chapter in a `1/1000` timebase. -/
def exampleChapter (id start end_ : Int) (title : String) : AVChapter :=
  { id := id, time_base := ⟨1, 1000⟩, start := start, end_ := end_,
    metadata := [("title", title)] }

/-- Example writer with the given trim list (30 fps). -/
def exampleWriterTrim (trim : List sTrim) : CAvcodecWriter :=
  { exampleWriter with trim := trim }

/-- Example subtitle track: copy mode, input stream 2, track id `-1`, both timebases
`1/1000`, output stream 2. -/
def exampleSub : AVMuxSub :=
  { nInTrackId := -1, nStreamIndexIn := 2, inPktTimebase := ⟨1, 1000⟩, streamIndex := 2,
    streamTimeBase := ⟨1, 1000⟩, pOutCodecEncodeCtx := false }

/-- A packet of `exampleSub` with the given pts (and dts), shown for two seconds; the
track id `-1` sits in the upper half of the flags. -/
def exampleSubPacket (pts : Int) : AVPacket :=
  { buf := 9, data := some [0x48, 0x69], size := 2, pts := pts, dts := pts, duration := 2000,
    flags := -65536, stream_index := 2, pos := 0 }

/-- Example writer at 30 fps with the header written, the subtitle track `exampleSub`
and the given trim list. -/
def exampleWriterSub (trim : List sTrim) : CAvcodecWriter :=
  { exampleWriter with
    format := { exampleWriter.format with bFileHeaderWritten := true }
    sub := [exampleSub]
    trim := trim }

/-- A transcoding branch that is never reached in copy mode. -/
def exampleTranscode : CAvcodecWriter → AVMuxSub → AVPacket → CAvcodecWriter × AMF_RESULT :=
  fun w _ _ => (w, AMF_RESULT.AMF_OK)

/-- Example AAC track with a bitstream filter, `packets` packets written and a streak
of `streak` filter errors. -/
def exampleAacTrack (packets streak : Int) : AVMuxAudio :=
  { exampleAudio with pAACBsfc := true, nPacketWritten := packets,
                      nAACBsfErrorFromStart := streak }

/-- A failing filter run: `av_bsf_receive_packet` returns `AVERROR_INVALIDDATA`. -/
def exampleBsfFailure : BsfOutcome :=
  BsfOutcome.received (-1094995529) examplePacket

/-- Stages that hand every audio packet straight to the container and leave the rest
of the writer alone. -/
def exampleWritingStages : PacketStages :=
  { AudioFlushStream := fun w _ dts => (w, dts)
    SubtitleWritePacket := fun w _ => (w, AMF_RESULT.AMF_OK)
    WriteNextPacketAudio := fun w pktData =>
      ({ w with written := w.written ++ [pktData.pkt] }, pktData, AMF_RESULT.AMF_OK) }

/-- An audio record like `examplePktData` with buffer identity `buf` and the given pts. -/
def examplePktDataAt (buf : Nat) (pts : Int) : AVPktMuxData :=
  { examplePktData with pkt := { examplePacket with buf := buf, pts := pts, dts := pts } }

/-- Example writer with the header written and one re-encoded track (encoder frame size
4, no filter graph, no resampler context, empty carry). -/
def exampleWriterEncoded : CAvcodecWriter :=
  { exampleWriterAudio with audio := [exampleEncodedAudio none] }

/-- A packet as the encoder emits it, of the given duration. -/
def exampleEncoderPacket (duration : Int) : AVPacket :=
  { buf := 11, data := some [0xFF], size := 1, pts := 0, dts := 0, duration := duration,
    flags := 1, stream_index := 0, pos := -1 }

/-- Library outcomes while the one packet of the example stream is processed: the
decoder returns a frame of 6 samples, the encoder a packet for the one frame of 4
samples it is given, and the write succeeds. -/
def exampleStreamScript : LibScript :=
  { decode := [[{ len := 3, got_result := 1,
                  decodedData := exampleFrame [1, 2, 3, 4, 5, 6] [11, 12, 13, 14, 15, 16] }]]
    filter := []
    resample := [{ initFails := false, delay := 0, ret := 0, data := [] }]
    encode := [{ ret := 0, got_result := 1, pkt := exampleEncoderPacket 4 }]
    writeFails := [false] }

/-- Library outcomes at the flush: the decoder still delivers a frame of 3 samples and
then nothing, the encoder has nothing left. -/
def exampleFlushScript : LibScript :=
  { decode := [[{ len := 0, got_result := 1,
                  decodedData := exampleFrame [7, 8, 9] [17, 18, 19] }],
               [{ len := 0, got_result := 0, decodedData := emptyFrame }]]
    filter := [], resample := []
    encode := [{ ret := 0, got_result := 0, pkt := blankPacket }]
    writeFails := [] }

/-- The writer after the one packet of the example stream. -/
def exampleAfterStream : Option CAvcodecWriter :=
  (WriteNextPacketAudio exampleEnv (WriteNextPacketProcessedFlush exampleEnv 2)
    exampleWriterEncoded exampleStreamScript examplePktData
    (BsfOutcome.received 0 examplePacket)).map (fun r => r.1)

/-- The writer after the example stream and the flush of its track. -/
def exampleAfterFlush : Option CAvcodecWriter :=
  exampleAfterStream.bind (fun w =>
    (AudioFlushStream exampleEnv (WriteNextPacketProcessedFlush exampleEnv 2) w
      exampleFlushScript 0 0).map (fun r => r.1))

/-- A first video access unit for which `avformat_write_header` fails. -/
def exampleFailedHeaderCall : FrameCall :=
  { exampleCall exampleAccessUnit 0 with header := HeaderOutcome.writeFailed }

/-- An encoder buffer that holds two field slices behind 3-byte start codes. -/
def exampleTwoFieldsShort : List Nat := [0, 0, 1, 0x65, 0x88, 0, 0, 1, 0x41, 0x9A]

/-- A pass-through track with a millisecond packet timebase whose codec exposes no frame
size; the previous packet had pts 0. -/
def exampleAudioMs : AVMuxAudio :=
  { exampleAudio with inPktTimebase := ⟨1, 1000⟩, inFrameSize := 0, nLastPtsIn := 0 }

/-- A pass-through track with a 90 kHz packet timebase; the previous packet had pts 0. -/
def exampleAudio90k : AVMuxAudio :=
  { exampleAudio with inPktTimebase := ⟨1, 90000⟩, nLastPtsIn := 0 }

/-- A re-encoded track without carry whose encoder accepts frames of any size
(`frame_size = 0`). -/
def exampleAnySizeAudio : AVMuxAudio :=
  { exampleEncodedAudio none with
    pOutCodecEncodeCtx := some { exampleEncodeCtx with frame_size := 0 } }

/-- Frame information of a 640x480 input at 30 fps, no output size requested, with the
given crop. -/
def exampleInputInfo (crop : sInputCrop) : VCEInputInfo :=
  { fps := ⟨30, 1⟩, srcWidth := 640, srcHeight := 480, frames := 0, format := 0, crop := crop,
    dstWidth := 0, dstHeight := 0 }

/-- A reader that reports nothing (every field zero). -/
def exampleSrcInfo : VCEInputInfo :=
  { fps := ⟨0, 0⟩, srcWidth := 0, srcHeight := 0, frames := 0, format := 0,
    crop := ⟨0, 0, 0, 0⟩, dstWidth := 0, dstHeight := 0 }

/-- Example encoder parameters (progressive). -/
def exampleParam : VCEParam :=
  { interlaced := false, nBframes := 0, nBitrate := 5000, nMaxBitrate := 8000,
    nVBVBufferSize := 8000, nGOPLen := 300, nDeltaQPBFrame := 6, nDeltaQPBFrameRef := 4,
    nQPMax := 51, nQPMin := 0, nQPI := 22, nQPP := 24, nQPB := 27 }

/-- Example limits. -/
def exampleLimits : VCELimits :=
  { VCE_MAX_BFRAMES := 3, VCE_MAX_BITRATE := 100000, VCE_MAX_GOP_LEN := 1000,
    VCE_MAX_B_DELTA_QP := 10 }

/-- The codec id `AV_CODEC_ID_SUBRIP` (a text subtitle). -/
def exampleSubrip : Nat := 0x17808

/-- The codec id `AV_CODEC_ID_HDMV_PGS_SUBTITLE` (a bitmap subtitle). -/
def examplePgs : Nat := 0x17006

/-- A library in which every call succeeds; the descriptors mark `mov_text`, `ass` and
`subrip` as text subtitles (`AV_CODEC_PROP_TEXT_SUB`) and every other codec as a bitmap
subtitle (`AV_CODEC_PROP_BITMAP_SUB`, `1 << 16`). -/
def exampleSubtitleLib : SubtitleInitLib :=
  { avformat_new_stream := some 2
    avcodec_descriptor_get := fun id =>
      if id = AV_CODEC_ID_MOV_TEXT ∨ id = AV_CODEC_ID_ASS ∨ id = exampleSubrip then
        some 0x20000 else some 0x10000
    avcodec_find_decoder := fun _ => true
    decoderCtx := true, decoderOpen := true
    avcodec_find_encoder := fun _ => true
    encoderCtx := true, encoderOpen := true, bufAlloc := true }

/-- A subtitle source with the given codec id, timebases `1/1000`, track id `-1`. -/
def exampleSubtitleSource (codec_id : Nat) : SubtitleSource :=
  { codec_id := codec_id, pkt_timebase := ⟨1, 1000⟩, time_base := ⟨1, 1000⟩, nTrackId := -1,
    nIndex := 2 }

/-- Constants of the interleaving loop for queues of the given video capacity (audio
capacity 64, dts window 10). -/
def exampleThreadConst (videoCapacity : Nat) : WriteThreadConst :=
  { videoCapacity := videoCapacity, audioCapacity := 64, dtsThreshold := 10 }

/-- Loop variables with an empty audio queue, `n` queued video buffers, audio written up
to dts 0 and video up to dts 1000, both wait counters 0. -/
def exampleStarvedAudio (n : Nat) : WriteThreadState :=
  { qAudioPacketOut := [], qVideobitstream := List.replicate n (some 2000), audioDts := 0,
    videoDts := 1000, bAudioExists := false, bVideoExists := false, nWaitAudio := 0,
    nWaitVideo := 0 }

/-- Loop variables with an empty video queue, `n` queued audio records, video written up
to dts 0 and audio up to dts 1000, both wait counters 0. -/
def exampleStarvedVideo (n : Nat) : WriteThreadState :=
  { qAudioPacketOut := List.replicate n 2000, qVideobitstream := [], audioDts := 1000,
    videoDts := 0, bAudioExists := false, bVideoExists := false, nWaitAudio := 0,
    nWaitVideo := 0 }

/-- Example constants: both `AUTO` values are `-1`. -/
def exampleThreadAuto : ThreadConst :=
  { VCE_OUTPUT_THREAD_AUTO := -1, QSV_AUDIO_THREAD_AUTO := -1 }

/-- Parameters of a writer with or without a video stream, progressive, no B-frames, no
trim, no chapters, with the given number of output threads. -/
def exampleWriterPrm (videoCodec : Bool) (nOutputThread : Int) : AvcodecWriterPrm :=
  { videoCodec := videoCodec
    vidPrm := { interlaced := false, nBframes := 0, nBPyramid := 0 }
    trimList := [], chapterList := [], nOutputThread := nOutputThread, nAudioThread := 0 }

/-- Set-up steps that all succeed and leave the video state `exampleVideo` and the one
pass-through audio track `exampleAudio`. -/
def exampleInitSteps : InitSteps :=
  { container := AMF_RESULT.AMF_OK, pFormatCtx := true
    InitVideo := (exampleVideo, AMF_RESULT.AMF_OK)
    audio := ([exampleAudio], AMF_RESULT.AMF_OK)
    sub := ([], AMF_RESULT.AMF_OK)
    muxOpt := AMF_RESULT.AMF_OK }

/-! # Lemmas and theorems -/

/-! ### Lemmas on the trim loop -/

theorem trimAt_cons_succ (t : sTrim) (rest : List sTrim) (j : Nat) :
    trimAt (t :: rest) (j + 1) = trimAt rest j := by
  simp [trimAt]

theorem trimAt_cons_zero (t : sTrim) (rest : List sTrim) :
    trimAt (t :: rest) 0 = t := by
  simp [trimAt]

theorem gapSum_cons (t : sTrim) (rest : List sTrim) (k : Nat) :
    gapSum (t :: rest) (k + 1) = ((trimAt rest 0).start - t.fin) + gapSum rest k := by
  unfold gapSum
  rw [Finset.sum_range_succ']
  simp only [trimAt_cons_succ, trimAt_cons_zero]
  ring

theorem gapSum_zero (trim : List sTrim) : gapSum trim 0 = 0 := by
  simp [gapSum]

theorem trimWellFormed_tail (t : sTrim) (rest : List sTrim)
    (h : trimWellFormed (t :: rest)) : trimWellFormed rest := by
  cases rest with
  | nil => trivial
  | cons u rest => exact h.2.2

theorem trimWellFormed_head (t : sTrim) (rest : List sTrim)
    (h : trimWellFormed (t :: rest)) : t.start ≤ t.fin := by
  cases rest with
  | nil => exact h
  | cons u rest => exact h.1

/-- Every range of a well-formed list has `start ≤ fin`. -/
theorem trimWellFormed_at (l : List sTrim) (h : trimWellFormed l) (k : Nat)
    (hk : k < l.length) : (trimAt l k).start ≤ (trimAt l k).fin := by
  induction l generalizing k with
  | nil => simp at hk
  | cons t rest ih =>
    cases k with
    | zero => simpa [trimAt] using trimWellFormed_head t rest h
    | succ k =>
      rw [trimAt_cons_succ]
      exact ih (trimWellFormed_tail t rest h) k (by simpa using hk)

/-- In a well-formed list every later range starts after the head range ends. -/
theorem trimWellFormed_head_lt (t : sTrim) (rest : List sTrim)
    (h : trimWellFormed (t :: rest)) (k : Nat) (hk : k < rest.length) :
    t.fin < (trimAt rest k).start := by
  induction rest generalizing t k with
  | nil => simp at hk
  | cons u rest ih =>
    cases k with
    | zero => simpa [trimAt] using h.2.1
    | succ k =>
      have hu : u.start ≤ u.fin := trimWellFormed_head u rest h.2.2
      have := ih u h.2.2 k (by simpa using hk)
      rw [trimAt_cons_succ]
      have h1 := h.2.1
      omega

/-- Loop result for a frame inside the `k`-th kept range. -/
theorem trimLoop_inside (f : Int) (lv : Bool) (l : List sTrim) (k : Nat)
    (cut last : Int) (hk : k < l.length) (hwf : trimWellFormed l)
    (hs : (trimAt l k).start ≤ f) (he : f ≤ (trimAt l k).fin) :
    trimLoop f lv l cut last
      = some (cut + ((trimAt l 0).start - last) + gapSum l k, f) := by
  induction l generalizing k cut last with
  | nil => simp at hk
  | cons t rest ih =>
    cases k with
    | zero =>
      rw [trimAt_cons_zero] at hs he
      simp [trimLoop, trimAt_cons_zero, gapSum_zero, not_lt.mpr hs, he]
    | succ k =>
      have hk1 : k < rest.length := by simpa using hk
      rw [trimAt_cons_succ] at hs he
      have hlt := trimWellFormed_head_lt t rest hwf k hk1
      have hhd := trimWellFormed_head t rest hwf
      have h1 : ¬ f < t.start := by omega
      have h2 : ¬ f ≤ t.fin := by omega
      simp only [trimLoop, h1, h2, if_false]
      rw [ih k _ _ hk1 (trimWellFormed_tail t rest hwf) hs he, gapSum_cons,
        trimAt_cons_zero]
      congr 2
      ring

/-- Loop result for a frame in front of the first range of the list. -/
theorem trimLoop_front (f : Int) (lv : Bool) (t : sTrim) (rest : List sTrim)
    (cut last : Int) (h : f < t.start) :
    trimLoop f lv (t :: rest) cut last
      = if lv then some (cut + (f - last), f) else none := by
  simp [trimLoop, h]

/-- Loop result for a frame strictly between the `k`-th and the `k+1`-th range. -/
theorem trimLoop_gap (f : Int) (lv : Bool) (l : List sTrim) (k : Nat)
    (cut last : Int) (hk : k + 1 < l.length) (hwf : trimWellFormed l)
    (he : (trimAt l k).fin < f) (hs : f < (trimAt l (k + 1)).start) :
    trimLoop f lv l cut last
      = if lv then
          some (cut + ((trimAt l 0).start - last) + gapSum l k + (f - (trimAt l k).fin), f)
        else none := by
  induction l generalizing k cut last with
  | nil => simp at hk
  | cons t rest ih =>
    have hhd := trimWellFormed_head t rest hwf
    cases k with
    | zero =>
      rw [trimAt_cons_zero] at he
      rw [trimAt_cons_succ] at hs
      have h1 : ¬ f < t.start := by omega
      have h2 : ¬ f ≤ t.fin := by omega
      cases rest with
      | nil => simp at hk
      | cons u rest2 =>
        rw [trimAt_cons_zero] at hs
        simp only [trimLoop, h1, h2, if_false, hs, if_true, trimAt_cons_zero, gapSum_zero]
        cases lv <;> simp
    | succ k =>
      have hk1 : k + 1 < rest.length := by simpa using hk
      rw [trimAt_cons_succ] at he hs
      have hlt := trimWellFormed_head_lt t rest hwf k (by omega)
      have hle := trimWellFormed_at rest (trimWellFormed_tail t rest hwf) k (by omega)
      have h1 : ¬ f < t.start := by omega
      have h2 : ¬ f ≤ t.fin := by omega
      simp only [trimLoop, h1, h2, if_false]
      rw [ih k _ _ hk1 (trimWellFormed_tail t rest hwf) he hs, gapSum_cons,
        trimAt_cons_zero, trimAt_cons_succ]
      cases lv
      · simp
      · simp only [if_true]
        congr 2
        ring

/-! ### Rescaling -/

/-- Rescaling is monotone for a valid pair of factors. -/
theorem av_rescale_rnd_mono (b c x y : Int) (hb : 0 ≤ b) (hc : 0 < c) (hxy : x ≤ y) :
    av_rescale_rnd x b c ≤ av_rescale_rnd y b c := by
  have hg : ¬ (c ≤ 0 ∨ b < 0) := by omega
  have hr : 0 ≤ c / 2 := Int.ediv_nonneg (by omega) (by omega)
  unfold av_rescale_rnd
  rw [if_neg hg, if_neg hg]
  by_cases hx : x < 0
  · by_cases hy : y < 0
    · rw [if_pos hx, if_pos hy]
      have h1 : (-y) * b ≤ (-x) * b := Int.mul_le_mul_of_nonneg_right (by omega) hb
      have := Int.ediv_le_ediv hc (show (-y) * b + c / 2 ≤ (-x) * b + c / 2 by omega)
      omega
    · rw [if_pos hx, if_neg hy]
      have h1 : 0 ≤ (-x) * b := Int.mul_nonneg (by omega) hb
      have h2 : 0 ≤ y * b := Int.mul_nonneg (by omega) hb
      have h3 : 0 ≤ ((-x) * b + c / 2) / c := Int.ediv_nonneg (by omega) (by omega)
      have h4 : 0 ≤ (y * b + c / 2) / c := Int.ediv_nonneg (by omega) (by omega)
      omega
  · have hy : ¬ y < 0 := by omega
    rw [if_neg hx, if_neg hy]
    have h1 : x * b ≤ y * b := Int.mul_le_mul_of_nonneg_right hxy hb
    exact Int.ediv_le_ediv hc (by omega)

/-- Rescaling zero gives zero for a valid pair of factors. -/
theorem av_rescale_rnd_zero (b c : Int) (hb : 0 ≤ b) (hc : 0 < c) :
    av_rescale_rnd 0 b c = 0 := by
  have hg : ¬ (c ≤ 0 ∨ b < 0) := by omega
  unfold av_rescale_rnd
  rw [if_neg hg]
  simp only [lt_self_iff_false, if_false, zero_mul, zero_add]
  exact Int.ediv_eq_zero_of_lt (Int.ediv_nonneg (by omega) (by omega))
    (Int.ediv_lt_of_lt_mul (by omega) (by omega))

theorem av_rescale_q_mono (bq cq : AVRational) (hb : bq.positive) (hc : cq.positive)
    (x y : Int) (hxy : x ≤ y) : av_rescale_q x bq cq ≤ av_rescale_q y bq cq := by
  unfold av_rescale_q
  exact av_rescale_rnd_mono _ _ x y (Int.mul_nonneg (le_of_lt hb.1) (le_of_lt hc.2))
    (Int.mul_pos hc.1 hb.2) hxy

theorem av_rescale_q_zero (bq cq : AVRational) (hb : bq.positive) (hc : cq.positive) :
    av_rescale_q 0 bq cq = 0 := by
  unfold av_rescale_q
  exact av_rescale_rnd_zero _ _ (Int.mul_nonneg (le_of_lt hb.1) (le_of_lt hc.2))
    (Int.mul_pos hc.1 hb.2)

theorem av_rescale_q_nonneg (bq cq : AVRational) (hb : bq.positive) (hc : cq.positive)
    (x : Int) (hx : 0 ≤ x) : 0 ≤ av_rescale_q x bq cq := by
  have := av_rescale_q_mono bq cq hb hc 0 x hx
  rwa [av_rescale_q_zero bq cq hb hc] at this

theorem av_rescale_q_nonpos (bq cq : AVRational) (hb : bq.positive) (hc : cq.positive)
    (x : Int) (hx : x ≤ 0) : av_rescale_q x bq cq ≤ 0 := by
  have := av_rescale_q_mono bq cq hb hc x 0 hx
  rwa [av_rescale_q_zero bq cq hb hc] at this

/-- Reducing a fraction of positive numbers gives a positive timebase. -/
theorem av_reduce_positive (num den : Int) (hn : 0 < num) (hd : 0 < den) :
    (av_reduce num den).positive := by
  have hg : 0 < Int.gcd num den := Int.gcd_pos_of_ne_zero_left _ (by omega)
  have hgz : ((Int.gcd num den : Nat) : Int) ≠ 0 := by omega
  have hs : ¬ ((decide (num < 0)) != (decide (den < 0))) = true := by
    simp [not_lt.mpr (le_of_lt hn), not_lt.mpr (le_of_lt hd)]
  have hnn : ((num.natAbs : Nat) : Int) = num := Int.natAbs_of_nonneg (le_of_lt hn)
  have hdd : ((den.natAbs : Nat) : Int) = den := Int.natAbs_of_nonneg (le_of_lt hd)
  have hdn : ((Int.gcd num den : Nat) : Int) ∣ num := Int.gcd_dvd_left
  have hdm : ((Int.gcd num den : Nat) : Int) ∣ den := Int.gcd_dvd_right
  unfold av_reduce AVRational.positive
  simp only [hgz, if_false, hs, hnn, hdd]
  constructor
  · exact Int.ediv_pos_of_pos_of_dvd hn (by omega) hdn
  · exact Int.ediv_pos_of_pos_of_dvd hd (by omega) hdm

/-- The field timebase of a video stream with a positive frame rate is positive. -/
theorem fpsTimebase_positive (video : AVMuxVideo) (h : video.nFPS.positive) :
    (fpsTimebase video).positive := by
  unfold fpsTimebase av_div_q
  apply av_reduce_positive
  · simpa using h.2
  · have := h.1
    split <;> simp <;> omega

/-! ### Header NALUs -/

/-- The element found by `find?` is the first one that satisfies the predicate. -/
theorem find?_eq_first {α : Type} (p : α → Bool) (l : List α) (i : Nat) (x : α)
    (hx : l[i]? = some x) (hp : p x = true)
    (hfirst : ∀ j y, j < i → l[j]? = some y → p y = false) :
    l.find? p = some x := by
  induction l generalizing i with
  | nil => simp at hx
  | cons a rest ih =>
    cases i with
    | zero =>
      simp only [List.getElem?_cons_zero, Option.some.injEq] at hx
      subst hx
      simp [List.find?, hp]
    | succ i =>
      have ha : p a = false := hfirst 0 a (by omega) (by simp)
      simp only [List.getElem?_cons_succ] at hx
      simp only [List.find?, ha]
      exact ih i hx (fun j y hj hy => hfirst (j + 1) y (by omega) (by simpa using hy))

theorem readBytes_length (buffer : List Nat) (ptr size : Nat) :
    (readBytes buffer ptr size).length = size := by
  simp [readBytes]

/-! ### The PAFF field scan -/

theorem paffScan_pos (ptr : List Nat) (size : Nat) (hsize : 0 < size) (n i a b c s : Nat) :
    0 < paffScan ptr size n i a b c s := by
  induction n generalizing i a b c s with
  | zero => simpa [paffScan] using hsize
  | succ n ih =>
    unfold paffScan
    simp only
    split
    · split
      · omega
      · exact ih _ _ _ _ _
    · exact ih _ _ _ _ _

theorem paffScan_le (ptr : List Nat) (size : Nat) (n i a b c s : Nat)
    (hi : i + n ≤ size) (h3 : 3 ≤ i) :
    paffScan ptr size n i a b c s ≤ size := by
  induction n generalizing i a b c s with
  | zero => simp [paffScan]
  | succ n ih =>
    unfold paffScan
    simp only
    split
    · split
      · split <;> omega
      · exact ih _ _ _ _ _ (by omega) (by omega)
    · exact ih _ _ _ _ _ (by omega) (by omega)

/-- The field length is at least one byte for a non-empty buffer. -/
theorem getH264PAFFFieldLength_pos (ptr : List Nat) (size : Nat) (hsize : 0 < size) :
    0 < getH264PAFFFieldLength ptr size :=
  paffScan_pos ptr size hsize _ _ _ _ _ _

/-- The field length never exceeds the buffer size. -/
theorem getH264PAFFFieldLength_le (ptr : List Nat) (size : Nat) :
    getH264PAFFFieldLength ptr size ≤ size := by
  unfold getH264PAFFFieldLength
  by_cases h : 3 ≤ size
  · exact paffScan_le ptr size _ _ _ _ _ _ (by omega) (by omega)
  · have : size - 3 = 0 := by omega
    rw [this]
    simp [paffScan]

/-! ### The field loop of the video stage -/

theorem advanceDts_zero (video : AVMuxVideo) : advanceDts video 0 = video := by
  unfold advanceDts
  split <;> simp

theorem advanceDts_step (video : AVMuxVideo) (k : Nat) :
    advanceDts (if ¬ video.bDtsUnavailable then video
      else { video with nFpsBaseNextDts := video.nFpsBaseNextDts + 1 }) k
      = advanceDts video (k + 1) := by
  unfold advanceDts
  cases h : video.bDtsUnavailable
  · simp [h]
  · simp [h]
    ring

theorem advanceDts_fields (video : AVMuxVideo) (k : Nat) :
    (advanceDts video k).bIsPAFF = video.bIsPAFF
    ∧ (advanceDts video k).nFPS = video.nFPS
    ∧ (advanceDts video k).nBframeDelay = video.nBframeDelay
    ∧ (advanceDts video k).bDtsUnavailable = video.bDtsUnavailable
    ∧ (advanceDts video k).streamPktTimebase = video.streamPktTimebase
    ∧ (advanceDts video k).bCFR = video.bCFR
    ∧ (advanceDts video k).pInputCodecCtx = video.pInputCodecCtx
    ∧ (advanceDts video k).nInputFirstKeyPts = video.nInputFirstKeyPts
    ∧ (advanceDts video k).codec_id = video.codec_id
    ∧ (advanceDts video k).extradata = video.extradata
    ∧ fpsTimebase (advanceDts video k) = fpsTimebase video := by
  unfold advanceDts fpsTimebase
  split <;> simp

theorem advanceDts_counter (video : AVMuxVideo) (k : Nat) (h : video.bDtsUnavailable = true) :
    (advanceDts video k).nFpsBaseNextDts = video.nFpsBaseNextDts + k := by
  unfold advanceDts
  simp [h]

/-- Effect of the field loop: it appends packets to the log, advances the dts counter
once per packet and changes nothing else; the `k`-th packet of the call is the one
built from the counter advanced `k` times. -/
theorem writeFieldsLoop_spec (env : Env) (writeFails : Nat → Bool) :
    ∀ (fuel i frameSize : Nat) (w : CAvcodecWriter) (bs : sBitstream) (dts : Int)
      (r : CAvcodecWriter × sBitstream × Int),
      writeFieldsLoop env writeFails fuel i frameSize w bs dts = some r →
      ∃ pkts : List AVPacket,
        r.1.written = w.written ++ pkts
        ∧ r.1.video = advanceDts w.video pkts.length
        ∧ r.1.format.bFileHeaderWritten = w.format.bFileHeaderWritten
        ∧ (w.format.bStreamError = true → r.1.format.bStreamError = true)
        ∧ r.1.audio = w.audio
        ∧ r.1.m_AudPktBufFileHead = w.m_AudPktBufFileHead
        ∧ r.1.trim = w.trim
        ∧ ∀ k pkt, pkts[k]? = some pkt →
            ∃ off n, pkt = videoPacket env (advanceDts w.video k)
              { bs with DataOffset := off } (i + k) n := by
  intro fuel
  induction fuel with
  | zero =>
    intro i frameSize w bs dts r h
    unfold writeFieldsLoop at h
    split at h
    · simp at h
    · simp only [Option.some.injEq] at h
      subst h
      exact ⟨[], by simp, by simp [advanceDts_zero], rfl, fun h => h, rfl, rfl, rfl,
        by simp⟩
  | succ fuel ih =>
    intro i frameSize w bs dts r h
    unfold writeFieldsLoop at h
    split at h
    · obtain ⟨pkts, h1, h2, h3, h4, h5, h6, h7, h8⟩ := ih _ _ _ _ _ _ h
      refine ⟨videoPacket env w.video bs i (if w.video.bIsPAFF then
          getH264PAFFFieldLength (bs.Data.drop bs.DataOffset) frameSize else frameSize)
        :: pkts, ?_, ?_, ?_, ?_, ?_, ?_, ?_, ?_⟩
      · simpa using h1
      · rw [h2]
        simp only [List.length_cons]
        exact advanceDts_step w.video pkts.length
      · simpa using h3
      · intro hs
        apply h4
        simp [hs]
      · simpa using h5
      · simpa using h6
      · simpa using h7
      · intro k pkt hk
        cases k with
        | zero =>
          simp only [List.getElem?_cons_zero, Option.some.injEq] at hk
          subst hk
          refine ⟨bs.DataOffset, (if w.video.bIsPAFF then
            getH264PAFFFieldLength (bs.Data.drop bs.DataOffset) frameSize else frameSize), ?_⟩
          rw [advanceDts_zero]
          rfl
        | succ k =>
          simp only [List.getElem?_cons_succ] at hk
          obtain ⟨off, n, hp⟩ := h8 k pkt hk
          refine ⟨off, n, ?_⟩
          rw [hp]
          simp only []
          rw [advanceDts_step w.video k]
          have : i + 1 + k = i + (k + 1) := by omega
          rw [this]
    · simp only [Option.some.injEq] at h
      subst h
      exact ⟨[], by simp, by simp [advanceDts_zero], rfl, fun h => h, rfl, rfl, rfl,
        by simp⟩

/-- The field loop ends when it is given as much fuel as there are bytes. -/
theorem writeFieldsLoop_total (env : Env) (writeFails : Nat → Bool) :
    ∀ (fuel i frameSize : Nat) (w : CAvcodecWriter) (bs : sBitstream) (dts : Int),
      frameSize ≤ fuel →
      ∃ r, writeFieldsLoop env writeFails fuel i frameSize w bs dts = some r := by
  intro fuel
  induction fuel with
  | zero =>
    intro i frameSize w bs dts h
    have : ¬ frameSize > 0 := by omega
    exact ⟨(w, bs, dts), by simp [writeFieldsLoop, this]⟩
  | succ fuel ih =>
    intro i frameSize w bs dts h
    unfold writeFieldsLoop
    split
    · rename_i hpos
      apply ih
      have : 0 < (if w.video.bIsPAFF then
          getH264PAFFFieldLength (bs.Data.drop bs.DataOffset) frameSize else frameSize) := by
        split
        · exact getH264PAFFFieldLength_pos _ _ hpos
        · exact hpos
      omega
    · exact ⟨_, rfl⟩

/-- `WriteNextFrameInternal` always returns. -/
theorem WriteNextFrameInternal_total (env : Env) (w : CAvcodecWriter) (call : FrameCall) :
    ∃ r, WriteNextFrameInternal env w call = some r := by
  unfold WriteNextFrameInternal
  simp only
  split
  · exact ⟨_, rfl⟩
  · rename_i hok
    obtain ⟨r, hr⟩ := writeFieldsLoop_total env call.writeFails _ 0 _
      (writeHeaderIfNeeded env
        { w with video := (VCECheckStreamAVParser w.video call.pBitstream call.parsed).1 }
        (elideFirstAud env (VCECheckStreamAVParser w.video call.pBitstream call.parsed).1.codec_id
          (VCECheckStreamAVParser w.video call.pBitstream call.parsed).2.1) call.header).1
      (elideFirstAud env (VCECheckStreamAVParser w.video call.pBitstream call.parsed).1.codec_id
        (VCECheckStreamAVParser w.video call.pBitstream call.parsed).2.1) call.writtenDts
      (le_refl _)
    rw [hr]
    exact ⟨_, rfl⟩

/-! ### Header step of the video stage -/

theorem videoConfigEq_refl (v : AVMuxVideo) : videoConfigEq v v := by
  simp [videoConfigEq]

theorem videoConfigEq_trans (a b c : AVMuxVideo) (h1 : videoConfigEq a b)
    (h2 : videoConfigEq b c) : videoConfigEq a c := by
  obtain ⟨a1, a2, a3, a4, a5, a6, a7, a8, a9⟩ := h1
  obtain ⟨b1, b2, b3, b4, b5, b6, b7, b8, b9⟩ := h2
  exact ⟨b1.trans a1, b2.trans a2, b3.trans a3, b4.trans a4, b5.trans a5, b6.trans a6,
    b7.trans a7, b8.trans a8, b9.trans a9⟩

theorem videoConfigEq_fps (a b : AVMuxVideo) (h : videoConfigEq a b) :
    fpsTimebase b = fpsTimebase a ∧ dtsDelay b = dtsDelay a := by
  obtain ⟨-, a2, a3, a4, -⟩ := h
  simp [fpsTimebase, dtsDelay, a2, a3, a4]

theorem AddH264HeaderToExtraData_config (env : Env) (v : AVMuxVideo) (bs : sBitstream) :
    videoConfigEq v (AddH264HeaderToExtraData env v bs)
    ∧ (AddH264HeaderToExtraData env v bs).bDtsUnavailable = v.bDtsUnavailable
    ∧ (AddH264HeaderToExtraData env v bs).nFpsBaseNextDts = v.nFpsBaseNextDts := by
  unfold AddH264HeaderToExtraData
  simp only
  split <;> simp [videoConfigEq]

theorem AddHEVCHeaderToExtraData_config (env : Env) (v : AVMuxVideo) (bs : sBitstream) :
    videoConfigEq v (AddHEVCHeaderToExtraData env v bs)
    ∧ (AddHEVCHeaderToExtraData env v bs).bDtsUnavailable = v.bDtsUnavailable
    ∧ (AddHEVCHeaderToExtraData env v bs).nFpsBaseNextDts = v.nFpsBaseNextDts := by
  unfold AddHEVCHeaderToExtraData
  simp only
  split <;> simp [videoConfigEq]

/-- Effect of `WriteFileHeader` on everything but the extradata. -/
theorem WriteFileHeader_spec (env : Env) (w : CAvcodecWriter) (pBitstream : Option sBitstream)
    (header : HeaderOutcome) :
    (WriteFileHeader env w pBitstream header).1.written = w.written
    ∧ (WriteFileHeader env w pBitstream header).1.format = w.format
    ∧ (WriteFileHeader env w pBitstream header).1.audio = w.audio
    ∧ (WriteFileHeader env w pBitstream header).1.m_AudPktBufFileHead = w.m_AudPktBufFileHead
    ∧ (WriteFileHeader env w pBitstream header).1.trim = w.trim
    ∧ videoConfigEq w.video (WriteFileHeader env w pBitstream header).1.video
    ∧ (WriteFileHeader env w pBitstream header).1.video.bDtsUnavailable
        = w.video.bDtsUnavailable
    ∧ ((WriteFileHeader env w pBitstream header).2 = AMF_RESULT.AMF_OK →
        header = HeaderOutcome.ok)
    ∧ (header = HeaderOutcome.ok →
        (WriteFileHeader env w pBitstream header).2 = AMF_RESULT.AMF_OK)
    ∧ (header = HeaderOutcome.ok → w.video.bDtsUnavailable = true →
        (WriteFileHeader env w pBitstream header).1.video.nFpsBaseNextDts
          = (0 - w.video.nBframeDelay) * (1 + (if w.video.bIsPAFF then 1 else 0))) := by
  have hv : ∀ v1 : AVMuxVideo,
      v1 = (match pBitstream with
        | some bs =>
          match w.video.codec_id with
          | AVCodecID.H264 => AddH264HeaderToExtraData env w.video bs
          | _ => AddHEVCHeaderToExtraData env w.video bs
        | none => w.video) →
      videoConfigEq w.video v1 ∧ v1.bDtsUnavailable = w.video.bDtsUnavailable := by
    intro v1 h
    subst h
    cases pBitstream with
    | none => exact ⟨videoConfigEq_refl _, rfl⟩
    | some bs =>
      simp only
      split
      · exact ⟨(AddH264HeaderToExtraData_config env w.video bs).1,
          (AddH264HeaderToExtraData_config env w.video bs).2.1⟩
      · exact ⟨(AddHEVCHeaderToExtraData_config env w.video bs).1,
          (AddHEVCHeaderToExtraData_config env w.video bs).2.1⟩
  obtain ⟨hc, hd⟩ := hv _ rfl
  have hc1 := hc
  obtain ⟨c1, c2, c3, c4, c5, c6, c7, c8, c9⟩ := hc1
  unfold WriteFileHeader
  cases header with
  | writeFailed => simp [hc, hd]
  | unknownOption => simp [hc, hd]
  | ok =>
    simp only [hd]
    cases hu : w.video.bDtsUnavailable
    · simp [hc, hd, hu]
    · simp [hd, hu, c3, c4, videoConfigEq, c1, c2, c5, c6, c7, c8, c9]

theorem VCECheckStreamAVParser_video (v : AVMuxVideo) (bs : sBitstream)
    (parsed : Option ParserResult) :
    (VCECheckStreamAVParser v bs parsed).1
      = { v with nParserStreamPos := v.nParserStreamPos + bs.DataLength } := by
  unfold VCECheckStreamAVParser
  cases parsed <;> rfl

theorem elideFirstAud_TimeStamp (env : Env) (codec_id : AVCodecID) (bs : sBitstream) :
    (elideFirstAud env codec_id bs).TimeStamp = bs.TimeStamp := by
  unfold elideFirstAud
  simp only
  split_ifs <;> rfl

/-- Effect of the header block of `WriteNextFrameInternal`. -/
theorem writeHeaderIfNeeded_spec (env : Env) (w : CAvcodecWriter) (bs : sBitstream)
    (header : HeaderOutcome) :
    (writeHeaderIfNeeded env w bs header).1.written = w.written
    ∧ (writeHeaderIfNeeded env w bs header).1.format = w.format
    ∧ (writeHeaderIfNeeded env w bs header).1.audio = w.audio
    ∧ (writeHeaderIfNeeded env w bs header).1.m_AudPktBufFileHead = w.m_AudPktBufFileHead
    ∧ (writeHeaderIfNeeded env w bs header).1.trim = w.trim
    ∧ videoConfigEq w.video (writeHeaderIfNeeded env w bs header).1.video
    ∧ (w.video.bDtsUnavailable = true →
        (writeHeaderIfNeeded env w bs header).1.video.bDtsUnavailable = true)
    ∧ (w.format.bFileHeaderWritten = true →
        writeHeaderIfNeeded env w bs header = (w, AMF_RESULT.AMF_OK))
    ∧ (w.format.bFileHeaderWritten = false →
        ((writeHeaderIfNeeded env w bs header).2 = AMF_RESULT.AMF_OK ↔
          header = HeaderOutcome.ok))
    ∧ (w.format.bFileHeaderWritten = false →
        (writeHeaderIfNeeded env w bs header).2 = AMF_RESULT.AMF_OK →
        w.video.bDtsUnavailable = true →
        (writeHeaderIfNeeded env w bs header).1.video.nFpsBaseNextDts
          = (0 - w.video.nBframeDelay) * (1 + (if w.video.bIsPAFF then 1 else 0))) := by
  unfold writeHeaderIfNeeded
  cases hw : w.format.bFileHeaderWritten
  · simp only [Bool.false_eq_true, not_false_eq_true, if_true]
    by_cases hts : bs.DecodeTimeStamp = AV_NOPTS_VALUE
    · simp only [hts, if_true]
      have hs := WriteFileHeader_spec env
        { w with video := { w.video with bDtsUnavailable := true } } (some bs) header
      simp only at hs
      obtain ⟨s1, s2, s3, s4, s5, s6, s7, s8, s9, s10⟩ := hs
      refine ⟨s1, s2, s3, s4, s5, ?_, ?_, ?_, ?_, ?_⟩
      · exact videoConfigEq_trans _ _ _ (by simp [videoConfigEq]) s6
      · intro _
        exact s7
      · intro h
        simp at h
      · intro _
        exact ⟨s8, s9⟩
      · intro _ hok _
        exact s10 (s8 hok) trivial
    · simp only [hts, if_false]
      have hs := WriteFileHeader_spec env w (some bs) header
      obtain ⟨s1, s2, s3, s4, s5, s6, s7, s8, s9, s10⟩ := hs
      refine ⟨s1, s2, s3, s4, s5, s6, ?_, ?_, ?_, ?_⟩
      · intro h
        rw [s7, h]
      · intro h
        simp at h
      · intro _
        exact ⟨s8, s9⟩
      · intro _ hok hu
        exact s10 (s8 hok) hu
  · simp [videoConfigEq_refl]

/-- Effect of one call of `WriteNextFrameInternal`: either the header could not be
written, and nothing is written at all, or the call appends the packets of the field
loop and sets `bFileHeaderWritten`. -/
theorem WriteNextFrameInternal_spec (env : Env) (w : CAvcodecWriter) (call : FrameCall)
    (r : CAvcodecWriter × sBitstream × Int × AMF_RESULT)
    (h : WriteNextFrameInternal env w call = some r) :
    (w.format.bFileHeaderWritten = false ∧ call.header ≠ HeaderOutcome.ok
      ∧ r.1.written = w.written ∧ r.1.format.bFileHeaderWritten = false
      ∧ r.1.format.bStreamError = true
      ∧ r.2.2.2 ≠ AMF_RESULT.AMF_OK
      ∧ r.1.m_AudPktBufFileHead = w.m_AudPktBufFileHead
      ∧ videoConfigEq w.video r.1.video
      ∧ (w.video.bDtsUnavailable = true → r.1.video.bDtsUnavailable = true))
    ∨ ((w.format.bFileHeaderWritten = true ∨ call.header = HeaderOutcome.ok)
      ∧ r.1.format.bFileHeaderWritten = true
      ∧ r.1.m_AudPktBufFileHead = w.m_AudPktBufFileHead
      ∧ videoConfigEq w.video r.1.video
      ∧ (w.video.bDtsUnavailable = true → r.1.video.bDtsUnavailable = true)
      ∧ ∃ (pkts : List AVPacket) (v1 : AVMuxVideo) (bs1 : sBitstream),
          r.1.written = w.written ++ pkts
          ∧ videoConfigEq w.video v1
          ∧ (w.video.bDtsUnavailable = true → v1.bDtsUnavailable = true)
          ∧ (w.format.bFileHeaderWritten = true → v1.nFpsBaseNextDts = w.video.nFpsBaseNextDts)
          ∧ (w.format.bFileHeaderWritten = false → w.video.bDtsUnavailable = true →
              v1.nFpsBaseNextDts
                = (0 - w.video.nBframeDelay) * (1 + (if w.video.bIsPAFF then 1 else 0)))
          ∧ bs1.TimeStamp = (VCECheckStreamAVParser w.video call.pBitstream call.parsed).2.1.TimeStamp
          ∧ r.1.video = advanceDts v1 pkts.length
          ∧ ∀ k pkt, pkts[k]? = some pkt →
              ∃ off n, pkt = videoPacket env (advanceDts v1 k)
                { bs1 with DataOffset := off } k n) := by
  unfold WriteNextFrameInternal at h
  simp only at h
  have hvid := VCECheckStreamAVParser_video w.video call.pBitstream call.parsed
  generalize hbs : elideFirstAud env
    (VCECheckStreamAVParser w.video call.pBitstream call.parsed).1.codec_id
    (VCECheckStreamAVParser w.video call.pBitstream call.parsed).2.1 = bs1 at h
  have hts : bs1.TimeStamp
      = (VCECheckStreamAVParser w.video call.pBitstream call.parsed).2.1.TimeStamp := by
    rw [← hbs]
    exact elideFirstAud_TimeStamp _ _ _
  have hs := writeHeaderIfNeeded_spec env
    { w with video := (VCECheckStreamAVParser w.video call.pBitstream call.parsed).1 }
    bs1 call.header
  generalize hhs : writeHeaderIfNeeded env
    { w with video := (VCECheckStreamAVParser w.video call.pBitstream call.parsed).1 }
    bs1 call.header = hstep at h hs
  simp only [hvid] at hs
  obtain ⟨s1, s2, s3, s4, s5, s6, s7, s8, s9, s10⟩ := hs
  have hcfg : videoConfigEq w.video hstep.1.video :=
    videoConfigEq_trans _ _ _ (by simp [videoConfigEq]) s6
  split at h
  · rename_i hne
    simp only [Option.some.injEq] at h
    subst h
    have hwf : w.format.bFileHeaderWritten = false := by
      cases hw : w.format.bFileHeaderWritten
      · rfl
      · have := s8 hw
        rw [this] at hne
        simp at hne
    left
    refine ⟨hwf, ?_, ?_, ?_, ?_, ?_, ?_, ?_, ?_⟩
    · intro hh
      exact hne ((s9 hwf).2 hh)
    · simpa using s1
    · simp [s2, hwf]
    · simp
    · simpa using hne
    · simpa using s4
    · simpa using hcfg
    · simpa using s7
  · rename_i hok
    have hok1 : hstep.2 = AMF_RESULT.AMF_OK := by
      by_contra hc
      exact hok hc
    split at h
    · simp at h
    · rename_i w2 bs2 dts2 hloop
      simp only [Option.some.injEq] at h
      subst h
      obtain ⟨pkts, l1, l2, l3, l4, l5, l6, l7, l8⟩ := writeFieldsLoop_spec _ _ _ _ _ _ _ _ _ hloop
      simp only at l1 l2 l3 l5 l6 l7
      have af := advanceDts_fields hstep.1.video pkts.length
      right
      refine ⟨?_, ?_, ?_, ?_, ?_, pkts, hstep.1.video, bs1, ?_, hcfg, s7, ?_, ?_, hts, ?_, ?_⟩
      · cases hw : w.format.bFileHeaderWritten
        · right
          exact (s9 hw).1 hok1
        · left
          rfl
      · simp
      · simp only [l6]
        exact s4
      · simp only [l2]
        obtain ⟨c1, c2, c3, c4, c5, c6, c7, c8, c9⟩ := hcfg
        unfold advanceDts
        split <;> exact ⟨c1, c2, c3, c4, c5, c6, c7, c8, c9⟩
      · intro hu
        simp only [l2]
        rw [af.2.2.2.1]
        exact s7 hu
      · simp only [l1, s1]
      · intro hw
        rw [s8 hw]
      · intro hw hu
        exact s10 hw hok1 hu
      · simpa using l2
      · intro k pkt hk
        obtain ⟨off, n, hp⟩ := l8 k pkt hk
        exact ⟨off, n, by simpa using hp⟩

/-! ### Synthesized dts of the video stage -/

theorem videoPacket_dts (env : Env) (v : AVMuxVideo) (bs : sBitstream) (i n : Nat)
    (h : v.bDtsUnavailable = true) :
    (videoPacket env v bs i n).dts
      = av_rescale_q v.nFpsBaseNextDts (fpsTimebase v) v.streamPktTimebase := by
  simp [videoPacket, h]

theorem videoPacket_duration (env : Env) (v : AVMuxVideo) (bs : sBitstream) (i n : Nat) :
    (videoPacket env v bs i n).duration
      = av_rescale_q 1 (fpsTimebase v) v.streamPktTimebase := by
  simp [videoPacket]

theorem getElem?_append_cases {α : Type} (l1 l2 : List α) (n : Nat) (x : α)
    (h : (l1 ++ l2)[n]? = some x) :
    l1[n]? = some x ∨ ∃ k, n = l1.length + k ∧ l2[k]? = some x := by
  by_cases hn : n < l1.length
  · left
    rwa [List.getElem?_append_left hn] at h
  · right
    rw [List.getElem?_append_right (by omega)] at h
    exact ⟨n - l1.length, by omega, h⟩

theorem dtsInvariant_init (w : CAvcodecWriter) (h1 : w.format.bFileHeaderWritten = false)
    (h2 : w.written = []) (h3 : w.video.bDtsUnavailable = true) :
    dtsInvariant w.video w := by
  refine ⟨videoConfigEq_refl _, h3, fun _ => h2, ?_, ?_⟩
  · intro h
    rw [h1] at h
    simp at h
  · intro n pkt h
    rw [h2] at h
    simp at h

/-- One call of `WriteNextFrameInternal` keeps the dts invariant. -/
theorem dtsInvariant_step (env : Env) (v0 : AVMuxVideo) (w : CAvcodecWriter)
    (call : FrameCall) (r : CAvcodecWriter × sBitstream × Int × AMF_RESULT)
    (hinv : dtsInvariant v0 w) (h : WriteNextFrameInternal env w call = some r) :
    dtsInvariant v0 r.1 := by
  obtain ⟨i1, i2, i3, i4, i5⟩ := hinv
  rcases WriteNextFrameInternal_spec env w call r h with
    ⟨a1, -, a3, a4, -, -, -, a8, a9⟩ | ⟨b1, b2, -, b4, b5, pkts, v1, bs1, c1, c2, c3, c4, c5, -, c7, c8⟩
  · refine ⟨videoConfigEq_trans _ _ _ i1 a8, a9 i2, ?_, ?_, ?_⟩
    · intro _
      rw [a3]
      exact i3 a1
    · intro hh
      rw [a4] at hh
      simp at hh
    · intro n pkt hp
      rw [a3] at hp
      exact i5 n pkt hp
  · have hv1 : v1.bDtsUnavailable = true := c3 i2
    have hcfg : videoConfigEq v0 v1 := videoConfigEq_trans _ _ _ i1 c2
    have hfps := videoConfigEq_fps v0 v1 hcfg
    have hstart : v1.nFpsBaseNextDts = (w.written.length : Int) - dtsDelay v0 := by
      cases hw : w.format.bFileHeaderWritten
      · rw [c5 hw i2, i3 hw]
        have := (videoConfigEq_fps v0 w.video i1).2
        unfold dtsDelay at this
        unfold dtsDelay
        simp only [List.length_nil, Nat.cast_zero]
        rw [← this]
        ring
      · rw [c4 hw, i4 hw]
    refine ⟨videoConfigEq_trans _ _ _ i1 b4, b5 i2, ?_, ?_, ?_⟩
    · intro hh
      rw [b2] at hh
      simp at hh
    · intro _
      rw [c7, advanceDts_counter v1 _ hv1, hstart, c1]
      simp only [List.length_append, Nat.cast_add]
      ring
    · intro n pkt hp
      rw [c1] at hp
      rcases getElem?_append_cases _ _ _ _ hp with hold | ⟨k, hk, hnew⟩
      · exact i5 n pkt hold
      · obtain ⟨off, m, hpkt⟩ := c8 k pkt hnew
        have af := advanceDts_fields v1 k
        rw [hpkt, videoPacket_dts _ _ _ _ _ (by rw [af.2.2.2.1]; exact hv1),
          advanceDts_counter v1 k hv1, af.2.2.2.2.2.2.2.2.2.2, af.2.2.2.2.1, hfps.1,
          hcfg.2.2.2.2.1, hstart, hk]
        congr 1
        push_cast
        ring

/-- A sequence of calls always returns and keeps the dts invariant. -/
theorem runFrames_invariant (env : Env) (v0 : AVMuxVideo) (calls : List FrameCall) :
    ∀ w : CAvcodecWriter, dtsInvariant v0 w →
      ∃ w1, runFrames env w calls = some w1 ∧ dtsInvariant v0 w1 := by
  induction calls with
  | nil =>
    intro w hw
    exact ⟨w, rfl, hw⟩
  | cons call rest ih =>
    intro w hw
    obtain ⟨r, hr⟩ := WriteNextFrameInternal_total env w call
    have hinv := dtsInvariant_step env v0 w call r hw hr
    obtain ⟨w1, h1, h2⟩ := ih r.1 hinv
    refine ⟨w1, ?_, h2⟩
    unfold runFrames
    rw [hr]
    exact h1

/-- On a fresh writer with synthesized dts, any sequence of calls returns, the counter
is the initial value plus the number of packets written, and the `n`-th packet written
carries the rescaled value `n − b_frame_delay · (1 + is_paff)`. -/
theorem runFrames_dts_formula (env : Env) (w0 : CAvcodecWriter) (calls : List FrameCall)
    (hheader : w0.format.bFileHeaderWritten = false) (hwritten : w0.written = [])
    (hdts : w0.video.bDtsUnavailable = true) :
    ∃ w, runFrames env w0 calls = some w
      ∧ (w.format.bFileHeaderWritten = true →
          w.video.nFpsBaseNextDts
            = (0 - w0.video.nBframeDelay) * (1 + (if w0.video.bIsPAFF then 1 else 0))
              + (w.written.length : Int))
      ∧ ∀ (n : Nat) (pkt : AVPacket), w.written[n]? = some pkt →
          pkt.dts = av_rescale_q
            ((n : Int) - w0.video.nBframeDelay * (1 + (if w0.video.bIsPAFF then 1 else 0)))
            (av_div_q ⟨1, 1 + (if w0.video.bIsPAFF then 1 else 0)⟩ w0.video.nFPS)
            w0.video.streamPktTimebase := by
  obtain ⟨w, hrun, hinv⟩ := runFrames_invariant env w0.video calls w0
    (dtsInvariant_init w0 hheader hwritten hdts)
  obtain ⟨-, -, -, i4, i5⟩ := hinv
  refine ⟨w, hrun, ?_, ?_⟩
  · intro hw
    rw [i4 hw]
    unfold dtsDelay
    ring
  · intro n pkt hp
    exact i5 n pkt hp

/-! ### Pts of the field packets and the two-field case -/

theorem videoPacket_pts (env : Env) (v : AVMuxVideo) (bs : sBitstream) (i n : Nat) :
    (videoPacket env v bs i n).pts
      = (videoPacket env v bs 0 0).pts
        + (if v.bIsPAFF then 1 else 0) * (i : Int)
          * av_rescale_q 1 (fpsTimebase v) v.streamPktTimebase := by
  simp [videoPacket]

theorem videoPacket_pts_config (env : Env) (v v1 : AVMuxVideo) (bs bs1 : sBitstream)
    (i n : Nat) (hc : videoConfigEq v v1) (ht : bs1.TimeStamp = bs.TimeStamp) :
    (videoPacket env v1 bs1 i n).pts = (videoPacket env v bs i n).pts
    ∧ (videoPacket env v1 bs1 i n).duration = (videoPacket env v bs i n).duration := by
  obtain ⟨c1, c2, c3, c4, c5, c6, c7, c8, c9⟩ := hc
  have hf : fpsTimebase v1 = fpsTimebase v := by simp [fpsTimebase, c2, c3]
  simp [videoPacket, hf, c3, c5, c6, c7, c8, ht]

theorem VCECheckStreamAVParser_buffer (v : AVMuxVideo) (bs : sBitstream)
    (parsed : Option ParserResult) :
    (VCECheckStreamAVParser v bs parsed).2.1.Data = bs.Data
    ∧ (VCECheckStreamAVParser v bs parsed).2.1.DataOffset = bs.DataOffset
    ∧ (VCECheckStreamAVParser v bs parsed).2.1.DataLength = bs.DataLength
    ∧ (VCECheckStreamAVParser v bs parsed).2.1.TimeStamp = bs.TimeStamp := by
  unfold VCECheckStreamAVParser
  cases parsed <;> simp

theorem elideFirstAud_buffer (env : Env) (c : AVCodecID) (bs bs1 : sBitstream)
    (hD : bs1.Data = bs.Data) (hO : bs1.DataOffset = bs.DataOffset)
    (hL : bs1.DataLength = bs.DataLength) :
    (elideFirstAud env c bs1).Data = (elideFirstAud env c bs).Data
    ∧ (elideFirstAud env c bs1).DataOffset = (elideFirstAud env c bs).DataOffset
    ∧ (elideFirstAud env c bs1).DataLength = (elideFirstAud env c bs).DataLength := by
  unfold elideFirstAud
  simp only [hD, hO, hL]
  split_ifs <;> simp [hD, hO, hL]

theorem writeFieldsLoop_done (env : Env) (writeFails : Nat → Bool) (fuel i : Nat)
    (w : CAvcodecWriter) (bs : sBitstream) (dts : Int) :
    writeFieldsLoop env writeFails fuel i 0 w bs dts = some (w, bs, dts) := by
  cases fuel <;> simp [writeFieldsLoop]

/-- The field loop writes one packet per piece counted by `fieldCount`. -/
theorem writeFieldsLoop_count (env : Env) (writeFails : Nat → Bool) :
    ∀ (fuel i frameSize : Nat) (w : CAvcodecWriter) (bs : sBitstream) (dts : Int)
      (r : CAvcodecWriter × sBitstream × Int),
      writeFieldsLoop env writeFails fuel i frameSize w bs dts = some r →
      r.1.written.length
        = w.written.length + fieldCount w.video.bIsPAFF bs.Data fuel bs.DataOffset frameSize := by
  intro fuel
  induction fuel with
  | zero =>
    intro i frameSize w bs dts r h
    unfold writeFieldsLoop at h
    split at h
    · simp at h
    · simp only [Option.some.injEq] at h
      subst h
      simp [fieldCount]
  | succ fuel ih =>
    intro i frameSize w bs dts r h
    unfold writeFieldsLoop at h
    split at h
    · rename_i hpos
      have hrec := ih _ _ _ _ _ _ h
      have hv : (if ¬ w.video.bDtsUnavailable = true then w.video
          else { w.video with nFpsBaseNextDts := w.video.nFpsBaseNextDts + 1 }).bIsPAFF
          = w.video.bIsPAFF := by
        split <;> rfl
      simp only [hv, List.length_append, List.length_singleton] at hrec
      rw [hrec]
      conv_rhs => unfold fieldCount
      simp only [hpos, if_true]
      omega
    · rename_i hpos
      simp only [Option.some.injEq] at h
      subst h
      simp [fieldCount, hpos]

/-- Two pieces when the field scan splits the buffer once and finds no further
boundary in the rest. -/
theorem fieldCount_two (data : List Nat) (fuel off frameSize : Nat)
    (hfuel : frameSize ≤ fuel)
    (h1 : getH264PAFFFieldLength (data.drop off) frameSize < frameSize)
    (h2 : getH264PAFFFieldLength
        (data.drop (off + getH264PAFFFieldLength (data.drop off) frameSize))
        (frameSize - getH264PAFFFieldLength (data.drop off) frameSize)
      = frameSize - getH264PAFFFieldLength (data.drop off) frameSize) :
    fieldCount true data fuel off frameSize = 2 := by
  have hpos : 0 < frameSize := by omega
  have hl1 := getH264PAFFFieldLength_pos (data.drop off) frameSize hpos
  obtain ⟨f, rfl⟩ : ∃ f, fuel = f + 2 := ⟨fuel - 2, by omega⟩
  have hrest : 0 < frameSize - getH264PAFFFieldLength (data.drop off) frameSize := by omega
  unfold fieldCount
  simp only [gt_iff_lt, hpos, if_true]
  unfold fieldCount
  simp only [gt_iff_lt, hrest, if_true, h2, Nat.sub_self]
  cases f <;> simp [fieldCount]

/-- The field loop writes exactly two packets when the field scan splits the buffer
once and finds no further boundary in the rest. -/
theorem writeFieldsLoop_two (env : Env) (writeFails : Nat → Bool) (fuel i frameSize : Nat)
    (w : CAvcodecWriter) (bs : sBitstream) (dts : Int)
    (r : CAvcodecWriter × sBitstream × Int)
    (hp : w.video.bIsPAFF = true) (hfuel : frameSize ≤ fuel)
    (h1 : getH264PAFFFieldLength (bs.Data.drop bs.DataOffset) frameSize < frameSize)
    (h2 : getH264PAFFFieldLength
        (bs.Data.drop
          (bs.DataOffset + getH264PAFFFieldLength (bs.Data.drop bs.DataOffset) frameSize))
        (frameSize - getH264PAFFFieldLength (bs.Data.drop bs.DataOffset) frameSize)
      = frameSize - getH264PAFFFieldLength (bs.Data.drop bs.DataOffset) frameSize)
    (h : writeFieldsLoop env writeFails fuel i frameSize w bs dts = some r) :
    r.1.written.length = w.written.length + 2 := by
  rw [writeFieldsLoop_count env writeFails _ _ _ _ _ _ _ h, hp,
    fieldCount_two bs.Data fuel bs.DataOffset frameSize hfuel h1 h2]

/-- At the level of one call that gets past the header: one packet per piece of the
buffer left after the first-AUD elision. -/
theorem WriteNextFrameInternal_count (env : Env) (w : CAvcodecWriter) (call : FrameCall)
    (r : CAvcodecWriter × sBitstream × Int × AMF_RESULT)
    (hhdr : w.format.bFileHeaderWritten = true ∨ call.header = HeaderOutcome.ok)
    (h : WriteNextFrameInternal env w call = some r) :
    r.1.written.length = w.written.length
      + fieldCount w.video.bIsPAFF (elideFirstAud env w.video.codec_id call.pBitstream).Data
          (elideFirstAud env w.video.codec_id call.pBitstream).DataLength
          (elideFirstAud env w.video.codec_id call.pBitstream).DataOffset
          (elideFirstAud env w.video.codec_id call.pBitstream).DataLength := by
  unfold WriteNextFrameInternal at h
  simp only at h
  have hvid := VCECheckStreamAVParser_video w.video call.pBitstream call.parsed
  have hbuf := VCECheckStreamAVParser_buffer w.video call.pBitstream call.parsed
  have hcd : (VCECheckStreamAVParser w.video call.pBitstream call.parsed).1.codec_id
      = w.video.codec_id := by rw [hvid]
  have hel := elideFirstAud_buffer env w.video.codec_id call.pBitstream
    (VCECheckStreamAVParser w.video call.pBitstream call.parsed).2.1 hbuf.1 hbuf.2.1 hbuf.2.2.1
  rw [hcd] at h
  rw [← hel.1, ← hel.2.1, ← hel.2.2]
  generalize elideFirstAud env w.video.codec_id
    (VCECheckStreamAVParser w.video call.pBitstream call.parsed).2.1 = bs1 at h ⊢
  have hs := writeHeaderIfNeeded_spec env
    { w with video := (VCECheckStreamAVParser w.video call.pBitstream call.parsed).1 }
    bs1 call.header
  generalize writeHeaderIfNeeded env
    { w with video := (VCECheckStreamAVParser w.video call.pBitstream call.parsed).1 }
    bs1 call.header = hstep at h hs
  simp only [hvid] at hs
  obtain ⟨s1, s2, s3, s4, s5, s6, s7, s8, s9, s10⟩ := hs
  have hok : hstep.2 = AMF_RESULT.AMF_OK := by
    rcases hhdr with hw | hh
    · rw [s8 hw]
    · cases hw : w.format.bFileHeaderWritten
      · exact (s9 hw).2 hh
      · rw [s8 hw]
  simp only [hok, ne_eq, not_true_eq_false, if_false] at h
  split at h
  · simp at h
  · rename_i w2 bs2 dts2 hloop
    simp only [Option.some.injEq] at h
    subst h
    have hpaff : hstep.1.video.bIsPAFF = w.video.bIsPAFF := s6.2.2.1
    have := writeFieldsLoop_count env call.writeFails _ _ _ _ _ _ _ hloop
    simp only at this ⊢
    rw [this, s1, hpaff]

/-! ### Dts order of the audio write path -/

theorem trackPackets_append (s : Int) (l1 l2 : List AVPacket) :
    trackPackets s (l1 ++ l2) = trackPackets s l1 ++ trackPackets s l2 := by
  simp [trackPackets]

theorem trackPackets_single_eq (s : Int) (p : AVPacket) (h : p.stream_index = s) :
    trackPackets s [p] = [p] := by
  simp [trackPackets, h]

theorem trackPackets_single_ne (s : Int) (p : AVPacket) (h : p.stream_index ≠ s) :
    trackPackets s [p] = [] := by
  simp [trackPackets, h]

/-- One packet call keeps the invariant of the audio write path. -/
theorem writeProcessedPacket_invariant (env : Env) (a : AVMuxAudio) (idx : Nat)
    (w : CAvcodecWriter) (new : List AVPacket) (call : ProcessedWrite) (writtenDts : Int)
    (hsr : (audioSamplerate a).positive) (htb : a.streamTimeBase.positive)
    (hs : 0 ≤ call.samples) (hinv : audioDtsInvariant a idx w new) :
    ∃ added, (writeProcessedPacket env w call writtenDts).1.written = w.written ++ added
      ∧ audioDtsInvariant a idx (writeProcessedPacket env w call writtenDts).1 (new ++ added) := by
  obtain ⟨⟨a1, hget, i1, i2, i3, i4, i5⟩, hothers, hsorted⟩ := hinv
  unfold writeProcessedPacket
  cases hb : w.audio[call.pMuxAudio]? with
  | none =>
    exact ⟨[], by simp, by simpa using ⟨⟨a1, hget, i1, i2, i3, i4, i5⟩, hothers, hsorted⟩⟩
  | some b =>
    simp only
    by_cases hz : call.samples = 0
    · simp only [hz, ne_eq, not_true_eq_false, if_false]
      exact ⟨[], by simp, by simpa using ⟨⟨a1, hget, i1, i2, i3, i4, i5⟩, hothers, hsorted⟩⟩
    · simp only [ne_eq, hz, not_false_eq_true, if_true]
      have hlen : call.pMuxAudio < w.audio.length := by
        by_contra hc
        rw [List.getElem?_eq_none (by omega)] at hb
        simp at hb
      refine ⟨[_], rfl, ?_⟩
      by_cases hj : call.pMuxAudio = idx
      · rw [hj] at hb hlen
        have hba : b = a1 := by
          rw [hget] at hb
          exact (Option.some.inj hb).symm
        subst hba
        rw [hj]
        have hmono : av_rescale_q (b.nOutputSamples + b.nDelaySamplesOfAudio)
            (audioSamplerate a) a.streamTimeBase
            ≤ av_rescale_q (b.nOutputSamples + call.samples + b.nDelaySamplesOfAudio)
              (audioSamplerate a) a.streamTimeBase :=
          av_rescale_q_mono _ _ hsr htb _ _ (by omega)
        refine ⟨⟨{ b with
            nLastPtsOut := av_rescale_q (b.nOutputSamples + b.nDelaySamplesOfAudio)
              (audioSamplerate b) b.streamTimeBase,
            nOutputSamples := b.nOutputSamples + call.samples }, ?_, ?_, ?_, ?_, ?_, ?_⟩, ?_, ?_⟩
        · simp only
          rw [List.getElem?_set_self hlen]
        · exact i1
        · exact i2
        · simpa [audioSamplerate] using i3
        · exact i4
        · intro p hp
          rw [trackPackets_append] at hp
          rcases List.mem_append.mp hp with hold | hnew
          · exact le_trans (i5 p hold) hmono
          · rw [trackPackets_single_eq _ _ (by simpa using i1)] at hnew
            simp only [List.mem_singleton] at hnew
            subst hnew
            simp only
            rw [i3, i2]
            exact hmono
        · intro j c hjne hc
          simp only at hc
          rw [List.getElem?_set_ne (Ne.symm hjne)] at hc
          exact hothers j c hjne hc
        · rw [trackPackets_append, trackPackets_single_eq _ _ (by simpa using i1)]
          rw [List.pairwise_append]
          refine ⟨hsorted, List.pairwise_singleton _ _, ?_⟩
          intro p hp q hq
          simp only [List.mem_singleton] at hq
          subst hq
          simp only
          rw [i3, i2]
          exact i5 p hp
      · have hbs : b.streamIndex ≠ a.streamIndex := hothers _ b hj hb
        have hnone : trackPackets a.streamIndex
            [{ call.pkt with
                stream_index := b.streamIndex, flags := AV_PKT_FLAG_KEY,
                dts := av_rescale_q (b.nOutputSamples + b.nDelaySamplesOfAudio)
                  (audioSamplerate b) b.streamTimeBase,
                pts := av_rescale_q (b.nOutputSamples + b.nDelaySamplesOfAudio)
                  (audioSamplerate b) b.streamTimeBase,
                duration :=
                  if av_rescale_q call.samples (audioSamplerate b) b.streamTimeBase = 0 then
                    av_rescale_q (b.nOutputSamples + b.nDelaySamplesOfAudio)
                      (audioSamplerate b) b.streamTimeBase - b.nLastPtsOut
                  else av_rescale_q call.samples (audioSamplerate b) b.streamTimeBase }] = [] :=
          trackPackets_single_ne _ _ (by simpa using hbs)
        refine ⟨⟨a1, ?_, i1, i2, i3, i4, ?_⟩, ?_, ?_⟩
        · simp only
          rw [List.getElem?_set_ne hj]
          exact hget
        · intro p hp
          rw [trackPackets_append, hnone, List.append_nil] at hp
          exact i5 p hp
        · intro j c hjne hc
          simp only at hc
          by_cases hjj : call.pMuxAudio = j
          · rw [← hjj, List.getElem?_set_self hlen] at hc
            have := (Option.some.inj hc).symm
            subst this
            simpa using hbs
          · rw [List.getElem?_set_ne hjj] at hc
            exact hothers j c hjne hc
        · rw [trackPackets_append, hnone, List.append_nil]
          exact hsorted

/-- A list of packet calls keeps the invariant of the audio write path. -/
theorem writeProcessedPackets_invariant (env : Env) (a : AVMuxAudio) (idx : Nat)
    (hsr : (audioSamplerate a).positive) (htb : a.streamTimeBase.positive)
    (calls : List ProcessedWrite) :
    ∀ (w : CAvcodecWriter) (new : List AVPacket) (writtenDts : Int),
      (∀ c ∈ calls, 0 ≤ c.samples) → audioDtsInvariant a idx w new →
      ∃ added, (writeProcessedPackets env w calls writtenDts).1.written = w.written ++ added
        ∧ audioDtsInvariant a idx (writeProcessedPackets env w calls writtenDts).1
            (new ++ added) := by
  induction calls with
  | nil =>
    intro w new writtenDts _ hinv
    exact ⟨[], by simp [writeProcessedPackets], by simpa [writeProcessedPackets] using hinv⟩
  | cons call rest ih =>
    intro w new writtenDts hs hinv
    obtain ⟨add1, h1, h2⟩ := writeProcessedPacket_invariant env a idx w new call writtenDts
      hsr htb (hs call (List.mem_cons_self _ _)) hinv
    obtain ⟨add2, h3, h4⟩ := ih _ _ (writeProcessedPacket env w call writtenDts).2
      (fun c hc => hs c (List.mem_cons_of_mem _ hc)) h2
    refine ⟨add1 ++ add2, ?_, ?_⟩
    · unfold writeProcessedPackets
      simp only
      rw [h3, h1, List.append_assoc]
    · unfold writeProcessedPackets
      simp only
      rw [← List.append_assoc]
      exact h4

/-- A sequence of `WriteNextPacketProcessed` calls keeps the invariant. -/
theorem runProcessed_invariant (env : Env) (a : AVMuxAudio) (idx : Nat)
    (hsr : (audioSamplerate a).positive) (htb : a.streamTimeBase.positive)
    (calls : List ProcessedCall) :
    ∀ (w : CAvcodecWriter) (new : List AVPacket) (writtenDts : Int),
      (∀ c ∈ calls, 0 ≤ c.samples ∧ ∀ f ∈ c.flushWrites, 0 ≤ f.samples) →
      audioDtsInvariant a idx w new →
      ∃ added, (runProcessed env w calls writtenDts).1.written = w.written ++ added
        ∧ audioDtsInvariant a idx (runProcessed env w calls writtenDts).1 (new ++ added) := by
  induction calls with
  | nil =>
    intro w new writtenDts _ hinv
    exact ⟨[], by simp [runProcessed], by simpa [runProcessed] using hinv⟩
  | cons call rest ih =>
    intro w new writtenDts hs hinv
    have hc := hs call (List.mem_cons_self _ _)
    have hone : ∃ add1, (WriteNextPacketProcessed env w call writtenDts).1.written
          = w.written ++ add1
        ∧ audioDtsInvariant a idx (WriteNextPacketProcessed env w call writtenDts).1
            (new ++ add1) := by
      unfold WriteNextPacketProcessed
      cases hp : call.pkt with
      | none =>
        exact writeProcessedPackets_invariant env a idx hsr htb call.flushWrites w new
          writtenDts hc.2 hinv
      | some pkt =>
        simp only
        split
        · exact writeProcessedPackets_invariant env a idx hsr htb call.flushWrites w new
            writtenDts hc.2 hinv
        · exact writeProcessedPacket_invariant env a idx w new _ writtenDts hsr htb hc.1 hinv
    obtain ⟨add1, h1, h2⟩ := hone
    obtain ⟨add2, h3, h4⟩ := ih _ _ (WriteNextPacketProcessed env w call writtenDts).2
      (fun c hc => hs c (List.mem_cons_of_mem _ hc)) h2
    refine ⟨add1 ++ add2, ?_, ?_⟩
    · unfold runProcessed
      simp only
      rw [h3, h1, List.append_assoc]
    · unfold runProcessed
      simp only
      rw [← List.append_assoc]
      exact h4

/-- In a list in pairwise order, consecutive elements are in order. -/
theorem pairwise_consecutive {α : Type} (R : α → α → Prop) (l : List α)
    (h : List.Pairwise R l) (i : Nat) (p q : α) (hp : l[i]? = some p)
    (hq : l[i + 1]? = some q) : R p q := by
  obtain ⟨h1, rfl⟩ := List.getElem?_eq_some.mp hp
  obtain ⟨h2, rfl⟩ := List.getElem?_eq_some.mp hq
  exact List.pairwise_iff_getElem.mp h i (i + 1) h1 h2 (by omega)

/-! ### Cutting audio frames -/

theorem getD_map_range {α : Type} (g : Nat → α) (m i : Nat) (d : α) (h : i < m) :
    ((List.range m).map g).getD i d = g i := by
  simp [List.getD_eq_getElem?_getD, List.getElem?_map, List.getElem?_range h]

theorem framePlane_cutFrame (env : Env) (enc : AudioEncodeCtx) (frame : AVFrame) (w F i : Nat)
    (hF : enc.frame_size = (F : Int)) (hi : i < channelLoopCount env enc) :
    framePlane (cutFrame env enc frame (w : Int)) i = ((framePlane frame i).drop w).take F := by
  unfold framePlane cutFrame
  simp only
  rw [getD_map_range _ _ _ _ hi, hF]
  simp [framePlane]

/-- Result of the cutting loop on `k · F + r` remaining samples with `r < F`. -/
theorem cutLoop_spec (env : Env) (enc : AudioEncodeCtx) (frame : AVFrame) (F : Nat)
    (hF : enc.frame_size = (F : Int)) :
    ∀ (k r wN fuel : Nat), r < F → k < fuel →
      cutLoop env enc frame fuel ((k * F + r : Nat) : Int) (wN : Int)
        = some ((List.range k).map (fun j => cutFrame env enc frame ((wN + j * F : Nat) : Int)),
            (r : Int), ((wN + k * F : Nat) : Int)) := by
  intro k
  induction k with
  | zero =>
    intro r wN fuel hr hfuel
    have hlt : ¬ (((0 * F + r : Nat) : Int) ≥ enc.frame_size) := by
      rw [hF]
      push_cast
      omega
    cases fuel with
    | zero => omega
    | succ f =>
      unfold cutLoop
      rw [if_neg hlt]
      simp
  | succ k ih =>
    intro r wN fuel hr hfuel
    cases fuel with
    | zero => omega
    | succ f =>
      have hge : (((k + 1) * F + r : Nat) : Int) ≥ enc.frame_size := by
        rw [hF]
        push_cast
        nlinarith
      have h1 : (((k + 1) * F + r : Nat) : Int) - enc.frame_size = ((k * F + r : Nat) : Int) := by
        rw [hF]
        push_cast
        ring
      have h2 : (wN : Int) + enc.frame_size = ((wN + F : Nat) : Int) := by
        rw [hF]
        push_cast
        ring
      unfold cutLoop
      rw [if_pos hge, h1, h2, ih r (wN + F) f hr (by omega)]
      simp only [Option.some.injEq, Prod.mk.injEq]
      refine ⟨?_, trivial, ?_⟩
      · rw [List.range_succ_eq_map]
        simp only [List.map_cons, List.map_map, Nat.zero_mul, Nat.add_zero]
        congr 1
        apply List.map_congr_left
        intro j _
        simp only [Function.comp]
        congr 2
        simp only [Nat.succ_eq_add_one]
        ring
      · congr 1
        ring

/-- The pieces of `F` units cut one after the other from a list make up its first
`k · F` units. -/
theorem flatten_pieces (P : List Nat) (F : Nat) :
    ∀ k : Nat, ((List.range k).map (fun j => (P.drop (j * F)).take F)).flatten
      = P.take (k * F) := by
  intro k
  induction k with
  | zero => simp
  | succ k ih =>
    rw [List.range_succ, List.map_append, List.flatten_append, ih]
    simp only [List.map_cons, List.map_nil, List.flatten_cons, List.flatten_nil,
      List.append_nil]
    rw [Nat.succ_mul, List.take_add]

/-- The combined frame holds the carry followed by the new frame. -/
theorem combined_planes (env : Env) (enc : AudioEncodeCtx) (carry : Option AVFrame)
    (frame : AVFrame) (c n : Nat)
    (hc : carrySamples carry = (c : Int))
    (hcwf : ∀ cache, carry = some cache → frameWellFormed (channelLoopCount env enc) cache)
    (hn : frame.nb_samples = (n : Int))
    (hfwf : frameWellFormed (channelLoopCount env enc) frame) :
    (combinedFrame env enc carry frame).nb_samples = ((c + n : Nat) : Int)
    ∧ ∀ i, i < channelLoopCount env enc →
        framePlane (combinedFrame env enc carry frame) i
          = carryPlane carry i ++ framePlane frame i := by
  cases carry with
  | none =>
    simp only [carrySamples] at hc
    have hc0 : c = 0 := by omega
    subst hc0
    refine ⟨by simpa [combinedFrame] using hn, ?_⟩
    intro i _
    simp [carryPlane, combinedFrame]
  | some cache =>
    simp only [carrySamples] at hc
    obtain ⟨-, hcl⟩ := hcwf cache rfl
    obtain ⟨-, hfl⟩ := hfwf
    refine ⟨?_, ?_⟩
    · simp only [combinedFrame, combineFrames, hc, hn]
      push_cast
      ring
    · intro i hi
      simp only [carryPlane, combinedFrame]
      unfold combineFrames
      simp only [framePlane]
      rw [getD_map_range _ _ _ _ hi]
      have h1 := hcl i hi
      have h2 := hfl i hi
      simp only [framePlane] at h1 h2
      rw [List.take_of_length_le (by omega), List.take_of_length_le (by omega)]

/-- Result of cutting a frame of `N` samples held in lists of `N` units: `N / F`
frames of `F` samples, then the remainder of `N mod F` samples as carry. -/
theorem cutLoop_result (env : Env) (enc : AudioEncodeCtx) (combined : AVFrame) (F N : Nat)
    (hF : enc.frame_size = (F : Int)) (hFpos : 0 < F)
    (hnb : combined.nb_samples = (N : Int))
    (hlen : ∀ i, i < channelLoopCount env enc → (framePlane combined i).length = N) :
    ∃ r, cutLoop env enc combined (combined.nb_samples.toNat + 1) combined.nb_samples 0 = some r
      ∧ r.1.length = N / F
      ∧ (∀ f ∈ r.1, f.nb_samples = (F : Int)
          ∧ ∀ i, i < channelLoopCount env enc → (framePlane f i).length = F)
      ∧ (∀ i, i < channelLoopCount env enc →
          (r.1.map (fun f => framePlane f i)).flatten
              ++ carryPlane (if r.2.1 ≠ 0 then
                  some (remainderFrame env enc combined r.2.1 r.2.2) else none) i
            = framePlane combined i)
      ∧ carrySamples (if r.2.1 ≠ 0 then
            some (remainderFrame env enc combined r.2.1 r.2.2) else none)
          = ((N % F : Nat) : Int)
      ∧ (N % F = 0 ↔ (if r.2.1 ≠ 0 then
            some (remainderFrame env enc combined r.2.1 r.2.2) else none) = none) := by
  have hdm : N / F * F + N % F = N := Nat.div_add_mod' N F
  have hmod : N % F < F := Nat.mod_lt _ hFpos
  have hk : N / F < N + 1 := by
    have := Nat.div_le_self N F
    omega
  have hloop := cutLoop_spec env enc combined F hF (N / F) (N % F) 0 (N + 1) hmod hk
  rw [hdm] at hloop
  simp only [Nat.cast_zero, Nat.zero_add] at hloop
  rw [hnb]
  simp only [Int.toNat_ofNat]
  refine ⟨_, hloop, ?_, ?_, ?_, ?_, ?_⟩
  · simp
  · intro f hf
    simp only [List.mem_map, List.mem_range] at hf
    obtain ⟨j, hj, rfl⟩ := hf
    refine ⟨by simp [cutFrame, hF], ?_⟩
    intro i hi
    rw [framePlane_cutFrame env enc combined (j * F) F i hF hi]
    simp only [List.length_take, List.length_drop, hlen i hi]
    have h2 : (j + 1) * F ≤ N / F * F := Nat.mul_le_mul_right F hj
    have h3 : (j + 1) * F = j * F + F := by ring
    omega
  · intro i hi
    simp only [List.map_map]
    have hpieces : (List.map ((fun f => framePlane f i)
        ∘ fun j => cutFrame env enc combined ((j * F : Nat) : Int))
        (List.range (N / F)))
        = (List.range (N / F)).map
            (fun j => ((framePlane combined i).drop (j * F)).take F) := by
      apply List.map_congr_left
      intro j _
      simp only [Function.comp]
      exact framePlane_cutFrame env enc combined (j * F) F i hF hi
    rw [hpieces, flatten_pieces]
    by_cases hr : N % F = 0
    · have hz : ¬ (((N % F : Nat) : Int) ≠ 0) := by
        rw [hr]
        simp
      rw [if_neg hz]
      simp only [carryPlane, List.append_nil]
      apply List.take_of_length_le
      rw [hlen i hi]
      omega
    · have hz : (((N % F : Nat) : Int) ≠ 0) := by
        exact_mod_cast hr
      rw [if_pos hz]
      simp only [carryPlane]
      have hrem : framePlane (remainderFrame env enc combined ((N % F : Nat) : Int)
          ((N / F * F : Nat) : Int)) i
          = ((framePlane combined i).drop (N / F * F)).take (N % F) := by
        unfold remainderFrame
        simp only [framePlane]
        rw [getD_map_range _ _ _ _ hi]
        simp only [Int.toNat_ofNat, framePlane]
      rw [hrem, ← List.take_add, hdm]
      apply List.take_of_length_le
      rw [hlen i hi]
  · by_cases hr : N % F = 0
    · simp [hr, carrySamples]
    · have hz : (((N % F : Nat) : Int) ≠ 0) := by
        exact_mod_cast hr
      rw [if_pos hz]
      simp [carrySamples, remainderFrame]
  · by_cases hr : N % F = 0
    · simp [hr]
    · have hz : (((N % F : Nat) : Int) ≠ 0) := by
        exact_mod_cast hr
      rw [if_pos hz]
      simp [hr]

/-! ### Decode errors -/

theorem appendDecoded_empty_silent (env : Env) (a : AVMuxAudio) (duration : Int) :
    (appendDecoded env emptyFrame (silentFrame env a duration)).nb_samples
        = av_rescale_q duration a.inPktTimebase ⟨1, a.nResamplerInSampleRate⟩
    ∧ frameSilent (appendDecoded env emptyFrame (silentFrame env a duration)) := by
  unfold appendDecoded
  have h0 : ¬ (emptyFrame.nb_samples ≠ 0 ∧ (silentFrame env a duration).nb_samples ≠ 0) := by
    simp [emptyFrame]
  rw [if_neg h0]
  have hs : frameSilent (silentFrame env a duration) := by
    intro plane hp u hu
    simp only [silentFrame, List.mem_replicate] at hp
    rw [hp.2] at hu
    exact (List.mem_replicate.mp hu).2
  by_cases hz : (silentFrame env a duration).nb_samples ≠ 0
  · rw [if_pos hz]
    exact ⟨rfl, hs⟩
  · rw [if_neg hz]
    have hz1 : (silentFrame env a duration).nb_samples = 0 := by
      by_contra hc
      exact hz hc
    refine ⟨?_, ?_⟩
    · have : (silentFrame env a duration).nb_samples
          = av_rescale_q duration a.inPktTimebase ⟨1, a.nResamplerInSampleRate⟩ := rfl
      rw [← this, hz1]
      rfl
    · intro plane hp
      simp [emptyFrame] at hp

/-- One packet whose first decoder call fails, on a track that is not over budget. -/
theorem AudioDecodePacket_failure (env : Env) (a : AVMuxAudio) (err : Bool) (pkt : AVPacket)
    (outcome : DecodeOutcome) (rest : List DecodeOutcome)
    (hlen : outcome.len < 0) (hbudget : a.nDecodeError ≤ a.nIgnoreDecodeError) :
    ∃ r, AudioDecodePacket env a err pkt (outcome :: rest) = some r
      ∧ r.pMuxAudio.nDecodeError = a.nDecodeError + 1
      ∧ r.pMuxAudio.nIgnoreDecodeError = a.nIgnoreDecodeError
      ∧ r.pMuxAudio.inPktTimebase = a.inPktTimebase
      ∧ r.pMuxAudio.nResamplerInSampleRate = a.nResamplerInSampleRate
      ∧ (a.nDecodeError + 1 ≤ a.nIgnoreDecodeError →
          r.bStreamError = err
          ∧ ∃ f, r.frame = some f
            ∧ f.nb_samples
                = av_rescale_q pkt.duration a.inPktTimebase ⟨1, a.nResamplerInSampleRate⟩
            ∧ frameSilent f)
      ∧ (a.nIgnoreDecodeError < a.nDecodeError + 1 →
          r.bStreamError = true ∧ r.frame = none ∧ r.got_result = false) := by
  have hnot : ¬ a.nDecodeError > a.nIgnoreDecodeError := by omega
  unfold AudioDecodePacket
  rw [if_neg hnot]
  by_cases hout : a.OutPacket.size ≠ 0
  · rw [if_pos hout]
    unfold decodeLoop
    simp only [true_or, if_true, hlen]
    by_cases hin : a.nDecodeError + 1 ≤ a.nIgnoreDecodeError
    · rw [if_pos hin]
      have hsil := appendDecoded_empty_silent env
        { a with
          OutPacket := { pkt with
            buf := a.OutPacket.buf
            data := some ((a.OutPacket.data.getD []).take a.OutPacket.size.toNat
              ++ (pkt.data.getD []).take pkt.size.toNat)
            size := a.OutPacket.size + pkt.size }
          nDecodeError := a.nDecodeError + 1 } pkt.duration
      exact ⟨_, rfl, rfl, rfl, rfl, rfl, fun _ => ⟨rfl, _, rfl, hsil.1, hsil.2⟩,
        fun h => absurd hin (by omega)⟩
    · rw [if_neg hin]
      exact ⟨_, rfl, rfl, rfl, rfl, rfl, fun h => absurd h hin, fun _ => ⟨rfl, rfl, rfl⟩⟩
  · rw [if_neg hout]
    unfold decodeLoop
    simp only [true_or, if_true, hlen]
    by_cases hin : a.nDecodeError + 1 ≤ a.nIgnoreDecodeError
    · rw [if_pos hin]
      have hsil := appendDecoded_empty_silent env
        { a with nDecodeError := a.nDecodeError + 1 } pkt.duration
      exact ⟨_, rfl, rfl, rfl, rfl, rfl, fun _ => ⟨rfl, _, rfl, hsil.1, hsil.2⟩,
        fun h => absurd hin (by omega)⟩
    · rw [if_neg hin]
      exact ⟨_, rfl, rfl, rfl, rfl, rfl, fun h => absurd h hin, fun _ => ⟨rfl, rfl, rfl⟩⟩

/-- When every decoder call succeeds, the loop leaves the error count at `0`. -/
theorem decodeLoop_success (env : Env) :
    ∀ (outcomes : List DecodeOutcome) (a : AVMuxAudio) (err : Bool) (pktIn : AVPacket)
      (got : Int) (df : AVFrame) (r : DecodeResult),
      (∀ o ∈ outcomes, 0 ≤ o.len) → (got = 0 ∨ a.nDecodeError = 0) →
      decodeLoop env outcomes a err pktIn got df = some r →
      r.pMuxAudio.nDecodeError = 0 ∧ r.bStreamError = err := by
  intro outcomes
  induction outcomes with
  | nil =>
    intro a err pktIn got df r _ hstart h
    unfold decodeLoop at h
    split at h
    · simp at h
    · rename_i hc
      simp only [Option.some.injEq] at h
      subst h
      refine ⟨?_, rfl⟩
      rcases hstart with h0 | h0
      · exact absurd (Or.inl h0) hc
      · exact h0
  | cons outcome rest ih =>
    intro a err pktIn got df r hall hstart h
    have hlen : ¬ outcome.len < 0 := by
      have := hall outcome (List.mem_cons_self _ _)
      omega
    unfold decodeLoop at h
    split at h
    · simp only [hlen, if_false] at h
      split at h
      · exact ih _ _ _ _ _ _ (fun o ho => hall o (List.mem_cons_of_mem _ ho)) (Or.inr rfl) h
      · simp only [Option.some.injEq] at h
        subst h
        exact ⟨rfl, rfl⟩
    · rename_i hc
      simp only [Option.some.injEq] at h
      subst h
      refine ⟨?_, rfl⟩
      rcases hstart with h0 | h0
      · exact absurd (Or.inl h0) hc
      · exact h0

/-- A run of failing packets that stays inside the budget: every packet gives a silent
frame of its duration, the error count goes up by one per packet and the stream error
flag is untouched. -/
theorem decodePackets_failures (env : Env) :
    ∀ (pkts : List (AVPacket × List DecodeOutcome)) (a : AVMuxAudio) (err : Bool),
      (∀ p ∈ pkts, ∃ o rest, p.2 = o :: rest ∧ o.len < 0) →
      a.nDecodeError + pkts.length ≤ a.nIgnoreDecodeError →
      ∃ r, decodePackets env a err pkts = some r
        ∧ r.1.nDecodeError = a.nDecodeError + pkts.length
        ∧ r.1.nIgnoreDecodeError = a.nIgnoreDecodeError
        ∧ r.1.inPktTimebase = a.inPktTimebase
        ∧ r.1.nResamplerInSampleRate = a.nResamplerInSampleRate
        ∧ r.2.1 = err
        ∧ r.2.2.length = pkts.length
        ∧ ∀ (i : Nat) (p : AVPacket × List DecodeOutcome), pkts[i]? = some p →
            ∃ f, r.2.2[i]? = some (some f)
              ∧ f.nb_samples
                  = av_rescale_q p.1.duration a.inPktTimebase ⟨1, a.nResamplerInSampleRate⟩
              ∧ frameSilent f := by
  intro pkts
  induction pkts with
  | nil =>
    intro a err _ _
    exact ⟨(a, err, []), rfl, by simp, rfl, rfl, rfl, rfl, rfl, by simp⟩
  | cons p rest ih =>
    intro a err hfail hbudget
    obtain ⟨pkt, outcomes⟩ := p
    obtain ⟨o, orest, ho, hlen⟩ := hfail (pkt, outcomes) (List.mem_cons_self _ _)
    simp only at ho
    subst ho
    simp only [List.length_cons, Nat.cast_add, Nat.cast_one] at hbudget
    obtain ⟨r1, hr1, c1, c2, c3, c4, c5, -⟩ := AudioDecodePacket_failure env a err pkt o orest
      hlen (by omega)
    obtain ⟨e1, f, hf, hnb, hsil⟩ := c5 (by omega)
    obtain ⟨r2, hr2, d1, d2, d3, d4, d5, d6, d7⟩ := ih r1.pMuxAudio r1.bStreamError
      (fun q hq => hfail q (List.mem_cons_of_mem _ hq)) (by rw [c1, c2]; omega)
    refine ⟨(r2.1, r2.2.1, r1.frame :: r2.2.2), ?_, ?_, ?_, ?_, ?_, ?_, ?_, ?_⟩
    · unfold decodePackets
      simp only [hr1, hr2]
    · simp only [d1, c1, List.length_cons, Nat.cast_add, Nat.cast_one]
      ring
    · simp only [d2, c2]
    · simp only [d3, c3]
    · simp only [d4, c4]
    · simp only [d5, e1]
    · simp [d6]
    · intro i q hq
      cases i with
      | zero =>
        simp only [List.getElem?_cons_zero, Option.some.injEq] at hq
        subst hq
        exact ⟨f, by simp [hf], hnb, hsil⟩
      | succ i =>
        simp only [List.getElem?_cons_succ] at hq
        obtain ⟨g, hg1, hg2, hg3⟩ := d7 i q hq
        refine ⟨g, by simpa using hg1, ?_, hg3⟩
        rw [hg2, c3, c4]

/-- Decoding a sequence of packets in two parts. -/
theorem decodePackets_append (env : Env) :
    ∀ (l1 l2 : List (AVPacket × List DecodeOutcome)) (a : AVMuxAudio) (err : Bool)
      (r1 : AVMuxAudio × Bool × List (Option AVFrame))
      (r2 : AVMuxAudio × Bool × List (Option AVFrame)),
      decodePackets env a err l1 = some r1 →
      decodePackets env r1.1 r1.2.1 l2 = some r2 →
      decodePackets env a err (l1 ++ l2) = some (r2.1, r2.2.1, r1.2.2 ++ r2.2.2) := by
  intro l1
  induction l1 with
  | nil =>
    intro l2 a err r1 r2 h1 h2
    simp only [decodePackets, Option.some.injEq] at h1
    subst h1
    simpa using h2
  | cons p rest ih =>
    intro l2 a err r1 r2 h1 h2
    obtain ⟨pkt, outcomes⟩ := p
    unfold decodePackets at h1
    simp only [List.cons_append]
    unfold decodePackets
    cases hd : AudioDecodePacket env a err pkt outcomes with
    | none => simp [hd] at h1
    | some r =>
      simp only [hd] at h1 ⊢
      cases hrest : decodePackets env r.pMuxAudio r.bStreamError rest with
      | none => simp [hrest] at h1
      | some r3 =>
        simp only [hrest, Option.some.injEq] at h1
        subst h1
        rw [ih l2 r.pMuxAudio r.bStreamError r3 r2 hrest h2]
        simp

/-! ### Chapters and subtitle packets -/

/-- The list `outChapters` holds the adjusted copies of the input chapters whose
adjusted start lies before their adjusted end, in input order. -/
theorem outChapters_eq_filter (nFPS : AVRational) (trim : List sTrim) (l : List AVChapter) :
    outChapters nFPS trim l
      = (l.filter (fun c => decide ((adjustChapter nFPS trim c).start
            < (adjustChapter nFPS trim c).end_))).map (adjustChapter nFPS trim) := by
  induction l with
  | nil => rfl
  | cons c rest ih =>
    simp only [outChapters, List.filter_cons]
    by_cases h : (adjustChapter nFPS trim c).start < (adjustChapter nFPS trim c).end_
    · simp [h, ih]
    · simp [h, ih]

/-- The chapters of the container after `SetChapters`: the list `outChapters` when it
is not empty, the previous chapters otherwise. -/
theorem SetChapters_chapters (w : CAvcodecWriter) (l : List AVChapter) :
    (SetChapters w l).1.format.chapters
      = if outChapters w.video.nFPS w.trim l = [] then w.format.chapters
        else outChapters w.video.nFPS w.trim l := by
  unfold SetChapters
  cases h : outChapters w.video.nFPS w.trim l with
  | nil => simp
  | cons c rest => simp

/-- With a single kept range `[s, e]`, a timestamp whose frame index lies in the range
is moved back by `s` frames. -/
theorem AdjustTimestampTrimmed_single_inside (nFPS : AVRational) (s e nTimeIn : Int)
    (timescaleIn timescaleOut : AVRational) (lastValidFrame : Bool)
    (h0 : s ≤ av_rescale_q nTimeIn timescaleIn (av_inv_q nFPS))
    (he : av_rescale_q nTimeIn timescaleIn (av_inv_q nFPS) ≤ e) :
    AdjustTimestampTrimmed nFPS [⟨s, e⟩] nTimeIn timescaleIn timescaleOut lastValidFrame
      = av_rescale_q nTimeIn timescaleIn timescaleOut
        - av_rescale_q s (av_inv_q nFPS) timescaleOut := by
  unfold AdjustTimestampTrimmed cutFramesTrimmed
  simp [trimLoop, not_lt.mpr h0, he]

/-- In a gap in front of the `k`-th kept range the trim loop leaves through
`return AV_NOPTS_VALUE` when `lastValidFrame` is false. -/
theorem cutFramesTrimmed_front_none (trim : List sTrim) (k : Nat) (f : Int)
    (hwf : trimWellFormed trim) (hk : k < trim.length)
    (hs : f < (trimAt trim k).start)
    (he : ∀ j, k = j + 1 → (trimAt trim j).fin < f) :
    cutFramesTrimmed trim f false = none := by
  have hne : trim.length ≠ 0 := by omega
  unfold cutFramesTrimmed
  rw [if_pos hne]
  cases k with
  | zero =>
    cases trim with
    | nil => simp at hk
    | cons t rest =>
      rw [trimAt_cons_zero] at hs
      rw [trimLoop_front _ _ t rest 0 0 hs]
      simp
  | succ j =>
    rw [trimLoop_gap _ _ trim j 0 0 hk hwf (he j rfl) hs]
    simp

/-- With a single kept range `[s, e]`, a frame index past the range is cut by
`s + (f − e)` frames: the loop runs to its end and nothing is rejected. -/
theorem cutFramesTrimmed_single_past (s e f : Int) (lv : Bool) (hs : s ≤ e) (he : e < f) :
    cutFramesTrimmed [⟨s, e⟩] f lv = some (s + (f - e)) := by
  unfold cutFramesTrimmed
  have h1 : ¬ f < s := by omega
  have h2 : ¬ f ≤ e := by omega
  simp [trimLoop, h1, h2]

/-! ### The AAC bitstream filter -/

/-- A failed filter run: before the first packet is passed on the streak grows by one and
beyond the threshold the stream error is raised; afterwards the streak and the format
state stay as they are. In both cases the packet is marked with duration 0. -/
theorem applyBitstreamFilterAAC_failure (format : AVMuxFormat) (a : AVMuxAudio) (pkt : AVPacket)
    (outcome : BsfOutcome) (hfail : bsfRunFailure outcome) :
    (a.nPacketWritten = 0 →
      (applyBitstreamFilterAAC format a pkt outcome).2.1.nAACBsfErrorFromStart
          = a.nAACBsfErrorFromStart + 1
      ∧ (applyBitstreamFilterAAC format a pkt outcome).2.1.nPacketWritten = 0
      ∧ (a.nAACBsfErrorFromStart + 1 > 30 →
          (applyBitstreamFilterAAC format a pkt outcome).1.bStreamError = true
          ∧ (applyBitstreamFilterAAC format a pkt outcome).2.2.2 = 1)
      ∧ (a.nAACBsfErrorFromStart + 1 ≤ 30 →
          (applyBitstreamFilterAAC format a pkt outcome).1 = format
          ∧ (applyBitstreamFilterAAC format a pkt outcome).2.2.1.duration = 0
          ∧ (applyBitstreamFilterAAC format a pkt outcome).2.2.2 = -1))
    ∧ (a.nPacketWritten ≠ 0 →
      (applyBitstreamFilterAAC format a pkt outcome).2.1.nAACBsfErrorFromStart
          = a.nAACBsfErrorFromStart
      ∧ (applyBitstreamFilterAAC format a pkt outcome).1 = format
      ∧ (applyBitstreamFilterAAC format a pkt outcome).2.2.1.duration = 0
      ∧ (applyBitstreamFilterAAC format a pkt outcome).2.2.2 = -1) := by
  cases outcome with
  | received ret pkt1 =>
    obtain ⟨h1, h2⟩ := hfail
    constructor
    · intro hw
      simp only [applyBitstreamFilterAAC, h1, h2, hw, if_true, if_false,
        AACBSFFILTER_ERROR_THRESHOLD]
      refine ⟨?_, ?_, ?_, ?_⟩
      · split <;> rfl
      · split <;> rfl
      · intro hgt
        rw [if_pos hgt]
        exact ⟨rfl, rfl⟩
      · intro hle
        rw [if_neg (by omega)]
        exact ⟨rfl, rfl, rfl⟩
    · intro hw
      simp [applyBitstreamFilterAAC, h1, h2, hw]
  | _ => exact absurd hfail (by simp [bsfRunFailure])

/-- A successful filter run resets the streak and leaves the format state alone. -/
theorem applyBitstreamFilterAAC_success (format : AVMuxFormat) (a : AVMuxAudio) (pkt : AVPacket)
    (outcome : BsfOutcome) (hok : bsfRunSuccess outcome) :
    (applyBitstreamFilterAAC format a pkt outcome).2.1.nAACBsfErrorFromStart = 0
    ∧ (applyBitstreamFilterAAC format a pkt outcome).1 = format
    ∧ (applyBitstreamFilterAAC format a pkt outcome).2.2.2 = 0 := by
  cases outcome with
  | received ret pkt1 =>
    rcases hok with h | h
    · simp [applyBitstreamFilterAAC, h]
    · by_cases he : ret = AVERROR_EAGAIN
      · simp [applyBitstreamFilterAAC, he]
      · simp [applyBitstreamFilterAAC, he, h]
  | _ => exact absurd hok (by simp [bsfRunSuccess])

/-- `applyBitstreamFilterAAC` never clears the stream error and leaves the other format
flags alone. -/
theorem applyBitstreamFilterAAC_sticky (format : AVMuxFormat) (a : AVMuxAudio) (pkt : AVPacket)
    (outcome : BsfOutcome) :
    (format.bStreamError = true →
      (applyBitstreamFilterAAC format a pkt outcome).1.bStreamError = true)
    ∧ (applyBitstreamFilterAAC format a pkt outcome).1.bFileHeaderWritten
        = format.bFileHeaderWritten
    ∧ (applyBitstreamFilterAAC format a pkt outcome).1.pFormatCtx = format.pFormatCtx := by
  cases outcome with
  | received ret pkt1 =>
    simp only [applyBitstreamFilterAAC]
    split_ifs <;> simp
  | _ => simp [applyBitstreamFilterAAC]

/-- A run of filter calls never clears the stream error. -/
theorem applyBitstreamFilterRun_sticky (pkt : AVPacket) (outcomes : List BsfOutcome) :
    ∀ (format : AVMuxFormat) (a : AVMuxAudio), format.bStreamError = true →
      (applyBitstreamFilterRun pkt format a outcomes).1.bStreamError = true := by
  induction outcomes with
  | nil => intro format a h; exact h
  | cons o rest ih =>
    intro format a h
    simp only [applyBitstreamFilterRun]
    exact ih _ _ ((applyBitstreamFilterAAC_sticky format a pkt o).1 h)

/-- A run of failures before the first packet is passed on: up to the threshold the
format state is unchanged and every call returns `-1`; beyond it the stream error is set. -/
theorem applyBitstreamFilterRun_failures (pkt : AVPacket) (outcomes : List BsfOutcome) :
    ∀ (format : AVMuxFormat) (a : AVMuxAudio), a.nPacketWritten = 0 →
      (∀ o ∈ outcomes, bsfRunFailure o) →
      (a.nAACBsfErrorFromStart + outcomes.length ≤ 30 →
        (applyBitstreamFilterRun pkt format a outcomes).1 = format
        ∧ (applyBitstreamFilterRun pkt format a outcomes).2.1.nAACBsfErrorFromStart
            = a.nAACBsfErrorFromStart + outcomes.length
        ∧ (applyBitstreamFilterRun pkt format a outcomes).2.2
            = outcomes.map (fun _ => -1))
      ∧ (0 < outcomes.length → a.nAACBsfErrorFromStart + outcomes.length > 30 →
        (applyBitstreamFilterRun pkt format a outcomes).1.bStreamError = true) := by
  induction outcomes with
  | nil =>
    intro format a _ _
    exact ⟨fun _ => ⟨rfl, by simp [applyBitstreamFilterRun], rfl⟩, fun h => absurd h (by simp)⟩
  | cons o rest ih =>
    intro format a hw hall
    have ho := (applyBitstreamFilterAAC_failure format a pkt o
      (hall o (List.mem_cons_self _ _))).1 hw
    obtain ⟨h1, h2, h3, h4⟩ := ho
    have hrest : ∀ o1 ∈ rest, bsfRunFailure o1 :=
      fun o1 h => hall o1 (List.mem_cons_of_mem _ h)
    have ih1 := ih (applyBitstreamFilterAAC format a pkt o).1
      (applyBitstreamFilterAAC format a pkt o).2.1 h2 hrest
    simp only [applyBitstreamFilterRun, List.length_cons, List.map_cons]
    constructor
    · intro hle
      have hle1 : a.nAACBsfErrorFromStart + 1 ≤ 30 := by
        have : (0 : Int) ≤ (rest.length : Int) := Int.natCast_nonneg _
        push_cast at hle
        omega
      obtain ⟨f1, -, f3⟩ := h4 hle1
      obtain ⟨g1, g2, g3⟩ := ih1.1 (by rw [h1]; push_cast at hle ⊢; omega)
      refine ⟨?_, ?_, ?_⟩
      · rw [g1, f1]
      · rw [g2, h1]
        push_cast
        ring
      · rw [g3, f3]
    · intro _ hgt
      by_cases hfirst : a.nAACBsfErrorFromStart + 1 > 30
      · exact applyBitstreamFilterRun_sticky pkt rest _ _ (h3 hfirst).1
      · have hpos : 0 < rest.length := by
          rcases Nat.eq_zero_or_pos rest.length with h | h
          · rw [h] at hgt
            push_cast at hgt
            omega
          · exact h
        exact ih1.2 hpos (by rw [h1]; push_cast at hgt ⊢; omega)

/-- A run of failures after the first packet was passed on leaves the format state
unchanged. -/
theorem applyBitstreamFilterRun_written (pkt : AVPacket) (outcomes : List BsfOutcome) :
    ∀ (format : AVMuxFormat) (a : AVMuxAudio), a.nPacketWritten ≠ 0 →
      (∀ o ∈ outcomes, bsfRunFailure o) →
      (applyBitstreamFilterRun pkt format a outcomes).1 = format := by
  induction outcomes with
  | nil => intro format a _ _; rfl
  | cons o rest ih =>
    intro format a hw hall
    have hfail := hall o (List.mem_cons_self _ _)
    obtain ⟨-, h2, -, -⟩ := (applyBitstreamFilterAAC_failure format a pkt o hfail).2 hw
    have hw1 : (applyBitstreamFilterAAC format a pkt o).2.1.nPacketWritten ≠ 0 := by
      cases o with
      | received ret pkt1 =>
        obtain ⟨h1, h3⟩ := hfail
        simp only [applyBitstreamFilterAAC, h1, h3, hw, if_true, if_false]
        exact hw
      | _ => exact absurd hfail (by simp [bsfRunFailure])
    simp only [applyBitstreamFilterRun]
    rw [ih _ _ hw1 (fun o1 h => hall o1 (List.mem_cons_of_mem _ h)), h2]

/-- The bitstream-filter block of `WriteNextPacketAudio` on a failed filter run before the
first packet is passed on: it returns, with `AMF_FAIL` and the stream error set beyond
the threshold. -/
theorem bsfBlock_failure (w : CAvcodecWriter) (idx : Nat) (a : AVMuxAudio)
    (pktData : AVPktMuxData) (nSamples : Int) (outcome : BsfOutcome)
    (hbsf : a.pAACBsfc = true) (hw : a.nPacketWritten = 0) (hfail : bsfRunFailure outcome) :
    (a.nAACBsfErrorFromStart + 1 > 30 →
      (bsfBlock w idx a pktData nSamples outcome).returned = some AMF_RESULT.AMF_FAIL
      ∧ (bsfBlock w idx a pktData nSamples outcome).w.format.bStreamError = true)
    ∧ (a.nAACBsfErrorFromStart + 1 ≤ 30 →
      (bsfBlock w idx a pktData nSamples outcome).returned
        = some (if w.format.bStreamError then AMF_RESULT.AMF_FAIL else AMF_RESULT.AMF_OK)
      ∧ (bsfBlock w idx a pktData nSamples outcome).w.format = w.format) := by
  obtain ⟨-, h2, h3, h4⟩ := (applyBitstreamFilterAAC_failure w.format a pktData.pkt outcome
    hfail).1 hw
  constructor
  · intro hgt
    obtain ⟨-, g2⟩ := h3 hgt
    simp only [bsfBlock, hbsf, if_true, g2]
    simp [setStreamError]
  · intro hle
    obtain ⟨g1, g2, g3⟩ := h4 hle
    simp only [bsfBlock, hbsf, if_true, g1, g2, g3, h2]
    simp

/-- When the bitstream-filter block returns a status, `WriteNextPacketAudio` returns it. -/
theorem WriteNextPacketAudio_returned (env : Env) (processed : ProcessedFn)
    (w : CAvcodecWriter) (lib : LibScript) (pktData : AVPktMuxData) (bsf : BsfOutcome)
    (idx : Nat) (a : AVMuxAudio) (sts : AMF_RESULT)
    (hidx : pktData.pMuxAudio = some idx) (ha : w.audio[idx]? = some a)
    (hret : (bsfBlock w idx a { pktData with samples := 0 }
        (av_rescale_q pktData.pkt.duration a.inPktTimebase ⟨1, a.inSampleRate⟩) bsf).returned
      = some sts) :
    WriteNextPacketAudio env processed w lib pktData bsf
      = some ((bsfBlock w idx a { pktData with samples := 0 }
            (av_rescale_q pktData.pkt.duration a.inPktTimebase ⟨1, a.inSampleRate⟩) bsf).w, lib,
          (bsfBlock w idx a { pktData with samples := 0 }
            (av_rescale_q pktData.pkt.duration a.inPktTimebase ⟨1, a.inSampleRate⟩)
            bsf).pktData, sts) := by
  cases pktData with
  | mk type pkt pMuxAudio dts samples pFrame got_result =>
    simp only at hidx
    subst hidx
    simp only [WriteNextPacketAudio, ha]
    simp only at hret
    rw [hret]

/-! ### Flushing the head buffer -/

/-- `AddAudQueue` changes the queues only. -/
theorem AddAudQueue_head (w : CAvcodecWriter) (pktData : AVPktMuxData) (type : AudQueueType) :
    (AddAudQueue w pktData type).1.m_AudPktBufFileHead = w.m_AudPktBufFileHead
    ∧ (AddAudQueue w pktData type).1.format = w.format
    ∧ (AddAudQueue w pktData type).1.written = w.written
    ∧ (AddAudQueue w pktData type).1.audio = w.audio
    ∧ (AddAudQueue w pktData type).1.encoded = w.encoded := by
  unfold AddAudQueue
  split <;> simp

/-- The flush loop of `WriteNextPacketInternal` keeps the head buffer and the header flag. -/
theorem flushAllAudio_head (stages : PacketStages) (hst : stagesKeepHead stages)
    (l : List Nat) : ∀ (w : CAvcodecWriter) (dts : Int),
    (flushAllAudio stages l w dts).1.m_AudPktBufFileHead = w.m_AudPktBufFileHead
    ∧ (flushAllAudio stages l w dts).1.format.bFileHeaderWritten
        = w.format.bFileHeaderWritten := by
  induction l with
  | nil => intro w dts; exact ⟨rfl, rfl⟩
  | cons i rest ih =>
    intro w dts
    simp only [flushAllAudio]
    obtain ⟨h1, h2⟩ := ih (stages.AudioFlushStream w i dts).1 (stages.AudioFlushStream w i dts).2
    obtain ⟨g1, g2⟩ := hst.1 w i dts
    exact ⟨h1.trans g1, h2.trans g2⟩

/-- Normal processing of a record keeps the head buffer and the header flag. -/
theorem processPacket_head (stages : PacketStages) (hst : stagesKeepHead stages)
    (w : CAvcodecWriter) (pktData : AVPktMuxData) :
    (processPacket stages w pktData).1.m_AudPktBufFileHead = w.m_AudPktBufFileHead
    ∧ (processPacket stages w pktData).1.format.bFileHeaderWritten
        = w.format.bFileHeaderWritten := by
  unfold processPacket
  have hq := AddAudQueue_head w pktData
    (if w.thread.thAudEncode then AudQueueType.AUD_QUEUE_ENCODE else AudQueueType.AUD_QUEUE_OUT)
  by_cases hd : pktData.pkt.data = none
  · by_cases ht : w.thread.thAudProcess = true
    · simp only [hd, ht, if_true]
      exact ⟨hq.1, by rw [hq.2.1]⟩
    · simp only [hd, ht, if_true, if_false]
      exact flushAllAudio_head stages hst _ w pktData.dts
  · by_cases hs : inTrackIdOfFlags pktData.pkt.flags < 0
    · by_cases ht : w.thread.thAudProcess = true
      · simp only [hd, hs, ht, if_true, if_false]
        exact ⟨hq.1, by rw [hq.2.1]⟩
      · simp only [hd, hs, ht, if_true, if_false]
        exact hst.2.1 w pktData.pkt
    · simp only [hd, hs, if_false]
      exact hst.2.2 w pktData

/-- Normal processing of a list of records keeps the head buffer and the header flag. -/
theorem processBuffered_head (stages : PacketStages) (hst : stagesKeepHead stages)
    (l : List AVPktMuxData) : ∀ w : CAvcodecWriter,
    (processBuffered stages l w).1.m_AudPktBufFileHead = w.m_AudPktBufFileHead
    ∧ (processBuffered stages l w).1.format.bFileHeaderWritten
        = w.format.bFileHeaderWritten := by
  induction l with
  | nil => intro w; exact ⟨rfl, rfl⟩
  | cons p rest ih =>
    intro w
    obtain ⟨g1, g2⟩ := processPacket_head stages hst w p
    simp only [processBuffered]
    split
    · exact ⟨g1, g2⟩
    · obtain ⟨h1, h2⟩ := ih (processPacket stages w p).1
      exact ⟨h1.trans g1, h2.trans g2⟩

/-- The head-buffer loop of `WriteNextPacketInternal`: every buffered record is found in
the head buffer by the recursive call, which therefore processes it directly. -/
theorem flushHeadBuffer_buffered (stages : PacketStages) (hst : stagesKeepHead stages)
    (fuel : Nat) (l : List AVPktMuxData) : ∀ w : CAvcodecWriter,
    w.format.bFileHeaderWritten = true →
    (∀ p ∈ l, p ∈ w.m_AudPktBufFileHead) →
    flushHeadBuffer (WriteNextPacketInternal stages (fuel + 1)) l w
      = some (processBuffered stages l w) := by
  induction l with
  | nil => intro w _ _; rfl
  | cons p rest ih =>
    intro w hw hmem
    have hp : p ∈ w.m_AudPktBufFileHead := hmem p (List.mem_cons_self _ _)
    have hall : (w.m_AudPktBufFileHead.all
        (fun data => decide (p.pkt.buf ≠ data.pkt.buf))) = false := by
      rw [List.all_eq_false]
      exact ⟨p, hp, by simp⟩
    have hcall : WriteNextPacketInternal stages (fuel + 1) w p
        = some (processPacket stages w p) := by
      simp only [WriteNextPacketInternal, hw, hall]
      simp
    obtain ⟨g1, g2⟩ := processPacket_head stages hst w p
    simp only [flushHeadBuffer, processBuffered, hcall]
    split
    · rfl
    · exact ih (processPacket stages w p).1 (by rw [g2]; exact hw)
        (fun q hq => by rw [g1]; exact hmem q (List.mem_cons_of_mem _ hq))

/-- The example stages keep the head buffer and the header flag. -/
theorem exampleWritingStages_keepHead : stagesKeepHead exampleWritingStages := by
  refine ⟨?_, ?_, ?_⟩ <;> intros <;> exact ⟨rfl, rfl⟩

/-! ### Frame conditions of the packet path -/

/-- `keepsFormat` is reflexive. -/
theorem keepsFormat_refl (w : CAvcodecWriter) : keepsFormat w w :=
  ⟨fun h => h, rfl, rfl, rfl⟩

/-- `keepsFormat` is transitive. -/
theorem keepsFormat_trans (a b c : CAvcodecWriter) (h1 : keepsFormat a b)
    (h2 : keepsFormat b c) : keepsFormat a c :=
  ⟨fun h => h2.1 (h1.1 h), h2.2.1.trans h1.2.1, h2.2.2.1.trans h1.2.2.1,
    h2.2.2.2.trans h1.2.2.2⟩

/-- Setting the stream error keeps the format state. -/
theorem setStreamError_keeps (w : CAvcodecWriter) : keepsFormat w (setStreamError w) := by
  simp [keepsFormat, setStreamError]

/-- Setting the carry of a track keeps the format state. -/
theorem setDecodedFrameCache_keeps (w : CAvcodecWriter) (idx : Nat) (c : Option AVFrame) :
    keepsFormat w (setDecodedFrameCache w idx c) := by
  unfold setDecodedFrameCache
  split <;> simp [keepsFormat]

/-- `AddAudQueue` keeps the format state. -/
theorem AddAudQueue_keeps (w : CAvcodecWriter) (pktData : AVPktMuxData) (type : AudQueueType) :
    keepsFormat w (AddAudQueue w pktData type).1 := by
  unfold AddAudQueue
  split <;> simp [keepsFormat]

/-- `AudioFilterFrame` keeps the format state. -/
theorem AudioFilterFrame_keeps (env : Env) (w : CAvcodecWriter) (lib : LibScript) (idx : Nat)
    (pFrame : Option AVFrame) (r : CAvcodecWriter × LibScript × Option AVFrame × AMF_RESULT)
    (h : AudioFilterFrame env w lib idx pFrame = some r) : keepsFormat w r.1 := by
  have key : (AudioFilterFrame env w lib idx pFrame).elim True
      (fun r => keepsFormat w r.1) := by
    unfold AudioFilterFrame
    repeat' split
    all_goals simp [keepsFormat, setStreamError]
  rw [h] at key
  exact key

/-- `AudioResampleFrame` keeps the format state. -/
theorem AudioResampleFrame_keeps (env : Env) (w : CAvcodecWriter) (idx : Nat)
    (frame : Option AVFrame) (o : ResampleOutcome) (r : CAvcodecWriter × Option AVFrame × Int)
    (h : AudioResampleFrame env w idx frame o = some r) : keepsFormat w r.1 := by
  have key : (AudioResampleFrame env w idx frame o).elim True
      (fun r => keepsFormat w r.1) := by
    unfold AudioResampleFrame
    repeat' split
    all_goals (try simp [keepsFormat, setStreamError, AV_NOPTS_VALUE])
    all_goals (split <;> simp [keepsFormat, setStreamError])
  rw [h] at key
  exact key

/-- `AudioEncodeFrame` keeps the format state. -/
theorem AudioEncodeFrame_keeps (w : CAvcodecWriter) (idx : Nat)
    (frame : Option AVFrame) (o : EncodeOutcome) (r : CAvcodecWriter × AVPacket × Int × Int)
    (h : AudioEncodeFrame w idx frame o = some r) : keepsFormat w r.1 := by
  have key : (AudioEncodeFrame w idx frame o).elim True (fun r => keepsFormat w r.1) := by
    unfold AudioEncodeFrame
    repeat' split
    all_goals simp [keepsFormat]
  rw [h] at key
  exact key

/-- Writing a processed packet keeps the format state. -/
theorem writeProcessedPacket_keeps (env : Env) (w : CAvcodecWriter) (call : ProcessedWrite)
    (d : Int) : keepsFormat w (writeProcessedPacket env w call d).1 := by
  unfold writeProcessedPacket
  repeat' split
  all_goals simp [keepsFormat]
  all_goals (intro h; simp [h])

/-- The record overload of `WriteNextPacketProcessed` keeps the format state. -/
theorem processedRecord_keeps (processed : ProcessedFn) (hp : processedKeeps processed)
    (w : CAvcodecWriter) (lib : LibScript) (pktData : AVPktMuxData)
    (r : CAvcodecWriter × LibScript × AVPktMuxData)
    (h : processedRecord processed w lib pktData = some r) : keepsFormat w r.1 := by
  unfold processedRecord at h
  split at h
  · simp at h
  · rename_i r0 h0
    simp only [Option.some.injEq] at h
    subst h
    exact hp _ _ _ _ _ _ _ h0

/-- `WriteNextAudioFrame` keeps the format state. -/
theorem WriteNextAudioFrame_keeps (processed : ProcessedFn) (hp : processedKeeps processed)
    (w : CAvcodecWriter) (lib : LibScript) (pktData : AVPktMuxData)
    (r : CAvcodecWriter × LibScript × AVPktMuxData × AMF_RESULT)
    (h : WriteNextAudioFrame processed w lib pktData = some r) : keepsFormat w r.1 := by
  unfold WriteNextAudioFrame at h
  split at h
  · simp only [Option.some.injEq] at h
    subst h
    simp only
    split
    · exact AddAudQueue_keeps _ _ _
    · exact keepsFormat_refl _
  · split at h
    · rename_i idx outcome rest
      split at h
      · simp at h
      · rename_i r0 h0
        have k0 := AudioEncodeFrame_keeps _ _ _ _ _ h0
        simp only at h
        split at h
        · split at h
          · simp only [Option.some.injEq] at h
            subst h
            exact keepsFormat_trans _ _ _ k0 (AddAudQueue_keeps _ _ _)
          · split at h
            · simp at h
            · rename_i r2 h2
              simp only [Option.some.injEq] at h
              subst h
              exact keepsFormat_trans _ _ _ k0 (processedRecord_keeps processed hp _ _ _ _ h2)
        · simp only [Option.some.injEq] at h
          subst h
          exact k0
    · simp at h

/-- Handing on the cut frames keeps the format state. -/
theorem handFrames_keeps (processed : ProcessedFn) (hp : processedKeeps processed)
    (thr : Bool) (type : AVMuxDataType) (pktData : AVPktMuxData) (frames : List AVFrame) :
    ∀ (w : CAvcodecWriter) (lib : LibScript) (r : CAvcodecWriter × LibScript),
      handFrames processed thr type pktData frames w lib = some r → keepsFormat w r.1 := by
  induction frames with
  | nil =>
    intro w lib r h
    simp only [handFrames, Option.some.injEq] at h
    subst h
    exact keepsFormat_refl _
  | cons f rest ih =>
    intro w lib r h
    simp only [handFrames] at h
    split at h
    · exact keepsFormat_trans _ _ _ (AddAudQueue_keeps _ _ _) (ih _ _ _ h)
    · split at h
      · simp at h
      · rename_i r0 h0
        exact keepsFormat_trans _ _ _ (WriteNextAudioFrame_keeps processed hp _ _ _ _ h0)
          (ih _ _ _ h)

/-- `WriteNextPacketAudioFrame`, as a step of the writer, keeps the format state. -/
theorem audioFrameStage_keeps (env : Env) (processed : ProcessedFn)
    (hp : processedKeeps processed) (w : CAvcodecWriter) (lib : LibScript)
    (pktData : AVPktMuxData) (r : CAvcodecWriter × LibScript × AMF_RESULT)
    (h : audioFrameStage env processed w lib pktData = some r) : keepsFormat w r.1 := by
  unfold audioFrameStage at h
  split at h
  · split at h
    · rename_i idx outcome rest
      simp only at h
      split at h
      · simp at h
      · rename_i r0 h0
        have k0 := AudioResampleFrame_keeps _ _ _ _ _ _ h0
        split at h
        · split at h
          · simp only [Option.some.injEq] at h
            subst h
            exact k0
          · rename_i frame hframe
            split at h
            · simp at h
            · rename_i a ha
              split at h
              · simp at h
              · rename_i enc henc
                split at h
                · split at h
                  · simp at h
                  · rename_i r2 h2
                    simp only [Option.some.injEq] at h
                    subst h
                    exact keepsFormat_trans _ _ _ k0 (handFrames_keeps processed hp _ _ _ _ _ _ _ h2)
                · split at h
                  · simp at h
                  · rename_i cut hcut
                    split at h
                    · simp at h
                    · rename_i r2 h2
                      simp only [Option.some.injEq] at h
                      subst h
                      have k2 := handFrames_keeps processed hp _ _ _ _ _ _ _ h2
                      have k1 := keepsFormat_trans _ _ _ k0
                        (keepsFormat_trans _ _ _ (setDecodedFrameCache_keeps _ _ _) k2)
                      simp only
                      split
                      · exact keepsFormat_trans _ _ _ k1 (setDecodedFrameCache_keeps _ _ _)
                      · exact k1
        · simp only [Option.some.injEq] at h
          subst h
          exact k0
    · simp at h
  · simp only [Option.some.injEq] at h
    subst h
    exact keepsFormat_refl _

/-- The sub-stream loop keeps the format state. -/
theorem subtrackLoop_keeps (env : Env) (processed : ProcessedFn)
    (hp : processedKeeps processed) (nInTrackId : Int) (pktData : AVPktMuxData)
    (l : List Int) :
    ∀ (w : CAvcodecWriter) (lib : LibScript) (r : CAvcodecWriter × LibScript),
      subtrackLoop env processed nInTrackId pktData l w lib = some r → keepsFormat w r.1 := by
  induction l with
  | nil =>
    intro w lib r h
    simp only [subtrackLoop, Option.some.injEq] at h
    subst h
    exact keepsFormat_refl _
  | cons i rest ih =>
    intro w lib r h
    simp only [subtrackLoop] at h
    split at h
    · simp only [Option.some.injEq] at h
      subst h
      exact keepsFormat_refl _
    · split at h
      · simp at h
      · rename_i r0 h0
        exact keepsFormat_trans _ _ _ (audioFrameStage_keeps env processed hp _ _ _ _ h0)
          (ih _ _ _ h)

/-- `WriteNextPacketToAudioSubtracks` keeps the format state. -/
theorem WriteNextPacketToAudioSubtracks_keeps (env : Env) (processed : ProcessedFn)
    (hp : processedKeeps processed) (w : CAvcodecWriter) (lib : LibScript)
    (pktData : AVPktMuxData) (r : CAvcodecWriter × LibScript × AMF_RESULT)
    (h : WriteNextPacketToAudioSubtracks env processed w lib pktData = some r) :
    keepsFormat w r.1 := by
  unfold WriteNextPacketToAudioSubtracks at h
  split at h
  · simp at h
  · split at h
    · simp at h
    · split at h
      · simp at h
      · rename_i r0 h0
        exact keepsFormat_trans _ _ _ (subtrackLoop_keeps env processed hp _ _ _ _ _ _ h0)
          (audioFrameStage_keeps env processed hp _ _ _ _ h)

/-- The decode loop never clears the stream error. -/
theorem decodeLoop_sticky (env : Env) (outcomes : List DecodeOutcome) :
    ∀ (a : AVMuxAudio) (err : Bool) (pktIn : AVPacket) (got : Int) (frame : AVFrame)
      (r : DecodeResult),
      decodeLoop env outcomes a err pktIn got frame = some r →
      err = true → r.bStreamError = true := by
  induction outcomes with
  | nil =>
    intro a err pktIn got frame r h herr
    simp only [decodeLoop] at h
    split at h
    · simp at h
    · simp only [Option.some.injEq] at h
      subst h
      exact herr
  | cons o rest ih =>
    intro a err pktIn got frame r h herr
    simp only [decodeLoop] at h
    split at h
    · split at h
      · split at h
        · simp only [Option.some.injEq] at h
          subst h
          exact herr
        · simp only [Option.some.injEq] at h
          subst h
          rfl
      · split at h
        · exact ih _ _ _ _ _ _ h herr
        · simp only [Option.some.injEq] at h
          subst h
          exact herr
    · simp only [Option.some.injEq] at h
      subst h
      exact herr

/-- `AudioDecodePacket` never clears the stream error. -/
theorem AudioDecodePacket_sticky (env : Env) (a : AVMuxAudio) (err : Bool) (pkt : AVPacket)
    (outcomes : List DecodeOutcome) (r : DecodeResult)
    (h : AudioDecodePacket env a err pkt outcomes = some r) (herr : err = true) :
    r.bStreamError = true := by
  unfold AudioDecodePacket at h
  split at h
  · simp only [Option.some.injEq] at h
    subst h
    exact herr
  · split at h
    · exact decodeLoop_sticky env _ _ _ _ _ _ _ h herr
    · exact decodeLoop_sticky env _ _ _ _ _ _ _ h herr

/-- Storing the result of `AudioDecodePacket` keeps the format state. -/
theorem applyDecodeResult_keeps (env : Env) (w : CAvcodecWriter) (idx : Nat) (a : AVMuxAudio)
    (pkt : AVPacket) (outcomes : List DecodeOutcome) (r : DecodeResult)
    (h : AudioDecodePacket env a w.format.bStreamError pkt outcomes = some r) :
    keepsFormat w (applyDecodeResult w idx r) := by
  refine ⟨?_, rfl, rfl, rfl⟩
  intro herr
  exact AudioDecodePacket_sticky env a _ pkt outcomes r h herr

/-- The decoder loop of `AudioFlushStream` keeps the format state. -/
theorem flushDecodeLoop_keeps (env : Env) (processed : ProcessedFn)
    (hp : processedKeeps processed) (idx : Nat) (fuel : Nat) :
    ∀ (w : CAvcodecWriter) (lib : LibScript) (r : CAvcodecWriter × LibScript),
      flushDecodeLoop env processed idx fuel w lib = some r → keepsFormat w r.1 := by
  induction fuel with
  | zero =>
    intro w lib r h
    simp [flushDecodeLoop] at h
  | succ fuel ih =>
    intro w lib r h
    simp only [flushDecodeLoop] at h
    split at h
    · simp at h
    · rename_i a ha
      split at h
      · split at h
        · simp at h
        · rename_i outcomes rest hdec
          split at h
          · simp at h
          · rename_i decoded hdecoded
            have k0 := applyDecodeResult_keeps env w idx a zeroPacket outcomes decoded hdecoded
            split at h
            · simp only [Option.some.injEq] at h
              subst h
              exact k0
            · split at h
              · simp at h
              · rename_i filtered hfiltered
                have k1 := keepsFormat_trans _ _ _ k0
                  (AudioFilterFrame_keeps env _ _ _ _ _ hfiltered)
                split at h
                · simp only [Option.some.injEq] at h
                  subst h
                  exact k1
                · split at h
                  · split at h
                    · simp at h
                    · rename_i r3 h3
                      exact keepsFormat_trans _ _ _ k1
                        (keepsFormat_trans _ _ _
                          (WriteNextPacketToAudioSubtracks_keeps env processed hp _ _ _ _ h3)
                          (ih _ _ _ h))
                  · exact keepsFormat_trans _ _ _ k1 (ih _ _ _ h)
      · simp only [Option.some.injEq] at h
        subst h
        exact keepsFormat_refl _

/-- The filter flush of `AudioFlushStream` keeps the format state. -/
theorem flushFilter_keeps (env : Env) (processed : ProcessedFn)
    (hp : processedKeeps processed) (idx : Nat) (w : CAvcodecWriter) (lib : LibScript)
    (r : CAvcodecWriter × LibScript)
    (h : flushFilter env processed idx w lib = some r) : keepsFormat w r.1 := by
  unfold flushFilter at h
  split at h
  · simp at h
  · split at h
    · simp only at h
      split at h
      · simp at h
      · rename_i filtered hfiltered
        have k1 := AudioFilterFrame_keeps env _ _ _ _ _ hfiltered
        split at h
        · split at h
          · simp at h
          · rename_i r3 h3
            simp only [Option.some.injEq] at h
            subst h
            exact keepsFormat_trans _ _ _ k1
              (WriteNextPacketToAudioSubtracks_keeps env processed hp _ _ _ _ h3)
        · simp only [Option.some.injEq] at h
          subst h
          exact k1
    · simp only [Option.some.injEq] at h
      subst h
      exact keepsFormat_refl _

/-- The resampler loop of `AudioFlushStream` keeps the format state. -/
theorem flushResampleLoop_keeps (env : Env) (processed : ProcessedFn)
    (hp : processedKeeps processed) (idx : Nat) (fuel : Nat) :
    ∀ (w : CAvcodecWriter) (lib : LibScript) (d : Int) (r : CAvcodecWriter × LibScript × Int),
      flushResampleLoop env processed idx fuel w lib d = some r → keepsFormat w r.1 := by
  induction fuel with
  | zero =>
    intro w lib d r h
    simp [flushResampleLoop] at h
  | succ fuel ih =>
    intro w lib d r h
    simp only [flushResampleLoop] at h
    split at h
    · simp at h
    · split at h
      · split at h
        · simp at h
        · split at h
          · simp at h
          · rename_i resampled hres
            have k0 := AudioResampleFrame_keeps env _ _ _ _ _ hres
            split at h
            · simp only [Option.some.injEq] at h
              subst h
              exact k0
            · split at h
              · simp at h
              · split at h
                · simp at h
                · rename_i encoded henc
                  have k1 := keepsFormat_trans _ _ _ k0 (AudioEncodeFrame_keeps _ _ _ _ _ henc)
                  split at h
                  · simp at h
                  · rename_i r3 h3
                    exact keepsFormat_trans _ _ _ k1
                      (keepsFormat_trans _ _ _ (hp _ _ _ _ _ _ _ h3) (ih _ _ _ _ h))
      · simp only [Option.some.injEq] at h
        subst h
        exact keepsFormat_refl _

/-- The encoder loop of `AudioFlushStream` keeps the format state. -/
theorem flushEncodeLoop_keeps (processed : ProcessedFn)
    (hp : processedKeeps processed) (idx : Nat) (fuel : Nat) :
    ∀ (w : CAvcodecWriter) (lib : LibScript) (d : Int) (r : CAvcodecWriter × LibScript × Int),
      flushEncodeLoop processed idx fuel w lib d = some r → keepsFormat w r.1 := by
  induction fuel with
  | zero =>
    intro w lib d r h
    simp [flushEncodeLoop] at h
  | succ fuel ih =>
    intro w lib d r h
    simp only [flushEncodeLoop] at h
    split at h
    · simp at h
    · split at h
      · split at h
        · simp at h
        · split at h
          · simp at h
          · rename_i encoded henc
            have k1 := AudioEncodeFrame_keeps _ _ _ _ _ henc
            split at h
            · simp at h
            · split at h
              · simp only [Option.some.injEq] at h
                subst h
                exact k1
              · split at h
                · simp at h
                · rename_i r3 h3
                  exact keepsFormat_trans _ _ _ k1
                    (keepsFormat_trans _ _ _ (hp _ _ _ _ _ _ _ h3) (ih _ _ _ _ h))
      · simp only [Option.some.injEq] at h
        subst h
        exact keepsFormat_refl _

/-- `AudioFlushStream` keeps the format state. -/
theorem AudioFlushStream_keeps (env : Env) (processed : ProcessedFn)
    (hp : processedKeeps processed) (w : CAvcodecWriter) (lib : LibScript) (idx : Nat)
    (d : Int) (r : CAvcodecWriter × LibScript × Int)
    (h : AudioFlushStream env processed w lib idx d = some r) : keepsFormat w r.1 := by
  unfold AudioFlushStream at h
  split at h
  · simp at h
  · rename_i r1 h1
    split at h
    · simp at h
    · rename_i r2 h2
      split at h
      · simp at h
      · rename_i r3 h3
        exact keepsFormat_trans _ _ _ (flushDecodeLoop_keeps env processed hp idx _ _ _ _ h1)
          (keepsFormat_trans _ _ _ (flushFilter_keeps env processed hp idx _ _ _ h2)
            (keepsFormat_trans _ _ _ (flushResampleLoop_keeps env processed hp idx _ _ _ _ _ h3)
              (flushEncodeLoop_keeps processed hp idx _ _ _ _ _ h)))

/-- Flushing every track keeps the format state. -/
theorem flushAllTracks_keeps (env : Env) (processed : ProcessedFn)
    (hp : processedKeeps processed) (l : List Nat) :
    ∀ (w : CAvcodecWriter) (lib : LibScript) (d : Int) (r : CAvcodecWriter × LibScript × Int),
      flushAllTracks env processed l w lib d = some r → keepsFormat w r.1 := by
  induction l with
  | nil =>
    intro w lib d r h
    simp only [flushAllTracks, Option.some.injEq] at h
    subst h
    exact keepsFormat_refl _
  | cons i rest ih =>
    intro w lib d r h
    simp only [flushAllTracks] at h
    split at h
    · simp at h
    · rename_i r0 h0
      exact keepsFormat_trans _ _ _ (AudioFlushStream_keeps env processed hp _ _ _ _ _ h0)
        (ih _ _ _ _ h)

/-- `WriteNextPacketProcessed`, nested flushes included, keeps the format state. -/
theorem WriteNextPacketProcessedFlush_keeps (env : Env) (fuel : Nat) :
    processedKeeps (WriteNextPacketProcessedFlush env fuel) := by
  induction fuel with
  | zero =>
    intro w lib i pkt samples d r h
    simp [WriteNextPacketProcessedFlush] at h
  | succ fuel ih =>
    intro w lib i pkt samples d r h
    simp only [WriteNextPacketProcessedFlush] at h
    split at h
    · split at h
      · simp at h
      · rename_i r0 h0
        simp only [Option.some.injEq] at h
        subst h
        exact flushAllTracks_keeps env _ ih _ _ _ _ r0 h0
    · split at h
      · simp at h
      · split at h
        · split at h
          · simp at h
          · simp only [Option.some.injEq] at h
            subst h
            exact writeProcessedPacket_keeps env _ _ _
        · simp only [Option.some.injEq] at h
          subst h
          exact keepsFormat_refl _

/-- The bitstream-filter block of `WriteNextPacketAudio` keeps the format state. -/
theorem bsfBlock_keeps (w : CAvcodecWriter) (idx : Nat) (a : AVMuxAudio)
    (pktData : AVPktMuxData) (nSamples : Int) (outcome : BsfOutcome) :
    keepsFormat w (bsfBlock w idx a pktData nSamples outcome).w := by
  have hs := applyBitstreamFilterAAC_sticky w.format a pktData.pkt outcome
  unfold bsfBlock
  simp only []
  split_ifs
  all_goals simp only [keepsFormat, setStreamError]
  all_goals simp [hs.2.1, hs.2.2]
  all_goals exact hs.1

/-- The lambda `writeOrSetNextPacketAudioProcessed` keeps the format state. -/
theorem writeOrSetNextPacketAudioProcessed_keeps (processed : ProcessedFn)
    (hp : processedKeeps processed) (w : CAvcodecWriter) (lib : LibScript)
    (pktData : AVPktMuxData) (r : CAvcodecWriter × LibScript × AVPktMuxData)
    (h : writeOrSetNextPacketAudioProcessed processed w lib pktData = some r) :
    keepsFormat w r.1 := by
  unfold writeOrSetNextPacketAudioProcessed at h
  split at h
  · simp only [Option.some.injEq] at h
    subst h
    exact AddAudQueue_keeps _ _ _
  · exact processedRecord_keeps processed hp _ _ _ _ h

/-- The re-encoding branch of `WriteNextPacketAudio` keeps the format state. -/
theorem reencodePacket_keeps (env : Env) (processed : ProcessedFn)
    (hp : processedKeeps processed) (w : CAvcodecWriter) (lib : LibScript) (idx : Nat)
    (a : AVMuxAudio) (pktData : AVPktMuxData) (nSamples : Int) (silence : Bool)
    (r : CAvcodecWriter × LibScript × AVPktMuxData × AMF_RESULT)
    (h : reencodePacket env processed w lib idx a pktData nSamples silence = some r) :
    keepsFormat w r.1 := by
  unfold reencodePacket at h
  simp only at h
  split at h
  · simp at h
  · rename_i d hd
    have k0 : keepsFormat w d.1 := by
      split at hd
      · simp only [Option.some.injEq] at hd
        subst hd
        exact keepsFormat_refl _
      · split at hd
        · simp at hd
        · split at hd
          · simp at hd
          · rename_i r0 h0
            simp only [Option.some.injEq] at hd
            subst hd
            exact applyDecodeResult_keeps env w idx a _ _ r0 h0
    split at h
    · split at h
      · simp at h
      · rename_i filtered hfiltered
        have k1 := keepsFormat_trans _ _ _ k0 (AudioFilterFrame_keeps env _ _ _ _ _ hfiltered)
        split at h
        · simp only [Option.some.injEq] at h
          subst h
          exact k1
        · split at h
          · simp at h
          · rename_i r3 h3
            simp only [Option.some.injEq] at h
            subst h
            exact keepsFormat_trans _ _ _ k1
              (WriteNextPacketToAudioSubtracks_keeps env processed hp _ _ _ _ h3)
    · split at h
      · simp at h
      · rename_i r3 h3
        simp only [Option.some.injEq] at h
        subst h
        exact keepsFormat_trans _ _ _ k0
          (WriteNextPacketToAudioSubtracks_keeps env processed hp _ _ _ _ h3)

/-- `WriteNextPacketAudio` keeps the format state. -/
theorem WriteNextPacketAudio_keeps (env : Env) (processed : ProcessedFn)
    (hp : processedKeeps processed) (w : CAvcodecWriter) (lib : LibScript)
    (pktData : AVPktMuxData) (bsf : BsfOutcome)
    (r : CAvcodecWriter × LibScript × AVPktMuxData × AMF_RESULT)
    (h : WriteNextPacketAudio env processed w lib pktData bsf = some r) :
    keepsFormat w r.1 := by
  unfold WriteNextPacketAudio at h
  simp only at h
  split at h
  · simp only [Option.some.injEq] at h
    subst h
    exact setStreamError_keeps _
  · rename_i idx hidx
    split at h
    · simp at h
    · rename_i a ha
      have kb := bsfBlock_keeps w idx a { pktData with samples := 0 }
        (av_rescale_q pktData.pkt.duration a.inPktTimebase ⟨1, a.inSampleRate⟩) bsf
      split at h
      · simp only [Option.some.injEq] at h
        subst h
        exact kb
      · split at h
        · simp at h
        · rename_i track htrack
          have kset : ∀ t : AVMuxAudio, keepsFormat w
              { (bsfBlock w idx a { pktData with samples := 0 }
                  (av_rescale_q pktData.pkt.duration a.inPktTimebase ⟨1, a.inSampleRate⟩)
                  bsf).w with
                audio := (bsfBlock w idx a { pktData with samples := 0 }
                  (av_rescale_q pktData.pkt.duration a.inPktTimebase ⟨1, a.inSampleRate⟩)
                  bsf).w.audio.set idx t } :=
            fun t => ⟨kb.1, kb.2.1, kb.2.2.1, kb.2.2.2⟩
          split at h
          · split at h
            · simp at h
            · rename_i r0 h0
              simp only [Option.some.injEq] at h
              subst h
              exact keepsFormat_trans _ _ _ (kset _)
                (writeOrSetNextPacketAudioProcessed_keeps processed hp _ _ _ _ h0)
          · split at h
            · exact keepsFormat_trans _ _ _ (kset _)
                (reencodePacket_keeps env processed hp _ _ _ _ _ _ _ _ h)
            · simp only [Option.some.injEq] at h
              subst h
              exact kset _

/-- `keepsError` is reflexive. -/
theorem keepsError_refl (w : CAvcodecWriter) : keepsError w w := ⟨fun h => h, rfl⟩

/-- `keepsError` is transitive. -/
theorem keepsError_trans (a b c : CAvcodecWriter) (h1 : keepsError a b)
    (h2 : keepsError b c) : keepsError a c :=
  ⟨fun h => h2.1 (h1.1 h), h2.2.trans h1.2⟩

/-- `keepsFormat` implies `keepsError`. -/
theorem keepsFormat_error (w w1 : CAvcodecWriter) (h : keepsFormat w w1) : keepsError w w1 :=
  ⟨h.1, h.2.1⟩

/-- `SubtitleWritePacket` keeps the format state when the transcoding branch does. -/
theorem SubtitleWritePacket_keeps
    (SubtitleTranscode : CAvcodecWriter → AVMuxSub → AVPacket → CAvcodecWriter × AMF_RESULT)
    (ht : ∀ w sub pkt, keepsFormat w (SubtitleTranscode w sub pkt).1)
    (w : CAvcodecWriter) (pkt : AVPacket) (writeFails : Bool) (r : CAvcodecWriter × AMF_RESULT)
    (h : SubtitleWritePacket SubtitleTranscode w pkt writeFails = some r) :
    keepsFormat w r.1 := by
  unfold SubtitleWritePacket at h
  split at h
  · simp at h
  · simp only at h
    split at h
    · split at h
      · simp only [Option.some.injEq] at h
        subst h
        exact ht _ _ _
      · simp only [Option.some.injEq] at h
        subst h
        refine ⟨?_, rfl, rfl, rfl⟩
        intro herr
        simp [herr]
    · simp only [Option.some.injEq] at h
      subst h
      exact keepsFormat_refl _

/-- Writing a list of processed packets keeps the format state. -/
theorem writeProcessedPackets_keeps (env : Env) (calls : List ProcessedWrite) :
    ∀ (w : CAvcodecWriter) (d : Int), keepsFormat w (writeProcessedPackets env w calls d).1 := by
  induction calls with
  | nil => intro w d; exact keepsFormat_refl _
  | cons c rest ih =>
    intro w d
    simp only [writeProcessedPackets]
    exact keepsFormat_trans _ _ _ (writeProcessedPacket_keeps env w c d) (ih _ _)

/-- `WriteNextPacketProcessed` keeps the format state. -/
theorem WriteNextPacketProcessed_keeps (env : Env) (w : CAvcodecWriter) (call : ProcessedCall)
    (d : Int) : keepsFormat w (WriteNextPacketProcessed env w call d).1 := by
  unfold WriteNextPacketProcessed
  split
  · exact writeProcessedPackets_keeps env _ _ _
  · split
    · exact writeProcessedPackets_keeps env _ _ _
    · exact writeProcessedPacket_keeps env _ _ _

/-- `WriteNextFrameInternal` never clears the stream error and keeps the container
context. -/
theorem WriteNextFrameInternal_keepsError (env : Env) (w : CAvcodecWriter) (call : FrameCall)
    (r : CAvcodecWriter × sBitstream × Int × AMF_RESULT)
    (h : WriteNextFrameInternal env w call = some r) : keepsError w r.1 := by
  unfold WriteNextFrameInternal at h
  simp only at h
  have hs := writeHeaderIfNeeded_spec env
    { w with video := (VCECheckStreamAVParser w.video call.pBitstream call.parsed).1 }
    (elideFirstAud env (VCECheckStreamAVParser w.video call.pBitstream call.parsed).1.codec_id
      (VCECheckStreamAVParser w.video call.pBitstream call.parsed).2.1) call.header
  generalize writeHeaderIfNeeded env
    { w with video := (VCECheckStreamAVParser w.video call.pBitstream call.parsed).1 }
    (elideFirstAud env (VCECheckStreamAVParser w.video call.pBitstream call.parsed).1.codec_id
      (VCECheckStreamAVParser w.video call.pBitstream call.parsed).2.1) call.header
    = hstep at h hs
  have hfmt : hstep.1.format = w.format := hs.2.1
  split at h
  · simp only [Option.some.injEq] at h
    subst h
    exact ⟨fun _ => rfl, by simp [hfmt]⟩
  · split at h
    · simp at h
    · rename_i w2 bs2 d2 hloop
      simp only [Option.some.injEq] at h
      subst h
      obtain ⟨pkts, -, -, -, e1, -⟩ := writeFieldsLoop_spec env _ _ _ _ _ _ _ _ hloop
      have hp : ∀ (fuel i frameSize : Nat) (w0 : CAvcodecWriter) (bs : sBitstream) (d : Int)
          (r0 : CAvcodecWriter × sBitstream × Int),
          writeFieldsLoop env call.writeFails fuel i frameSize w0 bs d = some r0 →
          r0.1.format.pFormatCtx = w0.format.pFormatCtx := by
        intro fuel
        induction fuel with
        | zero =>
          intro i frameSize w0 bs d r0 h0
          unfold writeFieldsLoop at h0
          split at h0
          · simp at h0
          · simp only [Option.some.injEq] at h0
            subst h0
            rfl
        | succ fuel ih =>
          intro i frameSize w0 bs d r0 h0
          unfold writeFieldsLoop at h0
          split at h0
          · exact (ih _ _ _ _ _ _ h0).trans rfl
          · simp only [Option.some.injEq] at h0
            subst h0
            rfl
      have e2 := hp _ _ _ _ _ _ _ hloop
      refine ⟨?_, ?_⟩
      · intro herr
        exact e1 (by rw [hfmt]; exact herr)
      · show w2.format.pFormatCtx = w.format.pFormatCtx
        rw [e2, hfmt]

/-- A sequence of `WriteNextFrameInternal` calls never clears the stream error. -/
theorem runFrames_keepsError (env : Env) (calls : List FrameCall) :
    ∀ (w w1 : CAvcodecWriter), runFrames env w calls = some w1 → keepsError w w1 := by
  induction calls with
  | nil =>
    intro w w1 h
    simp only [runFrames, Option.some.injEq] at h
    subst h
    exact keepsError_refl _
  | cons c rest ih =>
    intro w w1 h
    simp only [runFrames] at h
    split at h
    · simp at h
    · rename_i r0 h0
      exact keepsError_trans _ _ _ (WriteNextFrameInternal_keepsError env _ _ _ h0) (ih _ _ h)

/-- The flush loop of `WriteNextPacketInternal` never clears the stream error. -/
theorem flushAllAudio_keepsError (stages : PacketStages) (hst : stagesKeepFormat stages)
    (l : List Nat) : ∀ (w : CAvcodecWriter) (dts : Int),
    keepsError w (flushAllAudio stages l w dts).1 := by
  induction l with
  | nil => intro w dts; exact keepsError_refl _
  | cons i rest ih =>
    intro w dts
    simp only [flushAllAudio]
    exact keepsError_trans _ _ _ (keepsFormat_error _ _ (hst.1 w i dts)) (ih _ _)

/-- Normal processing of a record never clears the stream error. -/
theorem processPacket_keepsError (stages : PacketStages) (hst : stagesKeepFormat stages)
    (w : CAvcodecWriter) (pktData : AVPktMuxData) :
    keepsError w (processPacket stages w pktData).1 := by
  unfold processPacket
  have hq := keepsFormat_error _ _ (AddAudQueue_keeps w pktData
    (if w.thread.thAudEncode then AudQueueType.AUD_QUEUE_ENCODE else AudQueueType.AUD_QUEUE_OUT))
  by_cases hd : pktData.pkt.data = none
  · by_cases ht : w.thread.thAudProcess = true
    · simp only [hd, ht, if_true]
      exact hq
    · simp only [hd, ht, if_true, if_false]
      exact flushAllAudio_keepsError stages hst _ w pktData.dts
  · by_cases hs : inTrackIdOfFlags pktData.pkt.flags < 0
    · by_cases ht : w.thread.thAudProcess = true
      · simp only [hd, hs, ht, if_true, if_false]
        exact hq
      · simp only [hd, hs, ht, if_true, if_false]
        exact keepsFormat_error _ _ (hst.2.1 w pktData.pkt)
    · simp only [hd, hs, if_false]
      exact keepsFormat_error _ _ (hst.2.2 w pktData)

/-- The head-buffer loop never clears the stream error when the recursive call does not. -/
theorem flushHeadBuffer_keepsError
    (self : CAvcodecWriter → AVPktMuxData → Option (CAvcodecWriter × AVPktMuxData × AMF_RESULT))
    (hself : ∀ w p r, self w p = some r → keepsError w r.1) (l : List AVPktMuxData) :
    ∀ (w : CAvcodecWriter) (r : CAvcodecWriter × AMF_RESULT),
      flushHeadBuffer self l w = some r → keepsError w r.1 := by
  induction l with
  | nil =>
    intro w r h
    simp only [flushHeadBuffer, Option.some.injEq] at h
    subst h
    exact keepsError_refl _
  | cons p rest ih =>
    intro w r h
    simp only [flushHeadBuffer] at h
    split at h
    · simp at h
    · rename_i r0 h0
      split at h
      · simp only [Option.some.injEq] at h
        subst h
        exact hself _ _ _ h0
      · exact keepsError_trans _ _ _ (hself _ _ _ h0) (ih _ _ h)

/-- `WriteNextPacketInternal` never clears the stream error. -/
theorem WriteNextPacketInternal_keepsError (stages : PacketStages)
    (hst : stagesKeepFormat stages) (fuel : Nat) :
    ∀ (w : CAvcodecWriter) (pktData : AVPktMuxData)
      (r : CAvcodecWriter × AVPktMuxData × AMF_RESULT),
      WriteNextPacketInternal stages fuel w pktData = some r → keepsError w r.1 := by
  induction fuel with
  | zero =>
    intro w pktData r h
    simp [WriteNextPacketInternal] at h
  | succ fuel ih =>
    intro w pktData r h
    simp only [WriteNextPacketInternal] at h
    split at h
    · simp only [Option.some.injEq] at h
      subst h
      exact keepsError_refl _
    · split at h
      · split at h
        · simp at h
        · rename_i r0 h0
          have k0 := flushHeadBuffer_keepsError _ ih _ _ _ h0
          split at h
          · simp only [Option.some.injEq] at h
            subst h
            exact k0
          · simp only [Option.some.injEq] at h
            subst h
            exact keepsError_trans _ _ _ k0
              (processPacket_keepsError stages hst { r0.1 with m_AudPktBufFileHead := [] } pktData)
      · simp only [Option.some.injEq] at h
        subst h
        exact processPacket_keepsError stages hst w pktData

/-- No single operation of the writer clears the stream error. -/
theorem WriterStep_keepsError (env : Env) (w w1 : CAvcodecWriter) (h : WriterStep env w w1) :
    keepsError w w1 := by
  rcases h with ⟨_, call, r, h⟩ | ⟨stages, fuel, _, pktData, r, hst, h⟩
    | ⟨fuel, _, lib, pktData, bsf, r, h⟩ | ⟨tr, _, pkt, writeFails, r, ht, h⟩
    | ⟨fuel, _, lib, idx, d, r, h⟩ | ⟨fuel, _, lib, pktData, r, h⟩
    | ⟨fuel, _, lib, pMuxAudio, pkt, samples, d, r, h⟩
  · exact WriteNextFrameInternal_keepsError env w call r h
  · exact WriteNextPacketInternal_keepsError stages hst fuel w pktData r h
  · exact keepsFormat_error _ _ (WriteNextPacketAudio_keeps env _
      (WriteNextPacketProcessedFlush_keeps env fuel) w lib pktData bsf r h)
  · exact keepsFormat_error _ _ (SubtitleWritePacket_keeps tr ht w pkt writeFails r h)
  · exact keepsFormat_error _ _ (AudioFlushStream_keeps env _
      (WriteNextPacketProcessedFlush_keeps env fuel) w lib idx d r h)
  · exact keepsFormat_error _ _ (WriteNextAudioFrame_keeps _
      (WriteNextPacketProcessedFlush_keeps env fuel) w lib pktData r h)
  · exact keepsFormat_error _ _ (WriteNextPacketProcessedFlush_keeps env fuel _ _ _ _ _ _ _ h)

/-- No sequence of operations of the writer clears the stream error. -/
theorem WriterSteps_keepsError (env : Env) (w w1 : CAvcodecWriter)
    (h : Relation.ReflTransGen (WriterStep env) w w1) : keepsError w w1 := by
  induction h with
  | refl => exact keepsError_refl _
  | tail _ hstep ih => exact keepsError_trans _ _ _ ih (WriterStep_keepsError env _ _ hstep)

/-! ### Selecting the sample format -/

/-- The first element of a list that satisfies `p`, given by its position. -/
theorem find?_of_first {α : Type} (p : α → Bool) :
    ∀ (l : List α) (k : Nat) (x : α), l[k]? = some x → p x = true →
      (∀ j g, j < k → l[j]? = some g → p g = false) → l.find? p = some x
  | [], k, x, h, _, _ => by simp at h
  | a :: l, 0, x, h, hp, _ => by
    simp only [List.getElem?_cons_zero, Option.some.injEq] at h
    subst h
    simp [List.find?_cons, hp]
  | a :: l, k + 1, x, h, hp, hfirst => by
    have ha : p a = false := hfirst 0 a (Nat.succ_pos k) (by simp)
    simp only [List.find?_cons, ha]
    simp only [List.getElem?_cons_succ] at h
    exact find?_of_first p l k x h hp (fun j g hj hg =>
      hfirst (j + 1) g (Nat.succ_lt_succ hj) (by simpa using hg))

/-- The scan of `AutoSelectSampleFmt` starts at the first table entry of the source's
level and runs to the end of the table: it visits the formats of that tier and below. -/
theorem dropWhile_level_eq_tierCandidates (srcFormat : Int) (entry : Int × Int)
    (h : sampleFmtLevel.find? (fun t => t.1 == srcFormat) = some entry) :
    (sampleFmtLevel.dropWhile (fun t => t.2 != entry.2)).map Prod.fst
      = tierCandidates srcFormat := by
  have hmem : srcFormat ∈ sampleFmtLevel.map Prod.fst := by
    have := List.mem_of_find?_eq_some h
    have h2 := List.find?_some h
    simp only [beq_iff_eq] at h2
    exact List.mem_map.2 ⟨entry, this, h2⟩
  have he : entry = (sampleFmtLevel.find? (fun t => t.1 == srcFormat)).getD (0, 0) := by
    rw [h]
    rfl
  subst he
  clear h
  simp only [sampleFmtLevel, List.map, List.mem_cons, List.mem_singleton, List.not_mem_nil,
    or_false] at hmem
  rcases hmem with h1 | h1 | h1 | h1 | h1 | h1 | h1 | h1 | h1 | h1 <;>
    (subst h1; decide)

/-- The first entry of a sample-format array with a non-empty offer. -/
theorem headD_of_offered (list : List Int) (h : offeredFormats list ≠ []) :
    some (list.headD AV_SAMPLE_FMT_NONE) = (offeredFormats list).head? := by
  cases list with
  | nil => simp [offeredFormats] at h
  | cons a rest =>
    by_cases ha : 0 ≤ a
    · simp [offeredFormats, List.takeWhile_cons, ha]
    · simp [offeredFormats, List.takeWhile_cons, ha] at h

/-! ### Subtitle set-up -/

/-- What `InitSubtitle` returns when it sets up a track: the transcoding track when the
chosen codec id differs from the source's or is `mov_text`, the copying track
otherwise. -/
theorem InitSubtitle_result (lib : SubtitleInitLib) (oformatName : String)
    (vidPktTimebase : Option AVRational) (nFPS : AVRational) (src : SubtitleSource)
    (codecId : Nat) (hcodec : subtitleCodecId lib oformatName src = some codecId)
    (r : SubtitleInit) (sts : AMF_RESULT)
    (h : InitSubtitle lib oformatName vidPktTimebase nFPS src = some (some r, sts)) :
    (codecId ≠ src.codec_id ∨ codecId = AV_CODEC_ID_MOV_TEXT →
        r.sub.pOutCodecEncodeCtx = true ∧ r.pOutCodecDecodeCtx = true ∧ r.codec_id = codecId)
    ∧ (¬ (codecId ≠ src.codec_id ∨ codecId = AV_CODEC_ID_MOV_TEXT) →
        r.sub.pOutCodecEncodeCtx = false ∧ r.pOutCodecDecodeCtx = false
        ∧ r.codec_id = src.codec_id) := by
  unfold InitSubtitle at h
  split at h
  · simp at h
  · rename_i streamIndex _
    simp only [hcodec] at h
    by_cases hneed : codecId ≠ src.codec_id ∨ codecId = AV_CODEC_ID_MOV_TEXT
    · rw [if_pos hneed] at h
      refine ⟨fun _ => ?_, fun hn => absurd hneed hn⟩
      repeat' split at h
      all_goals simp only [Option.some.injEq, Prod.mk.injEq] at h
      all_goals obtain ⟨h1, _⟩ := h
      all_goals first
        | exact absurd h1 (by simp)
        | (subst h1; exact ⟨rfl, rfl, rfl⟩)
    · rw [if_neg hneed] at h
      refine ⟨fun hn => absurd hn hneed, fun _ => ?_⟩
      simp only [Option.some.injEq, Prod.mk.injEq] at h
      obtain ⟨h1, _⟩ := h
      subst h1
      exact ⟨rfl, rfl, rfl⟩

/-- `InitSubtitle` returns `AMF_OK` with a track when the stream is created and, if
decoder and encoder are needed, the library calls for them succeed. -/
theorem InitSubtitle_ok (lib : SubtitleInitLib) (oformatName : String)
    (vidPktTimebase : Option AVRational) (nFPS : AVRational) (src : SubtitleSource)
    (streamIndex : Int) (codecId : Nat)
    (hstream : lib.avformat_new_stream = some streamIndex)
    (hcodec : subtitleCodecId lib oformatName src = some codecId)
    (hlib : (codecId ≠ src.codec_id ∨ codecId = AV_CODEC_ID_MOV_TEXT) → transcodeLibOk lib) :
    ∃ r, InitSubtitle lib oformatName vidPktTimebase nFPS src
      = some (some r, AMF_RESULT.AMF_OK) := by
  unfold InitSubtitle
  simp only [hstream, hcodec]
  by_cases hneed : codecId ≠ src.codec_id ∨ codecId = AV_CODEC_ID_MOV_TEXT
  · obtain ⟨hd, hdc, hdo, he, hec, heo, hb⟩ := hlib hneed
    rw [if_pos hneed]
    simp only [hd, hdc, hdo, he, hec, heo, hb, not_true_eq_false, if_false]
    exact ⟨_, rfl⟩
  · rw [if_neg hneed]
    exact ⟨_, rfl⟩

/-- The test `codecId != src codec id || codecId == AV_CODEC_ID_MOV_TEXT` of
`InitSubtitle` holds exactly in the cases (a) and (b) of the specification, when the
source codec has a descriptor (it is consulted for MP4-family containers) and the
descriptor of `mov_text` marks it as a text subtitle. -/
theorem transcode_test_iff (lib : SubtitleInitLib) (oformatName : String)
    (src : SubtitleSource)
    (hdesc : isMp4Family oformatName = true →
      (lib.avcodec_descriptor_get src.codec_id).isSome = true)
    (hmov : isMp4Family oformatName = true → src.codec_id = AV_CODEC_ID_MOV_TEXT →
      isTextSubtitle lib src.codec_id) :
    ∃ codecId, subtitleCodecId lib oformatName src = some codecId
      ∧ ((codecId ≠ src.codec_id ∨ codecId = AV_CODEC_ID_MOV_TEXT)
          ↔ transcodeRequired lib oformatName src)
      ∧ (transcodeRequired lib oformatName src →
          (isMp4Family oformatName = true → codecId = AV_CODEC_ID_MOV_TEXT)
          ∧ (isMp4Family oformatName = false → codecId = AV_CODEC_ID_ASS)) := by
  have hne : AV_CODEC_ID_ASS ≠ AV_CODEC_ID_MOV_TEXT := by
    unfold AV_CODEC_ID_ASS AV_CODEC_ID_MOV_TEXT
    omega
  by_cases hmp4 : isMp4Family oformatName = true
  · cases hd : lib.avcodec_descriptor_get src.codec_id with
    | none =>
      have := hdesc hmp4
      rw [hd] at this
      simp at this
    | some props =>
      have htext : isTextSubtitle lib src.codec_id ↔ props &&& AV_CODEC_PROP_TEXT_SUB ≠ 0 := by
        unfold isTextSubtitle
        constructor
        · rintro ⟨p, hp, hne⟩
          rw [hd] at hp
          simp only [Option.some.injEq] at hp
          subst hp
          exact hne
        · intro h
          exact ⟨props, hd, h⟩
      by_cases htxt : props &&& AV_CODEC_PROP_TEXT_SUB ≠ 0
      · have hreq : transcodeRequired lib oformatName src := Or.inl ⟨hmp4, htext.2 htxt⟩
        refine ⟨AV_CODEC_ID_MOV_TEXT, ?_, ⟨fun _ => hreq, fun _ => Or.inr rfl⟩,
          fun _ => ⟨fun _ => rfl, fun h => ?_⟩⟩
        · simp only [subtitleCodecId, hmp4, hd, if_true, if_pos htxt]
        · rw [hmp4] at h
          exact absurd h (by simp)
      · have hsrc : src.codec_id ≠ AV_CODEC_ID_MOV_TEXT :=
          fun h => htxt (htext.1 (hmov hmp4 h))
        have hreq : ¬ transcodeRequired lib oformatName src := by
          rintro (⟨_, h⟩ | ⟨h, _⟩)
          · exact htxt (htext.1 h)
          · rw [hmp4] at h
            exact absurd h (by simp)
        refine ⟨src.codec_id, ?_, ⟨?_, fun h => absurd h hreq⟩, fun h => absurd h hreq⟩
        · simp only [subtitleCodecId, hmp4, hd, if_true, if_neg htxt]
        · rintro (h | h)
          · exact absurd rfl h
          · exact absurd h hsrc
  · have hmp4f : isMp4Family oformatName = false := by simpa using hmp4
    by_cases hsrc : src.codec_id = AV_CODEC_ID_MOV_TEXT
    · have hreq : transcodeRequired lib oformatName src := Or.inr ⟨hmp4f, hsrc⟩
      refine ⟨AV_CODEC_ID_ASS, ?_, ⟨fun _ => hreq, fun _ => Or.inl (by rw [hsrc]; exact hne)⟩,
        fun _ => ⟨fun h => absurd h hmp4, fun _ => rfl⟩⟩
      simp only [subtitleCodecId, hmp4, if_false, if_pos hsrc, Bool.false_eq_true]
    · have hreq : ¬ transcodeRequired lib oformatName src := by
        rintro (⟨h, _⟩ | ⟨_, h⟩)
        · exact hmp4 h
        · exact hsrc h
      refine ⟨src.codec_id, ?_, ⟨?_, fun h => absurd h hreq⟩, fun h => absurd h hreq⟩
      · simp only [subtitleCodecId, hmp4, if_false, if_neg hsrc, Bool.false_eq_true]
      · rintro (h | h)
        · exact absurd rfl h
        · exact absurd h hsrc

/-! ### The interleaving loop of the output thread -/

/-- One round of the loop on a starved audio side: nothing is popped, the counter
`nWaitAudio` goes up by one, and the audio dts is set to `-1` once the counter
exceeds `nWaitThreshold`. -/
theorem audioStalled_iteration (c : WriteThreadConst) (s : WriteThreadState)
    (h : audioStalled c s) :
    (s.nWaitAudio + 1 ≤ nWaitThreshold →
      (writeThreadIteration c true s).1
        = { s with nWaitAudio := s.nWaitAudio + 1, bAudioExists := false,
                   bVideoExists := false })
    ∧ (nWaitThreshold < s.nWaitAudio + 1 →
      (writeThreadIteration c true s).1
        = { s with nWaitAudio := s.nWaitAudio + 1, audioDts := -1, bAudioExists := false,
                   bVideoExists := false }) := by
  obtain ⟨hq, ha, hv, hlen⟩ := h
  have hcond : ¬ (s.audioDts < 0 ∨ s.videoDts ≤ s.audioDts + c.dtsThreshold) := by omega
  have hd : drainQueues c s = { s with bAudioExists := false, bVideoExists := false } := by
    unfold drainQueues
    rw [hq]
    have h1 : drainAudio c.dtsThreshold s.videoDts [] s.audioDts s.nWaitAudio false
        = ([], s.audioDts, s.nWaitAudio, false) := by
      simp [drainAudio]
    rw [h1]
    cases hv2 : s.qVideobitstream with
    | nil => simp [drainVideo, hq, hcond]
    | cons x rest => simp [drainVideo, hq, hcond]
  have hne : ¬ (s.qVideobitstream.length = 0) := by omega
  constructor
  · intro hle
    simp only [writeThreadIteration, hd, waitAudio, hq, List.length_nil, true_and, gt_iff_lt,
      hlen, if_true, hle, not_true_eq_false, if_false]
  · intro hgt
    have hle : ¬ (s.nWaitAudio + 1 ≤ nWaitThreshold) := by omega
    simp only [writeThreadIteration, hd, waitAudio, waitVideo, hq, List.length_nil, true_and,
      gt_iff_lt, hlen, if_true, hle, not_true_eq_false, if_false, hne, false_and,
      Bool.or_self]

/-- A starved audio side stays starved while the audio dts has not been given up. -/
theorem audioStalled_keep (c : WriteThreadConst) (s : WriteThreadState) (n : Int)
    (h : audioStalled c s) :
    audioStalled c { s with nWaitAudio := n, bAudioExists := false, bVideoExists := false } :=
  h

/-- On a starved audio side with `nWaitAudio = n0`, after `k` rounds with
`n0 + k ≤ nWaitThreshold` the audio dts is unchanged and the counter is `n0 + k`. -/
theorem audioStalled_run (c : WriteThreadConst) (k : Nat) :
    ∀ (s : WriteThreadState), audioStalled c s → s.nWaitAudio + k ≤ nWaitThreshold →
      audioStalled c (writeThreadRun c k s)
      ∧ (writeThreadRun c k s).audioDts = s.audioDts
      ∧ (writeThreadRun c k s).nWaitAudio = s.nWaitAudio + k := by
  induction k with
  | zero =>
    intro s h _
    simp [writeThreadRun, h]
  | succ k ih =>
    intro s h hle
    have hstep := (audioStalled_iteration c s h).1 (by push_cast at hle; omega)
    simp only [writeThreadRun, hstep]
    have := ih { s with nWaitAudio := s.nWaitAudio + 1, bAudioExists := false,
                        bVideoExists := false } h (by push_cast at hle ⊢; omega)
    refine ⟨this.1, this.2.1, ?_⟩
    rw [this.2.2]
    push_cast
    omega

/-- On a starved audio side with `nWaitAudio = 0` the audio dts is given up in round 33
and not before. -/
theorem audioStalled_forced (c : WriteThreadConst) (s : WriteThreadState)
    (h : audioStalled c s) (h0 : s.nWaitAudio = 0) :
    (∀ k : Nat, k ≤ 32 → (writeThreadRun c k s).audioDts = s.audioDts
      ∧ (writeThreadRun c k s).nWaitAudio = k)
    ∧ (writeThreadRun c 33 s).audioDts = -1 := by
  constructor
  · intro k hk
    have := audioStalled_run c k s h (by rw [h0]; unfold nWaitThreshold; omega)
    exact ⟨this.2.1, by rw [this.2.2, h0]; simp⟩
  · have h32 := audioStalled_run c 32 s h (by rw [h0]; unfold nWaitThreshold; omega)
    have hrun : writeThreadRun c 33 s
        = (writeThreadIteration c true (writeThreadRun c 32 s)).1 := by
      have : ∀ (n : Nat) (t : WriteThreadState), writeThreadRun c (n + 1) t
          = (writeThreadIteration c true (writeThreadRun c n t)).1 := by
        intro n
        induction n with
        | zero => intro t; rfl
        | succ n ihn =>
          intro t
          rw [writeThreadRun, ihn]
          rfl
      exact this 32 s
    rw [hrun, (audioStalled_iteration c _ h32.1).2
      (by rw [h32.2.2, h0]; unfold nWaitThreshold; omega)]

/-- One round of the loop on a starved video side: nothing is popped, the counter
`nWaitVideo` goes up by one, and the video dts is set to `-1` once the counter
exceeds `nWaitThreshold`. -/
theorem videoStalled_iteration (c : WriteThreadConst) (s : WriteThreadState)
    (h : videoStalled c s) :
    (s.nWaitVideo + 1 ≤ nWaitThreshold →
      (writeThreadIteration c true s).1
        = { s with nWaitVideo := s.nWaitVideo + 1, bAudioExists := false,
                   bVideoExists := false })
    ∧ (nWaitThreshold < s.nWaitVideo + 1 →
      (writeThreadIteration c true s).1
        = { s with nWaitVideo := s.nWaitVideo + 1, videoDts := -1, bAudioExists := false,
                   bVideoExists := false }) := by
  obtain ⟨hq, hv, ha, hlen⟩ := h
  have hcond : ¬ (s.videoDts < 0 ∨ s.audioDts ≤ s.videoDts + c.dtsThreshold) := by omega
  have hd : drainQueues c s = { s with bAudioExists := false, bVideoExists := false } := by
    unfold drainQueues
    rw [hq]
    have h1 : drainAudio c.dtsThreshold s.videoDts s.qAudioPacketOut s.audioDts s.nWaitAudio
        false = (s.qAudioPacketOut, s.audioDts, s.nWaitAudio, false) := by
      cases s.qAudioPacketOut with
      | nil => simp [drainAudio]
      | cons x rest => simp [drainAudio, hcond]
    rw [h1]
    simp [drainVideo, hq]
  have hne : ¬ (s.qAudioPacketOut.length = 0) := by omega
  constructor
  · intro hle
    simp only [writeThreadIteration, hd, waitAudio, waitVideo, hq, List.length_nil, true_and,
      gt_iff_lt, hlen, if_true, hle, not_true_eq_false, if_false, hne, false_and]
  · intro hgt
    have hle : ¬ (s.nWaitVideo + 1 ≤ nWaitThreshold) := by omega
    simp only [writeThreadIteration, hd, waitAudio, waitVideo, hq, List.length_nil, true_and,
      gt_iff_lt, hlen, if_true, hle, not_true_eq_false, if_false, hne, false_and,
      Bool.or_self]

/-- On a starved video side with `nWaitVideo = n0`, after `k` rounds with
`n0 + k ≤ nWaitThreshold` the video dts is unchanged and the counter is `n0 + k`. -/
theorem videoStalled_run (c : WriteThreadConst) (k : Nat) :
    ∀ (s : WriteThreadState), videoStalled c s → s.nWaitVideo + k ≤ nWaitThreshold →
      videoStalled c (writeThreadRun c k s)
      ∧ (writeThreadRun c k s).videoDts = s.videoDts
      ∧ (writeThreadRun c k s).nWaitVideo = s.nWaitVideo + k := by
  induction k with
  | zero =>
    intro s h _
    simp [writeThreadRun, h]
  | succ k ih =>
    intro s h hle
    have hstep := (videoStalled_iteration c s h).1 (by push_cast at hle; omega)
    simp only [writeThreadRun, hstep]
    have := ih { s with nWaitVideo := s.nWaitVideo + 1, bAudioExists := false,
                        bVideoExists := false } h (by push_cast at hle ⊢; omega)
    refine ⟨this.1, this.2.1, ?_⟩
    rw [this.2.2]
    push_cast
    omega

/-- The run of `n + 1` rounds is the run of `n` rounds followed by one more. -/
theorem writeThreadRun_succ (c : WriteThreadConst) (n : Nat) :
    ∀ t : WriteThreadState, writeThreadRun c (n + 1) t
      = (writeThreadIteration c true (writeThreadRun c n t)).1 := by
  induction n with
  | zero => intro t; rfl
  | succ n ihn =>
    intro t
    rw [writeThreadRun, ihn]
    rfl

/-- On a starved video side with `nWaitVideo = 0` the video dts is given up in round 33
and not before. -/
theorem videoStalled_forced (c : WriteThreadConst) (s : WriteThreadState)
    (h : videoStalled c s) (h0 : s.nWaitVideo = 0) :
    (∀ k : Nat, k ≤ 32 → (writeThreadRun c k s).videoDts = s.videoDts
      ∧ (writeThreadRun c k s).nWaitVideo = k)
    ∧ (writeThreadRun c 33 s).videoDts = -1 := by
  constructor
  · intro k hk
    have := videoStalled_run c k s h (by rw [h0]; unfold nWaitThreshold; omega)
    exact ⟨this.2.1, by rw [this.2.2, h0]; simp⟩
  · have h32 := videoStalled_run c 32 s h (by rw [h0]; unfold nWaitThreshold; omega)
    rw [writeThreadRun_succ, (videoStalled_iteration c _ h32.1).2
      (by rw [h32.2.2, h0]; unfold nWaitThreshold; omega)]

/-- With the audio queue empty and video ahead of the dts window, but no more than
`videoPacketThreshold` video buffers queued, a round changes neither the audio dts nor
the counter `nWaitAudio`, however often it is repeated. -/
theorem belowThreshold_run (c : WriteThreadConst) (s : WriteThreadState)
    (hq : s.qAudioPacketOut = []) (ha : 0 ≤ s.audioDts)
    (hv : s.audioDts + c.dtsThreshold < s.videoDts)
    (hlen : s.qVideobitstream.length ≤ videoPacketThreshold c.videoCapacity) (k : Nat) :
    (writeThreadRun c k s).audioDts = s.audioDts
    ∧ (writeThreadRun c k s).nWaitAudio = s.nWaitAudio := by
  have hcond : ¬ (s.audioDts < 0 ∨ s.videoDts ≤ s.audioDts + c.dtsThreshold) := by omega
  have hstep : (writeThreadIteration c true s).1
      = { s with bAudioExists := false, bVideoExists := false } := by
    have hd : drainQueues c s = { s with bAudioExists := false, bVideoExists := false } := by
      unfold drainQueues
      rw [hq]
      have h1 : drainAudio c.dtsThreshold s.videoDts [] s.audioDts s.nWaitAudio false
          = ([], s.audioDts, s.nWaitAudio, false) := by
        simp [drainAudio]
      rw [h1]
      cases hv2 : s.qVideobitstream with
      | nil => simp [drainVideo, hq, hcond]
      | cons x rest => simp [drainVideo, hq, hcond]
    have hnot : ¬ (videoPacketThreshold c.videoCapacity < s.qVideobitstream.length) := by omega
    simp only [writeThreadIteration, hd, waitAudio, waitVideo, hq, List.length_nil, true_and,
      gt_iff_lt, hnot, if_false, not_true_eq_false, Nat.not_lt_zero, and_false, Bool.or_self]
  have key : ∀ (k : Nat) (t : WriteThreadState), t.qAudioPacketOut = [] → 0 ≤ t.audioDts →
      t.audioDts + c.dtsThreshold < t.videoDts →
      t.qVideobitstream.length ≤ videoPacketThreshold c.videoCapacity →
      (writeThreadIteration c true t).1
        = { t with bAudioExists := false, bVideoExists := false } →
      (writeThreadRun c k t).audioDts = t.audioDts
      ∧ (writeThreadRun c k t).nWaitAudio = t.nWaitAudio := by
    intro k
    induction k with
    | zero => intro t _ _ _ _ _; exact ⟨rfl, rfl⟩
    | succ k ih =>
      intro t h1 h2 h3 h4 h5
      rw [writeThreadRun, h5]
      have h6 : (writeThreadIteration c true
            { t with bAudioExists := false, bVideoExists := false }).1
          = { t with bAudioExists := false, bVideoExists := false } := by
        have hd : drainQueues c { t with bAudioExists := false, bVideoExists := false }
            = drainQueues c t := rfl
        have : (writeThreadIteration c true
            { t with bAudioExists := false, bVideoExists := false }).1
              = (writeThreadIteration c true t).1 := by
          simp only [writeThreadIteration, hd, not_true_eq_false, if_false]
        rw [this, h5]
      exact ih { t with bAudioExists := false, bVideoExists := false } h1 h2 h3 h4 h6
  exact key k s hq ha hv hlen hstep

/-- Once an audio record is popped, the loop that drains the audio queue leaves
`nWaitAudio = 0`. -/
theorem drainAudio_reset (thr videoDts : Int) (q : List Int) :
    ∀ (audioDts : Int) (b : Bool), (drainAudio thr videoDts q audioDts 0 b).2.2.1 = 0 := by
  induction q with
  | nil =>
    intro a b
    unfold drainAudio
    split <;> rfl
  | cons x rest ih =>
    intro a b
    unfold drainAudio
    split
    · exact ih _ _
    · rfl

/-- With the header written, a round is the forced-progress part applied to the drained
queues. -/
theorem writeThreadIteration_eq (c : WriteThreadConst) (s : WriteThreadState) :
    writeThreadIteration c true s = waitAudio c (drainQueues c s) := by
  simp [writeThreadIteration]

/-- What the forced-progress part does to the audio dts and to `nWaitAudio`. -/
theorem waitAudio_audio (c : WriteThreadConst) (d : WriteThreadState) :
    (d.qAudioPacketOut.length = 0
        ∧ videoPacketThreshold c.videoCapacity < d.qVideobitstream.length
        ∧ nWaitThreshold < d.nWaitAudio + 1 →
      (waitAudio c d).1.audioDts = -1)
    ∧ (¬ (d.qAudioPacketOut.length = 0
        ∧ videoPacketThreshold c.videoCapacity < d.qVideobitstream.length
        ∧ nWaitThreshold < d.nWaitAudio + 1) →
      (waitAudio c d).1.audioDts = d.audioDts)
    ∧ (waitAudio c d).1.nWaitAudio
        = d.nWaitAudio
          + (if d.qAudioPacketOut.length = 0
              ∧ videoPacketThreshold c.videoCapacity < d.qVideobitstream.length
             then 1 else 0) := by
  unfold waitAudio waitVideo
  refine ⟨?_, ?_, ?_⟩
  · rintro ⟨h1, h2, h3⟩
    have h4 : ¬ (d.nWaitAudio + 1 ≤ nWaitThreshold) := by omega
    have h5 : ¬ (d.qVideobitstream.length = 0) := by omega
    simp only [h1, h2, gt_iff_lt, and_self, if_true, h4, if_false, h5, false_and]
  · intro h
    by_cases hc : d.qAudioPacketOut.length = 0
        ∧ d.qVideobitstream.length > videoPacketThreshold c.videoCapacity
    · have hle : d.nWaitAudio + 1 ≤ nWaitThreshold := by
        by_contra hn
        exact h ⟨hc.1, hc.2, by omega⟩
      simp only [hc, and_self, if_true, hle]
    · simp only [hc, if_false]
      split_ifs <;> rfl
  · by_cases hc : d.qAudioPacketOut.length = 0
        ∧ d.qVideobitstream.length > videoPacketThreshold c.videoCapacity
    · have hc2 : d.qAudioPacketOut.length = 0
          ∧ videoPacketThreshold c.videoCapacity < d.qVideobitstream.length := hc
      have h5 : ¬ (d.qVideobitstream.length = 0) := by omega
      simp only [hc, hc2, and_self, if_true, h5, false_and, if_false]
      split_ifs <;> rfl
    · have hc2 : ¬ (d.qAudioPacketOut.length = 0
          ∧ videoPacketThreshold c.videoCapacity < d.qVideobitstream.length) := hc
      simp only [hc, hc2, if_false, add_zero]
      split_ifs <;> rfl

/-- What the forced-progress part does to the video dts and to `nWaitVideo`. -/
theorem waitAudio_video (c : WriteThreadConst) (d : WriteThreadState) :
    (d.qVideobitstream.length = 0
        ∧ audioPacketThreshold c.audioCapacity < d.qAudioPacketOut.length
        ∧ nWaitThreshold < d.nWaitVideo + 1 →
      (waitAudio c d).1.videoDts = -1)
    ∧ (¬ (d.qVideobitstream.length = 0
        ∧ audioPacketThreshold c.audioCapacity < d.qAudioPacketOut.length
        ∧ nWaitThreshold < d.nWaitVideo + 1) →
      (waitAudio c d).1.videoDts = d.videoDts)
    ∧ (waitAudio c d).1.nWaitVideo
        = d.nWaitVideo
          + (if d.qVideobitstream.length = 0
              ∧ audioPacketThreshold c.audioCapacity < d.qAudioPacketOut.length
             then 1 else 0) := by
  unfold waitAudio waitVideo
  by_cases ha : d.qAudioPacketOut.length = 0
      ∧ d.qVideobitstream.length > videoPacketThreshold c.videoCapacity
  · have hv : ¬ (d.qVideobitstream.length = 0
        ∧ audioPacketThreshold c.audioCapacity < d.qAudioPacketOut.length) := by
      intro h
      omega
    have hv0 : ¬ (d.qVideobitstream.length = 0) := by omega
    refine ⟨fun h => absurd ⟨h.1, h.2.1⟩ hv, fun _ => ?_, ?_⟩
    · simp only [ha, and_self, if_true, hv0, false_and, if_false]
      split_ifs <;> rfl
    · simp only [ha, and_self, if_true, hv0, false_and, if_false, add_zero]
      split_ifs <;> rfl
  · simp only [ha, if_false]
    by_cases hv : d.qVideobitstream.length = 0
        ∧ d.qAudioPacketOut.length > audioPacketThreshold c.audioCapacity
    · have hv2 : d.qVideobitstream.length = 0
          ∧ audioPacketThreshold c.audioCapacity < d.qAudioPacketOut.length := hv
      refine ⟨fun h => ?_, fun h => ?_, ?_⟩
      · have h4 : ¬ (d.nWaitVideo + 1 ≤ nWaitThreshold) := by omega
        simp only [hv, and_self, if_true, h4, if_false]
      · have hle : d.nWaitVideo + 1 ≤ nWaitThreshold := by
          by_contra hn
          exact h ⟨hv.1, hv.2, by omega⟩
        simp only [hv, and_self, if_true, hle]
      · simp only [hv, hv2, and_self, if_true]
        split_ifs <;> rfl
    · have hv2 : ¬ (d.qVideobitstream.length = 0
          ∧ audioPacketThreshold c.audioCapacity < d.qAudioPacketOut.length) := hv
      refine ⟨fun h => absurd ⟨h.1, h.2.1⟩ hv2, fun _ => ?_, ?_⟩
      · simp only [hv, if_false]
      · simp only [hv, hv2, if_false, add_zero]

/-- Once a video buffer is popped, the loop that drains the video queue leaves
`nWaitVideo = 0`. -/
theorem drainVideo_reset (thr audioDts : Int) (q : List (Option Int)) :
    ∀ (videoDts : Int) (b : Bool), (drainVideo thr audioDts q videoDts 0 b).2.2.1 = 0 := by
  induction q with
  | nil =>
    intro a b
    unfold drainVideo
    split <;> rfl
  | cons x rest ih =>
    intro a b
    unfold drainVideo
    split
    · exact ih _ _
    · rfl

/-- The value of `videoPacketThreshold` for a capacity of at least 32 entries. -/
theorem videoPacketThreshold_eq (capacity : Nat) (h : 32 ≤ capacity) :
    videoPacketThreshold capacity = min 3072 capacity - 32 := by
  unfold videoPacketThreshold
  have h1 : 32 ≤ min 3072 capacity := by omega
  have h2 : min 3072 capacity ≤ 3072 := Nat.min_le_left _ _
  omega

/-- The starved audio side of the examples. -/
theorem exampleStarvedAudio_stalled (capacity n : Nat) (h : 32 ≤ capacity)
    (hn : min 3072 capacity - 32 < n) :
    audioStalled (exampleThreadConst capacity) (exampleStarvedAudio n) := by
  refine ⟨rfl, ?_, ?_, ?_⟩
  · show (0 : Int) ≤ 0
    decide
  · show (0 : Int) + 10 < 1000
    decide
  show videoPacketThreshold capacity < (List.replicate n (some 2000)).length
  rw [videoPacketThreshold_eq capacity h, List.length_replicate]
  exact hn

/-! ### The header flag on the packet path -/

/-- The flush loop of `WriteNextPacketInternal` keeps the header flag. -/
theorem flushAllAudio_header (stages : PacketStages) (hst : stagesKeepFormat stages)
    (l : List Nat) : ∀ (w : CAvcodecWriter) (dts : Int),
    (flushAllAudio stages l w dts).1.format.bFileHeaderWritten
      = w.format.bFileHeaderWritten := by
  induction l with
  | nil => intro w dts; rfl
  | cons i rest ih =>
    intro w dts
    simp only [flushAllAudio]
    rw [ih, (hst.1 w i dts).2.2.1]

/-- Normal processing of a record keeps the header flag. -/
theorem processPacket_header (stages : PacketStages) (hst : stagesKeepFormat stages)
    (w : CAvcodecWriter) (pktData : AVPktMuxData) :
    (processPacket stages w pktData).1.format.bFileHeaderWritten
      = w.format.bFileHeaderWritten := by
  unfold processPacket
  have hq := (AddAudQueue_keeps w pktData
    (if w.thread.thAudEncode then AudQueueType.AUD_QUEUE_ENCODE
      else AudQueueType.AUD_QUEUE_OUT)).2.2.1
  by_cases hd : pktData.pkt.data = none
  · by_cases ht : w.thread.thAudProcess = true
    · simp only [hd, ht, if_true]
      exact hq
    · simp only [hd, ht, if_true, if_false]
      exact flushAllAudio_header stages hst _ w pktData.dts
  · by_cases hs : inTrackIdOfFlags pktData.pkt.flags < 0
    · by_cases ht : w.thread.thAudProcess = true
      · simp only [hd, hs, ht, if_true, if_false]
        exact hq
      · simp only [hd, hs, ht, if_true, if_false]
        exact (hst.2.1 w pktData.pkt).2.2.1
    · simp only [hd, hs, if_false]
      exact (hst.2.2 w pktData).2.2.1

/-- The head-buffer loop keeps the header flag when the recursive call does. -/
theorem flushHeadBuffer_header
    (self : CAvcodecWriter → AVPktMuxData → Option (CAvcodecWriter × AVPktMuxData × AMF_RESULT))
    (hself : ∀ w p r, self w p = some r →
      r.1.format.bFileHeaderWritten = w.format.bFileHeaderWritten) (l : List AVPktMuxData) :
    ∀ (w : CAvcodecWriter) (r : CAvcodecWriter × AMF_RESULT),
      flushHeadBuffer self l w = some r →
      r.1.format.bFileHeaderWritten = w.format.bFileHeaderWritten := by
  induction l with
  | nil =>
    intro w r h
    simp only [flushHeadBuffer, Option.some.injEq] at h
    subst h
    rfl
  | cons p rest ih =>
    intro w r h
    simp only [flushHeadBuffer] at h
    split at h
    · simp at h
    · rename_i r0 h0
      split at h
      · simp only [Option.some.injEq] at h
        subst h
        exact hself _ _ _ h0
      · rw [ih _ _ h, hself _ _ _ h0]

/-- `WriteNextPacketInternal` keeps the header flag. -/
theorem WriteNextPacketInternal_header (stages : PacketStages)
    (hst : stagesKeepFormat stages) (fuel : Nat) :
    ∀ (w : CAvcodecWriter) (pktData : AVPktMuxData)
      (r : CAvcodecWriter × AVPktMuxData × AMF_RESULT),
      WriteNextPacketInternal stages fuel w pktData = some r →
      r.1.format.bFileHeaderWritten = w.format.bFileHeaderWritten := by
  induction fuel with
  | zero =>
    intro w pktData r h
    simp [WriteNextPacketInternal] at h
  | succ fuel ih =>
    intro w pktData r h
    simp only [WriteNextPacketInternal] at h
    split at h
    · simp only [Option.some.injEq] at h
      subst h
      rfl
    · split at h
      · split at h
        · simp at h
        · rename_i r0 h0
          have k0 := flushHeadBuffer_header _ ih _ _ _ h0
          split at h
          · simp only [Option.some.injEq] at h
            subst h
            exact k0
          · simp only [Option.some.injEq] at h
            subst h
            rw [processPacket_header stages hst]
            exact k0
      · simp only [Option.some.injEq] at h
        subst h
        exact processPacket_header stages hst w pktData

/-- `WriteNextPacket` keeps the header flag. -/
theorem WriteNextPacket_header (stages : PacketStages) (hst : stagesKeepFormat stages)
    (fuel : Nat) (w : CAvcodecWriter) (pkt : Option AVPacket)
    (r : CAvcodecWriter × AMF_RESULT) (h : WriteNextPacket stages fuel w pkt = some r) :
    r.1.format.bFileHeaderWritten = w.format.bFileHeaderWritten := by
  unfold WriteNextPacket at h
  by_cases ht : w.thread.thOutput = true
  · simp only [ht, if_true, Option.some.injEq] at h
    subst h
    rfl
  · have htf : w.thread.thOutput = false := by simpa using ht
    simp only [htf, Bool.false_eq_true, if_false] at h
    cases h0 : WriteNextPacketInternal stages fuel w (pktMuxData w pkt) with
    | none => simp [h0] at h
    | some r0 =>
      simp only [h0, Option.map_some', Option.some.injEq] at h
      subst h
      exact WriteNextPacketInternal_header stages hst fuel w _ r0 h0

/-- Without an output thread and before the header, `WriteNextPacket` appends the
record of the packet to the head buffer and returns `AMF_OK`. -/
theorem WriteNextPacket_before_header (stages : PacketStages) (fuel : Nat)
    (w : CAvcodecWriter) (pkt : Option AVPacket)
    (hth : w.thread.thOutput = false) (hheader : w.format.bFileHeaderWritten = false) :
    WriteNextPacket stages (fuel + 1) w pkt
      = some ({ w with m_AudPktBufFileHead := w.m_AudPktBufFileHead ++ [pktMuxData w pkt] },
          AMF_RESULT.AMF_OK) := by
  simp [WriteNextPacket, WriteNextPacketInternal, hth, hheader]

/-- Without an output thread and before the header, every sequence of `WriteNextPacket`
calls ends with all records in the head buffer and nothing else changed. -/
theorem runWriteNextPacket_before_header (stages : PacketStages) (fuel : Nat)
    (pkts : List (Option AVPacket)) :
    ∀ (w : CAvcodecWriter), w.thread.thOutput = false → w.format.bFileHeaderWritten = false →
      runWriteNextPacket stages (fuel + 1) w pkts
        = some ({ w with m_AudPktBufFileHead :=
                    w.m_AudPktBufFileHead ++ pkts.map (pktMuxData w) },
            pkts.map (fun _ => AMF_RESULT.AMF_OK)) := by
  induction pkts with
  | nil =>
    intro w _ _
    simp [runWriteNextPacket]
  | cons pkt rest ih =>
    intro w hth hheader
    have hrest := ih { w with m_AudPktBufFileHead := w.m_AudPktBufFileHead ++ [pktMuxData w pkt] }
      hth hheader
    have hsame : pktMuxData
        { w with m_AudPktBufFileHead := w.m_AudPktBufFileHead ++ [pktMuxData w pkt] }
          = pktMuxData w := funext (fun _ => rfl)
    rw [hsame] at hrest
    simp only [runWriteNextPacket, WriteNextPacket_before_header stages fuel w pkt hth hheader,
      hrest, List.map_cons, List.append_assoc, List.singleton_append]

/-- What `Init` leaves when no video stream is configured and it returns `AMF_OK`: the
container context, no stream error, and the threads, the header flag, the head buffer
and the container log as they were. -/
theorem Init_without_video (tc : ThreadConst) (w : CAvcodecWriter) (prm : AvcodecWriterPrm)
    (steps : InitSteps) (w1 : CAvcodecWriter) (hv : prm.videoCodec = false)
    (h : Init tc w prm steps = (w1, AMF_RESULT.AMF_OK)) :
    w1.thread = w.thread ∧ w1.format.bFileHeaderWritten = w.format.bFileHeaderWritten
    ∧ w1.m_AudPktBufFileHead = w.m_AudPktBufFileHead ∧ w1.written = w.written
    ∧ w1.format.bStreamError = false ∧ w1.format.pFormatCtx = true := by
  unfold Init at h
  simp only [hv, Bool.false_eq_true, not_false_eq_true, if_true] at h
  split at h
  · rename_i hc
    simp only [Prod.mk.injEq] at h
    exact absurd h.2 hc
  · split at h
    · rename_i hc
      rw [h] at hc
      exact absurd rfl hc
    · have key : ∀ r : CAvcodecWriter × AMF_RESULT,
          r = initTracks { w with format := { w.format with bStreamError := true,
                                                              pFormatCtx := true } } prm steps →
          r.1.thread = w.thread ∧ r.1.format.bFileHeaderWritten = w.format.bFileHeaderWritten
          ∧ r.1.m_AudPktBufFileHead = w.m_AudPktBufFileHead ∧ r.1.written = w.written
          ∧ r.1.format.pFormatCtx = true := by
        intro r hr
        subst hr
        unfold initTracks SetChapters
        simp only [hv, Bool.false_eq_true, if_false, false_and]
        repeat' split
        all_goals exact ⟨rfl, rfl, rfl, rfl, rfl⟩
      have k := key _ rfl
      simp only [SetVideoParam, Prod.mk.injEq] at h
      obtain ⟨h1, _⟩ := h
      subst h1
      exact ⟨k.1, k.2.1, k.2.2.1, k.2.2.2.1, rfl, k.2.2.2.2⟩

/-! ### Trim adjustment of timestamps -/

/-- C1: for a well-formed trim list and a timestamp whose frame index
`f = rescale(t_in, tb_in, fps_tb)` lies inside the `k`-th kept range,
`AdjustTimestampTrimmed` computes `cut = s_0 + Σ_{j=1..k} (s_j − e_{j−1})` and returns
`rescale(t_in, tb_in, tb_out) − rescale(cut, fps_tb, tb_out)`, for both values of
`lastValidFrame`. -/
theorem adjustTimestampTrimmed_inside (nFPS : AVRational) (trim : List sTrim) (k : Nat)
    (nTimeIn : Int) (timescaleIn timescaleOut : AVRational) (lastValidFrame : Bool)
    (hwf : trimWellFormed trim) (hk : k < trim.length)
    (hs : (trimAt trim k).start ≤ av_rescale_q nTimeIn timescaleIn (av_inv_q nFPS))
    (he : av_rescale_q nTimeIn timescaleIn (av_inv_q nFPS) ≤ (trimAt trim k).fin) :
    cutFramesTrimmed trim (av_rescale_q nTimeIn timescaleIn (av_inv_q nFPS)) lastValidFrame
        = some (specCut trim k)
    ∧ AdjustTimestampTrimmed nFPS trim nTimeIn timescaleIn timescaleOut lastValidFrame
        = av_rescale_q nTimeIn timescaleIn timescaleOut
          - av_rescale_q (specCut trim k) (av_inv_q nFPS) timescaleOut := by
  have hne : trim.length ≠ 0 := by omega
  have hcut : cutFramesTrimmed trim (av_rescale_q nTimeIn timescaleIn (av_inv_q nFPS))
      lastValidFrame = some (specCut trim k) := by
    unfold cutFramesTrimmed
    rw [if_pos hne, trimLoop_inside _ _ trim k 0 0 hk hwf hs he]
    simp [specCut]
  refine ⟨hcut, ?_⟩
  unfold AdjustTimestampTrimmed
  simp only [hcut]

/-- Witness of C1: frame 35 of the kept ranges `[10,19]`, `[30,39]` at 30 fps. -/
theorem adjustTimestampTrimmed_inside_witness :
    trimWellFormed [⟨10, 19⟩, ⟨30, 39⟩]
    ∧ cutFramesTrimmed [⟨10, 19⟩, ⟨30, 39⟩]
        (av_rescale_q 35 ⟨1, 30⟩ (av_inv_q ⟨30, 1⟩)) false
        = some (specCut [⟨10, 19⟩, ⟨30, 39⟩] 1)
    ∧ AdjustTimestampTrimmed ⟨30, 1⟩ [⟨10, 19⟩, ⟨30, 39⟩] 35 ⟨1, 30⟩ ⟨1, 1000⟩ false
        = av_rescale_q 35 ⟨1, 30⟩ ⟨1, 1000⟩
          - av_rescale_q (specCut [⟨10, 19⟩, ⟨30, 39⟩] 1) (av_inv_q ⟨30, 1⟩) ⟨1, 1000⟩ :=
  ⟨by decide,
   adjustTimestampTrimmed_inside ⟨30, 1⟩ [⟨10, 19⟩, ⟨30, 39⟩] 1 35 ⟨1, 30⟩ ⟨1, 1000⟩ false
     (by decide) (by decide) (by decide) (by decide)⟩

/-- C2: for a well-formed trim list and a timestamp whose frame index `f` falls in
the gap in front of the `k`-th kept range (before the first range, or strictly
between range `k−1` and range `k`): with `lastValidFrame = false` the function leaves
through `return AV_NOPTS_VALUE`; with `lastValidFrame = true` it does not, and returns
`rescale(t_in) − rescale(cut)` where `cut` is the cut accumulated up to the previous
range's end plus `f − previous range end`. -/
theorem adjustTimestampTrimmed_gap (nFPS : AVRational) (trim : List sTrim) (k : Nat)
    (nTimeIn : Int) (timescaleIn timescaleOut : AVRational)
    (hwf : trimWellFormed trim) (hk : k < trim.length)
    (hs : av_rescale_q nTimeIn timescaleIn (av_inv_q nFPS) < (trimAt trim k).start)
    (he : ∀ j, k = j + 1 →
      (trimAt trim j).fin < av_rescale_q nTimeIn timescaleIn (av_inv_q nFPS)) :
    (cutFramesTrimmed trim (av_rescale_q nTimeIn timescaleIn (av_inv_q nFPS)) false = none
      ∧ AdjustTimestampTrimmed nFPS trim nTimeIn timescaleIn timescaleOut false
          = AV_NOPTS_VALUE)
    ∧ (cutFramesTrimmed trim (av_rescale_q nTimeIn timescaleIn (av_inv_q nFPS)) true
          = some (specGapCut trim k (av_rescale_q nTimeIn timescaleIn (av_inv_q nFPS)))
      ∧ AdjustTimestampTrimmed nFPS trim nTimeIn timescaleIn timescaleOut true
          = av_rescale_q nTimeIn timescaleIn timescaleOut
            - av_rescale_q
                (specGapCut trim k (av_rescale_q nTimeIn timescaleIn (av_inv_q nFPS)))
                (av_inv_q nFPS) timescaleOut) := by
  have hne : trim.length ≠ 0 := by omega
  have hloop : ∀ lv : Bool,
      trimLoop (av_rescale_q nTimeIn timescaleIn (av_inv_q nFPS)) lv trim 0 0
        = if lv then
            some (specGapCut trim k (av_rescale_q nTimeIn timescaleIn (av_inv_q nFPS)),
              av_rescale_q nTimeIn timescaleIn (av_inv_q nFPS))
          else none := by
    intro lv
    cases k with
    | zero =>
      cases trim with
      | nil => simp at hk
      | cons t rest =>
        rw [trimAt_cons_zero] at hs
        rw [trimLoop_front _ _ t rest 0 0 hs]
        simp [specGapCut]
    | succ j =>
      rw [trimLoop_gap _ _ trim j 0 0 hk hwf (he j rfl) hs]
      simp [specGapCut, specCut]
  have hf : cutFramesTrimmed trim (av_rescale_q nTimeIn timescaleIn (av_inv_q nFPS)) false
      = none := by
    unfold cutFramesTrimmed
    rw [if_pos hne, hloop false]
    simp
  have ht : cutFramesTrimmed trim (av_rescale_q nTimeIn timescaleIn (av_inv_q nFPS)) true
      = some (specGapCut trim k (av_rescale_q nTimeIn timescaleIn (av_inv_q nFPS))) := by
    unfold cutFramesTrimmed
    rw [if_pos hne, hloop true]
    simp
  refine ⟨⟨hf, ?_⟩, ht, ?_⟩
  · unfold AdjustTimestampTrimmed
    simp only [hf]
  · unfold AdjustTimestampTrimmed
    simp only [ht]

/-- Witness of C2: frame 25 lies between the kept ranges `[10,19]` and `[30,39]`. -/
theorem adjustTimestampTrimmed_gap_witness :
    trimWellFormed [⟨10, 19⟩, ⟨30, 39⟩]
    ∧ (cutFramesTrimmed [⟨10, 19⟩, ⟨30, 39⟩]
          (av_rescale_q 25 ⟨1, 30⟩ (av_inv_q ⟨30, 1⟩)) false = none
      ∧ AdjustTimestampTrimmed ⟨30, 1⟩ [⟨10, 19⟩, ⟨30, 39⟩] 25 ⟨1, 30⟩ ⟨1, 1000⟩ false
          = AV_NOPTS_VALUE)
    ∧ (cutFramesTrimmed [⟨10, 19⟩, ⟨30, 39⟩]
          (av_rescale_q 25 ⟨1, 30⟩ (av_inv_q ⟨30, 1⟩)) true
          = some (specGapCut [⟨10, 19⟩, ⟨30, 39⟩] 1
              (av_rescale_q 25 ⟨1, 30⟩ (av_inv_q ⟨30, 1⟩)))
      ∧ AdjustTimestampTrimmed ⟨30, 1⟩ [⟨10, 19⟩, ⟨30, 39⟩] 25 ⟨1, 30⟩ ⟨1, 1000⟩ true
          = av_rescale_q 25 ⟨1, 30⟩ ⟨1, 1000⟩
            - av_rescale_q
                (specGapCut [⟨10, 19⟩, ⟨30, 39⟩] 1
                  (av_rescale_q 25 ⟨1, 30⟩ (av_inv_q ⟨30, 1⟩)))
                (av_inv_q ⟨30, 1⟩) ⟨1, 1000⟩) :=
  ⟨by decide,
   adjustTimestampTrimmed_gap ⟨30, 1⟩ [⟨10, 19⟩, ⟨30, 39⟩] 1 25 ⟨1, 30⟩ ⟨1, 1000⟩
     (by decide) (by decide) (by decide)
     (by intro j hj; cases hj; decide)⟩

/-! ### The head buffer -/

/-- C3: while `bFileHeaderWritten` is false, a call of `WriteNextPacketInternal` (for
any record: audio, subtitle or drain) returns `AMF_OK`, appends the record to the head
buffer and changes nothing else: no packet is handed to the container, the tracks
(with all their counters), the format flags, the video state and the queues are
unchanged. The same holds for any sequence of such calls. -/
theorem headBuffer_before_header (stages : PacketStages) (fuel : Nat) (w : CAvcodecWriter)
    (hheader : w.format.bFileHeaderWritten = false) :
    (∀ pktData : AVPktMuxData,
      ∃ r, WriteNextPacketInternal stages (fuel + 1) w pktData = some r
        ∧ r.1.m_AudPktBufFileHead = w.m_AudPktBufFileHead ++ [pktData]
        ∧ r.1.written = w.written ∧ r.1.audio = w.audio ∧ r.1.format = w.format
        ∧ r.1.video = w.video ∧ r.1.thread = w.thread ∧ r.1.trim = w.trim
        ∧ r.2.1 = pktData ∧ r.2.2 = AMF_RESULT.AMF_OK)
    ∧ (∀ pkts : List AVPktMuxData,
      ∃ r, runPackets stages (fuel + 1) w pkts = some r
        ∧ r.1.m_AudPktBufFileHead = w.m_AudPktBufFileHead ++ pkts
        ∧ r.1.written = w.written ∧ r.1.audio = w.audio ∧ r.1.format = w.format
        ∧ r.1.video = w.video ∧ r.1.thread = w.thread ∧ r.1.trim = w.trim
        ∧ r.2 = pkts.map (fun _ => AMF_RESULT.AMF_OK)) := by
  have hone : ∀ (w1 : CAvcodecWriter) (pktData : AVPktMuxData),
      w1.format.bFileHeaderWritten = false →
      WriteNextPacketInternal stages (fuel + 1) w1 pktData
        = some ({ w1 with m_AudPktBufFileHead := w1.m_AudPktBufFileHead ++ [pktData] },
            pktData, AMF_RESULT.AMF_OK) := by
    intro w1 pktData h1
    simp [WriteNextPacketInternal, h1]
  constructor
  · intro pktData
    exact ⟨_, hone w pktData hheader, rfl, rfl, rfl, rfl, rfl, rfl, rfl, rfl, rfl⟩
  · intro pkts
    induction pkts generalizing w with
    | nil => exact ⟨(w, []), rfl, by simp, rfl, rfl, rfl, rfl, rfl, rfl, rfl⟩
    | cons pktData rest ih =>
      obtain ⟨r, hr, h1, h2, h3, h4, h5, h6, h7, h8⟩ :=
        ih { w with m_AudPktBufFileHead := w.m_AudPktBufFileHead ++ [pktData] } hheader
      refine ⟨(r.1, AMF_RESULT.AMF_OK :: r.2), ?_, ?_, h2, h3, h4, h5, h6, h7, ?_⟩
      · unfold runPackets
        rw [hone w pktData hheader]
        simp only [hr]
      · simpa using h1
      · simp [h8]

/-- Witness of C3: an audio packet and the drain record arrive before the header. -/
theorem headBuffer_before_header_witness :
    exampleWriter.format.bFileHeaderWritten = false
    ∧ ∃ r, runPackets exampleStages 1 exampleWriter [examplePktData, exampleDrain] = some r
        ∧ r.1.m_AudPktBufFileHead = [examplePktData, exampleDrain]
        ∧ r.1.written = []
        ∧ r.2 = [AMF_RESULT.AMF_OK, AMF_RESULT.AMF_OK] := by
  refine ⟨rfl, ?_⟩
  obtain ⟨r, hr, h1, h2, -, -, -, -, -, h8⟩ :=
    (headBuffer_before_header exampleStages 0 exampleWriter rfl).2 [examplePktData, exampleDrain]
  exact ⟨r, hr, h1, h2, h8⟩

/-! ### Video extradata -/

/-- C4: when the NALU list of the first access unit holds the header NALUs, the
extradata installed by `WriteFileHeader` is the concatenation of the bytes of the
first SPS record and the first PPS record (H.264), respectively of the first VPS, the
first SPS and the first PPS record (HEVC), in this order wherever the records stand in
the list, each record copied whole (start code included, as the parser delimits it);
`extradata_size` is the sum of the record sizes. -/
theorem extradata_is_header_nalus (env : Env) (w : CAvcodecWriter) (bs : sBitstream)
    (header : HeaderOutcome) :
    (w.video.codec_id = AVCodecID.H264 →
      ∀ (i j : Nat) (sps pps : nal_info),
        (env.parse_nal_unit_h264 (bs.Data.drop bs.DataOffset) bs.DataLength)[i]? = some sps →
        sps.type = NALU_H264_SPS →
        (∀ k y, k < i →
          (env.parse_nal_unit_h264 (bs.Data.drop bs.DataOffset) bs.DataLength)[k]? = some y →
          y.type ≠ NALU_H264_SPS) →
        (env.parse_nal_unit_h264 (bs.Data.drop bs.DataOffset) bs.DataLength)[j]? = some pps →
        pps.type = NALU_H264_PPS →
        (∀ k y, k < j →
          (env.parse_nal_unit_h264 (bs.Data.drop bs.DataOffset) bs.DataLength)[k]? = some y →
          y.type ≠ NALU_H264_PPS) →
        (WriteFileHeader env w (some bs) header).1.video.extradata
            = readBytes (bs.Data.drop bs.DataOffset) sps.ptr sps.size
              ++ readBytes (bs.Data.drop bs.DataOffset) pps.ptr pps.size
          ∧ (WriteFileHeader env w (some bs) header).1.video.extradata_size
              = sps.size + pps.size
          ∧ (WriteFileHeader env w (some bs) header).1.video.extradata.length
              = sps.size + pps.size)
    ∧ (w.video.codec_id = AVCodecID.HEVC →
      ∀ (h i j : Nat) (vps sps pps : nal_info),
        (env.parse_nal_unit_hevc (bs.Data.drop bs.DataOffset) bs.DataLength)[h]? = some vps →
        vps.type = NALU_HEVC_VPS →
        (∀ k y, k < h →
          (env.parse_nal_unit_hevc (bs.Data.drop bs.DataOffset) bs.DataLength)[k]? = some y →
          y.type ≠ NALU_HEVC_VPS) →
        (env.parse_nal_unit_hevc (bs.Data.drop bs.DataOffset) bs.DataLength)[i]? = some sps →
        sps.type = NALU_HEVC_SPS →
        (∀ k y, k < i →
          (env.parse_nal_unit_hevc (bs.Data.drop bs.DataOffset) bs.DataLength)[k]? = some y →
          y.type ≠ NALU_HEVC_SPS) →
        (env.parse_nal_unit_hevc (bs.Data.drop bs.DataOffset) bs.DataLength)[j]? = some pps →
        pps.type = NALU_HEVC_PPS →
        (∀ k y, k < j →
          (env.parse_nal_unit_hevc (bs.Data.drop bs.DataOffset) bs.DataLength)[k]? = some y →
          y.type ≠ NALU_HEVC_PPS) →
        (WriteFileHeader env w (some bs) header).1.video.extradata
            = readBytes (bs.Data.drop bs.DataOffset) vps.ptr vps.size
              ++ readBytes (bs.Data.drop bs.DataOffset) sps.ptr sps.size
              ++ readBytes (bs.Data.drop bs.DataOffset) pps.ptr pps.size
          ∧ (WriteFileHeader env w (some bs) header).1.video.extradata_size
              = vps.size + sps.size + pps.size
          ∧ (WriteFileHeader env w (some bs) header).1.video.extradata.length
              = vps.size + sps.size + pps.size) := by
  have hext : ∀ v1 : AVMuxVideo,
      (WriteFileHeader env { w with video := v1 } none header).1.video.extradata = v1.extradata
      ∧ (WriteFileHeader env { w with video := v1 } none header).1.video.extradata_size
          = v1.extradata_size := by
    intro v1
    unfold WriteFileHeader
    cases header <;> simp only <;> (try split) <;> simp
  constructor
  · intro hc i j sps pps hi hti hfi hj htj hfj
    have h1 := find?_eq_first (fun info : nal_info => info.type == NALU_H264_SPS) _ i sps hi
      (by simp [hti]) (fun k y hk hy => by simpa using hfi k y hk hy)
    have h2 := find?_eq_first (fun info : nal_info => info.type == NALU_H264_PPS) _ j pps hj
      (by simp [htj]) (fun k y hk hy => by simpa using hfj k y hk hy)
    have hv : (WriteFileHeader env w (some bs) header).1.video.extradata
          = (AddH264HeaderToExtraData env w.video bs).extradata
        ∧ (WriteFileHeader env w (some bs) header).1.video.extradata_size
          = (AddH264HeaderToExtraData env w.video bs).extradata_size := by
      have := hext (AddH264HeaderToExtraData env w.video bs)
      unfold WriteFileHeader at this ⊢
      simp only [hc] at this ⊢
      exact this
    have ha : (AddH264HeaderToExtraData env w.video bs).extradata
          = readBytes (bs.Data.drop bs.DataOffset) sps.ptr sps.size
              ++ readBytes (bs.Data.drop bs.DataOffset) pps.ptr pps.size
        ∧ (AddH264HeaderToExtraData env w.video bs).extradata_size = sps.size + pps.size := by
      unfold AddH264HeaderToExtraData
      simp only [h1, h2]
      exact ⟨trivial, trivial⟩
    rw [hv.1, hv.2, ha.1, ha.2]
    refine ⟨rfl, rfl, ?_⟩
    simp [readBytes_length]
  · intro hc h i j vps sps pps hh hth hfh hi hti hfi hj htj hfj
    have h0 := find?_eq_first (fun info : nal_info => info.type == NALU_HEVC_VPS) _ h vps hh
      (by simp [hth]) (fun k y hk hy => by simpa using hfh k y hk hy)
    have h1 := find?_eq_first (fun info : nal_info => info.type == NALU_HEVC_SPS) _ i sps hi
      (by simp [hti]) (fun k y hk hy => by simpa using hfi k y hk hy)
    have h2 := find?_eq_first (fun info : nal_info => info.type == NALU_HEVC_PPS) _ j pps hj
      (by simp [htj]) (fun k y hk hy => by simpa using hfj k y hk hy)
    have hv : (WriteFileHeader env w (some bs) header).1.video.extradata
          = (AddHEVCHeaderToExtraData env w.video bs).extradata
        ∧ (WriteFileHeader env w (some bs) header).1.video.extradata_size
          = (AddHEVCHeaderToExtraData env w.video bs).extradata_size := by
      have := hext (AddHEVCHeaderToExtraData env w.video bs)
      unfold WriteFileHeader at this ⊢
      simp only [hc] at this ⊢
      exact this
    have ha : (AddHEVCHeaderToExtraData env w.video bs).extradata
          = readBytes (bs.Data.drop bs.DataOffset) vps.ptr vps.size
              ++ readBytes (bs.Data.drop bs.DataOffset) sps.ptr sps.size
              ++ readBytes (bs.Data.drop bs.DataOffset) pps.ptr pps.size
        ∧ (AddHEVCHeaderToExtraData env w.video bs).extradata_size
            = vps.size + sps.size + pps.size := by
      unfold AddHEVCHeaderToExtraData
      simp only [h0, h1, h2]
      exact ⟨trivial, trivial⟩
    rw [hv.1, hv.2, ha.1, ha.2]
    refine ⟨rfl, rfl, ?_⟩
    simp [readBytes_length]
    omega

/-- Witness of C4: in `exampleAccessUnit` the PPS precedes the SPS; the extradata
installed is the SPS record followed by the PPS record. -/
theorem extradata_is_header_nalus_witness :
    (WriteFileHeader exampleEnv exampleWriter (some (exampleBitstream exampleAccessUnit 0))
        HeaderOutcome.ok).1.video.extradata
        = readBytes exampleAccessUnit 6 7 ++ readBytes exampleAccessUnit 0 6
    ∧ (WriteFileHeader exampleEnv exampleWriter (some (exampleBitstream exampleAccessUnit 0))
        HeaderOutcome.ok).1.video.extradata_size = 7 + 6
    ∧ (WriteFileHeader exampleEnv exampleWriter (some (exampleBitstream exampleAccessUnit 0))
        HeaderOutcome.ok).1.video.extradata.length = 7 + 6 :=
  (extradata_is_header_nalus exampleEnv exampleWriter (exampleBitstream exampleAccessUnit 0)
    HeaderOutcome.ok).1 rfl 1 0 ⟨6, 7, 7⟩ ⟨0, 8, 6⟩ (by decide) (by decide)
    (by intro k y hk hy
        have hk0 : k = 0 := by omega
        subst hk0
        have : y = ⟨0, 8, 6⟩ := by
          have h2 : (exampleEnv.parse_nal_unit_h264
            (List.drop (exampleBitstream exampleAccessUnit 0).DataOffset
              (exampleBitstream exampleAccessUnit 0).Data)
            (exampleBitstream exampleAccessUnit 0).DataLength)[0]? = some ⟨0, 8, 6⟩ := by decide
          rw [h2] at hy
          exact (Option.some.inj hy).symm
        subst this
        decide)
    (by decide) (by decide)
    (by intro k y hk hy
        omega)

/-! ### Video packets: dts, pts and fields -/

/-- C5: with no dts from the encoder, `WriteFileHeader` initialises
`nFpsBaseNextDts` to `(−b_frame_delay) · (1 + is_paff)`; after any sequence of
`WriteNextFrameInternal` calls on a fresh writer the counter has been incremented once
per packet written, and the `n`-th (0-based) packet written has
`dts = rescale(n − b_frame_delay · (1 + is_paff), fps_tb / (1 + is_paff), stream_tb)`. -/
theorem video_dts_synthesized (env : Env) (w0 : CAvcodecWriter) (calls : List FrameCall)
    (hheader : w0.format.bFileHeaderWritten = false) (hwritten : w0.written = [])
    (hdts : w0.video.bDtsUnavailable = true) :
    (∀ bs, (WriteFileHeader env w0 bs HeaderOutcome.ok).1.video.nFpsBaseNextDts
        = (0 - w0.video.nBframeDelay) * (1 + (if w0.video.bIsPAFF then 1 else 0)))
    ∧ ∃ w, runFrames env w0 calls = some w
      ∧ (w.format.bFileHeaderWritten = true →
          w.video.nFpsBaseNextDts
            = (0 - w0.video.nBframeDelay) * (1 + (if w0.video.bIsPAFF then 1 else 0))
              + (w.written.length : Int))
      ∧ ∀ (n : Nat) (pkt : AVPacket), w.written[n]? = some pkt →
          pkt.dts = av_rescale_q
            ((n : Int) - w0.video.nBframeDelay * (1 + (if w0.video.bIsPAFF then 1 else 0)))
            (av_div_q ⟨1, 1 + (if w0.video.bIsPAFF then 1 else 0)⟩ w0.video.nFPS)
            w0.video.streamPktTimebase := by
  constructor
  · intro bs
    exact (WriteFileHeader_spec env w0 bs HeaderOutcome.ok).2.2.2.2.2.2.2.2.2 rfl hdts
  · exact runFrames_dts_formula env w0 calls hheader hwritten hdts

/-- Witness of C5: a fresh writer with one B-frame of delay and two encoder buffers. -/
theorem video_dts_synthesized_witness :
    exampleWriterB.format.bFileHeaderWritten = false
    ∧ exampleWriterB.written = []
    ∧ exampleWriterB.video.bDtsUnavailable = true
    ∧ ∃ w, runFrames exampleEnv exampleWriterB
          [exampleCall exampleAccessUnit 0, exampleCall exampleOneSlice 1] = some w
      ∧ ∀ (n : Nat) (pkt : AVPacket), w.written[n]? = some pkt →
          pkt.dts = av_rescale_q
            ((n : Int) - exampleWriterB.video.nBframeDelay
              * (1 + (if exampleWriterB.video.bIsPAFF then 1 else 0)))
            (av_div_q ⟨1, 1 + (if exampleWriterB.video.bIsPAFF then 1 else 0)⟩
              exampleWriterB.video.nFPS)
            exampleWriterB.video.streamPktTimebase := by
  refine ⟨rfl, rfl, rfl, ?_⟩
  obtain ⟨w, h1, -, h3⟩ := (video_dts_synthesized exampleEnv exampleWriterB
    [exampleCall exampleAccessUnit 0, exampleCall exampleOneSlice 1] rfl rfl rfl).2
  exact ⟨w, h1, h3⟩

/-! ### Audio frames and decode errors -/

/-- C6: for a re-encoded track with encoder `frame_size = F > 0`, a carry of `c`
samples (none when there is no carry) and a resampled frame of `n` samples,
`WriteNextPacketAudioFrame` hands the encoder exactly `(c + n) / F` frames of exactly
`F` samples each; plane by plane, these frames followed by the new carry are the old
carry followed by the resampled frame; the new carry holds `(c + n) mod F` samples and
there is none when this is `0`. -/
theorem audio_frame_cutting (env : Env) (bAudEncThread : Bool) (pMuxAudio : AVMuxAudio)
    (enc : AudioEncodeCtx) (frame : AVFrame) (F c n : Nat) (got_result resampleRet : Int)
    (henc : pMuxAudio.pOutCodecEncodeCtx = some enc)
    (hF : enc.frame_size = (F : Int)) (hFpos : 0 < F)
    (hc : carrySamples pMuxAudio.pDecodedFrameCache = (c : Int))
    (hcwf : ∀ cache, pMuxAudio.pDecodedFrameCache = some cache →
      frameWellFormed (channelLoopCount env enc) cache)
    (hn : frame.nb_samples = (n : Int))
    (hfwf : frameWellFormed (channelLoopCount env enc) frame)
    (hgot : got_result ≠ 0) (hret : 0 ≤ resampleRet) :
    ∃ res, WriteNextPacketAudioFrame env bAudEncThread pMuxAudio got_result resampleRet
          (some frame) = some res
      ∧ res.handed.length = (c + n) / F
      ∧ (∀ f ∈ res.handed, f.nb_samples = (F : Int)
          ∧ ∀ i, i < channelLoopCount env enc → (framePlane f i).length = F)
      ∧ (∀ i, i < channelLoopCount env enc →
          (res.handed.map (fun f => framePlane f i)).flatten
              ++ carryPlane res.pDecodedFrameCache i
            = carryPlane pMuxAudio.pDecodedFrameCache i ++ framePlane frame i)
      ∧ carrySamples res.pDecodedFrameCache = (((c + n) % F : Nat) : Int)
      ∧ ((c + n) % F = 0 ↔ res.pDecodedFrameCache = none) := by
  obtain ⟨hcomb1, hcomb2⟩ := combined_planes env enc pMuxAudio.pDecodedFrameCache frame c n
    hc hcwf hn hfwf
  have hflen : ∀ i, i < channelLoopCount env enc → (framePlane frame i).length = n := by
    intro i hi
    have := hfwf.2 i hi
    rw [hn] at this
    simpa using this
  have hclen : ∀ i, i < channelLoopCount env enc →
      (carryPlane pMuxAudio.pDecodedFrameCache i).length = c := by
    intro i hi
    cases hcache : pMuxAudio.pDecodedFrameCache with
    | none =>
      rw [hcache] at hc
      simp only [carrySamples] at hc
      simp only [carryPlane, List.length_nil]
      omega
    | some cache =>
      rw [hcache] at hc
      simp only [carrySamples] at hc
      have := (hcwf cache hcache).2 i hi
      rw [hc] at this
      simpa [carryPlane] using this
  unfold WriteNextPacketAudioFrame
  rw [if_pos ⟨hgot, hret⟩]
  simp only [henc]
  by_cases hdirect : pMuxAudio.pDecodedFrameCache = none
      ∧ (frame.nb_samples = enc.frame_size ∨ enc.frame_size = 0)
  · rw [if_pos hdirect]
    obtain ⟨hnone, hsize⟩ := hdirect
    have hc0 : c = 0 := by
      rw [hnone] at hc
      simp only [carrySamples] at hc
      omega
    have hnF : n = F := by
      rcases hsize with h | h
      · rw [hn, hF] at h
        exact_mod_cast h
      · rw [hF] at h
        omega
    subst hc0
    subst hnF
    refine ⟨_, rfl, ?_, ?_, ?_, ?_, ?_⟩
    · simp [Nat.div_self hFpos]
    · intro f hf
      simp only [List.mem_singleton] at hf
      subst hf
      cases bAudEncThread
      · simp only [Bool.false_eq_true, if_false]
        exact ⟨hn, hflen⟩
      · simp only [if_true]
        refine ⟨by simp [cutFrame, hF], ?_⟩
        intro i hi
        have := framePlane_cutFrame env enc frame 0 n i hF hi
        simp only [Nat.cast_zero] at this
        rw [this]
        simp [hflen i hi]
    · intro i hi
      rw [hnone]
      simp only [carryPlane, List.map_cons, List.map_nil, List.flatten_cons, List.flatten_nil,
        List.append_nil, List.nil_append]
      cases bAudEncThread
      · simp
      · simp only [if_true]
        have := framePlane_cutFrame env enc frame 0 n i hF hi
        simp only [Nat.cast_zero] at this
        rw [this]
        simp [hflen i hi]
    · simp [carrySamples]
    · simp
  · rw [if_neg hdirect]
    have hlen : ∀ i, i < channelLoopCount env enc →
        (framePlane (combinedFrame env enc pMuxAudio.pDecodedFrameCache frame) i).length
          = c + n := by
      intro i hi
      rw [hcomb2 i hi, List.length_append, hclen i hi, hflen i hi]
    obtain ⟨r, hr, r1, r2, r3, r4, r5⟩ := cutLoop_result env enc _ F (c + n) hF hFpos hcomb1 hlen
    simp only [hr]
    refine ⟨_, rfl, r1, r2, ?_, r4, r5⟩
    intro i hi
    simp only
    rw [r3 i hi, hcomb2 i hi]

/-- Witness of C6: frame size 4, a carry of 3 samples and a frame of 7 samples give
two frames and a carry of 2 samples. -/
theorem audio_frame_cutting_witness :
    ∃ res, WriteNextPacketAudioFrame exampleEnv false
          (exampleEncodedAudio (some (exampleFrame [1, 2, 3] [11, 12, 13]))) 1 7
          (some (exampleFrame [4, 5, 6, 7, 8, 9, 10] [14, 15, 16, 17, 18, 19, 20])) = some res
      ∧ res.handed.length = (3 + 7) / 4
      ∧ carrySamples res.pDecodedFrameCache = (((3 + 7) % 4 : Nat) : Int) := by
  have hwf : ∀ l r : List Nat, l.length = r.length →
      frameWellFormed (channelLoopCount exampleEnv exampleEncodeCtx) (exampleFrame l r) := by
    intro l r hlr
    refine ⟨by simp [exampleFrame], ?_⟩
    intro i hi
    have h2 : channelLoopCount exampleEnv exampleEncodeCtx = 2 := by decide
    rw [h2] at hi
    interval_cases i
    · simp [framePlane, exampleFrame]
    · simp [framePlane, exampleFrame, hlr]
  obtain ⟨res, h1, h2, -, -, h5, -⟩ := audio_frame_cutting exampleEnv false
    (exampleEncodedAudio (some (exampleFrame [1, 2, 3] [11, 12, 13]))) exampleEncodeCtx
    (exampleFrame [4, 5, 6, 7, 8, 9, 10] [14, 15, 16, 17, 18, 19, 20]) 4 3 7 1 7
    rfl rfl (by decide) rfl
    (by
      intro cache hcache
      have : cache = exampleFrame [1, 2, 3] [11, 12, 13] := by
        simp only [exampleEncodedAudio] at hcache
        exact (Option.some.inj hcache).symm
      rw [this]
      exact hwf _ _ rfl)
    rfl (hwf _ _ rfl) (by decide) (by decide)
  exact ⟨res, h1, h2, h5⟩

/-- C10: the decode-error budget of `AudioDecodePacket`, the outcome of the decoder
being an input. On a track with budget `nIgnoreDecodeError`: a packet whose decoder
call fails while the count is below the budget increments `nDecodeError`, raises no
stream error and yields a silent frame of
`rescale(duration, pkt_timebase, 1 / sample_rate)` samples; a failure when the count
has reached the budget yields no frame and sets `bStreamError`; a packet decoded
without failure leaves the count at `0`; hence from count `0` the first `B` consecutive
failing packets give `B` silent frames and no error, and the `(B+1)`-th is fatal. -/
theorem decode_error_budget (env : Env) (a : AVMuxAudio) (err : Bool) :
    (∀ (pkt : AVPacket) (outcome : DecodeOutcome) (rest : List DecodeOutcome),
      outcome.len < 0 → a.nDecodeError + 1 ≤ a.nIgnoreDecodeError →
      ∃ r, AudioDecodePacket env a err pkt (outcome :: rest) = some r
        ∧ r.pMuxAudio.nDecodeError = a.nDecodeError + 1
        ∧ r.bStreamError = err
        ∧ ∃ f, r.frame = some f
          ∧ f.nb_samples
              = av_rescale_q pkt.duration a.inPktTimebase ⟨1, a.nResamplerInSampleRate⟩
          ∧ frameSilent f)
    ∧ (∀ (pkt : AVPacket) (outcome : DecodeOutcome) (rest : List DecodeOutcome),
      outcome.len < 0 → a.nDecodeError = a.nIgnoreDecodeError →
      ∃ r, AudioDecodePacket env a err pkt (outcome :: rest) = some r
        ∧ r.pMuxAudio.nDecodeError = a.nIgnoreDecodeError + 1
        ∧ r.bStreamError = true ∧ r.frame = none ∧ r.got_result = false)
    ∧ (∀ (pkt : AVPacket) (outcome : DecodeOutcome),
      0 ≤ outcome.len → outcome.len = pkt.size → a.OutPacket.size = 0 →
      a.nDecodeError ≤ a.nIgnoreDecodeError →
      ∃ r, AudioDecodePacket env a err pkt [outcome] = some r
        ∧ r.pMuxAudio.nDecodeError = 0 ∧ r.bStreamError = err)
    ∧ (∀ (pkt : AVPacket) (outcomes : List DecodeOutcome) (r : DecodeResult),
      (∀ o ∈ outcomes, 0 ≤ o.len) → a.nDecodeError ≤ a.nIgnoreDecodeError →
      AudioDecodePacket env a err pkt outcomes = some r →
      r.pMuxAudio.nDecodeError = 0 ∧ r.bStreamError = err)
    ∧ (∀ (pkts : List (AVPacket × List DecodeOutcome)) (last : AVPacket × List DecodeOutcome),
      a.nDecodeError = 0 → (pkts.length : Int) = a.nIgnoreDecodeError →
      (∀ p ∈ pkts ++ [last], ∃ o rest, p.2 = o :: rest ∧ o.len < 0) →
      (∃ r0, decodePackets env a err pkts = some r0 ∧ r0.2.1 = err
        ∧ r0.1.nDecodeError = a.nIgnoreDecodeError)
      ∧ ∃ r, decodePackets env a err (pkts ++ [last]) = some r
        ∧ r.2.1 = true
        ∧ r.2.2.length = pkts.length + 1
        ∧ r.2.2[pkts.length]? = some none
        ∧ ∀ (i : Nat) (p : AVPacket × List DecodeOutcome), pkts[i]? = some p →
            ∃ f, r.2.2[i]? = some (some f)
              ∧ f.nb_samples
                  = av_rescale_q p.1.duration a.inPktTimebase ⟨1, a.nResamplerInSampleRate⟩
              ∧ frameSilent f) := by
  refine ⟨?_, ?_, ?_, ?_, ?_⟩
  · intro pkt outcome rest hlen hb
    obtain ⟨r, hr, c1, -, -, -, c5, -⟩ := AudioDecodePacket_failure env a err pkt outcome rest
      hlen (by omega)
    obtain ⟨e1, f, hf, hnb, hsil⟩ := c5 hb
    exact ⟨r, hr, c1, e1, f, hf, hnb, hsil⟩
  · intro pkt outcome rest hlen hb
    obtain ⟨r, hr, c1, -, -, -, -, c6⟩ := AudioDecodePacket_failure env a err pkt outcome rest
      hlen (by omega)
    obtain ⟨e1, e2, e3⟩ := c6 (by omega)
    exact ⟨r, hr, by rw [c1, hb], e1, e2, e3⟩
  · intro pkt outcome hlen hsize hout hb
    have hnot : ¬ a.nDecodeError > a.nIgnoreDecodeError := by omega
    have hl : ¬ outcome.len < 0 := by omega
    have hout2 : ¬ a.OutPacket.size ≠ 0 := by simp [hout]
    have hs2 : ¬ pkt.size ≠ outcome.len := by simp [hsize]
    unfold AudioDecodePacket
    rw [if_neg hnot, if_neg hout2]
    unfold decodeLoop
    simp only [true_or, if_true, hl, if_false, hs2]
    exact ⟨_, rfl, rfl, rfl⟩
  · intro pkt outcomes r hall hb h
    have hnot : ¬ a.nDecodeError > a.nIgnoreDecodeError := by omega
    unfold AudioDecodePacket at h
    rw [if_neg hnot] at h
    split at h
    · exact decodeLoop_success env outcomes _ err _ 0 emptyFrame r hall (Or.inl rfl) h
    · exact decodeLoop_success env outcomes _ err _ 0 emptyFrame r hall (Or.inl rfl) h
  · intro pkts last h0 hB hfail
    obtain ⟨r0, hr0, d1, d2, d3, d4, d5, d6, d7⟩ := decodePackets_failures env pkts a err
      (fun p hp => hfail p (List.mem_append_left _ hp)) (by rw [h0]; omega)
    obtain ⟨o, orest, ho, hlen⟩ := hfail last (List.mem_append_right _ (by simp))
    have hcount : r0.1.nDecodeError = r0.1.nIgnoreDecodeError := by
      rw [d1, d2, h0]
      omega
    obtain ⟨r1, hr1, -, -, -, -, -, c6⟩ := AudioDecodePacket_failure env r0.1 r0.2.1 last.1 o
      orest hlen (by omega)
    obtain ⟨e1, e2, -⟩ := c6 (by omega)
    have hlast : decodePackets env r0.1 r0.2.1 [last]
        = some (r1.pMuxAudio, r1.bStreamError, [r1.frame]) := by
      obtain ⟨lp, lo⟩ := last
      simp only at ho
      subst ho
      unfold decodePackets
      simp only [hr1]
      rfl
    have happ := decodePackets_append env pkts [last] a err r0 _ hr0 hlast
    refine ⟨⟨r0, hr0, d5, by rw [hcount, d2]⟩, _, happ, e1, ?_, ?_, ?_⟩
    · simp [d6]
    · simp only
      rw [List.getElem?_append_right (by omega), d6, e2]
      simp
    · intro i p hp
      obtain ⟨f, hf1, hf2, hf3⟩ := d7 i p hp
      refine ⟨f, ?_, hf2, hf3⟩
      simp only
      have hi : i < r0.2.2.length := by
        rw [d6]
        exact (List.getElem?_eq_some.mp hp).1
      rw [List.getElem?_append_left hi]
      exact hf1

/-- Witness of C10: budget 5; five failing packets give five silent frames of the
packets' durations and no error, the sixth failure is fatal. -/
theorem decode_error_budget_witness :
    (exampleEncodedAudio none).nDecodeError = 0
    ∧ (exampleEncodedAudio none).nIgnoreDecodeError = 5
    ∧ (∃ r0, decodePackets exampleEnv (exampleEncodedAudio none) false
          [exampleFailing 1024, exampleFailing 1024, exampleFailing 960, exampleFailing 1024,
           exampleFailing 512] = some r0
        ∧ r0.2.1 = false ∧ r0.1.nDecodeError = 5)
    ∧ ∃ r, decodePackets exampleEnv (exampleEncodedAudio none) false
          ([exampleFailing 1024, exampleFailing 1024, exampleFailing 960, exampleFailing 1024,
            exampleFailing 512] ++ [exampleFailing 1024]) = some r
        ∧ r.2.1 = true
        ∧ r.2.2.length = 6
        ∧ r.2.2[5]? = some none
        ∧ ∀ (i : Nat) (p : AVPacket × List DecodeOutcome),
            [exampleFailing 1024, exampleFailing 1024, exampleFailing 960, exampleFailing 1024,
              exampleFailing 512][i]? = some p →
            ∃ f, r.2.2[i]? = some (some f)
              ∧ f.nb_samples = av_rescale_q p.1.duration (exampleEncodedAudio none).inPktTimebase
                  ⟨1, (exampleEncodedAudio none).nResamplerInSampleRate⟩
              ∧ frameSilent f := by
  refine ⟨rfl, rfl, ?_⟩
  exact (decode_error_budget exampleEnv (exampleEncodedAudio none) false).2.2.2.2
    [exampleFailing 1024, exampleFailing 1024, exampleFailing 960, exampleFailing 1024,
      exampleFailing 512] (exampleFailing 1024) rfl rfl
    (by
      intro p hp
      simp only [List.cons_append, List.nil_append, List.mem_cons, List.mem_singleton,
        List.not_mem_nil, or_false] at hp
      rcases hp with h | h | h | h | h | h <;> subst h <;>
        exact ⟨_, _, rfl, by decide⟩)

/-- C7: consecutive packets of one track are written in dts order. Audio: for the
track at index `idx` (with a positive sample rate and stream timebase, and an output
stream of its own), after any sequence of `WriteNextPacketProcessed` calls with
non-negative sample counts, the packets appended to the log for this track have
non-decreasing dts. Video: on a fresh writer with synthesized dts, a positive frame
rate and stream timebase, after any sequence of `WriteNextFrameInternal` calls the
packets written have non-decreasing dts. -/
theorem dts_monotone (env : Env) :
    (∀ (w : CAvcodecWriter) (idx : Nat) (a : AVMuxAudio) (calls : List ProcessedCall)
        (writtenDts : Int),
      w.audio[idx]? = some a →
      (audioSamplerate a).positive → a.streamTimeBase.positive →
      (∀ (j : Nat) (b : AVMuxAudio), j ≠ idx → w.audio[j]? = some b →
        b.streamIndex ≠ a.streamIndex) →
      (∀ c ∈ calls, 0 ≤ c.samples ∧ ∀ f ∈ c.flushWrites, 0 ≤ f.samples) →
      ∃ added, (runProcessed env w calls writtenDts).1.written = w.written ++ added
        ∧ ∀ (i : Nat) (p q : AVPacket),
            (trackPackets a.streamIndex added)[i]? = some p →
            (trackPackets a.streamIndex added)[i + 1]? = some q → p.dts ≤ q.dts)
    ∧ (∀ (w0 : CAvcodecWriter) (calls : List FrameCall),
      w0.format.bFileHeaderWritten = false → w0.written = [] →
      w0.video.bDtsUnavailable = true →
      w0.video.nFPS.positive → w0.video.streamPktTimebase.positive →
      ∃ w, runFrames env w0 calls = some w
        ∧ ∀ (n : Nat) (p q : AVPacket),
            w.written[n]? = some p → w.written[n + 1]? = some q → p.dts ≤ q.dts) := by
  constructor
  · intro w idx a calls writtenDts hget hsr htb hothers hs
    have hinit : audioDtsInvariant a idx w [] := by
      refine ⟨⟨a, hget, rfl, rfl, rfl, rfl, ?_⟩, hothers, ?_⟩
      · intro p hp
        simp [trackPackets] at hp
      · simp [trackPackets]
    obtain ⟨added, h1, h2⟩ := runProcessed_invariant env a idx hsr htb calls w [] writtenDts
      hs hinit
    refine ⟨added, h1, ?_⟩
    intro i p q hp hq
    rw [List.nil_append] at h2
    exact pairwise_consecutive _ _ h2.2.2 i p q hp hq
  · intro w0 calls hheader hwritten hdts hfps hstream
    obtain ⟨w, hrun, -, hformula⟩ := runFrames_dts_formula env w0 calls hheader hwritten hdts
    refine ⟨w, hrun, ?_⟩
    intro n p q hp hq
    rw [hformula n p hp, hformula (n + 1) q hq]
    have hpos := fpsTimebase_positive w0.video hfps
    unfold fpsTimebase at hpos
    apply av_rescale_q_mono _ _ hpos hstream
    push_cast
    omega

/-- Witness of C7: three audio packets (the last one from a drain) on the example
track, and two video buffers on the example writer with B-frames. -/
theorem dts_monotone_witness :
    (exampleWriterAudio.audio[0]? = some exampleAudio
      ∧ (audioSamplerate exampleAudio).positive ∧ exampleAudio.streamTimeBase.positive
      ∧ (∀ c ∈ exampleProcessedCalls, 0 ≤ c.samples ∧ ∀ f ∈ c.flushWrites, 0 ≤ f.samples)
      ∧ ∃ added, (runProcessed exampleEnv exampleWriterAudio exampleProcessedCalls 0).1.written
            = exampleWriterAudio.written ++ added
          ∧ ∀ (i : Nat) (p q : AVPacket),
              (trackPackets exampleAudio.streamIndex added)[i]? = some p →
              (trackPackets exampleAudio.streamIndex added)[i + 1]? = some q → p.dts ≤ q.dts)
    ∧ (exampleWriterB.video.nFPS.positive ∧ exampleWriterB.video.streamPktTimebase.positive
      ∧ ∃ w, runFrames exampleEnv exampleWriterB
            [exampleCall exampleAccessUnit 0, exampleCall exampleOneSlice 1] = some w
          ∧ ∀ (n : Nat) (p q : AVPacket),
              w.written[n]? = some p → w.written[n + 1]? = some q → p.dts ≤ q.dts) := by
  have h1 : (audioSamplerate exampleAudio).positive := by
    unfold AVRational.positive
    decide
  have h2 : exampleAudio.streamTimeBase.positive := by
    unfold AVRational.positive
    decide
  have h3 : ∀ c ∈ exampleProcessedCalls, 0 ≤ c.samples ∧ ∀ f ∈ c.flushWrites, 0 ≤ f.samples := by
    decide
  have h4 : exampleWriterB.video.nFPS.positive := by
    unfold AVRational.positive
    decide
  have h5 : exampleWriterB.video.streamPktTimebase.positive := by
    unfold AVRational.positive
    decide
  refine ⟨⟨rfl, h1, h2, h3, ?_⟩, h4, h5, ?_⟩
  · exact (dts_monotone exampleEnv).1 exampleWriterAudio 0 exampleAudio exampleProcessedCalls 0
      rfl h1 h2
      (by
        intro j b hj hb
        have : exampleWriterAudio.audio[j]? = none := by
          cases j with
          | zero => exact absurd rfl hj
          | succ j => rfl
        rw [this] at hb
        simp at hb)
      h3
  · exact (dts_monotone exampleEnv).2 exampleWriterB
      [exampleCall exampleAccessUnit 0, exampleCall exampleOneSlice 1] rfl rfl rfl h4 h5

/-- C8 refuted: with B-frames (`nBframes = 3`, so `b_frame_delay = 1`) at 30 fps and a
`1/90000` stream timebase, the first packet written after the header has
`dts = -3000`. -/
theorem video_dts_nonneg_counterexample :
    ¬ (∀ r, WriteNextFrameInternal exampleEnv exampleWriterB (exampleCall exampleAccessUnit 0)
          = some r → ∀ pkt ∈ r.1.written, 0 ≤ pkt.dts) := by
  intro hall
  have hev : (WriteNextFrameInternal exampleEnv exampleWriterB
      (exampleCall exampleAccessUnit 0)).map (fun r => r.1.written.map (fun p => p.dts))
      = some [-3000] := by decide
  obtain ⟨r, hr⟩ := WriteNextFrameInternal_total exampleEnv exampleWriterB
    (exampleCall exampleAccessUnit 0)
  rw [hr] at hev
  simp only [Option.map_some', Option.some.injEq] at hev
  have h2 : ∀ d ∈ r.1.written.map (fun p => p.dts), (0 : Int) ≤ d := by
    intro d hd
    obtain ⟨p, hp, rfl⟩ := List.mem_map.mp hd
    exact hall r hr p hp
  rw [hev] at h2
  have := h2 (-3000) (by simp)
  omega

/-- C8 as amended: on a fresh writer configured by `SetVideoParam`, with a positive
frame rate and stream timebase, the `n`-th packet written by the video stage has
`dts ≥ 0` as soon as `n ≥ b_frame_delay · (1 + is_paff)` (every packet when
`b_frame_delay = 0`), and `dts ≤ 0` for `n ≤ b_frame_delay · (1 + is_paff)`: the dts of
the first packets is not clamped. -/
theorem video_dts_sign (env : Env) (w : CAvcodecWriter) (pVidPrm : Option AVOutputVideoPrm)
    (calls : List FrameCall)
    (hheader : w.format.bFileHeaderWritten = false) (hwritten : w.written = [])
    (hfps : w.video.nFPS.positive) (hstream : w.video.streamPktTimebase.positive) :
    ∃ w1, runFrames env (SetVideoParam w pVidPrm).1 calls = some w1
      ∧ (∀ (n : Nat) (pkt : AVPacket), w1.written[n]? = some pkt →
          ((SetVideoParam w pVidPrm).1.video.nBframeDelay
              * (1 + (if (SetVideoParam w pVidPrm).1.video.bIsPAFF then 1 else 0)) ≤ (n : Int)
            → 0 ≤ pkt.dts)
          ∧ ((n : Int) ≤ (SetVideoParam w pVidPrm).1.video.nBframeDelay
              * (1 + (if (SetVideoParam w pVidPrm).1.video.bIsPAFF then 1 else 0))
            → pkt.dts ≤ 0))
      ∧ ((SetVideoParam w pVidPrm).1.video.nBframeDelay = 0 →
          ∀ pkt ∈ w1.written, 0 ≤ pkt.dts) := by
  have hcfg : (SetVideoParam w pVidPrm).1.video.nFPS = w.video.nFPS
      ∧ (SetVideoParam w pVidPrm).1.video.streamPktTimebase = w.video.streamPktTimebase
      ∧ (SetVideoParam w pVidPrm).1.video.bDtsUnavailable = true
      ∧ (SetVideoParam w pVidPrm).1.format.bFileHeaderWritten = w.format.bFileHeaderWritten
      ∧ (SetVideoParam w pVidPrm).1.written = w.written := by
    unfold SetVideoParam
    cases pVidPrm <;> simp
  obtain ⟨g1, g2, g3, g4, g5⟩ := hcfg
  obtain ⟨w1, hrun, -, hdts⟩ := runFrames_dts_formula env (SetVideoParam w pVidPrm).1 calls
    (by rw [g4]; exact hheader) (by rw [g5]; exact hwritten) g3
  have hpos1 : (fpsTimebase (SetVideoParam w pVidPrm).1.video).positive :=
    fpsTimebase_positive _ (by rw [g1]; exact hfps)
  have hpos2 : (SetVideoParam w pVidPrm).1.video.streamPktTimebase.positive := by
    rw [g2]
    exact hstream
  have hsign : ∀ (n : Nat) (pkt : AVPacket), w1.written[n]? = some pkt →
      ((SetVideoParam w pVidPrm).1.video.nBframeDelay
          * (1 + (if (SetVideoParam w pVidPrm).1.video.bIsPAFF then 1 else 0)) ≤ (n : Int)
        → 0 ≤ pkt.dts)
      ∧ ((n : Int) ≤ (SetVideoParam w pVidPrm).1.video.nBframeDelay
          * (1 + (if (SetVideoParam w pVidPrm).1.video.bIsPAFF then 1 else 0))
        → pkt.dts ≤ 0) := by
    intro n pkt hp
    rw [hdts n pkt hp]
    constructor
    · intro hn
      exact av_rescale_q_nonneg _ _ hpos1 hpos2 _ (by omega)
    · intro hn
      exact av_rescale_q_nonpos _ _ hpos1 hpos2 _ (by omega)
  refine ⟨w1, hrun, hsign, ?_⟩
  intro h0 pkt hmem
  obtain ⟨n, hn, hget⟩ := List.getElem_of_mem hmem
  have hget2 : w1.written[n]? = some pkt := by
    rw [List.getElem?_eq_getElem hn, hget]
  apply (hsign n pkt hget2).1
  rw [h0]
  simp

/-- Witness of C8 as amended. -/
theorem video_dts_sign_witness :
    exampleWriter.format.bFileHeaderWritten = false
    ∧ exampleWriter.written = []
    ∧ exampleWriter.video.nFPS.positive
    ∧ exampleWriter.video.streamPktTimebase.positive
    ∧ ∃ w1, runFrames exampleEnv
          (SetVideoParam exampleWriter (some { interlaced := false, nBframes := 3, nBPyramid := 0 })).1
          [exampleCall exampleAccessUnit 0, exampleCall exampleOneSlice 1] = some w1
        ∧ ∀ (n : Nat) (pkt : AVPacket), w1.written[n]? = some pkt →
            ((1 : Int) ≤ (n : Int) → 0 ≤ pkt.dts) ∧ ((n : Int) ≤ 1 → pkt.dts ≤ 0) := by
  have hf : exampleWriter.video.nFPS.positive := by
    unfold AVRational.positive
    decide
  have hs : exampleWriter.video.streamPktTimebase.positive := by
    unfold AVRational.positive
    decide
  refine ⟨rfl, rfl, hf, hs, ?_⟩
  obtain ⟨w1, h1, h2, -⟩ := video_dts_sign exampleEnv exampleWriter
    (some { interlaced := false, nBframes := 3, nBPyramid := 0 })
    [exampleCall exampleAccessUnit 0, exampleCall exampleOneSlice 1] rfl rfl hf hs
  refine ⟨w1, h1, ?_⟩
  intro n pkt hp
  have := h2 n pkt hp
  simpa [SetVideoParam, exampleWriter, exampleVideo] using this

/-- C9 refuted: with `is_paff` a buffer that holds a single slice NALU is written as
one packet, not two. -/
theorem paff_two_packets_counterexample :
    ¬ (∀ r, WriteNextFrameInternal exampleEnv exampleWriterPaff (exampleCall exampleOneSlice 0)
          = some r → r.1.written.length = exampleWriterPaff.written.length + 2) := by
  intro hall
  have hev : (WriteNextFrameInternal exampleEnv exampleWriterPaff
      (exampleCall exampleOneSlice 0)).map (fun r => r.1.written.length) = some 1 := by decide
  obtain ⟨r, hr⟩ := WriteNextFrameInternal_total exampleEnv exampleWriterPaff
    (exampleCall exampleOneSlice 0)
  rw [hr] at hev
  simp only [Option.map_some', Option.some.injEq] at hev
  have := hall r hr
  rw [hev] at this
  simp [exampleWriterPaff, SetVideoParam, exampleWriter] at this

/-- C9 as amended: while `is_paff` is true, a call of `WriteNextFrameInternal` that
gets past the header writes one packet per piece the field scan cuts off the buffer;
every packet has `duration = rescale(1, fps_tb / 2, stream_tb)`, the `k`-th packet of
the call has the pts of the first plus `k · duration`, so consecutive packets have
disjoint `[pts, pts + duration)` intervals; and exactly two packets are written when
the scan finds one boundary in the buffer and none in the rest. -/
theorem paff_field_packets (env : Env) (w : CAvcodecWriter) (call : FrameCall)
    (r : CAvcodecWriter × sBitstream × Int × AMF_RESULT)
    (hp : w.video.bIsPAFF = true)
    (hhdr : w.format.bFileHeaderWritten = true ∨ call.header = HeaderOutcome.ok)
    (h : WriteNextFrameInternal env w call = some r) :
    ∃ pkts : List AVPacket,
      r.1.written = w.written ++ pkts
      ∧ pkts.length = fieldCount true (elideFirstAud env w.video.codec_id call.pBitstream).Data
          (elideFirstAud env w.video.codec_id call.pBitstream).DataLength
          (elideFirstAud env w.video.codec_id call.pBitstream).DataOffset
          (elideFirstAud env w.video.codec_id call.pBitstream).DataLength
      ∧ (∀ (k : Nat) (pkt : AVPacket), pkts[k]? = some pkt →
          pkt.duration = av_rescale_q 1 (av_div_q ⟨1, 2⟩ w.video.nFPS) w.video.streamPktTimebase
          ∧ pkt.pts = (videoPacket env w.video call.pBitstream 0 0).pts
              + (k : Int)
                * av_rescale_q 1 (av_div_q ⟨1, 2⟩ w.video.nFPS) w.video.streamPktTimebase)
      ∧ (∀ (k : Nat) (p q : AVPacket), pkts[k]? = some p → pkts[k + 1]? = some q →
          q.pts = p.pts + p.duration
          ∧ ∀ t : Int, ¬ (p.pts ≤ t ∧ t < p.pts + p.duration
              ∧ q.pts ≤ t ∧ t < q.pts + q.duration))
      ∧ (getH264PAFFFieldLength
            ((elideFirstAud env w.video.codec_id call.pBitstream).Data.drop
              (elideFirstAud env w.video.codec_id call.pBitstream).DataOffset)
            (elideFirstAud env w.video.codec_id call.pBitstream).DataLength
          < (elideFirstAud env w.video.codec_id call.pBitstream).DataLength →
        getH264PAFFFieldLength
            ((elideFirstAud env w.video.codec_id call.pBitstream).Data.drop
              ((elideFirstAud env w.video.codec_id call.pBitstream).DataOffset
                + getH264PAFFFieldLength
                  ((elideFirstAud env w.video.codec_id call.pBitstream).Data.drop
                    (elideFirstAud env w.video.codec_id call.pBitstream).DataOffset)
                  (elideFirstAud env w.video.codec_id call.pBitstream).DataLength))
            ((elideFirstAud env w.video.codec_id call.pBitstream).DataLength
              - getH264PAFFFieldLength
                  ((elideFirstAud env w.video.codec_id call.pBitstream).Data.drop
                    (elideFirstAud env w.video.codec_id call.pBitstream).DataOffset)
                  (elideFirstAud env w.video.codec_id call.pBitstream).DataLength)
          = (elideFirstAud env w.video.codec_id call.pBitstream).DataLength
              - getH264PAFFFieldLength
                  ((elideFirstAud env w.video.codec_id call.pBitstream).Data.drop
                    (elideFirstAud env w.video.codec_id call.pBitstream).DataOffset)
                  (elideFirstAud env w.video.codec_id call.pBitstream).DataLength →
        pkts.length = 2) := by
  have hcount := WriteNextFrameInternal_count env w call r hhdr h
  have hfps : fpsTimebase w.video = av_div_q ⟨1, 2⟩ w.video.nFPS := by
    simp [fpsTimebase, hp]
  rcases WriteNextFrameInternal_spec env w call r h with
    ⟨a1, a2, -⟩ | ⟨-, -, -, -, -, pkts, v1, bs1, c1, c2, c3, c4, c5, c6, c7, c8⟩
  · rcases hhdr with hw | hh
    · rw [hw] at a1
      simp at a1
    · exact absurd hh a2
  · have hts : bs1.TimeStamp = call.pBitstream.TimeStamp := by
      rw [c6]
      exact (VCECheckStreamAVParser_buffer _ _ _).2.2.2
    have hlen : pkts.length = fieldCount true
        (elideFirstAud env w.video.codec_id call.pBitstream).Data
        (elideFirstAud env w.video.codec_id call.pBitstream).DataLength
        (elideFirstAud env w.video.codec_id call.pBitstream).DataOffset
        (elideFirstAud env w.video.codec_id call.pBitstream).DataLength := by
      have := hcount
      rw [c1, hp] at this
      simp only [List.length_append] at this
      omega
    have hpkt : ∀ (k : Nat) (pkt : AVPacket), pkts[k]? = some pkt →
        pkt.duration = av_rescale_q 1 (av_div_q ⟨1, 2⟩ w.video.nFPS) w.video.streamPktTimebase
        ∧ pkt.pts = (videoPacket env w.video call.pBitstream 0 0).pts
            + (k : Int)
              * av_rescale_q 1 (av_div_q ⟨1, 2⟩ w.video.nFPS) w.video.streamPktTimebase := by
      intro k pkt hk
      obtain ⟨off, n, hpk⟩ := c8 k pkt hk
      have af := advanceDts_fields v1 k
      have hcfg : videoConfigEq w.video (advanceDts v1 k) := by
        obtain ⟨d1, d2, d3, d4, d5, d6, d7, d8, d9⟩ := c2
        unfold advanceDts
        split <;> exact ⟨d1, d2, d3, d4, d5, d6, d7, d8, d9⟩
      have hcmp := videoPacket_pts_config env w.video (advanceDts v1 k) call.pBitstream
        { bs1 with DataOffset := off } k n hcfg hts
      rw [hpk, hcmp.1, hcmp.2, videoPacket_duration, videoPacket_pts, hfps, hp]
      simp
    refine ⟨pkts, c1, hlen, hpkt, ?_, ?_⟩
    · intro k p q hk hq
      obtain ⟨p1, p2⟩ := hpkt k p hk
      obtain ⟨q1, q2⟩ := hpkt (k + 1) q hq
      have hqp : q.pts = p.pts + p.duration := by
        rw [q2, p2, p1]
        push_cast
        ring
      refine ⟨hqp, ?_⟩
      intro t ht
      omega
    · intro h1 h2
      rw [hlen]
      exact fieldCount_two _ _ _ _ (le_refl _) h1 h2

/-- Witness of C9 as amended: a buffer with two field slices gives two packets. -/
theorem paff_field_packets_witness :
    exampleWriterPaff.video.bIsPAFF = true
    ∧ (exampleCall exampleTwoFields 5).header = HeaderOutcome.ok
    ∧ ∃ r, WriteNextFrameInternal exampleEnv exampleWriterPaff (exampleCall exampleTwoFields 5)
          = some r
        ∧ ∃ pkts : List AVPacket, r.1.written = exampleWriterPaff.written ++ pkts
          ∧ pkts.length = 2 := by
  refine ⟨rfl, rfl, ?_⟩
  obtain ⟨r, hr⟩ := WriteNextFrameInternal_total exampleEnv exampleWriterPaff
    (exampleCall exampleTwoFields 5)
  obtain ⟨pkts, h1, -, -, -, h5⟩ := paff_field_packets exampleEnv exampleWriterPaff
    (exampleCall exampleTwoFields 5) r rfl (Or.inr rfl) hr
  exact ⟨r, hr, pkts, h1, h5 (by decide) (by decide)⟩

/-! ### Chapters -/

/-- C15: for every chapter list and trim list (the container has no chapters yet, or
at least one chapter is kept), `SetChapters` installs exactly the chapters whose
trim-adjusted start (computed with `lastValidFrame = true`) is strictly less than their
trim-adjusted end, in input order, each with its adjusted start and end and with the
timebase, id and metadata of the input chapter; the others are discarded. -/
theorem setChapters_installs (w : CAvcodecWriter) (pChapterList : List AVChapter)
    (hfresh : w.format.chapters = []
      ∨ ∃ c ∈ pChapterList, (adjustChapter w.video.nFPS w.trim c).start
          < (adjustChapter w.video.nFPS w.trim c).end_) :
    (SetChapters w pChapterList).1.format.chapters
      = (pChapterList.filter (fun c => decide
          (AdjustTimestampTrimmed w.video.nFPS w.trim c.start c.time_base c.time_base true
            < AdjustTimestampTrimmed w.video.nFPS w.trim c.end_ c.time_base c.time_base true))).map
        (fun c => { c with
          start := AdjustTimestampTrimmed w.video.nFPS w.trim c.start c.time_base c.time_base true
          end_ := AdjustTimestampTrimmed w.video.nFPS w.trim c.end_ c.time_base c.time_base
            true }) := by
  rw [SetChapters_chapters, outChapters_eq_filter]
  have hfun : (fun c : AVChapter => { c with
          start := AdjustTimestampTrimmed w.video.nFPS w.trim c.start c.time_base c.time_base true
          end_ := AdjustTimestampTrimmed w.video.nFPS w.trim c.end_ c.time_base c.time_base
            true }) = adjustChapter w.video.nFPS w.trim := by
    funext c
    rfl
  rw [hfun]
  split
  · rename_i hnil
    rcases hfresh with h | ⟨c, hc, hlt⟩
    · rw [h]
      exact hnil.symm
    · exfalso
      have hmem : adjustChapter w.video.nFPS w.trim c ∈
          (pChapterList.filter (fun c => decide ((adjustChapter w.video.nFPS w.trim c).start
            < (adjustChapter w.video.nFPS w.trim c).end_))).map
            (adjustChapter w.video.nFPS w.trim) := by
        apply List.mem_map_of_mem
        simp [List.mem_filter, hc, hlt]
      rw [hnil] at hmem
      simp at hmem
  · rfl

/-- Witness of C15: at 30 fps with the kept range `[150, 2147483647]`, chapter A
`[0 s, 5 s]` is discarded and chapter B `[10 s, 20 s]` is installed as `[5 s, 15 s]`. -/
theorem setChapters_installs_witness :
    ((exampleWriterTrim [⟨150, 2147483647⟩]).format.chapters = []
      ∨ ∃ c ∈ [exampleChapter 0 0 5000 "A", exampleChapter 1 10000 20000 "B"],
          (adjustChapter (exampleWriterTrim [⟨150, 2147483647⟩]).video.nFPS
            (exampleWriterTrim [⟨150, 2147483647⟩]).trim c).start
          < (adjustChapter (exampleWriterTrim [⟨150, 2147483647⟩]).video.nFPS
            (exampleWriterTrim [⟨150, 2147483647⟩]).trim c).end_)
    ∧ (SetChapters (exampleWriterTrim [⟨150, 2147483647⟩])
        [exampleChapter 0 0 5000 "A", exampleChapter 1 10000 20000 "B"]).1.format.chapters
      = [exampleChapter 1 5000 15000 "B"] :=
  ⟨Or.inl rfl,
   (setChapters_installs (exampleWriterTrim [⟨150, 2147483647⟩])
      [exampleChapter 0 0 5000 "A", exampleChapter 1 10000 20000 "B"] (Or.inl rfl)).trans
     (by decide)⟩

/-- C16, counterexample: with the kept ranges `[0, 9]` and `[20, 29]` at 30 fps, the
chapters with ids 0, 1, 2 of which the middle one lies in the cut gap are installed
with ids 0 and 2: the ids are not renumbered. -/
theorem chapter_ids_renumbered_counterexample :
    ((SetChapters (exampleWriterTrim [⟨0, 9⟩, ⟨20, 29⟩])
        [exampleChapter 0 0 167 "A", exampleChapter 1 400 500 "B",
         exampleChapter 2 667 833 "C"]).1.format.chapters.map (fun c => c.id) = [0, 2])
    ∧ ¬ idsConsecutive (SetChapters (exampleWriterTrim [⟨0, 9⟩, ⟨20, 29⟩])
        [exampleChapter 0 0 167 "A", exampleChapter 1 400 500 "B",
         exampleChapter 2 667 833 "C"]).1.format.chapters := by
  constructor
  · decide
  · have h : (SetChapters (exampleWriterTrim [⟨0, 9⟩, ⟨20, 29⟩])
        [exampleChapter 0 0 167 "A", exampleChapter 1 400 500 "B",
         exampleChapter 2 667 833 "C"]).1.format.chapters
        = [exampleChapter 0 0 167 "A", exampleChapter 2 300 466 "C"] := by decide
    rw [h]
    simp [idsConsecutive, exampleChapter]

/-- C16, amended: every chapter installed by `SetChapters` keeps the id of the input
chapter it was made from: the ids of the installed chapters are the ids of the kept
input chapters, in input order. -/
theorem chapter_ids_kept (w : CAvcodecWriter) (pChapterList : List AVChapter)
    (hfresh : w.format.chapters = []
      ∨ ∃ c ∈ pChapterList, (adjustChapter w.video.nFPS w.trim c).start
          < (adjustChapter w.video.nFPS w.trim c).end_) :
    (SetChapters w pChapterList).1.format.chapters.map (fun c => c.id)
      = (pChapterList.filter (fun c => decide
          (AdjustTimestampTrimmed w.video.nFPS w.trim c.start c.time_base c.time_base true
            < AdjustTimestampTrimmed w.video.nFPS w.trim c.end_ c.time_base c.time_base
              true))).map (fun c => c.id) := by
  rw [SetChapters_chapters, outChapters_eq_filter]
  split
  · rename_i hnil
    rcases hfresh with h | ⟨c, hc, hlt⟩
    · rw [h]
      have hf : pChapterList.filter (fun c => decide
          ((adjustChapter w.video.nFPS w.trim c).start
            < (adjustChapter w.video.nFPS w.trim c).end_)) = [] := by
        simpa using hnil
      have hf2 : pChapterList.filter (fun c => decide
          (AdjustTimestampTrimmed w.video.nFPS w.trim c.start c.time_base c.time_base true
            < AdjustTimestampTrimmed w.video.nFPS w.trim c.end_ c.time_base c.time_base
              true)) = [] := hf
      rw [hf2]
    · exfalso
      have hmem : adjustChapter w.video.nFPS w.trim c ∈
          (pChapterList.filter (fun c => decide ((adjustChapter w.video.nFPS w.trim c).start
            < (adjustChapter w.video.nFPS w.trim c).end_))).map
            (adjustChapter w.video.nFPS w.trim) := by
        apply List.mem_map_of_mem
        simp [List.mem_filter, hc, hlt]
      rw [hnil] at hmem
      simp at hmem
  · rw [List.map_map]
    rfl

/-- Witness of C16 (amended): the installed chapters of the example carry the ids 0
and 2 of the two kept input chapters. -/
theorem chapter_ids_kept_witness :
    ((exampleWriterTrim [⟨0, 9⟩, ⟨20, 29⟩]).format.chapters = []
      ∨ ∃ c ∈ [exampleChapter 0 0 167 "A", exampleChapter 1 400 500 "B",
            exampleChapter 2 667 833 "C"],
          (adjustChapter (exampleWriterTrim [⟨0, 9⟩, ⟨20, 29⟩]).video.nFPS
            (exampleWriterTrim [⟨0, 9⟩, ⟨20, 29⟩]).trim c).start
          < (adjustChapter (exampleWriterTrim [⟨0, 9⟩, ⟨20, 29⟩]).video.nFPS
            (exampleWriterTrim [⟨0, 9⟩, ⟨20, 29⟩]).trim c).end_)
    ∧ (SetChapters (exampleWriterTrim [⟨0, 9⟩, ⟨20, 29⟩])
        [exampleChapter 0 0 167 "A", exampleChapter 1 400 500 "B",
         exampleChapter 2 667 833 "C"]).1.format.chapters.map (fun c => c.id) = [0, 2] :=
  ⟨Or.inl rfl,
   (chapter_ids_kept (exampleWriterTrim [⟨0, 9⟩, ⟨20, 29⟩])
      [exampleChapter 0 0 167 "A", exampleChapter 1 400 500 "B",
       exampleChapter 2 667 833 "C"] (Or.inl rfl)).trans (by decide)⟩

/-- C17, counterexample: at 30 fps with the kept range `[150, 2147483647]`, chapter A
`[0 s, 5 s]` is discarded and chapter B `[10 s, 20 s]` is installed with adjusted start
`5 s` (5000 in its `1/1000` timebase): no installed chapter starts at 0. -/
theorem chapter_scenario_counterexample :
    (SetChapters (exampleWriterTrim [⟨150, 2147483647⟩])
        [exampleChapter 0 0 5000 "A", exampleChapter 1 10000 20000 "B"]).1.format.chapters
      = [exampleChapter 1 5000 15000 "B"]
    ∧ ¬ ∃ c ∈ (SetChapters (exampleWriterTrim [⟨150, 2147483647⟩])
        [exampleChapter 0 0 5000 "A", exampleChapter 1 10000 20000 "B"]).1.format.chapters,
        c.start = 0 := by
  have h : (SetChapters (exampleWriterTrim [⟨150, 2147483647⟩])
        [exampleChapter 0 0 5000 "A", exampleChapter 1 10000 20000 "B"]).1.format.chapters
      = [exampleChapter 1 5000 15000 "B"] := by decide
  refine ⟨h, ?_⟩
  rw [h]
  simp [exampleChapter]

/-- C17, amended: at 30 fps with the single kept range `[150, e]` (the range reaches
past chapter B), `SetChapters` maps the end `5.0 s` of chapter A `[0 s, 5.0 s]` to 0 and
discards A, and keeps chapter B, which starts at `10 s`, with adjusted start `5 s`
(10 s minus the 150 cut frames) and its end moved back by the same `5 s`. -/
theorem chapter_scenario (e bEnd : Int) (he : 600 ≤ e) (hb : 10000 < bEnd)
    (hbe : av_rescale_q bEnd ⟨1, 1000⟩ (av_inv_q ⟨30, 1⟩) ≤ e) :
    AdjustTimestampTrimmed ⟨30, 1⟩ [⟨150, e⟩] 5000 ⟨1, 1000⟩ ⟨1, 1000⟩ true = 0
    ∧ (SetChapters (exampleWriterTrim [⟨150, e⟩])
        [exampleChapter 0 0 5000 "A", exampleChapter 1 10000 bEnd "B"]).1.format.chapters
      = [exampleChapter 1 5000 (bEnd - 5000) "B"] := by
  have hf5 : av_rescale_q 5000 ⟨1, 1000⟩ (av_inv_q ⟨30, 1⟩) = 150 := by decide
  have hf10 : av_rescale_q 10000 ⟨1, 1000⟩ (av_inv_q ⟨30, 1⟩) = 300 := by decide
  have hcut : av_rescale_q 150 (av_inv_q ⟨30, 1⟩) ⟨1, 1000⟩ = 5000 := by decide
  have hid : ∀ t : Int, 0 ≤ t → av_rescale_q t ⟨1, 1000⟩ ⟨1, 1000⟩ = t := by
    intro t ht
    simp only [av_rescale_q, av_rescale_rnd]
    have h1 : ¬ ((1 : Int) * 1000 ≤ 0 ∨ (1 : Int) * 1000 < 0) := by omega
    have h2 : ¬ t < 0 := by omega
    simp only [h1, h2, if_false]
    omega
  have hA0 : AdjustTimestampTrimmed ⟨30, 1⟩ [⟨150, e⟩] 0 ⟨1, 1000⟩ ⟨1, 1000⟩ true = 0 := by
    unfold AdjustTimestampTrimmed cutFramesTrimmed
    have hf0 : av_rescale_q 0 ⟨1, 1000⟩ (av_inv_q ⟨30, 1⟩) = 0 := by decide
    simp only [hf0]
    simp [trimLoop]
    decide
  have hA5 : AdjustTimestampTrimmed ⟨30, 1⟩ [⟨150, e⟩] 5000 ⟨1, 1000⟩ ⟨1, 1000⟩ true = 0 := by
    rw [AdjustTimestampTrimmed_single_inside _ _ _ _ _ _ _ (by rw [hf5]) (by rw [hf5]; omega),
      hcut, hid 5000 (by omega)]
    rfl
  have hB10 : AdjustTimestampTrimmed ⟨30, 1⟩ [⟨150, e⟩] 10000 ⟨1, 1000⟩ ⟨1, 1000⟩ true
      = 5000 := by
    rw [AdjustTimestampTrimmed_single_inside _ _ _ _ _ _ _ (by rw [hf10]; omega)
      (by rw [hf10]; omega), hcut, hid 10000 (by omega)]
    rfl
  have hmono : av_rescale_q 10000 ⟨1, 1000⟩ (av_inv_q ⟨30, 1⟩)
      ≤ av_rescale_q bEnd ⟨1, 1000⟩ (av_inv_q ⟨30, 1⟩) :=
    av_rescale_q_mono _ _ (by constructor <;> decide) (by constructor <;> decide) _ _
      (le_of_lt hb)
  have hBe : AdjustTimestampTrimmed ⟨30, 1⟩ [⟨150, e⟩] bEnd ⟨1, 1000⟩ ⟨1, 1000⟩ true
      = bEnd - 5000 := by
    rw [AdjustTimestampTrimmed_single_inside _ _ _ _ _ _ _ (by rw [hf10] at hmono; omega) hbe,
      hcut, hid bEnd (by omega)]
  refine ⟨hA5, ?_⟩
  rw [SetChapters_chapters]
  have hout : outChapters (exampleWriterTrim [⟨150, e⟩]).video.nFPS
      (exampleWriterTrim [⟨150, e⟩]).trim
      [exampleChapter 0 0 5000 "A", exampleChapter 1 10000 bEnd "B"]
      = [exampleChapter 1 5000 (bEnd - 5000) "B"] := by
    have hv : (exampleWriterTrim [⟨150, e⟩]).video.nFPS = ⟨30, 1⟩ := rfl
    have ht : (exampleWriterTrim [⟨150, e⟩]).trim = [⟨150, e⟩] := rfl
    rw [hv, ht]
    simp only [outChapters, adjustChapter, exampleChapter, hA0, hA5, hB10, hBe]
    have hlt : (5000 : Int) < bEnd - 5000 := by omega
    simp [hlt]
  rw [hout]
  simp

/-- Witness of C17 (amended): the range `[150, 2147483647]` and chapter B `[10 s, 20 s]`. -/
theorem chapter_scenario_witness :
    ((600 : Int) ≤ 2147483647 ∧ (10000 : Int) < 20000
      ∧ av_rescale_q 20000 ⟨1, 1000⟩ (av_inv_q ⟨30, 1⟩) ≤ 2147483647)
    ∧ AdjustTimestampTrimmed ⟨30, 1⟩ [⟨150, 2147483647⟩] 5000 ⟨1, 1000⟩ ⟨1, 1000⟩ true = 0
    ∧ (SetChapters (exampleWriterTrim [⟨150, 2147483647⟩])
        [exampleChapter 0 0 5000 "A", exampleChapter 1 10000 20000 "B"]).1.format.chapters
      = [exampleChapter 1 5000 (20000 - 5000) "B"] :=
  ⟨by decide, chapter_scenario 2147483647 20000 (by decide) (by decide) (by decide)⟩

/-! ### Subtitle packets and the no-op trim list -/

/-- C18, counterexample: with the single kept range `[0, 99]` at 30 fps, the copy-mode
subtitle packet with pts `4000 ms` (frame index 120) is not dropped: it is written, with
pts `3300 ms`. -/
theorem subtitle_trim_reject_counterexample :
    subtitleFrameIdx (exampleWriterSub [⟨0, 99⟩]) exampleSub (exampleSubPacket 4000) = 120
    ∧ (SubtitleWritePacket exampleTranscode (exampleWriterSub [⟨0, 99⟩])
          (exampleSubPacket 4000) false).map (fun r => r.1.written)
        = some [{ exampleSubPacket 4000 with pts := 3300, dts := 3300, flags := 0, pos := -1 }] := by
  decide

/-- C18, amended: a subtitle packet whose frame index lies in front of a kept range
(before the first kept range, or in the gap between two kept ranges of a well-formed
trim list) is rejected: nothing is written and the writer is unchanged. A packet whose
frame index `f` lies past the last kept range is not rejected by this stage: with the
single range `[0, e]` a copy-mode packet is written with pts
`rescale(t) − rescale(f − e)` (unless that value happens to be `AV_NOPTS_VALUE`). -/
theorem subtitle_trim_reject
    (SubtitleTranscode : CAvcodecWriter → AVMuxSub → AVPacket → CAvcodecWriter × AMF_RESULT)
    (w : CAvcodecWriter) (pkt : AVPacket) (writeFails : Bool) (pMuxSub : AVMuxSub)
    (hsub : getSubPacketStreamData w pkt = some pMuxSub) :
    (∀ k, trimWellFormed w.trim → k < w.trim.length →
        subtitleFrameIdx w pMuxSub pkt < (trimAt w.trim k).start →
        (∀ j, k = j + 1 → (trimAt w.trim j).fin < subtitleFrameIdx w pMuxSub pkt) →
        SubtitleWritePacket SubtitleTranscode w pkt writeFails
          = some (w, if w.format.bStreamError then AMF_RESULT.AMF_UNEXPECTED
                     else AMF_RESULT.AMF_OK))
    ∧ (∀ e, w.trim = [⟨0, e⟩] → 0 ≤ e → e < subtitleFrameIdx w pMuxSub pkt →
        pMuxSub.pOutCodecEncodeCtx = false →
        av_rescale_q (subtitlePtsIn w pMuxSub pkt) pMuxSub.inPktTimebase pMuxSub.streamTimeBase
            - av_rescale_q (subtitleFrameIdx w pMuxSub pkt - e) (av_inv_q w.video.nFPS)
                pMuxSub.streamTimeBase ≠ AV_NOPTS_VALUE →
        ∃ pkt1, pkt1.pts
            = av_rescale_q (subtitlePtsIn w pMuxSub pkt) pMuxSub.inPktTimebase
                pMuxSub.streamTimeBase
              - av_rescale_q (subtitleFrameIdx w pMuxSub pkt - e) (av_inv_q w.video.nFPS)
                  pMuxSub.streamTimeBase
          ∧ (SubtitleWritePacket SubtitleTranscode w pkt writeFails).map (fun r => r.1.written)
              = some (w.written ++ [pkt1])) := by
  constructor
  · intro k hwf hk hs he
    have hcut := cutFramesTrimmed_front_none w.trim k _ hwf hk hs he
    have hpts : AdjustTimestampTrimmed w.video.nFPS w.trim (subtitlePtsIn w pMuxSub pkt)
        pMuxSub.inPktTimebase pMuxSub.streamTimeBase false = AV_NOPTS_VALUE := by
      unfold AdjustTimestampTrimmed
      unfold subtitleFrameIdx at hcut
      simp only [hcut]
    unfold SubtitleWritePacket
    simp only [hsub, hpts, ne_eq, not_true_eq_false, if_false]
  · intro e htrim he0 hef hcopy hne
    have hcut := cutFramesTrimmed_single_past 0 e (subtitleFrameIdx w pMuxSub pkt) false he0 hef
    have hadj : AdjustTimestampTrimmed w.video.nFPS w.trim (subtitlePtsIn w pMuxSub pkt)
        pMuxSub.inPktTimebase pMuxSub.streamTimeBase false
        = av_rescale_q (subtitlePtsIn w pMuxSub pkt) pMuxSub.inPktTimebase
            pMuxSub.streamTimeBase
          - av_rescale_q (subtitleFrameIdx w pMuxSub pkt - e) (av_inv_q w.video.nFPS)
              pMuxSub.streamTimeBase := by
      unfold AdjustTimestampTrimmed
      rw [htrim]
      unfold subtitleFrameIdx at hcut ⊢
      simp only [hcut, zero_add]
    unfold SubtitleWritePacket
    simp only [hsub, hadj, hcopy, ne_eq, hne, not_false_eq_true, if_true, Bool.false_eq_true,
      if_false, Option.map_some']
    exact ⟨_, rfl, rfl⟩

/-- Witness of C18 (amended): with the kept range `[10, 100]` the packet with pts
`100 ms` (frame index 3) is rejected. -/
theorem subtitle_trim_reject_witness :
    getSubPacketStreamData (exampleWriterSub [⟨10, 100⟩]) (exampleSubPacket 100)
      = some exampleSub
    ∧ SubtitleWritePacket exampleTranscode (exampleWriterSub [⟨10, 100⟩])
        (exampleSubPacket 100) false
      = some (exampleWriterSub [⟨10, 100⟩], AMF_RESULT.AMF_OK) :=
  ⟨by decide,
   (subtitle_trim_reject exampleTranscode (exampleWriterSub [⟨10, 100⟩])
      (exampleSubPacket 100) false exampleSub (by decide)).1 0 (by decide) (by decide)
      (by decide) (by intro j hj; cases hj)⟩

/-- C19, the code at the failing input: with the well-formed trim list `[10, 100]` at
30 fps and both timebases `1/1000`, the copy-mode subtitle packet with pts = dts =
`317 ms` has frame index 10 (9.51 rounded), so it is kept and 10 frames (`333 ms`) are
subtracted: it is written with pts `-16` and dts clamped to `0`. -/
theorem subtitle_pts_negative :
    trimWellFormed [⟨10, 100⟩]
    ∧ subtitleFrameIdx (exampleWriterSub [⟨10, 100⟩]) exampleSub (exampleSubPacket 317) = 10
    ∧ (SubtitleWritePacket exampleTranscode (exampleWriterSub [⟨10, 100⟩])
          (exampleSubPacket 317) false).map (fun r => r.1.written)
        = some [{ exampleSubPacket 317 with pts := -16, dts := 0, flags := 0, pos := -1 }] := by
  decide

/-- C20: with the trim list that consists of the single range `[0, e]`, for every
timestamp whose frame index `f` satisfies `0 ≤ f ≤ e` and both values of
`lastValidFrame`, `AdjustTimestampTrimmed` returns the same value as with the empty
trim list; for a positive frame rate and output timebase this value is
`rescale(t_in, tb_in, tb_out)`. -/
theorem adjustTimestampTrimmed_noop_trim (nFPS : AVRational) (e nTimeIn : Int)
    (timescaleIn timescaleOut : AVRational) (lastValidFrame : Bool)
    (h0 : 0 ≤ av_rescale_q nTimeIn timescaleIn (av_inv_q nFPS))
    (he : av_rescale_q nTimeIn timescaleIn (av_inv_q nFPS) ≤ e) :
    AdjustTimestampTrimmed nFPS [⟨0, e⟩] nTimeIn timescaleIn timescaleOut lastValidFrame
      = AdjustTimestampTrimmed nFPS [] nTimeIn timescaleIn timescaleOut lastValidFrame
    ∧ (nFPS.positive → timescaleOut.positive →
        AdjustTimestampTrimmed nFPS [⟨0, e⟩] nTimeIn timescaleIn timescaleOut lastValidFrame
          = av_rescale_q nTimeIn timescaleIn timescaleOut) := by
  rw [AdjustTimestampTrimmed_single_inside nFPS 0 e nTimeIn timescaleIn timescaleOut
    lastValidFrame h0 he]
  constructor
  · unfold AdjustTimestampTrimmed cutFramesTrimmed
    simp
  · intro hf ho
    have hinv : (av_inv_q nFPS).positive := ⟨hf.2, hf.1⟩
    rw [av_rescale_q_zero _ _ hinv ho]
    simp

/-- Witness of C20: `5 s` in a `1/1000` timebase is frame 150 of the range `[0, 299]`. -/
theorem adjustTimestampTrimmed_noop_trim_witness :
    (0 ≤ av_rescale_q 5000 ⟨1, 1000⟩ (av_inv_q ⟨30, 1⟩)
      ∧ av_rescale_q 5000 ⟨1, 1000⟩ (av_inv_q ⟨30, 1⟩) ≤ 299)
    ∧ (AdjustTimestampTrimmed ⟨30, 1⟩ [⟨0, 299⟩] 5000 ⟨1, 1000⟩ ⟨1, 90000⟩ false
        = AdjustTimestampTrimmed ⟨30, 1⟩ [] 5000 ⟨1, 1000⟩ ⟨1, 90000⟩ false
      ∧ ((⟨30, 1⟩ : AVRational).positive → (⟨1, 90000⟩ : AVRational).positive →
        AdjustTimestampTrimmed ⟨30, 1⟩ [⟨0, 299⟩] 5000 ⟨1, 1000⟩ ⟨1, 90000⟩ false
          = av_rescale_q 5000 ⟨1, 1000⟩ ⟨1, 90000⟩)) :=
  ⟨by decide,
   adjustTimestampTrimmed_noop_trim ⟨30, 1⟩ 299 5000 ⟨1, 1000⟩ ⟨1, 90000⟩ false
     (by decide) (by decide)⟩

/-! ### Bitstream filter errors, flush, head buffer and trailer -/

/-- C11, counterexample: on a track that has already passed a packet on
(`nPacketWritten = 1`) a failed filter run leaves the streak at 0, and 31 consecutive
failures raise no stream error. -/
theorem bsf_streak_counterexample :
    bsfRunFailure exampleBsfFailure
    ∧ (exampleAacTrack 1 0).nAACBsfErrorFromStart = 0
    ∧ (applyBitstreamFilterAAC exampleWriterAudio.format (exampleAacTrack 1 0) examplePacket
        exampleBsfFailure).2.1.nAACBsfErrorFromStart = 0
    ∧ (applyBitstreamFilterRun examplePacket exampleWriterAudio.format (exampleAacTrack 1 0)
        (List.replicate 31 exampleBsfFailure)).1.bStreamError = false := by
  have hfail : bsfRunFailure exampleBsfFailure := by
    simp [bsfRunFailure, exampleBsfFailure, AVERROR_EAGAIN, AVERROR_EOF]
  refine ⟨hfail, rfl, by decide, ?_⟩
  have hall : ∀ o ∈ List.replicate 31 exampleBsfFailure, bsfRunFailure o := by
    intro o ho
    rw [List.eq_of_mem_replicate ho]
    exact hfail
  rw [applyBitstreamFilterRun_written examplePacket (List.replicate 31 exampleBsfFailure)
    exampleWriterAudio.format (exampleAacTrack 1 0) (by decide) hall]
  rfl

/-- C11, amended: with the outcome of the filter as an input, for every track and format
state: while no packet of the track has been passed on (`nPacketWritten = 0`) a failed
filter run increments `nAACBsfErrorFromStart`, and the failure that takes it above 30
sets the stream error and returns `1`, while a failure up to there changes no format
flag and returns `-1`; once a packet has been passed on, a failure leaves the streak
and the format state as they are; a success resets the streak to 0. From a fresh track,
30 consecutive failures raise no error and the 31st does, and `WriteNextPacketAudio`
then returns `AMF_FAIL` with the stream error set. -/
theorem bsf_error_streak (format : AVMuxFormat) (a : AVMuxAudio) (pkt : AVPacket) :
    (∀ outcome, bsfRunFailure outcome → a.nPacketWritten = 0 →
      (applyBitstreamFilterAAC format a pkt outcome).2.1.nAACBsfErrorFromStart
          = a.nAACBsfErrorFromStart + 1
      ∧ (a.nAACBsfErrorFromStart + 1 > 30 →
          (applyBitstreamFilterAAC format a pkt outcome).1.bStreamError = true
          ∧ (applyBitstreamFilterAAC format a pkt outcome).2.2.2 = 1)
      ∧ (a.nAACBsfErrorFromStart + 1 ≤ 30 →
          (applyBitstreamFilterAAC format a pkt outcome).1 = format
          ∧ (applyBitstreamFilterAAC format a pkt outcome).2.2.2 = -1))
    ∧ (∀ outcome, bsfRunFailure outcome → a.nPacketWritten ≠ 0 →
      (applyBitstreamFilterAAC format a pkt outcome).2.1.nAACBsfErrorFromStart
          = a.nAACBsfErrorFromStart
      ∧ (applyBitstreamFilterAAC format a pkt outcome).1 = format
      ∧ (applyBitstreamFilterAAC format a pkt outcome).2.2.2 = -1)
    ∧ (∀ outcome, bsfRunSuccess outcome →
      (applyBitstreamFilterAAC format a pkt outcome).2.1.nAACBsfErrorFromStart = 0
      ∧ (applyBitstreamFilterAAC format a pkt outcome).1 = format
      ∧ (applyBitstreamFilterAAC format a pkt outcome).2.2.2 = 0)
    ∧ (∀ outcomes : List BsfOutcome, a.nPacketWritten = 0 → a.nAACBsfErrorFromStart = 0 →
      (∀ o ∈ outcomes, bsfRunFailure o) →
      (outcomes.length ≤ 30 →
        (applyBitstreamFilterRun pkt format a outcomes).1 = format
        ∧ (applyBitstreamFilterRun pkt format a outcomes).2.2 = outcomes.map (fun _ => -1))
      ∧ (outcomes.length = 31 →
        (applyBitstreamFilterRun pkt format a outcomes).1.bStreamError = true))
    ∧ (∀ (env : Env) (processed : ProcessedFn) (w : CAvcodecWriter) (lib : LibScript)
        (pktData : AVPktMuxData) (idx : Nat) (outcome : BsfOutcome),
      pktData.pMuxAudio = some idx → w.audio[idx]? = some a → a.pAACBsfc = true →
      a.nPacketWritten = 0 → bsfRunFailure outcome →
      ∃ r, WriteNextPacketAudio env processed w lib pktData outcome = some r
        ∧ (a.nAACBsfErrorFromStart + 1 > 30 →
            r.2.2.2 = AMF_RESULT.AMF_FAIL ∧ r.1.format.bStreamError = true)
        ∧ (a.nAACBsfErrorFromStart + 1 ≤ 30 →
            r.2.2.2 = (if w.format.bStreamError then AMF_RESULT.AMF_FAIL
                       else AMF_RESULT.AMF_OK)
            ∧ r.1.format = w.format)) := by
  refine ⟨?_, ?_, ?_, ?_, ?_⟩
  · intro outcome hfail hw
    obtain ⟨h1, -, h3, h4⟩ := (applyBitstreamFilterAAC_failure format a pkt outcome hfail).1 hw
    exact ⟨h1, h3, fun hle => ⟨(h4 hle).1, (h4 hle).2.2⟩⟩
  · intro outcome hfail hw
    obtain ⟨h1, h2, -, h4⟩ := (applyBitstreamFilterAAC_failure format a pkt outcome hfail).2 hw
    exact ⟨h1, h2, h4⟩
  · intro outcome hok
    exact applyBitstreamFilterAAC_success format a pkt outcome hok
  · intro outcomes hw hs hall
    have h := applyBitstreamFilterRun_failures pkt outcomes format a hw hall
    constructor
    · intro hle
      obtain ⟨g1, -, g3⟩ := h.1 (by rw [hs]; omega)
      exact ⟨g1, g3⟩
    · intro h31
      exact h.2 (by omega) (by rw [hs, h31]; decide)
  · intro env processed w lib pktData idx outcome hidx ha hbsf hw hfail
    have hb := bsfBlock_failure w idx a { pktData with samples := 0 }
      (av_rescale_q pktData.pkt.duration a.inPktTimebase ⟨1, a.inSampleRate⟩) outcome
      hbsf hw hfail
    by_cases hgt : a.nAACBsfErrorFromStart + 1 > 30
    · obtain ⟨g1, g2⟩ := hb.1 hgt
      exact ⟨_, WriteNextPacketAudio_returned env processed w lib pktData outcome idx a _
        hidx ha g1, fun _ => ⟨rfl, g2⟩, fun hle => absurd hgt (by omega)⟩
    · have hle : a.nAACBsfErrorFromStart + 1 ≤ 30 := by omega
      obtain ⟨g1, g2⟩ := hb.2 hle
      exact ⟨_, WriteNextPacketAudio_returned env processed w lib pktData outcome idx a _
        hidx ha g1, fun h => absurd h hgt, fun _ => ⟨rfl, g2⟩⟩

/-- Witness of C11 (amended): 30 failures from the start leave the format state
unchanged, 31 set the stream error. -/
theorem bsf_error_streak_witness :
    ((∀ o ∈ List.replicate 30 exampleBsfFailure, bsfRunFailure o)
      ∧ (applyBitstreamFilterRun examplePacket exampleWriterAudio.format (exampleAacTrack 0 0)
          (List.replicate 30 exampleBsfFailure)).1 = exampleWriterAudio.format)
    ∧ ((∀ o ∈ List.replicate 31 exampleBsfFailure, bsfRunFailure o)
      ∧ (applyBitstreamFilterRun examplePacket exampleWriterAudio.format (exampleAacTrack 0 0)
          (List.replicate 31 exampleBsfFailure)).1.bStreamError = true) := by
  have hfail : bsfRunFailure exampleBsfFailure := by
    simp [bsfRunFailure, exampleBsfFailure, AVERROR_EAGAIN, AVERROR_EOF]
  have hall : ∀ n, ∀ o ∈ List.replicate n exampleBsfFailure, bsfRunFailure o := by
    intro n o ho
    rw [List.eq_of_mem_replicate ho]
    exact hfail
  have h := (bsf_error_streak exampleWriterAudio.format (exampleAacTrack 0 0)
    examplePacket).2.2.2.1
  exact ⟨⟨hall 30, ((h (List.replicate 30 exampleBsfFailure) rfl rfl (hall 30)).1
      (by simp)).1⟩,
    ⟨hall 31, (h (List.replicate 31 exampleBsfFailure) rfl rfl (hall 31)).2 (by simp)⟩⟩

/-- C12, the code at the failing input: a re-encoded track with encoder frame size 4 gets
one decoded frame of 6 samples: 4 samples are handed to the encoder and 2 stay in the
carry `pDecodedFrameCache`. At the flush the decoder delivers 3 more samples.
After `AudioFlushStream` the encoder has still been handed 4 samples only (of 9), the
carry still holds its 2 samples, and no error is raised. -/
theorem flush_loses_samples :
    exampleAfterStream.map (fun w =>
        (samplesEncoded 0 w.encoded, w.audio.map (fun a => carrySamples a.pDecodedFrameCache)))
      = some (4, [2])
    ∧ exampleAfterFlush.map (fun w =>
        (samplesEncoded 0 w.encoded, w.audio.map (fun a => carrySamples a.pDecodedFrameCache),
          w.written.length, w.format.bStreamError))
      = some (4, [2], 1, false) := by
  constructor <;> decide

/-- C13, counterexample: a writer with one deferred audio record processes the first
access unit and writes the header successfully; when `WriteNextFrameInternal` returns
the head buffer still holds the record and only the video packet (stream 0) has been
written. -/
theorem headBuffer_flush_counterexample :
    ∃ r, WriteNextFrameInternal exampleEnv
          { exampleWriter with m_AudPktBufFileHead := [examplePktData] }
          (exampleCall exampleAccessUnit 0) = some r
      ∧ r.2.2.2 = AMF_RESULT.AMF_OK
      ∧ r.1.format.bFileHeaderWritten = true
      ∧ r.1.m_AudPktBufFileHead = [examplePktData]
      ∧ r.1.written.map (fun p => p.stream_index) = [0] := by
  exact ⟨_, rfl, by decide, by decide, by decide, by decide⟩

/-- C13, amended: `WriteNextFrameInternal` never touches the head buffer. The deferred
records are output by the next `WriteNextPacketInternal` call after the header is
written (for a record that is not one of the deferred ones, and stages that leave the
head buffer and the header flag alone): they go through normal processing in arrival
order, stopping at the first status that is not `AMF_OK`, then the head buffer is
emptied and the new record is processed; when all statuses are `AMF_OK` the head buffer
is empty when that call returns. -/
theorem headBuffer_flush (stages : PacketStages) (hst : stagesKeepHead stages) :
    (∀ (env : Env) (w : CAvcodecWriter) (call : FrameCall)
        (r : CAvcodecWriter × sBitstream × Int × AMF_RESULT),
      WriteNextFrameInternal env w call = some r →
      r.1.m_AudPktBufFileHead = w.m_AudPktBufFileHead)
    ∧ (∀ (fuel : Nat) (w : CAvcodecWriter) (pktData : AVPktMuxData),
      w.format.bFileHeaderWritten = true →
      (∀ data ∈ w.m_AudPktBufFileHead, pktData.pkt.buf ≠ data.pkt.buf) →
      WriteNextPacketInternal stages (fuel + 2) w pktData
        = some (if (processBuffered stages w.m_AudPktBufFileHead w).2 ≠ AMF_RESULT.AMF_OK then
            ((processBuffered stages w.m_AudPktBufFileHead w).1, pktData,
              (processBuffered stages w.m_AudPktBufFileHead w).2)
          else processPacket stages
            { (processBuffered stages w.m_AudPktBufFileHead w).1 with
              m_AudPktBufFileHead := [] } pktData)
      ∧ ((processBuffered stages w.m_AudPktBufFileHead w).2 = AMF_RESULT.AMF_OK →
        ∃ r, WriteNextPacketInternal stages (fuel + 2) w pktData = some r
          ∧ r.1.m_AudPktBufFileHead = [])) := by
  constructor
  · intro env w call r h
    rcases WriteNextFrameInternal_spec env w call r h with h1 | h1
    · exact h1.2.2.2.2.2.2.1
    · exact h1.2.2.1
  · intro fuel w pktData hw hne
    have hall : (w.m_AudPktBufFileHead.all
        (fun data => decide (pktData.pkt.buf ≠ data.pkt.buf))) = true := by
      rw [List.all_eq_true]
      intro data hd
      simpa using hne data hd
    have hflush := flushHeadBuffer_buffered stages hst fuel w.m_AudPktBufFileHead w hw
      (fun p hp => hp)
    have heq : WriteNextPacketInternal stages (fuel + 2) w pktData
        = some (if (processBuffered stages w.m_AudPktBufFileHead w).2 ≠ AMF_RESULT.AMF_OK then
            ((processBuffered stages w.m_AudPktBufFileHead w).1, pktData,
              (processBuffered stages w.m_AudPktBufFileHead w).2)
          else processPacket stages
            { (processBuffered stages w.m_AudPktBufFileHead w).1 with
              m_AudPktBufFileHead := [] } pktData) := by
      rw [WriteNextPacketInternal]
      simp only [hw, hall, hflush]
      simp only [not_true_eq_false, if_false, if_true]
      split <;> rfl
    refine ⟨heq, ?_⟩
    intro hok
    refine ⟨_, heq, ?_⟩
    rw [if_neg (by simp [hok])]
    exact (processPacket_head stages hst _ pktData).1

/-- Witness of C13 (amended): two deferred audio records are written, in arrival order,
in front of the record whose call flushes them. -/
theorem headBuffer_flush_witness :
    stagesKeepHead exampleWritingStages
    ∧ ∃ r, WriteNextPacketInternal exampleWritingStages 2
          { exampleWriterAudio with
            m_AudPktBufFileHead := [examplePktDataAt 7 0, examplePktDataAt 8 1024] }
          (examplePktDataAt 9 2048) = some r
        ∧ r.1.m_AudPktBufFileHead = []
        ∧ r.1.written.map (fun p => p.buf) = [7, 8, 9] := by
  refine ⟨exampleWritingStages_keepHead, ?_⟩
  have h := (headBuffer_flush exampleWritingStages exampleWritingStages_keepHead).2 0
    { exampleWriterAudio with
      m_AudPktBufFileHead := [examplePktDataAt 7 0, examplePktDataAt 8 1024] }
    (examplePktDataAt 9 2048) rfl (by decide)
  obtain ⟨r, hr, hempty⟩ := h.2 (by decide)
  refine ⟨r, hr, hempty, ?_⟩
  have heq := h.1
  rw [hr] at heq
  simp only [Option.some.injEq] at heq
  rw [heq]
  decide

/-- C14: `CloseFormat` writes the trailer if and only if the container context exists and
`bStreamError` is false; no sequence of packet- and frame-processing operations clears
`bStreamError`; so after a header-write failure in `WriteNextFrameInternal` (which
sets it), whatever is processed afterwards, `CloseFormat` does not write the trailer. -/
theorem trailer_iff_no_stream_error (env : Env) :
    (∀ pMuxFormat : AVMuxFormat,
      (CloseFormat pMuxFormat).2 = true
        ↔ pMuxFormat.pFormatCtx = true ∧ pMuxFormat.bStreamError = false)
    ∧ (∀ w w1 : CAvcodecWriter, Relation.ReflTransGen (WriterStep env) w w1 →
        w.format.bStreamError = true → w1.format.bStreamError = true)
    ∧ (∀ (w : CAvcodecWriter) (call : FrameCall)
        (r : CAvcodecWriter × sBitstream × Int × AMF_RESULT) (w1 : CAvcodecWriter),
        WriteNextFrameInternal env w call = some r →
        w.format.bFileHeaderWritten = false → call.header ≠ HeaderOutcome.ok →
        Relation.ReflTransGen (WriterStep env) r.1 w1 →
        r.1.format.bStreamError = true ∧ (CloseFormat w1.format).2 = false) := by
  have hclose : ∀ pMuxFormat : AVMuxFormat,
      (CloseFormat pMuxFormat).2 = true
        ↔ pMuxFormat.pFormatCtx = true ∧ pMuxFormat.bStreamError = false := by
    intro f
    unfold CloseFormat
    cases f.pFormatCtx <;> cases f.bStreamError <;> simp
  refine ⟨hclose, ?_, ?_⟩
  · intro w w1 hsteps herr
    exact (WriterSteps_keepsError env w w1 hsteps).1 herr
  · intro w call r w1 hcall hheader hfail hsteps
    have herr : r.1.format.bStreamError = true := by
      rcases WriteNextFrameInternal_spec env w call r hcall with h1 | h1
      · exact h1.2.2.2.2.1
      · rcases h1.1 with h2 | h2
        · rw [hheader] at h2
          simp at h2
        · exact absurd h2 hfail
    refine ⟨herr, ?_⟩
    have h1 := (WriterSteps_keepsError env r.1 w1 hsteps).1 herr
    cases hc : (CloseFormat w1.format).2
    · rfl
    · have := ((hclose w1.format).1 hc).2
      rw [h1] at this
      simp at this

/-- Witness of C14: the header write fails for the first access unit, a second access
unit is processed, and closing writes no trailer; closing the fresh writer does. -/
theorem trailer_iff_no_stream_error_witness :
    ∃ r r1, WriteNextFrameInternal exampleEnv exampleWriter exampleFailedHeaderCall = some r
      ∧ WriteNextFrameInternal exampleEnv r.1 (exampleCall exampleOneSlice 1) = some r1
      ∧ r.1.format.bStreamError = true
      ∧ (CloseFormat r1.1.format).2 = false
      ∧ (CloseFormat exampleWriter.format).2 = true := by
  have h0 : ∃ r, WriteNextFrameInternal exampleEnv exampleWriter exampleFailedHeaderCall
      = some r := ⟨_, rfl⟩
  obtain ⟨r, hr⟩ := h0
  have h1 : ∃ r1, WriteNextFrameInternal exampleEnv r.1 (exampleCall exampleOneSlice 1)
      = some r1 := WriteNextFrameInternal_total exampleEnv r.1 _
  obtain ⟨r1, hr1⟩ := h1
  have key := (trailer_iff_no_stream_error exampleEnv).2.2 exampleWriter
    exampleFailedHeaderCall r r1.1 hr rfl (by decide)
    (Relation.ReflTransGen.single (WriterStep.frame r.1 _ r1 hr1))
  exact ⟨r, r1, hr, hr1, key.1, key.2,
    ((trailer_iff_no_stream_error exampleEnv).1 exampleWriter.format).2 ⟨rfl, rfl⟩⟩

/-! ### Sample format, field length, pass-through samples -/

/-- Counterexample to C22 as stated: the source format is `flt`, the encoder offers
`u8` and `s16` (no format of the `flt` tier), and `AutoSelectSampleFmt` returns `s16`,
not the encoder's first offered format `u8`. -/
theorem sample_fmt_lower_tier_counterexample :
    AutoSelectSampleFmt (some [AV_SAMPLE_FMT_U8, AV_SAMPLE_FMT_S16, AV_SAMPLE_FMT_NONE])
        AV_SAMPLE_FMT_FLT = some AV_SAMPLE_FMT_S16
    ∧ offeredFormats [AV_SAMPLE_FMT_U8, AV_SAMPLE_FMT_S16, AV_SAMPLE_FMT_NONE]
        = [AV_SAMPLE_FMT_U8, AV_SAMPLE_FMT_S16]
    ∧ (∀ fmt ∈ offeredFormats [AV_SAMPLE_FMT_U8, AV_SAMPLE_FMT_S16, AV_SAMPLE_FMT_NONE],
        sampleFmtTier fmt ≠ sampleFmtTier AV_SAMPLE_FMT_FLT)
    ∧ [AV_SAMPLE_FMT_U8, AV_SAMPLE_FMT_S16, AV_SAMPLE_FMT_NONE].headD AV_SAMPLE_FMT_NONE
        = AV_SAMPLE_FMT_U8 := by
  decide

/-- C22 (amended): for a non-empty encoder list and a source format of the tier table,
`AutoSelectSampleFmt` returns the source format if the list offers it; otherwise the
first format, in the order of the tier table, of the source's tier or a lower tier that
the list offers (the `k`-th candidate when no earlier candidate is offered); and the
encoder's first offered format if the list offers no format of the source's tier or
below. -/
theorem autoSelectSampleFmt_tiers (list : List Int) (srcFormat : Int)
    (hne : offeredFormats list ≠ [])
    (hsrc : srcFormat ∈ sampleFmtLevel.map Prod.fst) :
    (srcFormat ∈ offeredFormats list →
        AutoSelectSampleFmt (some list) srcFormat = some srcFormat)
    ∧ (srcFormat ∉ offeredFormats list →
        ∀ (k : Nat) (fmt : Int), (tierCandidates srcFormat)[k]? = some fmt →
          fmt ∈ offeredFormats list →
          (∀ j g, j < k → (tierCandidates srcFormat)[j]? = some g → g ∉ offeredFormats list) →
          AutoSelectSampleFmt (some list) srcFormat = some fmt)
    ∧ (srcFormat ∉ offeredFormats list →
        (∀ g ∈ tierCandidates srcFormat, g ∉ offeredFormats list) →
        AutoSelectSampleFmt (some list) srcFormat = (offeredFormats list).head?) := by
  have hnone : srcFormat ≠ AV_SAMPLE_FMT_NONE := by
    intro h
    subst h
    revert hsrc
    decide
  obtain ⟨entry, hentry⟩ : ∃ entry, sampleFmtLevel.find? (fun t => t.1 == srcFormat)
      = some entry := by
    rcases List.mem_map.1 hsrc with ⟨e, he, hfst⟩
    cases hf : sampleFmtLevel.find? (fun t => t.1 == srcFormat) with
    | some entry => exact ⟨entry, rfl⟩
    | none =>
      have := List.find?_eq_none.1 hf e he
      simp [hfst] at this
  have hcand := dropWhile_level_eq_tierCandidates srcFormat entry hentry
  have hcand := dropWhile_level_eq_tierCandidates srcFormat entry hentry
  refine ⟨?_, ?_, ?_⟩
  · intro hin
    simp [AutoSelectSampleFmt, hnone, hin]
  · intro hnin k fmt hk hfmt hfirst
    have hc : (offeredFormats list).contains srcFormat = false := by simpa using hnin
    rw [← hcand, List.getElem?_map] at hk
    cases ht : (sampleFmtLevel.dropWhile (fun t => t.2 != entry.2))[k]? with
    | none => simp [ht] at hk
    | some t =>
      simp only [ht, Option.map_some', Option.some.injEq] at hk
      have hfound := find?_of_first (fun t => (offeredFormats list).contains t.1)
        (sampleFmtLevel.dropWhile (fun t => t.2 != entry.2)) k t ht
        (by simpa [hk] using hfmt)
        (fun j g hj hg => by
          have := hfirst j g.1 hj (by rw [← hcand, List.getElem?_map, hg]; rfl)
          simpa using this)
      simp only [AutoSelectSampleFmt, hnone, hc, hentry, hfound, if_false, Bool.false_eq_true, hk]
  · intro hnin hall
    have hc : (offeredFormats list).contains srcFormat = false := by simpa using hnin
    have hfound : (sampleFmtLevel.dropWhile (fun t => t.2 != entry.2)).find?
        (fun t => (offeredFormats list).contains t.1) = none := by
      rw [List.find?_eq_none]
      intro t ht
      have : t.1 ∈ tierCandidates srcFormat := by
        rw [← hcand]
        exact List.mem_map.2 ⟨t, ht, rfl⟩
      simpa using hall t.1 this
    simp only [AutoSelectSampleFmt, hnone, hc, hentry, hfound, if_false, Bool.false_eq_true]
    exact headD_of_offered list hne

/-- Witness for `autoSelectSampleFmt_tiers`: the source is `flt`, the encoder offers
`u8` and `s16`; the candidate at position 5 of the `flt` tier and below is `s16`. -/
theorem autoSelectSampleFmt_tiers_witness :
    AutoSelectSampleFmt (some [AV_SAMPLE_FMT_U8, AV_SAMPLE_FMT_S16, AV_SAMPLE_FMT_NONE])
      AV_SAMPLE_FMT_FLT = some AV_SAMPLE_FMT_S16 :=
  (autoSelectSampleFmt_tiers [AV_SAMPLE_FMT_U8, AV_SAMPLE_FMT_S16, AV_SAMPLE_FMT_NONE]
    AV_SAMPLE_FMT_FLT (by decide) (by decide)).2.1 (by decide) 5 AV_SAMPLE_FMT_S16
    (by decide) (by decide)
    (by
      intro j g hj hg
      have hlist : tierCandidates AV_SAMPLE_FMT_FLT = [8, 3, 7, 2, 6, 1, 5, 0] := by decide
      rw [hlist] at hg
      interval_cases j <;>
        (simp only [List.getElem?_cons_zero, List.getElem?_cons_succ, Option.some.injEq] at hg
         subst hg
         decide))

/-- C23: the code evaluated on two buffers of two field slices. Behind 3-byte start
codes the start code of the second slice begins at offset 5 and `getH264PAFFFieldLength`
returns 6, so the second field packet begins with `00 01`; behind 4-byte start codes the
start code begins at offset 6 and the function returns 7, so the first field packet ends
with the first byte of that start code. A buffer with one slice NALU gives its size. -/
theorem paff_field_length_off_by_one :
    getH264PAFFFieldLength exampleTwoFieldsShort 10 = 6
    ∧ exampleTwoFieldsShort.drop 5 = [0, 0, 1, 0x41, 0x9A]
    ∧ exampleTwoFieldsShort.drop (getH264PAFFFieldLength exampleTwoFieldsShort 10)
        = [0, 1, 0x41, 0x9A]
    ∧ getH264PAFFFieldLength exampleTwoFields 12 = 7
    ∧ exampleTwoFields.drop 6 = [0, 0, 0, 1, 0x41, 0x9A]
    ∧ exampleTwoFields.take (getH264PAFFFieldLength exampleTwoFields 12)
        = [0, 0, 0, 1, 0x65, 0x88, 0]
    ∧ getH264PAFFFieldLength exampleOneSlice 7 = 7 := by
  decide

/-- C24: the code evaluated at two pass-through packets (30 fps video, 48 kHz audio).
With a millisecond timebase the pts delta of 100 ms is three video frames (one frame is
33 ticks), yet the sample count is recomputed from it (4800 instead of the 1008 samples
of the stated duration). With a 90 kHz timebase the delta of 1920 ticks is shorter than
one video frame (3000 ticks) and differs from the duration 1900 by more than one, yet
the sample count is not recomputed (1013 instead of 1024). -/
theorem passthrough_samples_unit_mismatch :
    passThroughSamples ⟨30, 1⟩ exampleAudioMs { examplePacket with pts := 100, duration := 21 }
      = 4800
    ∧ av_rescale_q 21 ⟨1, 1000⟩ ⟨1, 48000⟩ = 1008
    ∧ av_rescale_q 1 (av_inv_q ⟨30, 1⟩) ⟨1, 1000⟩ = 33
    ∧ passThroughSamples ⟨30, 1⟩ exampleAudio90k
        { examplePacket with pts := 1920, duration := 1900 } = 1013
    ∧ av_rescale_q 1920 ⟨1, 90000⟩ ⟨1, 48000⟩ = 1024
    ∧ av_rescale_q 1 (av_inv_q ⟨30, 1⟩) ⟨1, 90000⟩ = 3000 := by
  decide

/-- C26: `AdjustTimestampTrimmed` evaluated on the well-formed trim list
`[0, 1], [4, 5]` with all timebases equal to the fps timebase: the kept frames
0, 1, 4, 5 map to 0, 1, 1, 2, so the first frame of the second kept range shares its
output timestamp with the last frame of the first. -/
theorem trim_ranges_collide :
    trimWellFormed [⟨0, 1⟩, ⟨4, 5⟩]
    ∧ [0, 1, 4, 5].map (fun f =>
        AdjustTimestampTrimmed ⟨30, 1⟩ [⟨0, 1⟩, ⟨4, 5⟩] f ⟨1, 30⟩ ⟨1, 30⟩ false) = [0, 1, 1, 2]
    ∧ [0, 1, 4, 5].map (fun f =>
        AdjustTimestampTrimmed ⟨30, 1⟩ [⟨0, 1⟩, ⟨4, 5⟩] f ⟨1, 30⟩ ⟨1, 30⟩ true) = [0, 1, 1, 2] := by
  decide

/-- C29: the direct path of `WriteNextPacketAudioFrame` evaluated for an encoder with
`frame_size = 0`, no carry and a resampled frame of 3 samples: without the audio-encode
thread the frame itself (3 samples) goes to the encoder; with the thread the queued copy
has `nb_samples = 0` and no sample data. -/
theorem direct_path_copy_frame_size_zero :
    (WriteNextPacketAudioFrame exampleEnv false exampleAnySizeAudio 1 0
        (some (exampleFrame [1, 2, 3] [11, 12, 13]))).map
      (fun r => (r.handed.map (fun f => (f.nb_samples, f.data)), r.pDecodedFrameCache))
      = some ([(3, [[1, 2, 3], [11, 12, 13]])], none)
    ∧ (WriteNextPacketAudioFrame exampleEnv true exampleAnySizeAudio 1 0
        (some (exampleFrame [1, 2, 3] [11, 12, 13]))).map
      (fun r => (r.handed.map (fun f => (f.nb_samples, f.data)), r.pDecodedFrameCache))
      = some ([(0, [[], []])], none) := by
  constructor <;> rfl

/-- C30: `checkParam` evaluated on a 640x480 input whose crop removes the whole width
(320 left, 320 right): it returns `AMF_OK` with source width 0 after cropping and output
width 0. -/
theorem checkParam_accepts_empty_crop :
    (checkParam exampleLimits (exampleInputInfo ⟨320, 0, 320, 0⟩) exampleSrcInfo exampleParam).2.2
      = AMF_RESULT.AMF_OK
    ∧ (checkParam exampleLimits (exampleInputInfo ⟨320, 0, 320, 0⟩) exampleSrcInfo
        exampleParam).1.srcWidth = 0
    ∧ (checkParam exampleLimits (exampleInputInfo ⟨320, 0, 320, 0⟩) exampleSrcInfo
        exampleParam).1.dstWidth = 0
    ∧ (checkParam exampleLimits (exampleInputInfo ⟨320, 0, 320, 0⟩) exampleSrcInfo
        exampleParam).1.srcHeight = 480 := by
  decide

/-! ### Subtitle set-up -/

/-- C21: `InitSubtitle` sets up decoder and encoder if and only if (a) the container is
of the MP4 family and the source codec is a text subtitle, and then the output codec is
`mov_text`, or (b) the container is not of the MP4 family and the source codec is
`mov_text`, and then the output codec is ASS; in every other case the track is copied
with the source codec id. For an MP4-family container the source codec has a descriptor,
and the descriptor of `mov_text` marks it as a text subtitle (as the descriptor table of
libavcodec does). In the transcoding case
the function returns `AMF_OK` when its library calls succeed, in the copy case as soon
as the stream is created. -/
theorem initSubtitle_transcode_rule (lib : SubtitleInitLib) (oformatName : String)
    (vidPktTimebase : Option AVRational) (nFPS : AVRational) (src : SubtitleSource)
    (streamIndex : Int)
    (hstream : lib.avformat_new_stream = some streamIndex)
    (hdesc : isMp4Family oformatName = true →
      (lib.avcodec_descriptor_get src.codec_id).isSome = true)
    (hmov : isMp4Family oformatName = true → src.codec_id = AV_CODEC_ID_MOV_TEXT →
      isTextSubtitle lib src.codec_id) :
    (transcodeRequired lib oformatName src → transcodeLibOk lib →
      ∃ r, InitSubtitle lib oformatName vidPktTimebase nFPS src = some (some r, AMF_RESULT.AMF_OK)
        ∧ r.sub.pOutCodecEncodeCtx = true ∧ r.pOutCodecDecodeCtx = true
        ∧ (isMp4Family oformatName = true → r.codec_id = AV_CODEC_ID_MOV_TEXT)
        ∧ (isMp4Family oformatName = false → r.codec_id = AV_CODEC_ID_ASS))
    ∧ (¬ transcodeRequired lib oformatName src →
      ∃ r, InitSubtitle lib oformatName vidPktTimebase nFPS src = some (some r, AMF_RESULT.AMF_OK)
        ∧ r.sub.pOutCodecEncodeCtx = false ∧ r.pOutCodecDecodeCtx = false
        ∧ r.codec_id = src.codec_id)
    ∧ (∀ r sts, InitSubtitle lib oformatName vidPktTimebase nFPS src = some (some r, sts) →
        (r.sub.pOutCodecEncodeCtx = true ↔ transcodeRequired lib oformatName src)) := by
  obtain ⟨codecId, hcodec, hiff, hout⟩ := transcode_test_iff lib oformatName src hdesc hmov
  refine ⟨?_, ?_, ?_⟩
  · intro hreq hlib
    obtain ⟨r, hr⟩ := InitSubtitle_ok lib oformatName vidPktTimebase nFPS src streamIndex codecId
      hstream hcodec (fun _ => hlib)
    have h1 := (InitSubtitle_result lib oformatName vidPktTimebase nFPS src codecId hcodec r _
      hr).1 (hiff.2 hreq)
    refine ⟨r, hr, h1.1, h1.2.1, ?_, ?_⟩
    · intro h
      rw [h1.2.2]
      exact (hout hreq).1 h
    · intro h
      rw [h1.2.2]
      exact (hout hreq).2 h
  · intro hreq
    have hneed : ¬ (codecId ≠ src.codec_id ∨ codecId = AV_CODEC_ID_MOV_TEXT) :=
      fun h => hreq (hiff.1 h)
    obtain ⟨r, hr⟩ := InitSubtitle_ok lib oformatName vidPktTimebase nFPS src streamIndex codecId
      hstream hcodec (fun h => absurd h hneed)
    exact ⟨r, hr, (InitSubtitle_result lib oformatName vidPktTimebase nFPS src codecId hcodec r _
      hr).2 hneed⟩
  · intro r sts h
    have hres := InitSubtitle_result lib oformatName vidPktTimebase nFPS src codecId hcodec r sts h
    constructor
    · intro henc
      by_contra hreq
      have := (hres.2 (fun hn => hreq (hiff.1 hn))).1
      rw [henc] at this
      exact absurd this (by simp)
    · intro hreq
      exact (hres.1 (hiff.2 hreq)).1

/-- Witness for `initSubtitle_transcode_rule`: a SubRip track into an MP4 container is
transcoded to `mov_text`, a PGS track into MP4 is copied, a `mov_text` track into
Matroska is transcoded to ASS. -/
theorem initSubtitle_transcode_rule_witness :
    (∃ r, InitSubtitle exampleSubtitleLib "mp4" none ⟨30, 1⟩ (exampleSubtitleSource exampleSubrip)
        = some (some r, AMF_RESULT.AMF_OK)
      ∧ r.sub.pOutCodecEncodeCtx = true ∧ r.pOutCodecDecodeCtx = true
      ∧ (isMp4Family "mp4" = true → r.codec_id = AV_CODEC_ID_MOV_TEXT)
      ∧ (isMp4Family "mp4" = false → r.codec_id = AV_CODEC_ID_ASS))
    ∧ (∃ r, InitSubtitle exampleSubtitleLib "mp4" none ⟨30, 1⟩ (exampleSubtitleSource examplePgs)
        = some (some r, AMF_RESULT.AMF_OK)
      ∧ r.sub.pOutCodecEncodeCtx = false ∧ r.pOutCodecDecodeCtx = false
      ∧ r.codec_id = examplePgs)
    ∧ (∃ r, InitSubtitle exampleSubtitleLib "matroska" none ⟨30, 1⟩
          (exampleSubtitleSource AV_CODEC_ID_MOV_TEXT) = some (some r, AMF_RESULT.AMF_OK)
      ∧ r.sub.pOutCodecEncodeCtx = true ∧ r.pOutCodecDecodeCtx = true
      ∧ (isMp4Family "matroska" = true → r.codec_id = AV_CODEC_ID_MOV_TEXT)
      ∧ (isMp4Family "matroska" = false → r.codec_id = AV_CODEC_ID_ASS)) :=
  ⟨(initSubtitle_transcode_rule exampleSubtitleLib "mp4" none ⟨30, 1⟩
      (exampleSubtitleSource exampleSubrip) 2 rfl (fun _ => by decide)
      (fun _ h => absurd h (by decide))).1
      (Or.inl ⟨by decide, ⟨0x20000, by decide, by decide⟩⟩)
      ⟨fun _ => rfl, rfl, rfl, fun _ => rfl, rfl, rfl, rfl⟩,
   (initSubtitle_transcode_rule exampleSubtitleLib "mp4" none ⟨30, 1⟩
      (exampleSubtitleSource examplePgs) 2 rfl (fun _ => by decide)
      (fun _ h => absurd h (by decide))).2.1
      (by
        rintro (⟨_, p, hp, hne⟩ | ⟨h, _⟩)
        · have hp2 : exampleSubtitleLib.avcodec_descriptor_get
              (exampleSubtitleSource examplePgs).codec_id = some 0x10000 := by decide
          rw [hp2] at hp
          simp only [Option.some.injEq] at hp
          subst hp
          exact hne (by decide)
        · exact absurd h (by decide)),
   (initSubtitle_transcode_rule exampleSubtitleLib "matroska" none ⟨30, 1⟩
      (exampleSubtitleSource AV_CODEC_ID_MOV_TEXT) 2 rfl (fun _ => by decide)
      (fun _ _ => ⟨0x20000, by decide, by decide⟩)).1
      (Or.inr ⟨by decide, rfl⟩)
      ⟨fun _ => rfl, rfl, rfl, fun _ => rfl, rfl, rfl, rfl⟩⟩

/-! ### The interleaving loop of the output thread -/

/-- Counterexample to C25 as stated. With a video queue of capacity 64 that holds 33
buffers (at least `capacity - 32`), an empty audio queue and video ahead of the dts
window, the audio dts is still 0 after 32 rounds and `-1` only after 33. With exactly
`capacity - 32 = 32` buffers queued the counter never moves and the audio dts is never
given up. With capacity 4096 and 3041 buffers queued (fewer than `capacity - 32`) the
audio dts is given up after 33 rounds. -/
theorem forced_progress_counterexample :
    (writeThreadRun (exampleThreadConst 64) 32 (exampleStarvedAudio 33)).audioDts = 0
    ∧ (writeThreadRun (exampleThreadConst 64) 33 (exampleStarvedAudio 33)).audioDts = -1
    ∧ (exampleStarvedAudio 32).qVideobitstream.length = 64 - 32
    ∧ (writeThreadRun (exampleThreadConst 64) 40 (exampleStarvedAudio 32)).audioDts = 0
    ∧ (writeThreadRun (exampleThreadConst 64) 40 (exampleStarvedAudio 32)).nWaitAudio = 0
    ∧ (exampleStarvedAudio 3041).qVideobitstream.length < 4096 - 32
    ∧ (writeThreadRun (exampleThreadConst 4096) 33 (exampleStarvedAudio 3041)).audioDts = -1 := by
  have h33 := audioStalled_forced (exampleThreadConst 64) (exampleStarvedAudio 33)
    (exampleStarvedAudio_stalled 64 33 (by decide) (by decide)) rfl
  have h32 := belowThreshold_run (exampleThreadConst 64) (exampleStarvedAudio 32) rfl
    (by decide) (by decide)
    (by
      show (List.replicate 32 (some (2000 : Int))).length ≤ videoPacketThreshold 64
      rw [videoPacketThreshold_eq 64 (by decide), List.length_replicate]
      decide) 40
  have h3041 := audioStalled_forced (exampleThreadConst 4096) (exampleStarvedAudio 3041)
    (exampleStarvedAudio_stalled 4096 3041 (by decide) (by decide)) rfl
  refine ⟨(h33.1 32 (le_refl _)).1, h33.2, ?_, h32.1, h32.2, ?_, h3041.2⟩
  · show (List.replicate 32 (some (2000 : Int))).length = 64 - 32
    rw [List.length_replicate]
  · show (List.replicate 3041 (some (2000 : Int))).length < 4096 - 32
    rw [List.length_replicate]
    decide

/-- C25 (amended): in the interleaving loop of the output thread, seen as a step on the
queues and loop variables, a round sets the audio dts to `-1` exactly when, after the
queues have been drained, the audio queue is empty, the video queue holds more than
`min(3072, capacity) - 32` buffers and the counter `nWaitAudio`, raised by one in every
round that finds the two queues so, exceeds `nWaitThreshold = 32`; the counter is reset
to 0 whenever an audio record is popped and untouched by a round that pops none. So on a
starved audio side the audio dts is given up in the 33rd round after the last pop, and
never while the video queue holds no more than the threshold. The same holds for the
video dts, with `nWaitVideo` and more than `min(6144, capacity) - 32` audio records. -/
theorem forced_progress_wait_counter (c : WriteThreadConst) (s : WriteThreadState) :
    (((drainQueues c s).qAudioPacketOut.length = 0
        ∧ videoPacketThreshold c.videoCapacity < (drainQueues c s).qVideobitstream.length
        ∧ nWaitThreshold < (drainQueues c s).nWaitAudio + 1 →
      (writeThreadIteration c true s).1.audioDts = -1)
    ∧ (¬ ((drainQueues c s).qAudioPacketOut.length = 0
        ∧ videoPacketThreshold c.videoCapacity < (drainQueues c s).qVideobitstream.length
        ∧ nWaitThreshold < (drainQueues c s).nWaitAudio + 1) →
      (writeThreadIteration c true s).1.audioDts = (drainQueues c s).audioDts)
    ∧ (writeThreadIteration c true s).1.nWaitAudio
        = (drainQueues c s).nWaitAudio
          + (if (drainQueues c s).qAudioPacketOut.length = 0
              ∧ videoPacketThreshold c.videoCapacity
                  < (drainQueues c s).qVideobitstream.length then 1 else 0))
    ∧ ((∀ dts rest, s.qAudioPacketOut = dts :: rest →
          (s.videoDts < 0 ∨ s.audioDts ≤ s.videoDts + c.dtsThreshold) →
          (drainQueues c s).nWaitAudio = 0)
      ∧ (s.qAudioPacketOut = [] ∨ ¬ (s.videoDts < 0 ∨ s.audioDts ≤ s.videoDts + c.dtsThreshold) →
          (drainQueues c s).nWaitAudio = s.nWaitAudio))
    ∧ (audioStalled c s → s.nWaitAudio = 0 →
        (∀ k : Nat, k ≤ 32 → (writeThreadRun c k s).audioDts = s.audioDts
          ∧ (writeThreadRun c k s).nWaitAudio = k)
        ∧ (writeThreadRun c 33 s).audioDts = -1)
    ∧ (s.qAudioPacketOut = [] → 0 ≤ s.audioDts → s.audioDts + c.dtsThreshold < s.videoDts →
        s.qVideobitstream.length ≤ videoPacketThreshold c.videoCapacity →
        ∀ k : Nat, (writeThreadRun c k s).audioDts = s.audioDts
          ∧ (writeThreadRun c k s).nWaitAudio = s.nWaitAudio)
    ∧ (((drainQueues c s).qVideobitstream.length = 0
        ∧ audioPacketThreshold c.audioCapacity < (drainQueues c s).qAudioPacketOut.length
        ∧ nWaitThreshold < (drainQueues c s).nWaitVideo + 1 →
      (writeThreadIteration c true s).1.videoDts = -1)
    ∧ (¬ ((drainQueues c s).qVideobitstream.length = 0
        ∧ audioPacketThreshold c.audioCapacity < (drainQueues c s).qAudioPacketOut.length
        ∧ nWaitThreshold < (drainQueues c s).nWaitVideo + 1) →
      (writeThreadIteration c true s).1.videoDts = (drainQueues c s).videoDts)
    ∧ (writeThreadIteration c true s).1.nWaitVideo
        = (drainQueues c s).nWaitVideo
          + (if (drainQueues c s).qVideobitstream.length = 0
              ∧ audioPacketThreshold c.audioCapacity
                  < (drainQueues c s).qAudioPacketOut.length then 1 else 0))
    ∧ (∀ written rest, s.qVideobitstream = written :: rest →
          ((drainQueues c s).audioDts < 0
            ∨ s.videoDts ≤ (drainQueues c s).audioDts + c.dtsThreshold) →
          (drainQueues c s).nWaitVideo = 0)
    ∧ (videoStalled c s → s.nWaitVideo = 0 →
        (∀ k : Nat, k ≤ 32 → (writeThreadRun c k s).videoDts = s.videoDts
          ∧ (writeThreadRun c k s).nWaitVideo = k)
        ∧ (writeThreadRun c 33 s).videoDts = -1) := by
  refine ⟨?_, ⟨?_, ?_⟩, ?_, ?_, ?_, ?_, ?_⟩
  · rw [writeThreadIteration_eq]
    exact waitAudio_audio c (drainQueues c s)
  · intro dts rest hq hcond
    simp only [drainQueues, hq, drainAudio, hcond, if_true]
    exact drainAudio_reset _ _ _ _ _
  · intro h
    rcases h with hq | hcond
    · simp only [drainQueues, hq, drainAudio]
      split <;> rfl
    · cases hq : s.qAudioPacketOut with
      | nil =>
        simp only [drainQueues, hq, drainAudio]
        split <;> rfl
      | cons x rest => simp only [drainQueues, hq, drainAudio, hcond, if_false]
  · exact audioStalled_forced c s
  · intro hq ha hv hlen k
    exact belowThreshold_run c s hq ha hv hlen k
  · rw [writeThreadIteration_eq]
    exact waitAudio_video c (drainQueues c s)
  · intro written rest hq hcond
    have hcond2 : (drainAudio c.dtsThreshold s.videoDts s.qAudioPacketOut s.audioDts
        s.nWaitAudio false).2.1 < 0
        ∨ s.videoDts ≤ (drainAudio c.dtsThreshold s.videoDts s.qAudioPacketOut s.audioDts
          s.nWaitAudio false).2.1 + c.dtsThreshold := hcond
    simp only [drainQueues, hq, drainVideo, hcond2, if_true]
    exact drainVideo_reset _ _ _ _ _
  · exact videoStalled_forced c s

/-- Witness for `forced_progress_wait_counter`: on the starved audio side of the example
(capacity 64, 33 video buffers queued) the audio dts is still 0 after 32 rounds and
`-1` after 33; on the starved video side (audio capacity 64, 33 audio records queued)
the video dts is `-1` after 33 rounds. -/
theorem forced_progress_wait_counter_witness :
    ((∀ k : Nat, k ≤ 32 →
        (writeThreadRun (exampleThreadConst 64) k (exampleStarvedAudio 33)).audioDts
          = (exampleStarvedAudio 33).audioDts
        ∧ (writeThreadRun (exampleThreadConst 64) k (exampleStarvedAudio 33)).nWaitAudio = k)
      ∧ (writeThreadRun (exampleThreadConst 64) 33 (exampleStarvedAudio 33)).audioDts = -1)
    ∧ ((∀ k : Nat, k ≤ 32 →
        (writeThreadRun (exampleThreadConst 64) k (exampleStarvedVideo 33)).videoDts
          = (exampleStarvedVideo 33).videoDts
        ∧ (writeThreadRun (exampleThreadConst 64) k (exampleStarvedVideo 33)).nWaitVideo = k)
      ∧ (writeThreadRun (exampleThreadConst 64) 33 (exampleStarvedVideo 33)).videoDts = -1) :=
  ⟨(forced_progress_wait_counter (exampleThreadConst 64) (exampleStarvedAudio 33)).2.2.1
      (exampleStarvedAudio_stalled 64 33 (by decide) (by decide)) rfl,
   (forced_progress_wait_counter (exampleThreadConst 64) (exampleStarvedVideo 33)).2.2.2.2.2.2
      ⟨rfl, by decide, by decide, by decide⟩ rfl⟩

/-! ### The header flag, the head buffer and the trailer -/

/-- C27: no operation of the audio / subtitle path changes `bFileHeaderWritten`:
`WriteNextPacket`, `WriteNextPacketInternal` (for stages that keep the format state, as
the stages of the writer do) and the stages themselves, `WriteNextPacketAudio`,
`SubtitleWritePacket`, `AudioFlushStream`, `WriteNextAudioFrame` and
`WriteNextPacketProcessed`; `WriteNextFrameInternal` sets it when the header is or gets
written. So for a writer that `Init` set up without a video stream (no thread is
started then), every sequence of `WriteNextPacket` calls returns `AMF_OK` throughout,
hands no packet to the container, leaves the flag false and ends with the record of
every packet in the head buffer, in order. -/
theorem header_only_set_by_video_stage (env : Env) :
    (∀ (stages : PacketStages) (fuel : Nat) (w : CAvcodecWriter) (pkt : Option AVPacket)
        (r : CAvcodecWriter × AMF_RESULT), stagesKeepFormat stages →
        WriteNextPacket stages fuel w pkt = some r →
        r.1.format.bFileHeaderWritten = w.format.bFileHeaderWritten)
    ∧ (∀ (stages : PacketStages) (fuel : Nat) (w : CAvcodecWriter) (pktData : AVPktMuxData)
        (r : CAvcodecWriter × AVPktMuxData × AMF_RESULT), stagesKeepFormat stages →
        WriteNextPacketInternal stages fuel w pktData = some r →
        r.1.format.bFileHeaderWritten = w.format.bFileHeaderWritten)
    ∧ (∀ (fuel : Nat) (w : CAvcodecWriter) (lib : LibScript) (pktData : AVPktMuxData)
        (bsf : BsfOutcome) (r : CAvcodecWriter × LibScript × AVPktMuxData × AMF_RESULT),
        WriteNextPacketAudio env (WriteNextPacketProcessedFlush env fuel) w lib pktData bsf
          = some r →
        r.1.format.bFileHeaderWritten = w.format.bFileHeaderWritten)
    ∧ (∀ (SubtitleTranscode : CAvcodecWriter → AVMuxSub → AVPacket → CAvcodecWriter × AMF_RESULT)
        (w : CAvcodecWriter) (pkt : AVPacket) (writeFails : Bool)
        (r : CAvcodecWriter × AMF_RESULT),
        (∀ w1 sub pkt1, keepsFormat w1 (SubtitleTranscode w1 sub pkt1).1) →
        SubtitleWritePacket SubtitleTranscode w pkt writeFails = some r →
        r.1.format.bFileHeaderWritten = w.format.bFileHeaderWritten)
    ∧ (∀ (fuel : Nat) (w : CAvcodecWriter) (lib : LibScript) (idx : Nat) (d : Int)
        (r : CAvcodecWriter × LibScript × Int),
        AudioFlushStream env (WriteNextPacketProcessedFlush env fuel) w lib idx d = some r →
        r.1.format.bFileHeaderWritten = w.format.bFileHeaderWritten)
    ∧ (∀ (fuel : Nat) (w : CAvcodecWriter) (lib : LibScript) (pktData : AVPktMuxData)
        (r : CAvcodecWriter × LibScript × AVPktMuxData × AMF_RESULT),
        WriteNextAudioFrame (WriteNextPacketProcessedFlush env fuel) w lib pktData = some r →
        r.1.format.bFileHeaderWritten = w.format.bFileHeaderWritten)
    ∧ (∀ (fuel : Nat) (w : CAvcodecWriter) (lib : LibScript) (pMuxAudio : Option Nat)
        (pkt : AVPacket) (samples d : Int) (r : CAvcodecWriter × LibScript × Int),
        WriteNextPacketProcessedFlush env fuel w lib pMuxAudio pkt samples d = some r →
        r.1.format.bFileHeaderWritten = w.format.bFileHeaderWritten)
    ∧ (∀ (w : CAvcodecWriter) (call : FrameCall)
        (r : CAvcodecWriter × sBitstream × Int × AMF_RESULT),
        WriteNextFrameInternal env w call = some r →
        (w.format.bFileHeaderWritten = true ∨ call.header = HeaderOutcome.ok) →
        r.1.format.bFileHeaderWritten = true)
    ∧ (∀ (tc : ThreadConst) (prm : AvcodecWriterPrm) (steps : InitSteps) (w : CAvcodecWriter),
        prm.videoCodec = false →
        Init tc constructedWriter prm steps = (w, AMF_RESULT.AMF_OK) →
        ∀ (stages : PacketStages) (fuel : Nat) (pkts : List (Option AVPacket)),
          ∃ r, runWriteNextPacket stages (fuel + 1) w pkts = some r
            ∧ r.1.written = []
            ∧ r.1.format.bFileHeaderWritten = false
            ∧ r.1.m_AudPktBufFileHead = pkts.map (pktMuxData w)
            ∧ r.2 = pkts.map (fun _ => AMF_RESULT.AMF_OK)) := by
  refine ⟨?_, ?_, ?_, ?_, ?_, ?_, ?_, ?_, ?_⟩
  · intro stages fuel w pkt r hst h
    exact WriteNextPacket_header stages hst fuel w pkt r h
  · intro stages fuel w pktData r hst h
    exact WriteNextPacketInternal_header stages hst fuel w pktData r h
  · intro fuel w lib pktData bsf r h
    exact (WriteNextPacketAudio_keeps env _ (WriteNextPacketProcessedFlush_keeps env fuel)
      w lib pktData bsf r h).2.2.1
  · intro tr w pkt writeFails r ht h
    exact (SubtitleWritePacket_keeps tr ht w pkt writeFails r h).2.2.1
  · intro fuel w lib idx d r h
    exact (AudioFlushStream_keeps env _ (WriteNextPacketProcessedFlush_keeps env fuel)
      w lib idx d r h).2.2.1
  · intro fuel w lib pktData r h
    exact (WriteNextAudioFrame_keeps _ (WriteNextPacketProcessedFlush_keeps env fuel)
      w lib pktData r h).2.2.1
  · intro fuel w lib pMuxAudio pkt samples d r h
    exact (WriteNextPacketProcessedFlush_keeps env fuel _ _ _ _ _ _ _ h).2.2.1
  · intro w call r h hpre
    rcases WriteNextFrameInternal_spec env w call r h with h1 | h1
    · rcases hpre with h2 | h2
      · rw [h1.1] at h2
        exact absurd h2 (by simp)
      · exact absurd h2 h1.2.1
    · exact h1.2.1
  · intro tc prm steps w hv hinit stages fuel pkts
    obtain ⟨hth, hheader, hbuf, hwritten, -, -⟩ :=
      Init_without_video tc constructedWriter prm steps w hv hinit
    have hth2 : w.thread.thOutput = false := by rw [hth]; rfl
    have hheader2 : w.format.bFileHeaderWritten = false := by rw [hheader]; rfl
    refine ⟨_, runWriteNextPacket_before_header stages fuel pkts w hth2 hheader2, ?_, hheader2,
      ?_, rfl⟩
    · show w.written = []
      rw [hwritten]
      rfl
    · show w.m_AudPktBufFileHead ++ pkts.map (pktMuxData w) = pkts.map (pktMuxData w)
      rw [hbuf]
      rfl

/-- Witness for `header_only_set_by_video_stage`: a writer set up without a video stream
is given an audio packet and the null packet; both records end in the head buffer, and
nothing is written. -/
theorem header_only_set_by_video_stage_witness :
    ∃ r, runWriteNextPacket exampleStages 1
          (Init exampleThreadAuto constructedWriter (exampleWriterPrm false 1)
            exampleInitSteps).1 [some examplePacket, none] = some r
      ∧ r.1.written = []
      ∧ r.1.format.bFileHeaderWritten = false
      ∧ r.1.m_AudPktBufFileHead
          = [some examplePacket, none].map (pktMuxData
              (Init exampleThreadAuto constructedWriter (exampleWriterPrm false 1)
                exampleInitSteps).1)
      ∧ r.2 = [some examplePacket, none].map (fun _ => AMF_RESULT.AMF_OK) :=
  (header_only_set_by_video_stage exampleEnv).2.2.2.2.2.2.2.2 exampleThreadAuto
    (exampleWriterPrm false 1) exampleInitSteps _ rfl rfl exampleStages 0
    [some examplePacket, none]

/-- C28: `Init` and `Close` evaluated for a writer that never receives a video access
unit. With a video stream configured (and no output thread) `Init` returns `AMF_OK`,
the header is not written, the stream error is cleared, and `Close` calls
`av_write_trailer`; the same happens for a writer without a video stream, for which the
header is never written. -/
theorem close_writes_trailer_without_header :
    (Init exampleThreadAuto constructedWriter (exampleWriterPrm true 0) exampleInitSteps).2
      = AMF_RESULT.AMF_OK
    ∧ (Init exampleThreadAuto constructedWriter (exampleWriterPrm true 0)
        exampleInitSteps).1.format.bFileHeaderWritten = false
    ∧ (Init exampleThreadAuto constructedWriter (exampleWriterPrm true 0)
        exampleInitSteps).1.format.bStreamError = false
    ∧ (Close (fun w => w)
        (Init exampleThreadAuto constructedWriter (exampleWriterPrm true 0)
          exampleInitSteps).1).2 = true
    ∧ (Init exampleThreadAuto constructedWriter (exampleWriterPrm false 0) exampleInitSteps).2
      = AMF_RESULT.AMF_OK
    ∧ (Init exampleThreadAuto constructedWriter (exampleWriterPrm false 0)
        exampleInitSteps).1.format.bFileHeaderWritten = false
    ∧ (Close (fun w => w)
        (Init exampleThreadAuto constructedWriter (exampleWriterPrm false 0)
          exampleInitSteps).1).2 = true := by
  decide

end VCE
